import Mathlib

/-!
# Command runner of the SPP worker process

A shallow embedding of `src/shared/secondary/spp_worker_th/cmd_runner.c`
(and of its older twin `command_proc.c`, whose handlers differ from it only
by their names) together with theorems about it. The composition of the
`results` value of a response, of the interface arrays and of the VLAN blocks
of a status is embedded from `command_proc.c`, which holds its code.

Conventions of the embedding:

* C `int` values are `Int`. The increments of `check_port_count`, whose
  arguments the function does not bound, wrap at 32 bits (`int_wrap`); every
  other increment of a counter follows a test that keeps the counter below
  the capacity of its array, far from the limits of the machine type.
* A C array is a `List` whose length is the capacity of the array, next to the
  counter the source keeps for it.  A pointer to a port record is the pair
  (table, index) locating the record, `none` being `NULL`.
* The management data reached through `sppwk_get_mng_data` is passed
  explicitly (`MngData`).
* A function returns `none` where the C code would dereference `NULL` or
  index an array with an out-of-range value taken from a request or from a
  counter.
* Functions and constants the sources only declare through missing headers
  are either fields of `Env` (external collaborators) or definitions whose
  comment starts with "Modelled from the spec".
* `St.trace` is the list of calls made so far: every call site of interest
  appends the name of the callee before calling it.
-/

namespace Spp

/-! ## Constants and enumerations -/

/-- Return code of success; the source tests a handler's result with `ret == 0`. -/
def SPP_RET_OK : Int := 0

/-- Return code of failure; the source tests lookups with `< 0`. -/
def SPP_RET_NG : Int := -1

/-- Modelled from the spec: the value of the header constant `ETH_VLAN_ID_MAX`,
the sentinel `MAX_VID = 4095` meaning that no VLAN id is set. -/
def ETH_VLAN_ID_MAX : Int := 4095

/-- Result codes of a command, `enum cmd_res_code`. -/
def CMD_SUCCESS : Int := 0
/-- Result code of a failed command. -/
def CMD_FAILED : Int := 1
/-- Result code of a command that was not run. -/
def CMD_INVALID : Int := 2

/-- Modelled from the spec: `enum port_type` of a missing header, the three port
kinds and the sentinel `UNDEF` for unallocated slots. -/
inductive port_type where
  | PHY | VHOST | RING | UNDEF
  deriving DecidableEq, Repr

/-- Modelled from the spec: `enum sppwk_action` of a missing header; the first
enumerator is the value a zeroed field has. -/
inductive sppwk_action where
  | SPPWK_ACT_NONE | SPPWK_ACT_START | SPPWK_ACT_STOP | SPPWK_ACT_ADD | SPPWK_ACT_DEL
  deriving DecidableEq, Repr

/-- Modelled from the spec: `enum spp_port_rxtx` of a missing header; the first
enumerator is the value a zeroed field has. -/
inductive spp_port_rxtx where
  | SPP_PORT_RXTX_NONE | SPP_PORT_RXTX_RX | SPP_PORT_RXTX_TX | SPP_PORT_RXTX_ALL
  deriving DecidableEq, Repr

/-- Modelled from the spec: `enum sppwk_port_abl_ops` of a missing header; the
first enumerator is the value a zeroed field has. -/
inductive sppwk_port_abl_ops where
  | SPPWK_PORT_ABL_OPS_NONE | SPPWK_PORT_ABL_OPS_ADD_VLANTAG | SPPWK_PORT_ABL_OPS_DEL_VLANTAG
  deriving DecidableEq, Repr

/-- Modelled from the spec: `enum sppwk_worker_type` of a missing header; the
first enumerator is the value a zeroed worker record has. -/
inductive sppwk_worker_type where
  | SPPWK_TYPE_NONE | SPPWK_TYPE_CLS | SPPWK_TYPE_MRG | SPPWK_TYPE_FWD | SPPWK_TYPE_MIR
  deriving DecidableEq, Repr

/-- Modelled from the spec: the status of an lcore, `UNUSE`, `IDLE`, `RUNNING`
or `STOPPED`. -/
inductive sppwk_lcore_status where
  | SPP_CORE_UNUSE | SPP_CORE_STOP | SPP_CORE_IDLE | SPP_CORE_FORWARD
  deriving DecidableEq, Repr

/-- Modelled from the spec: `enum sppwk_cmd_type` of a missing header. -/
inductive sppwk_cmd_type where
  | SPPWK_CMDTYPE_CLS_MAC | SPPWK_CMDTYPE_CLS_VLAN | SPPWK_CMDTYPE_CLIENT_ID
  | SPPWK_CMDTYPE_STATUS | SPPWK_CMDTYPE_EXIT | SPPWK_CMDTYPE_WORKER | SPPWK_CMDTYPE_PORT
  deriving DecidableEq, Repr

/-- Modelled from the spec: `enum spp_classifier_type` of a missing header. -/
inductive spp_classifier_type where
  | SPP_CLASSIFIER_TYPE_NONE | SPP_CLASSIFIER_TYPE_MAC | SPP_CLASSIFIER_TYPE_VLAN
  deriving DecidableEq, Repr

open port_type sppwk_action spp_port_rxtx sppwk_port_abl_ops sppwk_worker_type
  sppwk_lcore_status sppwk_cmd_type spp_classifier_type

/-! ## Records -/

/-- The VLAN data of an ability or of a classifier attribute. -/
structure spp_vlantag where
  vid : Int
  pcp : Int
  tci : Int
  deriving DecidableEq, Repr

/-- One ability slot of a port, `struct spp_port_ability`. -/
structure spp_port_ability where
  ops : sppwk_port_abl_ops
  rxtx : spp_port_rxtx
  data : spp_vlantag
  deriving DecidableEq, Repr

/-- The ability slot `memset` to zero. -/
def zero_ability : spp_port_ability :=
  { ops := SPPWK_PORT_ABL_OPS_NONE, rxtx := SPP_PORT_RXTX_NONE, data := ⟨0, 0, 0⟩ }

/-- Classifier attributes of a port; `mac_addr` is a `uint64_t`. -/
structure sppwk_cls_attrs where
  vlantag : spp_vlantag
  mac_addr : Nat
  mac_addr_str : String
  deriving DecidableEq, Repr

/-- One port record, `struct sppwk_port_info`. -/
structure sppwk_port_info where
  iface_type : port_type
  iface_no : Int
  ethdev_port_id : Int
  cls_attrs : sppwk_cls_attrs
  ability : List spp_port_ability
  deriving DecidableEq, Repr

/-- The identity of a port in a request, `struct sppwk_port_idx`. -/
structure sppwk_port_idx where
  iface_type : port_type
  iface_no : Int
  deriving DecidableEq, Repr

/-- A non-null `struct sppwk_port_info *`: the table and the index of the record. -/
structure PortPtr where
  kind : port_type
  no : Nat
  deriving DecidableEq, Repr

/-- One worker record, `struct sppwk_comp_info`. -/
structure sppwk_comp_info where
  name : String
  wk_type : sppwk_worker_type
  lcore_id : Nat
  comp_id : Int
  nof_rx : Int
  nof_tx : Int
  rx_ports : List (Option PortPtr)
  tx_ports : List (Option PortPtr)
  deriving DecidableEq, Repr

/-- One side of the double-buffered worker list of an lcore, `struct core_info`. -/
structure core_info where
  num : Int
  id : List Int
  deriving DecidableEq, Repr

/-- The record of an lcore, `struct core_mng_info`. -/
structure core_mng_info where
  status : sppwk_lcore_status
  ref_index : Nat
  upd_index : Nat
  core : List core_info
  deriving DecidableEq, Repr

/-- The management data the handlers reach through `sppwk_get_mng_data`. -/
structure MngData where
  nic : List sppwk_port_info
  vhost : List sppwk_port_info
  ring : List sppwk_port_info
  comp_info : List sppwk_comp_info
  core_info : List core_mng_info
  change_core : List Int
  change_component : List Int
  deriving DecidableEq, Repr

/-! ## Requests and results -/

/-- Parameters of a classifier-table command. -/
structure sppwk_cls_cmd_attrs where
  wk_action : sppwk_action
  type : spp_classifier_type
  vid : Int
  mac : String
  port : sppwk_port_idx
  deriving DecidableEq, Repr

/-- Parameters of a worker command. -/
structure sppwk_cmd_comp where
  wk_action : sppwk_action
  name : String
  core : Nat
  wk_type : sppwk_worker_type
  deriving DecidableEq, Repr

/-- Parameters of a port command. -/
structure sppwk_cmd_port where
  wk_action : sppwk_action
  port : sppwk_port_idx
  rxtx : spp_port_rxtx
  name : String
  ability : spp_port_ability
  deriving DecidableEq, Repr

/-- The `spec` union of a command; its members are kept side by side. -/
structure sppwk_cmd_spec where
  cls_table : sppwk_cls_cmd_attrs
  comp : sppwk_cmd_comp
  port : sppwk_cmd_port
  deriving DecidableEq, Repr

/-- One command of a request, `struct sppwk_cmd_attrs`. -/
structure sppwk_cmd_attrs where
  type : sppwk_cmd_type
  spec : sppwk_cmd_spec
  deriving DecidableEq, Repr

/-- The parsed request, `struct sppwk_cmd_req`. -/
structure sppwk_cmd_req where
  nof_cmds : Int
  nof_valid_cmds : Int
  commands : List sppwk_cmd_attrs
  is_requested_client_id : Int
  is_requested_status : Int
  is_requested_exit : Int
  deriving DecidableEq, Repr

/-- The error record of the parser, `struct sppwk_parse_err_msg`. -/
structure sppwk_parse_err_msg where
  code : Int
  msg : String
  details : String
  deriving DecidableEq, Repr

/-- The result of one command, `struct cmd_result`. -/
structure cmd_result where
  code : Int
  result : String
  err_msg : String
  deriving DecidableEq, Repr

/-- The result slot `memset` to zero. -/
def zero_cmd_result : cmd_result := { code := 0, result := "", err_msg := "" }

/-- A call made by the command runner, recorded in `St.trace`. -/
inductive Call where
  | exec_one_cmd (cmd : sppwk_cmd_attrs)
  | update_cls_table
  | update_comp
  | update_port
  | flush_cmd
  | update_port_info
  | update_lcore_info
  | update_comp_info
  | backup_mng_info
  | init_classifier_info (id : Int)
  | set_component_change_port (port : PortPtr) (rxtx : spp_port_rxtx)
  | send_decode_error_response (request : sppwk_cmd_req) (results : List cmd_result)
  | send_result_spp_ctl (request : sppwk_cmd_req) (results : List cmd_result)
  deriving DecidableEq, Repr

/-- The state the command runner works on: the management data and the calls
made so far. -/
structure St where
  mng : MngData
  trace : List Call
  deriving DecidableEq, Repr

/-- Record a call. -/
def St.call (s : St) (c : Call) : St := { s with trace := s.trace ++ [c] }

/-- Compile-time constants and the external collaborators of the command
runner, none of which is defined in the sources at hand. -/
structure Env where
  RTE_MAX_ETHPORTS : Nat
  SPP_PORT_ABILITY_MAX : Nat
  SPPWK_MAX_CMDS : Nat
  SPP_VF_MODULE : Bool
  sppwk_convert_mac_str_to_int64 : String → Int
  sppwk_parse_req : String → Int × sppwk_cmd_req × sppwk_parse_err_msg
  update_port_info : MngData → Int × MngData
  update_lcore_info : MngData → MngData
  update_comp_info : MngData → Int × MngData
  backup_mng_info : MngData → MngData

/-! ## Access to the records -/

/-- The table holding the port records of a kind; no table for `UNDEF`. -/
def port_table (m : MngData) : port_type → List sppwk_port_info
  | PHY => m.nic
  | VHOST => m.vhost
  | RING => m.ring
  | UNDEF => []

/-- Modelled from the spec: `get_sppwk_port` is not in the sources at hand. It
returns the pre-allocated record of the port `(kind, index)`, and `NULL` when
there is no such record (sentinel kind, or an index outside the table). -/
def get_sppwk_port (m : MngData) (iface_type : port_type) (iface_no : Int) : Option PortPtr :=
  if 0 ≤ iface_no ∧ iface_no.toNat < (port_table m iface_type).length then
    some ⟨iface_type, iface_no.toNat⟩
  else none

/-- Read the record a pointer refers to (`none`: no record there). -/
def read_port (m : MngData) (p : PortPtr) : Option sppwk_port_info :=
  (port_table m p.kind)[p.no]?

/-- Dereference a possibly null pointer to a port record: the pointer and the
record it refers to, `none` when the pointer is `NULL` or dangling. -/
def deref_port (m : MngData) (port_info : Option PortPtr) : Option (PortPtr × sppwk_port_info) :=
  match port_info with
  | none => none
  | some p =>
    match read_port m p with
    | none => none
    | some pinfo => some (p, pinfo)

/-- Write the record a pointer refers to. -/
def write_port (m : MngData) (p : PortPtr) (v : sppwk_port_info) : MngData :=
  match p.kind with
  | PHY => { m with nic := m.nic.set p.no v }
  | VHOST => { m with vhost := m.vhost.set p.no v }
  | RING => { m with ring := m.ring.set p.no v }
  | UNDEF => m

/-- Modelled from the spec: `sppwk_get_lcore_id` is not in the sources at hand.
It returns the id of the worker record carrying the name, and a negative value
when no worker has it; worker names are non-empty, so the empty name (the
name of a zeroed record) is the name of no worker. -/
def sppwk_get_lcore_id (m : MngData) (name : String) : Int :=
  if name = "" then SPP_RET_NG
  else
    let idx := m.comp_info.findIdx (fun c => decide (c.name = name))
    if idx < m.comp_info.length then (idx : Int) else SPP_RET_NG

/-- Modelled from the spec: `get_idx_port_info` is not in the sources at hand.
It returns the index of the port among the first `nof_ports` entries of the
list, and a negative value when the port is not attached. -/
def get_idx_port_info (p_info : Option PortPtr) (nof_ports : Int)
    (ports : List (Option PortPtr)) : Int :=
  let l := ports.take nof_ports.toNat
  let idx := l.findIdx (fun q => decide (q = p_info))
  if idx < l.length then (idx : Int) else SPP_RET_NG

/-- Modelled from the spec: `delete_port_info` is not in the sources at hand.
It removes the port from the first `nof_ports` entries of the list, closing
the gap and clearing the entry that becomes free, and returns 0; it returns a
negative value and leaves the list alone when the port is not attached. -/
def delete_port_info (p_info : Option PortPtr) (nof_ports : Int)
    (ports : List (Option PortPtr)) : Int × List (Option PortPtr) :=
  let idx := get_idx_port_info p_info nof_ports ports
  if idx < 0 then (-1, ports)
  else
    (0, (ports.take nof_ports.toNat).eraseIdx idx.toNat ++ [none]
          ++ ports.drop nof_ports.toNat)

/-! ## `check_port_count` and `update_port` -/

/-- The largest value of an `int`. -/
def INT_MAX : Int := 2147483647

/-- The value an `int` holds after an arithmetic step of the compiled code: 32
bits in two's complement, so that `INT_MAX + 1` is the least `int`. -/
def int_wrap (x : Int) : Int := (x + 2147483648) % 4294967296 - 2147483648

/-- Check if over the maximum number of rx and tx ports of a worker. The
statements `num_rx++` and `num_tx++` act on the `int` parameters, which the
function does not bound. -/
def check_port_count (component_type : sppwk_worker_type) (rxtx : spp_port_rxtx)
    (num_rx num_tx : Int) : Int :=
  let num_rx := if rxtx = SPP_PORT_RXTX_RX then int_wrap (num_rx + 1) else num_rx
  let num_tx := if rxtx = SPP_PORT_RXTX_RX then num_tx else int_wrap (num_tx + 1)
  match component_type with
  | SPPWK_TYPE_FWD => if num_rx > 1 ∨ num_tx > 1 then SPP_RET_NG else SPP_RET_OK
  | SPPWK_TYPE_MRG => if num_tx > 1 then SPP_RET_NG else SPP_RET_OK
  | SPPWK_TYPE_CLS => if num_rx > 1 then SPP_RET_NG else SPP_RET_OK
  | SPPWK_TYPE_MIR => if num_rx > 1 ∨ num_tx > 2 then SPP_RET_NG else SPP_RET_OK
  | _ => SPP_RET_NG

/-- The loop `while ((cnt < max) && (ability[cnt].ops != ops)) cnt++;`, run for
at most `fuel` steps from `cnt`. -/
def scan_ability (ops : sppwk_port_abl_ops) (ability : List spp_port_ability) (max : Nat) :
    Nat → Nat → Nat
  | 0, cnt => cnt
  | fuel + 1, cnt =>
    if cnt < max ∧ (ability.getD cnt zero_ability).ops ≠ ops then
      scan_ability ops ability max fuel (cnt + 1)
    else cnt

/-- The loop of the `DEL` case over the ability slots `cnt, cnt + 1, ...`:
a slot in use whose direction is `rxtx` is zeroed. -/
def clear_abilities (rxtx : spp_port_rxtx) :
    Nat → Nat → List spp_port_ability → List spp_port_ability
  | 0, _, ability => ability
  | fuel + 1, cnt, ability =>
    let a := ability.getD cnt zero_ability
    if a.ops = SPPWK_PORT_ABL_OPS_NONE then clear_abilities rxtx fuel (cnt + 1) ability
    else if a.rxtx = rxtx then
      clear_abilities rxtx fuel (cnt + 1) (ability.set cnt zero_ability)
    else clear_abilities rxtx fuel (cnt + 1) ability

/-- The counter `*nof_ports` selected by `rxtx`. -/
def sel_nof (rxtx : spp_port_rxtx) (c : sppwk_comp_info) : Int :=
  if rxtx = SPP_PORT_RXTX_RX then c.nof_rx else c.nof_tx

/-- The list `ports` selected by `rxtx`. -/
def sel_ports (rxtx : spp_port_rxtx) (c : sppwk_comp_info) : List (Option PortPtr) :=
  if rxtx = SPP_PORT_RXTX_RX then c.rx_ports else c.tx_ports

/-- Store a counter and a list through the pointers `nof_ports` and `ports`. -/
def put_ports (rxtx : spp_port_rxtx) (c : sppwk_comp_info) (nof : Int)
    (ports : List (Option PortPtr)) : sppwk_comp_info :=
  if rxtx = SPP_PORT_RXTX_RX then { c with nof_rx := nof, rx_ports := ports }
  else { c with nof_tx := nof, tx_ports := ports }

/-- The statement `*(change_component + comp_lcore_id) = v;`. -/
def set_change_component (m : MngData) (wid : Nat) (v : Int) : MngData :=
  { m with change_component := m.change_component.set wid v }

/-- Port add or del to execute it. -/
def update_port (env : Env) (wk_action : sppwk_action) (port : sppwk_port_idx)
    (rxtx : spp_port_rxtx) (name : String) (ability : spp_port_ability) (m : MngData) :
    Option (Int × MngData) :=
  let comp_lcore_id := sppwk_get_lcore_id m name
  if comp_lcore_id < 0 then some (SPP_RET_NG, m)
  else
    let wid := comp_lcore_id.toNat
    match m.comp_info[wid]? with
    | none => none
    | some comp_info =>
      let port_info := get_sppwk_port m port.iface_type port.iface_no
      let nof_ports := sel_nof rxtx comp_info
      let ports := sel_ports rxtx comp_info
      match wk_action with
      | SPPWK_ACT_ADD =>
        if check_port_count comp_info.wk_type rxtx comp_info.nof_rx comp_info.nof_tx
            ≠ SPP_RET_OK then some (SPP_RET_NG, m)
        else if get_idx_port_info port_info nof_ports ports ≥ SPP_RET_OK then
          -- registered
          if ability.ops = SPPWK_PORT_ABL_OPS_ADD_VLANTAG then
            match deref_port m port_info with
            | none => none
            | some (p, pinfo) =>
              let cnt := scan_ability SPPWK_PORT_ABL_OPS_ADD_VLANTAG pinfo.ability
                env.SPP_PORT_ABILITY_MAX env.SPP_PORT_ABILITY_MAX 0
              if cnt ≥ env.SPP_PORT_ABILITY_MAX then some (SPP_RET_NG, m)
              else
                let m1 := write_port m p { pinfo with ability := pinfo.ability.set cnt ability }
                some (SPP_RET_OK, set_change_component m1 wid 1)
          else some (SPP_RET_OK, m)
        else if nof_ports ≥ (env.RTE_MAX_ETHPORTS : Int) then some (SPP_RET_NG, m)
        else
          match deref_port m port_info with
          | none => none
          | some (p, pinfo) =>
            let cnt := scan_ability SPPWK_PORT_ABL_OPS_NONE pinfo.ability
              env.SPP_PORT_ABILITY_MAX env.SPP_PORT_ABILITY_MAX 0
            if ability.ops ≠ SPPWK_PORT_ABL_OPS_NONE ∧ cnt ≥ env.SPP_PORT_ABILITY_MAX then
              some (SPP_RET_NG, m)
            else if nof_ports < 0 ∨ ports.length ≤ nof_ports.toNat then none
            else
              let abl := if ability.ops ≠ SPPWK_PORT_ABL_OPS_NONE then pinfo.ability.set cnt ability
                else pinfo.ability
              let m1 := write_port m p { pinfo with ability := abl, iface_type := port.iface_type }
              let comp_info1 := put_ports rxtx comp_info (nof_ports + 1)
                (ports.set nof_ports.toNat port_info)
              let m2 := { m1 with comp_info := m1.comp_info.set wid comp_info1 }
              some (SPP_RET_OK, set_change_component m2 wid 1)
      | SPPWK_ACT_DEL =>
        match deref_port m port_info with
        | none => none
        | some (p, pinfo) =>
          let m1 := write_port m p
            { pinfo with ability := clear_abilities rxtx env.SPP_PORT_ABILITY_MAX 0 pinfo.ability }
          let del := delete_port_info port_info nof_ports ports
          let nof1 := if del.1 = 0 then nof_ports - 1 else nof_ports
          let comp_info1 := put_ports rxtx comp_info nof1 del.2
          let m2 := { m1 with comp_info := m1.comp_info.set wid comp_info1 }
          some (SPP_RET_OK, set_change_component m2 wid 1)
      | _ => some (SPP_RET_NG, m)

/-! ## `update_cls_table` -/

/-- Does the worker use the port on the side(s) selected by `rxtx`? -/
def comp_uses_port (c : sppwk_comp_info) (port : PortPtr) (rxtx : spp_port_rxtx) : Bool :=
  ((rxtx = SPP_PORT_RXTX_RX ∨ rxtx = SPP_PORT_RXTX_ALL) ∧
      some port ∈ c.rx_ports.take c.nof_rx.toNat) ∨
  ((rxtx = SPP_PORT_RXTX_TX ∨ rxtx = SPP_PORT_RXTX_ALL) ∧
      some port ∈ c.tx_ports.take c.nof_tx.toNat)

/-- Set the change flag of every worker using the port. -/
def mark_users (port : PortPtr) (rxtx : spp_port_rxtx) :
    List sppwk_comp_info → List Int → List Int
  | c :: cs, v :: vs => (if comp_uses_port c port rxtx then 1 else v) :: mark_users port rxtx cs vs
  | _, vs => vs

/-- Modelled from the spec: `set_component_change_port` is not in the sources at
hand. It marks as changed every worker owning the port on the given side, so
that the commit republishes it. -/
def set_component_change_port (m : MngData) (port : PortPtr) (rxtx : spp_port_rxtx) : MngData :=
  { m with change_component := mark_users port rxtx m.comp_info m.change_component }

/-- Update classifier table with given action, add or del. -/
def update_cls_table (env : Env) (wk_action : sppwk_action) (_type : spp_classifier_type)
    (vid : Int) (mac_str : String) (port : sppwk_port_idx) (m : MngData) :
    Option (Int × MngData) :=
  let mac_int64 := env.sppwk_convert_mac_str_to_int64 mac_str
  if mac_int64 = -1 then some (SPP_RET_NG, m)
  else
    let mac_uint64 := (mac_int64 % 2 ^ 64).toNat
    match get_sppwk_port m port.iface_type port.iface_no with
    | none => some (SPP_RET_NG, m)
    | some p =>
      match read_port m p with
      | none => none
      | some port_info =>
        if port_info.iface_type = UNDEF then some (SPP_RET_NG, m)
        else
          match wk_action with
          | SPPWK_ACT_DEL =>
            if port_info.cls_attrs.vlantag.vid ≠ 0 ∧ port_info.cls_attrs.vlantag.vid ≠ vid then
              some (SPP_RET_NG, m)
            else if port_info.cls_attrs.mac_addr ≠ 0 ∧ port_info.cls_attrs.mac_addr ≠ mac_uint64 then
              some (SPP_RET_NG, m)
            else
              let attrs : sppwk_cls_attrs :=
                { vlantag := { port_info.cls_attrs.vlantag with vid := ETH_VLAN_ID_MAX },
                  mac_addr := 0, mac_addr_str := "" }
              let m1 := write_port m p { port_info with cls_attrs := attrs }
              some (SPP_RET_OK, set_component_change_port m1 p SPP_PORT_RXTX_TX)
          | SPPWK_ACT_ADD =>
            if port_info.cls_attrs.vlantag.vid ≠ ETH_VLAN_ID_MAX then some (SPP_RET_NG, m)
            else if port_info.cls_attrs.mac_addr ≠ 0 then some (SPP_RET_NG, m)
            else
              let attrs : sppwk_cls_attrs :=
                { vlantag := { port_info.cls_attrs.vlantag with vid := vid },
                  mac_addr := mac_uint64, mac_addr_str := mac_str }
              let m1 := write_port m p { port_info with cls_attrs := attrs }
              some (SPP_RET_OK, set_component_change_port m1 p SPP_PORT_RXTX_TX)
          | _ => some (SPP_RET_OK, set_component_change_port m p SPP_PORT_RXTX_TX)

/-! ## `update_comp` -/

/-- Modelled from the spec: `get_free_lcore_id` is not in the sources at hand.
It returns a fresh worker id from the free pool, the first record that is not
in use (a zeroed record has no worker type), and a negative value when the
pool is exhausted. -/
def get_free_lcore_id (m : MngData) : Int :=
  let idx := m.comp_info.findIdx (fun c => decide (c.wk_type = SPPWK_TYPE_NONE))
  if idx < m.comp_info.length then (idx : Int) else SPP_RET_NG

/-- Modelled from the spec: `del_comp_info` is not in the sources at hand. It
removes the worker id from the first `nof_comps` entries of the id list,
closing the gap and clearing the entry that becomes free, and returns 0; it
returns a negative value and leaves the list alone when the id is not there. -/
def del_comp_info (lcore_id : Int) (nof_comps : Int) (comp_ary : List Int) : Int × List Int :=
  let l := comp_ary.take nof_comps.toNat
  let idx := l.findIdx (fun x => decide (x = lcore_id))
  if idx < l.length then
    (0, l.eraseIdx idx ++ [0] ++ comp_ary.drop nof_comps.toNat)
  else (-1, comp_ary)

/-- The worker record after `memset(comp_info, 0x00, sizeof(struct sppwk_comp_info))`;
the port arrays keep their capacity. -/
def zero_comp_info (c : sppwk_comp_info) : sppwk_comp_info :=
  { name := "", wk_type := SPPWK_TYPE_NONE, lcore_id := 0, comp_id := 0, nof_rx := 0, nof_tx := 0,
    rx_ports := List.replicate c.rx_ports.length none,
    tx_ports := List.replicate c.tx_ports.length none }

/-- Store a side of the double buffer of an lcore through the pointer `core`. -/
def put_core (m : MngData) (lcore_id : Nat) (info : core_mng_info) (core : core_info) : MngData :=
  { m with core_info :=
      m.core_info.set lcore_id { info with core := info.core.set info.upd_index core } }

/-- The statement `*(change_core + tmp_lcore_id) = 1;`. -/
def set_change_core (m : MngData) (tmp_lcore_id : Nat) : MngData :=
  { m with change_core := m.change_core.set tmp_lcore_id 1 }

/-- Assign worker thread or remove on specified lcore. -/
def update_comp (env : Env) (wk_action : sppwk_action) (name : String) (lcore_id : Nat)
    (wk_type : sppwk_worker_type) (s : St) : Option (Int × St) :=
  let m := s.mng
  match wk_action with
  | SPPWK_ACT_START =>
    match m.core_info[lcore_id]? with
    | none => none
    | some info =>
      if info.status = SPP_CORE_UNUSE then some (SPP_RET_NG, s)
      else if sppwk_get_lcore_id m name ≥ 0 then some (SPP_RET_NG, s)
      else
        let comp_lcore_id := get_free_lcore_id m
        if comp_lcore_id < 0 then some (SPP_RET_NG, s)
        else
          match info.core[info.upd_index]?, m.comp_info[comp_lcore_id.toNat]? with
          | some core, some old =>
            let comp_info : sppwk_comp_info :=
              { zero_comp_info old with
                name := name, wk_type := wk_type, lcore_id := lcore_id,
                comp_id := comp_lcore_id }
            if core.num < 0 ∨ core.id.length ≤ core.num.toNat then none
            else
              let core1 : core_info :=
                { num := core.num + 1, id := core.id.set core.num.toNat comp_lcore_id }
              let m1 := { m with comp_info := m.comp_info.set comp_lcore_id.toNat comp_info }
              let m2 := put_core m1 lcore_id info core1
              let m3 := set_change_component m2 comp_lcore_id.toNat 1
              some (SPP_RET_OK, { s with mng := set_change_core m3 lcore_id })
          | _, _ => none
  | SPPWK_ACT_STOP =>
    let comp_lcore_id := sppwk_get_lcore_id m name
    if comp_lcore_id < 0 then some (SPP_RET_OK, s)
    else
      match m.comp_info[comp_lcore_id.toNat]? with
      | none => none
      | some old =>
        let tmp_lcore_id := old.lcore_id
        let comp_info := zero_comp_info old
        let m1 := { m with comp_info := m.comp_info.set comp_lcore_id.toNat comp_info }
        match m1.core_info[tmp_lcore_id]? with
        | none => none
        | some info =>
          match info.core[info.upd_index]? with
          | none => none
          | some core =>
            -- the type is read from the record that has just been zeroed
            let s1 :=
              if env.SPP_VF_MODULE ∧ comp_info.wk_type = SPPWK_TYPE_CLS then
                s.call (Call.init_classifier_info comp_lcore_id)
              else s
            let del := del_comp_info comp_lcore_id core.num core.id
            let core1 : core_info :=
              { num := if del.1 ≥ 0 then core.num - 1 else core.num, id := del.2 }
            let m2 := put_core m1 tmp_lcore_id info core1
            let m3 := set_change_component m2 comp_lcore_id.toNat 0
            some (SPP_RET_OK, { s1 with mng := set_change_core m3 tmp_lcore_id })
  | _ => some (SPP_RET_NG, { s with mng := set_change_core m 0 })

/-! ## `flush_cmd` and `exec_one_cmd` -/

/-- Activate temporarily stored command. -/
def flush_cmd (env : Env) (s : St) : Int × St :=
  let s1 := s.call Call.update_port_info
  let r1 := env.update_port_info s1.mng
  if r1.1 < SPP_RET_OK then (r1.1, { s1 with mng := r1.2 })
  else
    let s2 := St.call { s1 with mng := r1.2 } Call.update_lcore_info
    let m2 := env.update_lcore_info s2.mng
    let s3 := St.call { s2 with mng := m2 } Call.update_comp_info
    let r3 := env.update_comp_info s3.mng
    let s4 := St.call { s3 with mng := r3.2 } Call.backup_mng_info
    (r3.1, { s4 with mng := env.backup_mng_info s4.mng })

/-- The tail shared by the three mutating cases of `exec_one_cmd`: flush when
the handler returned 0. -/
def flush_if_ok (env : Env) (ret : Int) (s : St) : Int × St :=
  if ret = 0 then flush_cmd env (s.call Call.flush_cmd) else (ret, s)

/-- Execute one command. -/
def exec_one_cmd (env : Env) (cmd : sppwk_cmd_attrs) (s : St) : Option (Int × St) :=
  match cmd.type with
  | SPPWK_CMDTYPE_CLS_MAC | SPPWK_CMDTYPE_CLS_VLAN =>
    let s1 := s.call Call.update_cls_table
    match update_cls_table env cmd.spec.cls_table.wk_action cmd.spec.cls_table.type
        cmd.spec.cls_table.vid cmd.spec.cls_table.mac cmd.spec.cls_table.port s1.mng with
    | none => none
    | some (ret, m) => some (flush_if_ok env ret { s1 with mng := m })
  | SPPWK_CMDTYPE_WORKER =>
    match update_comp env cmd.spec.comp.wk_action cmd.spec.comp.name cmd.spec.comp.core
        cmd.spec.comp.wk_type (s.call Call.update_comp) with
    | none => none
    | some (ret, s1) => some (flush_if_ok env ret s1)
  | SPPWK_CMDTYPE_PORT =>
    let s1 := s.call Call.update_port
    match update_port env cmd.spec.port.wk_action cmd.spec.port.port cmd.spec.port.rxtx
        cmd.spec.port.name cmd.spec.port.ability s1.mng with
    | none => none
    | some (ret, m) => some (flush_if_ok env ret { s1 with mng := m })
  | _ => some (SPP_RET_OK, s)

/-! ## Results of a request -/

/-- Modelled from the spec: the codes of `enum sppwk_parse_error_code`, declared
in a missing header, numbered in the order of the table of parse errors; the
source takes the code 0 to mean that there is no error. -/
def SPPWK_PARSE_WRONG_FORMAT : Int := 1
/-- Modelled from the spec: code of an unknown command. -/
def SPPWK_PARSE_UNKNOWN_CMD : Int := 2
/-- Modelled from the spec: code of a missing parameter. -/
def SPPWK_PARSE_NO_PARAM : Int := 3
/-- Modelled from the spec: code of a value of the wrong type. -/
def SPPWK_PARSE_INVALID_TYPE : Int := 4
/-- Modelled from the spec: code of an invalid value. -/
def SPPWK_PARSE_INVALID_VALUE : Int := 5

/-- Get error message of parsing from given wk_err_msg object. -/
def get_parse_err_msg (wk_err_msg : sppwk_parse_err_msg) : String :=
  if wk_err_msg.code = SPPWK_PARSE_WRONG_FORMAT then "Wrong message format"
  else if wk_err_msg.code = SPPWK_PARSE_UNKNOWN_CMD then
    "Unknown command(" ++ wk_err_msg.details ++ ")"
  else if wk_err_msg.code = SPPWK_PARSE_NO_PARAM then
    "No or insufficient number of params (" ++ wk_err_msg.msg ++ ")"
  else if wk_err_msg.code = SPPWK_PARSE_INVALID_TYPE then
    "Invalid value type (" ++ wk_err_msg.msg ++ ")"
  else if wk_err_msg.code = SPPWK_PARSE_INVALID_VALUE then
    "Invalid value (" ++ wk_err_msg.msg ++ ")"
  else "Failed to parse with unexpected reason"

/-- Setup cmd_result with given code and message. -/
def set_cmd_result (cmd_res : cmd_result) (code : Int) (error_messege : String) : cmd_result :=
  if code = CMD_SUCCESS then { cmd_res with code := code, result := "success", err_msg := "" }
  else if code = CMD_FAILED then
    { cmd_res with code := code, result := "error", err_msg := error_messege }
  else { cmd_res with code := code, result := "invalid", err_msg := "" }

/-- The call `set_cmd_result(&results[i], code, msg)`; `none` when `i` is outside
the array. -/
def set_result_at (results : List cmd_result) (i : Nat) (code : Int) (msg : String) :
    Option (List cmd_result) :=
  match results[i]? with
  | none => none
  | some r => some (results.set i (set_cmd_result r code msg))

/-- The first loop of `prepare_parse_err_msg`, from index `i` for `fuel` rounds. -/
def prepare_loop (code : Int) : Nat → Nat → List cmd_result → Option (List cmd_result)
  | 0, _, results => some results
  | fuel + 1, i, results =>
    match set_result_at results i (if code = 0 then CMD_SUCCESS else CMD_INVALID) "" with
    | none => none
    | some results1 => prepare_loop code fuel (i + 1) results1

/-- Setup error message of parsing for requested command. -/
def prepare_parse_err_msg (results : List cmd_result) (request : sppwk_cmd_req)
    (wk_err_msg : sppwk_parse_err_msg) : Option (List cmd_result) :=
  match prepare_loop wk_err_msg.code request.nof_cmds.toNat 0 results with
  | none => none
  | some results1 =>
    if wk_err_msg.code ≠ 0 then
      if request.nof_valid_cmds < 0 then none
      else
        set_result_at results1 request.nof_valid_cmds.toNat CMD_FAILED
          (get_parse_err_msg wk_err_msg)
    else some results1

/-! ## `exec_cmds` -/

/-- The inner loop `for (++i; i < nof_cmds; ++i) set_cmd_result(.., CMD_INVALID, "")`,
from index `i` for `fuel` rounds. -/
def invalidate_rest : Nat → Nat → List cmd_result → Option (List cmd_result)
  | 0, _, results => some results
  | fuel + 1, i, results =>
    match set_result_at results i CMD_INVALID "" with
    | none => none
    | some results1 => invalidate_rest fuel (i + 1) results1

/-- The loop of `exec_cmds` over the commands, from index `i` for `fuel` rounds. -/
def exec_loop (env : Env) (commands : List sppwk_cmd_attrs) :
    Nat → Nat → List cmd_result → St → Option (List cmd_result × St)
  | 0, _, results, s => some (results, s)
  | fuel + 1, i, results, s =>
    match commands[i]? with
    | none => none
    | some cmd =>
      match exec_one_cmd env cmd (s.call (Call.exec_one_cmd cmd)) with
      | none => none
      | some (ret, s1) =>
        if ret ≠ SPP_RET_OK then
          match set_result_at results i CMD_FAILED "error occur" with
          | none => none
          | some results1 =>
            -- does not execute remaining commands
            match invalidate_rest fuel (i + 1) results1 with
            | none => none
            | some results2 => some (results2, s1)
        else
          match set_result_at results i CMD_SUCCESS "" with
          | none => none
          | some results1 => exec_loop env commands fuel (i + 1) results1 s1

/-- Execute series of commands. The two functions sending the response are
recorded as calls, with the request and the results they are given. -/
def exec_cmds (env : Env) (req_str : String) (s : St) : Option (Int × St) :=
  let cmd_results := List.replicate env.SPPWK_MAX_CMDS zero_cmd_result
  let parsed := env.sppwk_parse_req req_str
  let cmd_req := parsed.2.1
  let wk_err_msg := parsed.2.2
  if parsed.1 ≠ SPP_RET_OK then
    match prepare_parse_err_msg cmd_results cmd_req wk_err_msg with
    | none => none
    | some results =>
      some (SPP_RET_OK, s.call (Call.send_decode_error_response cmd_req results))
  else
    match exec_loop env cmd_req.commands cmd_req.nof_cmds.toNat 0 cmd_results s with
    | none => none
    | some (results, s1) =>
      if cmd_req.is_requested_exit ≠ 0 then
        match set_result_at results 0 CMD_SUCCESS "" with
        | none => none
        | some results1 =>
          some (SPP_RET_NG, s1.call (Call.send_result_spp_ctl cmd_req results1))
      else some (SPP_RET_OK, s1.call (Call.send_result_spp_ctl cmd_req results))

/-! ## Example data -/

/-- A port record as allocated at startup, with two ability slots. -/
def ex_port : sppwk_port_info :=
  { iface_type := UNDEF, iface_no := 0, ethdev_port_id := -1,
    cls_attrs := ⟨⟨4095, 0, 0⟩, 0, ""⟩, ability := [zero_ability, zero_ability] }

/-- A worker record that is not in use, with room for two ports on each side. -/
def ex_comp : sppwk_comp_info :=
  { name := "", wk_type := SPPWK_TYPE_NONE, lcore_id := 0, comp_id := 0,
    nof_rx := 0, nof_tx := 0, rx_ports := [none, none], tx_ports := [none, none] }

/-- An idle lcore whose staging side is side 1. -/
def ex_core : core_mng_info :=
  { status := SPP_CORE_IDLE, ref_index := 0, upd_index := 1,
    core := [⟨0, [0, 0]⟩, ⟨0, [0, 0]⟩] }

/-- The ability `add_vlan` with VLAN id 100 on the tx side. -/
def ex_add_vlan : spp_port_ability :=
  { ops := SPPWK_PORT_ABL_OPS_ADD_VLANTAG, rxtx := SPP_PORT_RXTX_TX, data := ⟨100, 0, 0⟩ }

/-- Management data with two ports of kind PHY and two worker slots: worker 0
is the forwarder `fwd1` on lcore 1, with `phy:0` as rx port and `phy:1` as tx
port; `phy:1` carries the ability `ex_add_vlan` in its slot 0. -/
def ex_mng : MngData :=
  { nic := [{ ex_port with iface_type := PHY },
            { ex_port with iface_type := PHY, ability := [ex_add_vlan, zero_ability] }],
    vhost := [ex_port], ring := [ex_port],
    comp_info :=
      [{ ex_comp with name := "fwd1", wk_type := SPPWK_TYPE_FWD, lcore_id := 1,
                      nof_rx := 1, nof_tx := 1,
                      rx_ports := [some ⟨PHY, 0⟩, none], tx_ports := [some ⟨PHY, 1⟩, none] },
       ex_comp],
    core_info := [ex_core, { ex_core with core := [⟨0, [0, 0]⟩, ⟨1, [0, 0]⟩] }],
    change_core := [0, 0], change_component := [0, 0] }

/-- The same management data with a merger `mrg1` in place of the forwarder. -/
def ex_mng_mrg : MngData :=
  { ex_mng with
    comp_info :=
      [{ ex_comp with name := "mrg1", wk_type := SPPWK_TYPE_MRG, lcore_id := 1,
                      nof_rx := 1, nof_tx := 0,
                      rx_ports := [some ⟨PHY, 1⟩, none], tx_ports := [none, none] },
       ex_comp] }

/-- A command of the given type whose parameters are all zero. -/
def ex_cmd (t : sppwk_cmd_type) : sppwk_cmd_attrs :=
  { type := t,
    spec :=
      { cls_table := ⟨SPPWK_ACT_NONE, SPP_CLASSIFIER_TYPE_NONE, 0, "", ⟨UNDEF, 0⟩⟩,
        comp := ⟨SPPWK_ACT_NONE, "", 0, SPPWK_TYPE_NONE⟩,
        port := ⟨SPPWK_ACT_NONE, ⟨UNDEF, 0⟩, SPP_PORT_RXTX_NONE, "", zero_ability⟩ } }

/-- The command `port; add; port=<kind>:<no>; rxtx=<rxtx>; name=<name>`. -/
def ex_port_cmd (act : sppwk_action) (kind : port_type) (no : Int) (rxtx : spp_port_rxtx)
    (name : String) : sppwk_cmd_attrs :=
  { ex_cmd SPPWK_CMDTYPE_PORT with
    spec := { (ex_cmd SPPWK_CMDTYPE_PORT).spec with
      port := ⟨act, ⟨kind, no⟩, rxtx, name, zero_ability⟩ } }

/-- A request of three commands: a status query, the attachment of a second tx
port to the forwarder `fwd1`, and another status query. -/
def ex_req : sppwk_cmd_req :=
  { nof_cmds := 3, nof_valid_cmds := 3,
    commands := [ex_cmd SPPWK_CMDTYPE_STATUS,
                 ex_port_cmd SPPWK_ACT_ADD PHY 0 SPP_PORT_RXTX_TX "fwd1",
                 ex_cmd SPPWK_CMDTYPE_STATUS],
    is_requested_client_id := 0, is_requested_status := 1, is_requested_exit := 0 }

/-- A request holding the single command `exit`. -/
def ex_req_exit : sppwk_cmd_req :=
  { nof_cmds := 1, nof_valid_cmds := 1,
    commands := [ex_cmd SPPWK_CMDTYPE_EXIT, ex_cmd SPPWK_CMDTYPE_EXIT, ex_cmd SPPWK_CMDTYPE_EXIT],
    is_requested_client_id := 0, is_requested_status := 0, is_requested_exit := 1 }

/-- An environment for the examples: arrays of two ports and two ability slots,
at most three commands in a request, a parser that yields `ex_req` for every
request text, and a dataplane whose publication steps always succeed. -/
def ex_env : Env :=
  { RTE_MAX_ETHPORTS := 2, SPP_PORT_ABILITY_MAX := 2, SPPWK_MAX_CMDS := 3,
    SPP_VF_MODULE := true,
    sppwk_convert_mac_str_to_int64 := fun _ => 5,
    sppwk_parse_req := fun _ => (0, ex_req, ⟨0, "", ""⟩),
    update_port_info := fun m => (0, m),
    update_lcore_info := fun m => m,
    update_comp_info := fun m => (0, m),
    backup_mng_info := fun m => m }

/-- The same environment with a parser that yields the request `exit`. -/
def ex_env_exit : Env :=
  { ex_env with sppwk_parse_req := fun _ => (0, ex_req_exit, ⟨0, "", ""⟩) }

/-- The state before the request: the example management data, no call yet. -/
def ex_st : St := ⟨ex_mng, []⟩

/-- The states met while `ex_req` runs on `ex_st`: the state before command 0,
and from then on the state left by the status query that is command 0. -/
def ex_states : Nat → St
  | 0 => ex_st
  | _ + 1 => ⟨ex_mng, [Call.exec_one_cmd (ex_cmd SPPWK_CMDTYPE_STATUS)]⟩

/-- The state in which the second command of `ex_req` leaves `ex_st`: its
handler `update_port` was called, failed and changed nothing. -/
def ex_st_failed : St :=
  ⟨ex_mng, [Call.exec_one_cmd (ex_cmd SPPWK_CMDTYPE_STATUS),
            Call.exec_one_cmd (ex_port_cmd SPPWK_ACT_ADD PHY 0 SPP_PORT_RXTX_TX "fwd1"),
            Call.update_port]⟩

/-! ## Observations on the trace -/

/-- The commands `exec_one_cmd` was called with, in the order of the calls. -/
def exec_calls (t : List Call) : List sppwk_cmd_attrs :=
  t.filterMap (fun c => match c with
    | Call.exec_one_cmd cmd => some cmd
    | _ => none)

/-- The calls made inside `flush_cmd`. -/
def flush_steps : List Call :=
  [Call.update_port_info, Call.update_lcore_info, Call.update_comp_info, Call.backup_mng_info]

/-- The result slots a response reports for a successful, a failed and a
skipped command. -/
def res_success : cmd_result := ⟨CMD_SUCCESS, "success", ""⟩
/-- The result slot of a failed command. -/
def res_failure (msg : String) : cmd_result := ⟨CMD_FAILED, "error", msg⟩
/-- The result slot of a command that was not run. -/
def res_invalid : cmd_result := ⟨CMD_INVALID, "invalid", ""⟩

/-! ## Classifier table and workers: traced handler, reachable states -/

/-- Update classifier table with given action, add or del: the function
`update_cls_table` once more, on a state with its trace, so that the call of
`set_component_change_port` is recorded. -/
def update_cls_table_traced (env : Env) (wk_action : sppwk_action)
    (_type : spp_classifier_type) (vid : Int) (mac_str : String) (port : sppwk_port_idx)
    (s : St) : Option (Int × St) :=
  let mac_int64 := env.sppwk_convert_mac_str_to_int64 mac_str
  if mac_int64 = -1 then some (SPP_RET_NG, s)
  else
    let mac_uint64 := (mac_int64 % 2 ^ 64).toNat
    match get_sppwk_port s.mng port.iface_type port.iface_no with
    | none => some (SPP_RET_NG, s)
    | some p =>
      match read_port s.mng p with
      | none => none
      | some port_info =>
        if port_info.iface_type = UNDEF then some (SPP_RET_NG, s)
        else
          match wk_action with
          | SPPWK_ACT_DEL =>
            if port_info.cls_attrs.vlantag.vid ≠ 0 ∧ port_info.cls_attrs.vlantag.vid ≠ vid then
              some (SPP_RET_NG, s)
            else if port_info.cls_attrs.mac_addr ≠ 0 ∧ port_info.cls_attrs.mac_addr ≠ mac_uint64 then
              some (SPP_RET_NG, s)
            else
              let attrs : sppwk_cls_attrs :=
                { vlantag := { port_info.cls_attrs.vlantag with vid := ETH_VLAN_ID_MAX },
                  mac_addr := 0, mac_addr_str := "" }
              let m1 := write_port s.mng p { port_info with cls_attrs := attrs }
              let s1 := s.call (Call.set_component_change_port p SPP_PORT_RXTX_TX)
              some (SPP_RET_OK, { s1 with mng := set_component_change_port m1 p SPP_PORT_RXTX_TX })
          | SPPWK_ACT_ADD =>
            if port_info.cls_attrs.vlantag.vid ≠ ETH_VLAN_ID_MAX then some (SPP_RET_NG, s)
            else if port_info.cls_attrs.mac_addr ≠ 0 then some (SPP_RET_NG, s)
            else
              let attrs : sppwk_cls_attrs :=
                { vlantag := { port_info.cls_attrs.vlantag with vid := vid },
                  mac_addr := mac_uint64, mac_addr_str := mac_str }
              let m1 := write_port s.mng p { port_info with cls_attrs := attrs }
              let s1 := s.call (Call.set_component_change_port p SPP_PORT_RXTX_TX)
              some (SPP_RET_OK, { s1 with mng := set_component_change_port m1 p SPP_PORT_RXTX_TX })
          | _ =>
            let s1 := s.call (Call.set_component_change_port p SPP_PORT_RXTX_TX)
            some (SPP_RET_OK, { s1 with mng := set_component_change_port s.mng p SPP_PORT_RXTX_TX })

/-- The classifier attributes of a port record are unset: the VLAN id is the
sentinel and the MAC address is 0. -/
def cls_unset (pinfo : sppwk_port_info) : Bool :=
  decide (pinfo.cls_attrs.vlantag.vid = ETH_VLAN_ID_MAX) && decide (pinfo.cls_attrs.mac_addr = 0)

/-- The initial state of the classifier attributes: unset on every port. -/
def cls_initial (m : MngData) : Prop :=
  ∀ pinfo ∈ m.nic ++ m.vhost ++ m.ring, cls_unset pinfo = true

/-- The states reachable from `m0` by a sequence of `update_cls_table` calls. -/
inductive cls_reachable (env : Env) (m0 : MngData) : MngData → Prop where
  | init : cls_reachable env m0 m0
  | step (m m1 : MngData) (wk_action : sppwk_action) (type : spp_classifier_type) (vid : Int)
      (mac_str : String) (port : sppwk_port_idx) (r : Int) :
      cls_reachable env m0 m →
      update_cls_table env wk_action type vid mac_str port m = some (r, m1) →
      cls_reachable env m0 m1

/-- The initial state of the workers: every worker record is zeroed. -/
def no_workers (m : MngData) : Prop :=
  ∀ c ∈ m.comp_info, c.name = "" ∧ c.wk_type = SPPWK_TYPE_NONE

/-- The states reachable from `s0` by a sequence of `update_comp` calls with
action START or STOP, the names given to START satisfying `P`. -/
inductive comp_reachable (env : Env) (P : String → Prop) (s0 : St) : St → Prop where
  | init : comp_reachable env P s0 s0
  | step (s s1 : St) (wk_action : sppwk_action) (name : String) (lcore_id : Nat)
      (wk_type : sppwk_worker_type) (r : Int) :
      comp_reachable env P s0 s →
      wk_action = SPPWK_ACT_START ∨ wk_action = SPPWK_ACT_STOP →
      (wk_action = SPPWK_ACT_START → P name) →
      update_comp env wk_action name lcore_id wk_type s = some (r, s1) →
      comp_reachable env P s0 s1

/-- Management data before any command: the two PHY ports of `ex_mng`, bound and
without classifier attributes, and no worker. -/
def ex_mng_init : MngData :=
  { ex_mng with
    nic := [{ ex_port with iface_type := PHY }, { ex_port with iface_type := PHY }],
    comp_info := [ex_comp, ex_comp], core_info := [ex_core, ex_core] }

/-- The management data `ex_mng_init` after the rule (vid 100, mac 5) was added
to `phy:1`. -/
def ex_mng_rule : MngData :=
  { ex_mng_init with
    nic := [{ ex_port with iface_type := PHY },
            { ex_port with iface_type := PHY,
                           cls_attrs := ⟨⟨100, 0, 0⟩, 5, "00:00:00:00:00:05"⟩ }] }

/-- The management data `ex_mng` with a classifier `cls1` in place of the
forwarder: worker 0, on lcore 1, with `phy:0` as rx port and `phy:1` as tx port. -/
def ex_mng_cls : MngData :=
  { ex_mng with
    comp_info :=
      [{ ex_comp with name := "cls1", wk_type := SPPWK_TYPE_CLS, lcore_id := 1,
                      nof_rx := 1, nof_tx := 1,
                      rx_ports := [some ⟨PHY, 0⟩, none], tx_ports := [some ⟨PHY, 1⟩, none] },
       ex_comp] }

/-- The worker records that carry a name have pairwise different names. -/
def names_distinct (l : List sppwk_comp_info) : Prop :=
  ∀ (i j : Nat) (ci cj : sppwk_comp_info), i ≠ j → l[i]? = some ci → l[j]? = some cj →
    ci.name ≠ "" → ci.name ≠ cj.name

/-- The management data `ex_mng_init` after the forwarder `fwd1` was started on
lcore 1: it is worker 0, the only entry of the staging list of lcore 1. -/
def ex_mng_one : MngData :=
  { ex_mng_init with
    comp_info := [{ ex_comp with name := "fwd1", wk_type := SPPWK_TYPE_FWD, lcore_id := 1 },
                  ex_comp],
    core_info := [ex_core, { ex_core with core := [⟨0, [0, 0]⟩, ⟨1, [0, 0]⟩] }],
    change_core := [0, 1], change_component := [1, 0] }

/-- The management data `ex_mng_one` after the merger `mrg1` was started on lcore
1 as well: it is worker 1, the second entry of the staging list of lcore 1. -/
def ex_mng_two : MngData :=
  { ex_mng_one with
    comp_info := [{ ex_comp with name := "fwd1", wk_type := SPPWK_TYPE_FWD, lcore_id := 1 },
                  { ex_comp with name := "mrg1", wk_type := SPPWK_TYPE_MRG, lcore_id := 1,
                                 comp_id := 1 }],
    core_info := [ex_core, { ex_core with core := [⟨0, [0, 0]⟩, ⟨2, [0, 1]⟩] }],
    change_core := [0, 1], change_component := [1, 1] }

/-! ## Publication failures: example environments -/

/-- The environment `ex_env` with a dataplane whose port step fails, leaving the
management data as it is. -/
def ex_env_port_fail : Env :=
  { ex_env with update_port_info := fun m => (-1, m) }

/-- The environment `ex_env` with a dataplane whose worker step fails, leaving
the management data as it is. -/
def ex_env_comp_fail : Env :=
  { ex_env with update_comp_info := fun m => (-1, m) }

/-! ## Invariants of the port handler -/

/-- The counters of a worker respect the limit of its type. -/
def within_limits (c : sppwk_comp_info) : Prop :=
  (c.wk_type = SPPWK_TYPE_FWD → c.nof_rx ≤ 1 ∧ c.nof_tx ≤ 1) ∧
  (c.wk_type = SPPWK_TYPE_MRG → c.nof_tx ≤ 1) ∧
  (c.wk_type = SPPWK_TYPE_CLS → c.nof_rx ≤ 1) ∧
  (c.wk_type = SPPWK_TYPE_MIR → c.nof_rx ≤ 1 ∧ c.nof_tx ≤ 2)

/-- The states reachable from `m0` by a sequence of `update_port` calls, each
call satisfying the condition `Q` in the state it is made in. -/
inductive port_reachable (env : Env)
    (Q : sppwk_action → sppwk_port_idx → spp_port_rxtx → String → spp_port_ability →
      MngData → Prop) (m0 : MngData) : MngData → Prop where
  | init : port_reachable env Q m0 m0
  | step (m m1 : MngData) (wk_action : sppwk_action) (port : sppwk_port_idx)
      (rxtx : spp_port_rxtx) (name : String) (ability : spp_port_ability) (r : Int) :
      port_reachable env Q m0 m → Q wk_action port rxtx name ability m →
      update_port env wk_action port rxtx name ability m = some (r, m1) →
      port_reachable env Q m0 m1

/-- The action of a call is ADD or DEL. -/
def add_or_del (wk_action : sppwk_action) (_port : sppwk_port_idx) (_rxtx : spp_port_rxtx)
    (_name : String) (_ability : spp_port_ability) (_m : MngData) : Prop :=
  wk_action = SPPWK_ACT_ADD ∨ wk_action = SPPWK_ACT_DEL

/-- The port kind of a call is one of PHY, VHOST and RING. -/
def kind_given (_wk_action : sppwk_action) (port : sppwk_port_idx) (_rxtx : spp_port_rxtx)
    (_name : String) (_ability : spp_port_ability) (_m : MngData) : Prop :=
  port.iface_type ≠ UNDEF

/-- No worker has a port attached. -/
def none_attached (m : MngData) : Prop :=
  ∀ c ∈ m.comp_info, c.nof_rx = 0 ∧ c.nof_tx = 0

/-- The pointer refers to a port record whose kind is not `UNDEF`. -/
def bound_port (m : MngData) (p : PortPtr) : Prop :=
  ∃ pinfo, read_port m p = some pinfo ∧ pinfo.iface_type ≠ UNDEF

/-- The ports attached to a worker: the first `nof_rx` entries of its rx list
and the first `nof_tx` entries of its tx list. -/
def attached (c : sppwk_comp_info) : List (Option PortPtr) :=
  c.rx_ports.take c.nof_rx.toNat ++ c.tx_ports.take c.nof_tx.toNat

/-- The counters of a worker stay within its lists and every port attached to
it satisfies `R`. -/
def attached_ok (R : PortPtr → Prop) (c : sppwk_comp_info) : Prop :=
  c.nof_rx.toNat ≤ c.rx_ports.length ∧ c.nof_tx.toNat ≤ c.tx_ports.length ∧
  ∀ e ∈ attached c, ∃ p, e = some p ∧ R p

/-- The number of ability slots of a port whose op is `ADD_VLANTAG`. -/
def vlan_slots (pinfo : sppwk_port_info) : Nat :=
  pinfo.ability.countP (fun a => decide (a.ops = SPPWK_PORT_ABL_OPS_ADD_VLANTAG))

/-- Every ability slot of every port has the op NONE. -/
def no_ability (m : MngData) : Prop :=
  ∀ pinfo ∈ m.nic ++ m.vhost ++ m.ring, ∀ a ∈ pinfo.ability, a.ops = SPPWK_PORT_ABL_OPS_NONE

/-- The action of a call is ADD or DEL, and the call does not attach, with the
op `ADD_VLANTAG`, a port that holds an `ADD_VLANTAG` slot to a list of a worker
that the port is not yet in. -/
def vlan_attach_once (wk_action : sppwk_action) (port : sppwk_port_idx) (rxtx : spp_port_rxtx)
    (name : String) (ability : spp_port_ability) (m : MngData) : Prop :=
  (wk_action = SPPWK_ACT_ADD ∨ wk_action = SPPWK_ACT_DEL) ∧
  (wk_action = SPPWK_ACT_ADD → ability.ops = SPPWK_PORT_ABL_OPS_ADD_VLANTAG →
    ∀ (wid : Nat) (c : sppwk_comp_info) (p : PortPtr) (pinfo : sppwk_port_info),
      sppwk_get_lcore_id m name = (wid : Int) → m.comp_info[wid]? = some c →
      get_sppwk_port m port.iface_type port.iface_no = some p → read_port m p = some pinfo →
      get_idx_port_info (some p) (sel_nof rxtx c) (sel_ports rxtx c) < 0 →
      vlan_slots pinfo = 0)

/-- The management data `ex_mng_two` after `phy:0` was attached as tx port to the
forwarder `fwd1` with the ability `ex_add_vlan`. -/
def ex_mng_vlan_one : MngData :=
  { ex_mng_two with
    nic := [{ ex_port with iface_type := PHY, ability := [ex_add_vlan, zero_ability] },
            { ex_port with iface_type := PHY }],
    comp_info := [{ ex_comp with name := "fwd1", wk_type := SPPWK_TYPE_FWD, lcore_id := 1,
                                 nof_tx := 1, tx_ports := [some ⟨PHY, 0⟩, none] },
                  { ex_comp with name := "mrg1", wk_type := SPPWK_TYPE_MRG, lcore_id := 1,
                                 comp_id := 1 }] }

/-- The management data `ex_mng_vlan_one` after `phy:0` was attached as tx port
to the merger `mrg1` as well, again with the ability `ex_add_vlan`. -/
def ex_mng_vlan_two : MngData :=
  { ex_mng_vlan_one with
    nic := [{ ex_port with iface_type := PHY, ability := [ex_add_vlan, ex_add_vlan] },
            { ex_port with iface_type := PHY }],
    comp_info := [{ ex_comp with name := "fwd1", wk_type := SPPWK_TYPE_FWD, lcore_id := 1,
                                 nof_tx := 1, tx_ports := [some ⟨PHY, 0⟩, none] },
                  { ex_comp with name := "mrg1", wk_type := SPPWK_TYPE_MRG, lcore_id := 1,
                                 comp_id := 1, nof_tx := 1,
                                 tx_ports := [some ⟨PHY, 0⟩, none] }] }

/-! ## Workers and the id lists of the lcores -/

/-- The ids of the worker records in use (those with a worker type) that are
pinned to the lcore `L`, in increasing order. -/
def pinned_workers (m : MngData) (L : Nat) : List Nat :=
  (List.range m.comp_info.length).filter (fun w =>
    match m.comp_info[w]? with
    | some c => decide (c.wk_type ≠ SPPWK_TYPE_NONE ∧ c.lcore_id = L)
    | none => false)

/-- The id list of every lcore agrees with the worker records: on its staging
side `core[upd_index]`, `num` lies within the list, the first `num` entries are
pairwise different, and they are the ids of the worker records in use that
are pinned to the lcore. -/
def pinned_ok (m : MngData) : Prop :=
  ∀ (L : Nat) (info : core_mng_info) (core : core_info),
    m.core_info[L]? = some info → info.core[info.upd_index]? = some core →
    0 ≤ core.num ∧ core.num.toNat ≤ core.id.length ∧
    (core.id.take core.num.toNat).Nodup ∧
    ∀ x : Int, x ∈ core.id.take core.num.toNat ↔
      ∃ (w : Nat) (c : sppwk_comp_info), x = (w : Int) ∧ m.comp_info[w]? = some c ∧
        c.wk_type ≠ SPPWK_TYPE_NONE ∧ c.lcore_id = L

/-- The initial state of workers and lcores: no worker record is in use and
every id list is empty. -/
def comp_initial (m : MngData) : Prop :=
  no_workers m ∧ ∀ info ∈ m.core_info, ∀ core ∈ info.core, core.num = 0

/-- The management data `ex_mng_mrg` after `phy:0` was attached as second rx port
to the merger `mrg1`. -/
def ex_mng_mrg_two : MngData :=
  { ex_mng_mrg with
    comp_info :=
      [{ ex_comp with name := "mrg1", wk_type := SPPWK_TYPE_MRG, lcore_id := 1,
                      nof_rx := 2, nof_tx := 0,
                      rx_ports := [some ⟨PHY, 1⟩, some ⟨PHY, 0⟩], tx_ports := [none, none] },
       ex_comp],
    change_component := [1, 0] }

/-! ## Response composition: the results of a request as JSON (`command_proc.c`) -/

/-- Modelled from the spec: the growing string buffer of `string_buffer.h`, which
is not in the sources at hand. `spp_strbuf_allocate` returns a new buffer,
`spp_strbuf_append buf data len` a buffer holding `buf` followed by the first
`len` bytes of `data`; both return `NULL` (`none`) when memory runs out. -/
structure strbuf_ops where
  spp_strbuf_allocate : Nat → Option String
  spp_strbuf_append : String → String → Nat → Option String

/-- The length of a C string. -/
def strlen (s : String) : Nat := s.length

/-- The call `sprintf(&buf[off], ...)` producing `text`: the buffer keeps its
first `off` characters, which the text follows. -/
def sprintf_at (buf : String) (off : Nat) (text : String) : String :=
  String.mk (buf.data.take off ++ text.data)

/-- Room reserved for the punctuation of an appended value. -/
def CMD_TAG_APPEND_SIZE : Nat := 16

/-- Initial size of a response buffer. -/
def CMD_RES_BUF_INIT_SIZE : Nat := 2048

/-- The separator of JSON values. -/
def JSON_COMMA : String := ", "

/-- The macro `JSON_APPEND_COMMA(flg)`: a separator unless `flg` is 0. -/
def JSON_APPEND_COMMA (flg : Nat) : String := if flg ≠ 0 then JSON_COMMA else ""

/-- Append a comma for JSON format. On failure the C code leaves `*output`
null; here the buffer is returned as it was, and no caller uses it. -/
def append_json_comma (B : strbuf_ops) (output : String) : Int × String :=
  match B.spp_strbuf_append output JSON_COMMA (strlen JSON_COMMA) with
  | none => (SPP_RET_NG, output)
  | some o => (SPP_RET_OK, o)

/-- Append data of string type for JSON format. -/
def append_json_str_value (B : strbuf_ops) (name : String) (output : String) (str : String) :
    Int × String :=
  let len := strlen output
  match B.spp_strbuf_append output "" (strlen name + strlen str + CMD_TAG_APPEND_SIZE) with
  | none => (SPP_RET_NG, output)
  | some o =>
    (SPP_RET_OK, sprintf_at o len (JSON_APPEND_COMMA len ++ "\"" ++ name ++ "\": \"" ++ str ++ "\""))

/-- Append brackets of the array for JSON format. -/
def append_json_array_brackets (B : strbuf_ops) (name : String) (output : String)
    (str : String) : Int × String :=
  let len := strlen output
  match B.spp_strbuf_append output "" (strlen name + strlen str + CMD_TAG_APPEND_SIZE) with
  | none => (SPP_RET_NG, output)
  | some o =>
    (SPP_RET_OK, sprintf_at o len (JSON_APPEND_COMMA len ++ "\"" ++ name ++ "\": [ " ++ str ++ " ]"))

/-- Append brackets of the blocks for JSON format. -/
def append_json_block_brackets (B : strbuf_ops) (name : String) (output : String)
    (str : String) : Int × String :=
  let len := strlen output
  match B.spp_strbuf_append output "" (strlen name + strlen str + CMD_TAG_APPEND_SIZE) with
  | none => (SPP_RET_NG, output)
  | some o =>
    if name = "" then
      (SPP_RET_OK, sprintf_at o len (JSON_APPEND_COMMA len ++ name ++ "\x7b " ++ str ++ " \x7d"))
    else
      (SPP_RET_OK, sprintf_at o len
        (JSON_APPEND_COMMA len ++ "\"" ++ name ++ "\": \x7b " ++ str ++ " \x7d"))

/-- Append a command result for JSON format. -/
def append_result_value (B : strbuf_ops) (name : String) (output : String)
    (result : cmd_result) : Int × String :=
  append_json_str_value B name output result.result

/-- Append error details for JSON format. -/
def append_error_details_value (B : strbuf_ops) (name : String) (output : String)
    (result : cmd_result) : Int × String :=
  -- string is empty, except for errors
  if result.err_msg = "" then (SPP_RET_OK, output)
  else
    match B.spp_strbuf_allocate CMD_RES_BUF_INIT_SIZE with
    | none => (SPP_RET_NG, output)
    | some tmp_buff =>
      let r := append_json_str_value B "message" tmp_buff result.err_msg
      if r.1 < 0 then (SPP_RET_NG, output)
      else append_json_block_brackets B name output r.2

/-- Command response result string list, `response_result_list`; the entry with
the empty tag that ends the C array is the end of the list. -/
def response_result_list :
    List (String × (strbuf_ops → String → String → cmd_result → Int × String)) :=
  [("result", append_result_value), ("error_details", append_error_details_value)]

/-- The loop of `append_response_list_value` over the entries of the list. -/
def append_response_list_loop (B : strbuf_ops) (tmp : cmd_result) :
    List (String × (strbuf_ops → String → String → cmd_result → Int × String)) →
    String → Int × String
  | [], output => (SPP_RET_OK, output)
  | (tag_name, func) :: rest, output =>
    if tag_name = "" then (SPP_RET_OK, output)
    else
      let r := func B tag_name "" tmp
      if r.1 < SPP_RET_OK then (SPP_RET_NG, output)
      else if r.2 = "" then append_response_list_loop B tmp rest output
      else
        let c := if output ≠ "" then append_json_comma B output else (SPP_RET_OK, output)
        if c.1 < SPP_RET_OK then (SPP_RET_NG, output)
        else
          match B.spp_strbuf_append c.2 r.2 (strlen r.2) with
          | none => (SPP_RET_NG, output)
          | some o => append_response_list_loop B tmp rest o

/-- Append string of command response list for JSON format. -/
def append_response_list_value (B : strbuf_ops) (output : String)
    (list : List (String × (strbuf_ops → String → String → cmd_result → Int × String)))
    (tmp : cmd_result) : Int × String :=
  match B.spp_strbuf_allocate CMD_RES_BUF_INIT_SIZE with
  | none => (SPP_RET_NG, output)
  | some _ => append_response_list_loop B tmp list output

/-- The loop of `append_command_results_value` over the results, from index `i`
for `fuel` rounds, with the content of `tmp_buff2`; `none` when `i` leaves the
array of results. -/
def append_command_results_loop (B : strbuf_ops) (results : List cmd_result) :
    Nat → Nat → String → Option (Int × String)
  | 0, _, tmp_buff2 => some (SPP_RET_OK, tmp_buff2)
  | fuel + 1, i, tmp_buff2 =>
    match results[i]? with
    | none => none
    | some res =>
      let r := append_response_list_value B "" response_result_list res
      if r.1 < 0 then some (SPP_RET_NG, tmp_buff2)
      else
        let r2 := append_json_block_brackets B "" tmp_buff2 r.2
        if r2.1 < 0 then some (SPP_RET_NG, tmp_buff2)
        else append_command_results_loop B results fuel (i + 1) r2.2

/-- Append a list of command results for JSON format. -/
def append_command_results_value (B : strbuf_ops) (name : String) (output : String)
    (num : Int) (results : List cmd_result) : Option (Int × String) :=
  match B.spp_strbuf_allocate CMD_RES_BUF_INIT_SIZE with
  | none => some (SPP_RET_NG, output)
  | some _ =>
    match B.spp_strbuf_allocate CMD_RES_BUF_INIT_SIZE with
    | none => some (SPP_RET_NG, output)
    | some tmp_buff2 =>
      match append_command_results_loop B results num.toNat 0 tmp_buff2 with
      | none => none
      | some (ret, buff2) =>
        if ret < 0 then some (SPP_RET_NG, output)
        else some (append_json_array_brackets B name output buff2)

/-- The string buffer never runs out of memory: a new buffer is empty, and
appending at least the whole of `data` yields `buf` followed by `data`. -/
def strbuf_ok (B : strbuf_ops) : Prop :=
  (∀ n, B.spp_strbuf_allocate n = some "") ∧
  (∀ buf data n, strlen data ≤ n → B.spp_strbuf_append buf data n = some (buf ++ data))

/-- A string buffer that never runs out of memory. -/
def ex_strbuf : strbuf_ops :=
  { spp_strbuf_allocate := fun _ => some "",
    spp_strbuf_append := fun buf data _ => some (buf ++ data) }

/-- The content that the two entries of `response_result_list` produce for one
result: the result string, and the error details when there is a message. -/
def result_inner (res : cmd_result) : String :=
  "\"result\": \"" ++ res.result ++ "\"" ++
    (if res.err_msg = "" then ""
     else ", " ++ ("\"error_details\": \x7b " ++ ("\"message\": \"" ++ res.err_msg ++ "\"") ++
       " \x7d"))

/-- The block of one result as the specification gives it: the result string,
and the error details with the message for a failure. -/
def result_block_spec (code : Int) (msg : String) : String :=
  if code = CMD_SUCCESS then "\x7b \"result\": \"success\" \x7d"
  else if code = CMD_FAILED then
    "\x7b \"result\": \"error\", \"error_details\": \x7b \"message\": \"" ++ msg ++ "\" \x7d \x7d"
  else "\x7b \"result\": \"invalid\" \x7d"

/-- The value `results` as the specification gives it: the blocks of the results
in input order, separated by commas, in square brackets. -/
def results_json_spec (inputs : List (Int × String)) : String :=
  "\"results\": [ " ++
    ", ".intercalate (inputs.map (fun x => result_block_spec x.1 x.2)) ++ " ]"

/-! ## Bounds of the array writes: invariants -/

/-- The port counters of a worker are within `[0, RTE_MAX_ETHPORTS]` and its
two port arrays have `RTE_MAX_ETHPORTS` entries. -/
def counters_in_range (env : Env) (c : sppwk_comp_info) : Prop :=
  0 ≤ c.nof_rx ∧ c.nof_rx ≤ (env.RTE_MAX_ETHPORTS : Int) ∧
  0 ≤ c.nof_tx ∧ c.nof_tx ≤ (env.RTE_MAX_ETHPORTS : Int) ∧
  c.rx_ports.length = env.RTE_MAX_ETHPORTS ∧ c.tx_ports.length = env.RTE_MAX_ETHPORTS

/-- The id array of every side of every lcore has room for every worker id of
the pool. -/
def id_capacity (m : MngData) : Prop :=
  ∀ info ∈ m.core_info, ∀ core ∈ info.core, m.comp_info.length ≤ core.id.length

/-- The states reachable from `s0` by a sequence of `update_comp` calls, each a
START with a worker type or a STOP. -/
inductive start_stop_reachable (env : Env) (s0 : St) : St → Prop where
  | init : start_stop_reachable env s0 s0
  | step (s s1 : St) (wk_action : sppwk_action) (name : String) (lcore_id : Nat)
      (wk_type : sppwk_worker_type) (r : Int) :
      start_stop_reachable env s0 s →
      wk_action = SPPWK_ACT_START ∨ wk_action = SPPWK_ACT_STOP →
      (wk_action = SPPWK_ACT_START → wk_type ≠ SPPWK_TYPE_NONE) →
      update_comp env wk_action name lcore_id wk_type s = some (r, s1) →
      start_stop_reachable env s0 s1

/-! ## Status composition: numbers, interface arrays and VLAN blocks (`command_proc.c`) -/

/-- The conversion `%u` of `sprintf`: an `unsigned int` in decimal digits. -/
def fmt_u (value : Nat) : String := toString value

/-- The conversion `%d` of `sprintf`: an `int` in decimal digits, with a minus
sign when negative. -/
def fmt_d (value : Int) : String := toString value

/-- Append data of unsigned integral type for JSON format. -/
def append_json_uint_value (B : strbuf_ops) (name : String) (output : String) (value : Nat) :
    Int × String :=
  let len := strlen output
  match B.spp_strbuf_append output "" (strlen name + CMD_TAG_APPEND_SIZE * 2) with
  | none => (SPP_RET_NG, output)
  | some o =>
    (SPP_RET_OK, sprintf_at o len (JSON_APPEND_COMMA len ++ "\"" ++ name ++ "\": " ++ fmt_u value))

/-- Append data of integral type for JSON format. -/
def append_json_int_value (B : strbuf_ops) (name : String) (output : String) (value : Int) :
    Int × String :=
  let len := strlen output
  match B.spp_strbuf_append output "" (strlen name + CMD_TAG_APPEND_SIZE * 2) with
  | none => (SPP_RET_NG, output)
  | some o =>
    (SPP_RET_OK, sprintf_at o len (JSON_APPEND_COMMA len ++ "\"" ++ name ++ "\": " ++ fmt_d value))

/-- Check if port has been flushed; `none` when `get_sppwk_port` yields no
record, which the C code dereferences all the same. -/
def spp_check_flush_port (m : MngData) (iface_type : port_type) (iface_no : Int) : Option Bool :=
  match deref_port m (get_sppwk_port m iface_type iface_no) with
  | none => none
  | some (_, port) => some (decide (port.ethdev_port_id ≥ 0))

/-- The loop of `append_interface_array` from index `i` for `fuel` rounds, with
the counter `port_cnt` of the numbers written so far. The text of a number has
at most 13 characters and fits `tmp_str`. -/
def append_interface_array_loop (B : strbuf_ops) (m : MngData) (type : port_type) :
    Nat → Nat → Nat → String → Option (Int × String)
  | 0, _, _, output => some (SPP_RET_OK, output)
  | fuel + 1, i, port_cnt, output =>
    match spp_check_flush_port m type (i : Int) with
    | none => none
    | some false => append_interface_array_loop B m type fuel (i + 1) port_cnt output
    | some true =>
      let tmp_str := JSON_APPEND_COMMA port_cnt ++ fmt_d (i : Int)
      match B.spp_strbuf_append output tmp_str (strlen tmp_str) with
      | none => some (SPP_RET_NG, output)
      | some o => append_interface_array_loop B m type fuel (i + 1) (port_cnt + 1) o

/-- Append a list of interface numbers. -/
def append_interface_array (B : strbuf_ops) (env : Env) (m : MngData) (output : String)
    (type : port_type) : Option (Int × String) :=
  append_interface_array_loop B m type env.RTE_MAX_ETHPORTS 0 0 output

/-- List of port abilities, `PORT_ABILITY_STAT_LIST`. -/
def PORT_ABILITY_STAT_LIST : List String := ["none", "add", "del", ""]

/-- Modelled from the spec: the values of the enumerators of
`enum sppwk_port_abl_ops`, a missing header: the order of the names in
`PORT_ABILITY_STAT_LIST`. -/
def abl_ops_value : sppwk_port_abl_ops → Nat
  | SPPWK_PORT_ABL_OPS_NONE => 0
  | SPPWK_PORT_ABL_OPS_ADD_VLANTAG => 1
  | SPPWK_PORT_ABL_OPS_DEL_VLANTAG => 2

/-- Append a value of vlan for JSON format; `none` when `ope` is no index of
`PORT_ABILITY_STAT_LIST`. -/
def append_vlan_value (B : strbuf_ops) (output : String) (ope : Nat) (vid : Int) (pcp : Int) :
    Option (Int × String) :=
  match PORT_ABILITY_STAT_LIST[ope]? with
  | none => none
  | some str =>
    let r1 := append_json_str_value B "operation" output str
    if r1.1 < SPP_RET_OK then some (SPP_RET_NG, r1.2)
    else
      let r2 := append_json_int_value B "id" r1.2 vid
      if r2.1 < 0 then some (SPP_RET_NG, r2.2)
      else
        let r3 := append_json_int_value B "pcp" r2.2 pcp
        if r3.1 < 0 then some (SPP_RET_NG, r3.2)
        else some (SPP_RET_OK, r3.2)

/-- The loop of `append_vlan_block` over the ability slots, from the counter `i`
for at most `fuel` rounds: the result, the counter the loop ends with and the
content of `tmp_buff`. A slot with a VLAN op sets the counter to
`SPP_PORT_ABILITY_MAX + 1`, which the loop increments before its test. -/
def append_vlan_block_loop (B : strbuf_ops) (env : Env) (info : List spp_port_ability) :
    Nat → Nat → String → Option (Int × Nat × String)
  | 0, i, tmp_buff => some (SPP_RET_OK, i, tmp_buff)
  | fuel + 1, i, tmp_buff =>
    if ¬ i < env.SPP_PORT_ABILITY_MAX then some (SPP_RET_OK, i, tmp_buff)
    else
      match info[i]? with
      | none => none
      | some a =>
        if a.ops = SPPWK_PORT_ABL_OPS_ADD_VLANTAG ∨ a.ops = SPPWK_PORT_ABL_OPS_DEL_VLANTAG then
          match append_vlan_value B tmp_buff (abl_ops_value a.ops) a.data.vid a.data.pcp with
          | none => none
          | some r =>
            if r.1 < SPP_RET_OK then some (SPP_RET_NG, i, tmp_buff)
            else append_vlan_block_loop B env info fuel (env.SPP_PORT_ABILITY_MAX + 1 + 1) r.2
        else append_vlan_block_loop B env info fuel (i + 1) tmp_buff

/-- Append a block of vlan for JSON format. The ability slots of the port and
direction come from `spp_port_ability_get_info`, which is not in the sources at
hand and is a parameter. -/
def append_vlan_block (B : strbuf_ops) (env : Env)
    (spp_port_ability_get_info : Int → spp_port_rxtx → List spp_port_ability)
    (name : String) (output : String) (port_id : Int) (rxtx : spp_port_rxtx) :
    Option (Int × String) :=
  match B.spp_strbuf_allocate CMD_RES_BUF_INIT_SIZE with
  | none => some (SPP_RET_NG, output)
  | some tmp_buff =>
    let info := spp_port_ability_get_info port_id rxtx
    match append_vlan_block_loop B env info env.SPP_PORT_ABILITY_MAX 0 tmp_buff with
    | none => none
    | some (ret, i, buff) =>
      if ret < SPP_RET_OK then some (SPP_RET_NG, output)
      else if i = env.SPP_PORT_ABILITY_MAX then
        match append_vlan_value B buff (abl_ops_value SPPWK_PORT_ABL_OPS_NONE) 0 0 with
        | none => none
        | some r =>
          if r.1 < SPP_RET_OK then some (SPP_RET_NG, output)
          else some (append_json_block_brackets B name output r.2)
      else some (append_json_block_brackets B name output buff)

/-! ## The members of a composed text -/

/-- One call of a typed appender: the appender, the name and the value. -/
inductive appender_call where
  | uint (name : String) (value : Nat)
  | int (name : String) (value : Int)
  | str (name : String) (str : String)
  | array (name : String) (str : String)
  | block (name : String) (str : String)
  deriving DecidableEq, Repr

/-- Run one call of a typed appender on the buffer `output`. -/
def run_appender (B : strbuf_ops) (output : String) : appender_call → Int × String
  | appender_call.uint name value => append_json_uint_value B name output value
  | appender_call.int name value => append_json_int_value B name output value
  | appender_call.str name str => append_json_str_value B name output str
  | appender_call.array name str => append_json_array_brackets B name output str
  | appender_call.block name str => append_json_block_brackets B name output str

/-- Run a sequence of appender calls, each on the buffer the one before left;
the result is that of the last call, `SPP_RET_OK` when there is none. -/
def run_appenders (B : strbuf_ops) : List appender_call → String → Int × String
  | [], output => (SPP_RET_OK, output)
  | c :: cs, output => run_appenders B cs (run_appender B output c).2

/-- The member a call of a typed appender stands for, as the format strings of
the appenders spell it. -/
def member_text : appender_call → String
  | appender_call.uint name value => "\"" ++ name ++ "\": " ++ fmt_u value
  | appender_call.int name value => "\"" ++ name ++ "\": " ++ fmt_d value
  | appender_call.str name str => "\"" ++ name ++ "\": \"" ++ str ++ "\""
  | appender_call.array name str => "\"" ++ name ++ "\": [ " ++ str ++ " ]"
  | appender_call.block name str =>
    if name = "" then "\x7b " ++ str ++ " \x7d" else "\"" ++ name ++ "\": \x7b " ++ str ++ " \x7d"

/-- The VLAN op, id and pcp that a status block reports for an ability array:
those of the first slot with a VLAN op, and `none`, 0, 0 when there is none. -/
def vlan_triple_spec (info : List spp_port_ability) : String × Int × Int :=
  match info.find? (fun a => decide (a.ops = SPPWK_PORT_ABL_OPS_ADD_VLANTAG ∨
      a.ops = SPPWK_PORT_ABL_OPS_DEL_VLANTAG)) with
  | some a =>
    (if a.ops = SPPWK_PORT_ABL_OPS_ADD_VLANTAG then "add" else "del", a.data.vid, a.data.pcp)
  | none => ("none", 0, 0)

/-- The text of one triple of a VLAN block. -/
def vlan_triple_text (t : String × Int × Int) : String :=
  "\"operation\": \"" ++ t.1 ++ "\", \"id\": " ++ fmt_d t.2.1 ++ ", \"pcp\": " ++ fmt_d t.2.2

/-- The indices below `RTE_MAX_ETHPORTS` whose port record of the kind has been
flushed (`ethdev_port_id >= 0`), in ascending order. -/
def flushed_ports (env : Env) (m : MngData) (type : port_type) : List Nat :=
  (List.range env.RTE_MAX_ETHPORTS).filter (fun i =>
    match (port_table m type)[i]? with
    | some port => decide (port.ethdev_port_id ≥ 0)
    | none => false)

/-! ## The grammar of a JSON member with a string value -/

/-- A hexadecimal digit. -/
def json_hex_digit (c : Char) : Bool :=
  (48 ≤ c.toNat ∧ c.toNat ≤ 57) ∨ (65 ≤ c.toNat ∧ c.toNat ≤ 70) ∨ (97 ≤ c.toNat ∧ c.toNat ≤ 102)

/-- The characters that may follow a backslash in a JSON string, `u` apart:
the quote, the backslash, the slash and the letters b, f, n, r, t. -/
def json_escape_char (c : Char) : Bool :=
  c.toNat = 34 ∨ c.toNat = 92 ∨ c.toNat = 47 ∨ c.toNat = 98 ∨ c.toNat = 102 ∨ c.toNat = 110 ∨
  c.toNat = 114 ∨ c.toNat = 116

/-- Read a JSON string (RFC 8259) after its opening quote: the text that
follows the closing quote, `none` when there is no closing quote, when a
control character or a quote stands unescaped in the string, or when a
backslash starts no escape sequence. -/
def json_string_rest : List Char → Option (List Char)
  | [] => none
  | c :: rest =>
    if c.toNat = 34 then some rest
    else if c.toNat = 92 then
      match rest with
      | [] => none
      | e :: rest1 =>
        if e.toNat = 117 then
          match rest1 with
          | h1 :: h2 :: h3 :: h4 :: rest2 =>
            if json_hex_digit h1 ∧ json_hex_digit h2 ∧ json_hex_digit h3 ∧ json_hex_digit h4 then
              json_string_rest rest2
            else none
          | _ => none
        else if json_escape_char e then json_string_rest rest1
        else none
    else if c.toNat < 32 then none
    else json_string_rest rest

/-- Skip JSON whitespace: space, tab, line feed, carriage return. -/
def json_skip_ws : List Char → List Char
  | [] => []
  | c :: rest =>
    if c.toNat = 32 ∨ c.toNat = 9 ∨ c.toNat = 10 ∨ c.toNat = 13 then json_skip_ws rest
    else c :: rest

/-- Is the text a JSON name/value member whose value is a string: a string, a
colon and a string, with whitespace allowed around the colon and after the
value, and nothing else? -/
def json_str_member (text : String) : Bool :=
  match text.data with
  | [] => false
  | q :: rest =>
    if q.toNat = 34 then
      match json_string_rest rest with
      | none => false
      | some r1 =>
        match json_skip_ws r1 with
        | [] => false
        | c :: r2 =>
          if c.toNat = 58 then
            match json_skip_ws r2 with
            | [] => false
            | q2 :: r3 =>
              if q2.toNat = 34 then
                match json_string_rest r3 with
                | none => false
                | some r4 => decide (json_skip_ws r4 = [])
              else false
          else false
    else false

/-! ## `sppwk_run_cmd` -/

/-- Modelled from the spec: the connection to the controller of the missing
`conn_spp_ctl.h`. `conn_spp_ctl` takes the socket and yields its result and the
socket; `recv_ctl_msg` takes the socket and the receive buffer and yields the
number of bytes received, or zero, or a negative error code, with the socket
and the buffer; `SPP_CONNERR_TEMPORARY` is the code of a temporary failure. -/
structure ctl_conn where
  SPP_CONNERR_TEMPORARY : Int
  conn_spp_ctl : Int → Int × Int
  recv_ctl_msg : Int → String → Int × Int × String

/-- The static variables of `sppwk_run_cmd`: the socket and the receive buffer,
`NULL` before the first run. -/
structure run_cmd_vars where
  sock : Int
  msgbuf : Option String
  deriving DecidableEq, Repr

/-- Initial size of the receive buffer. -/
def CMD_REQ_BUF_INIT_SIZE : Nat := 2048

/-- Modelled from the spec: `spp_strbuf_remove_front` of the missing
`string_buffer.h` removes the first `len` bytes of the buffer. -/
def spp_strbuf_remove_front (buf : String) (len : Nat) : String :=
  String.mk (buf.data.drop len)

/-- The receive buffer `sppwk_run_cmd` works with: the static one, allocated
when it is still `NULL`. -/
def run_cmd_msgbuf (B : strbuf_ops) (v : run_cmd_vars) : Option String :=
  match v.msgbuf with
  | none => B.spp_strbuf_allocate CMD_REQ_BUF_INIT_SIZE
  | some msgbuf => some msgbuf

/-- Run command sent from spp-ctl: the result, the static variables and the
state. The request handed to `exec_cmds` is the first `msg_ret` bytes of the
receive buffer. -/
def sppwk_run_cmd (env : Env) (B : strbuf_ops) (C : ctl_conn) (v : run_cmd_vars) (s : St) :
    Option (Int × run_cmd_vars × St) :=
  match run_cmd_msgbuf B v with
  | none => some (SPP_RET_NG, v, s)
  | some msgbuf =>
    let c := C.conn_spp_ctl v.sock
    if c.1 ≠ SPP_RET_OK then some (SPP_RET_OK, ⟨c.2, some msgbuf⟩, s)
    else
      let r := C.recv_ctl_msg c.2 msgbuf
      let msg_ret := r.1
      if msg_ret ≤ 0 then
        if msg_ret = 0 then some (SPP_RET_OK, ⟨r.2.1, some r.2.2⟩, s)
        else if msg_ret = C.SPP_CONNERR_TEMPORARY then some (SPP_RET_OK, ⟨r.2.1, some r.2.2⟩, s)
        else some (SPP_RET_NG, ⟨r.2.1, some r.2.2⟩, s)
      else
        match exec_cmds env (String.mk (r.2.2.data.take msg_ret.toNat)) s with
        | none => none
        | some (ret, s1) =>
          some (ret, ⟨r.2.1, some (spp_strbuf_remove_front r.2.2 msg_ret.toNat)⟩, s1)

/-- A controller that is connected and has sent the five bytes `hello`. -/
def ex_conn : ctl_conn :=
  { SPP_CONNERR_TEMPORARY := -1,
    conn_spp_ctl := fun sock => (0, sock),
    recv_ctl_msg := fun sock buf => (5, sock, buf ++ "hello") }

/-- A controller that cannot be reached. -/
def ex_conn_down : ctl_conn :=
  { ex_conn with conn_spp_ctl := fun sock => (-1, sock) }

/-- Management data in which the two PHY ports have been flushed. -/
def ex_mng_flushed : MngData :=
  { ex_mng with
    nic := [{ ex_port with iface_type := PHY, ethdev_port_id := 0 },
            { ex_port with iface_type := PHY, iface_no := 1, ethdev_port_id := 1 }] }

/-! ## The lcore step of the flush -/

/-- Modelled from the spec: the part of `update_lcore_info`, which is not in the
sources at hand, for one lcore whose `change_core` flag is set. The index
`upd_index` is swapped, so that the staging side becomes the committed side,
the one `ref_index` selects; the side that becomes the staging side is brought
in line with it, as `update_comp` requires of the list it appends to and
erases from. -/
def commit_core (info : core_mng_info) : core_mng_info :=
  match info.core[info.upd_index]? with
  | none => info
  | some staged =>
    { info with
      ref_index := info.upd_index, upd_index := info.ref_index,
      core := info.core.set info.ref_index staged }

/-- The lcore records after the lcores whose flag is set were committed. -/
def commit_flagged : List Int → List core_mng_info → List core_mng_info
  | f :: fs, info :: infos =>
    (if f ≠ 0 then commit_core info else info) :: commit_flagged fs infos
  | _, infos => infos

/-- Modelled from the spec: `update_lcore_info`, the second step of the flush,
is not in the sources at hand. For each lcore with `change_core` set it swaps
`upd_index` so that the staging side becomes the committed side, and it
resets `change_core`. -/
def update_lcore_info (m : MngData) : MngData :=
  { m with
    core_info := commit_flagged m.change_core m.core_info,
    change_core := m.change_core.map (fun _ => 0) }

/-- The calls `flush_cmd` adds to the trace are publication steps. -/
theorem flush_cmd_trace (env : Env) (s : St) :
    ∃ l, (flush_cmd env s).2.trace = s.trace ++ l ∧ ∀ c ∈ l, c ∈ flush_steps := by
  unfold flush_cmd
  simp only [St.call]
  split_ifs
  · exact ⟨[Call.update_port_info], rfl, by simp [flush_steps]⟩
  · refine ⟨flush_steps, ?_, fun c hc => hc⟩
    simp [flush_steps]

/-- The only calls `update_comp` adds to the trace are calls of
`init_classifier_info`. -/
theorem update_comp_trace (env : Env) (a : sppwk_action) (name : String) (lcore_id : Nat)
    (t : sppwk_worker_type) (s : St) (r : Int) (s1 : St)
    (h : update_comp env a name lcore_id t s = some (r, s1)) :
    ∃ l, s1.trace = s.trace ++ l ∧ ∀ c ∈ l, ∃ id, c = Call.init_classifier_info id := by
  unfold update_comp at h
  cases a <;> simp only at h
  · simp at h; obtain ⟨_, rfl⟩ := h; exact ⟨[], by simp [set_change_core]⟩
  · -- START
    split at h
    · simp at h
    · split_ifs at h
      all_goals first
        | (simp at h; obtain ⟨_, rfl⟩ := h; exact ⟨[], by simp⟩)
        | (split at h
           · split_ifs at h
             simp at h; obtain ⟨_, rfl⟩ := h; exact ⟨[], by simp⟩
           · simp at h)
  · -- STOP
    split_ifs at h
    · simp at h; obtain ⟨_, rfl⟩ := h; exact ⟨[], by simp⟩
    · split at h
      · simp at h
      · split at h
        · simp at h
        · split at h
          · simp at h
          · simp only [Option.some.injEq, Prod.mk.injEq] at h
            obtain ⟨_, rfl⟩ := h
            simp only [zero_comp_info]
            simp
  · simp at h; obtain ⟨_, rfl⟩ := h; exact ⟨[], by simp [set_change_core]⟩
  · simp at h; obtain ⟨_, rfl⟩ := h; exact ⟨[], by simp [set_change_core]⟩

/-- What `flush_if_ok` adds to the trace: one call of `flush_cmd`, followed by
publication steps, exactly when the handler returned 0. -/
theorem flush_if_ok_trace (env : Env) (ret : Int) (s : St) :
    ∃ l, (flush_if_ok env ret s).2.trace = s.trace ++ l ∧
      l.count Call.flush_cmd = (if ret = SPP_RET_OK then 1 else 0) ∧
      l.count Call.update_cls_table = 0 ∧ l.count Call.update_comp = 0 ∧
      l.count Call.update_port = 0 ∧ exec_calls l = [] := by
  unfold flush_if_ok
  by_cases h : ret = 0
  · obtain ⟨l, hl, hmem⟩ := flush_cmd_trace env (s.call Call.flush_cmd)
    have hno : ∀ c, c ∉ flush_steps → l.count c = 0 := fun c hc =>
      List.count_eq_zero.mpr (fun hin => hc (hmem c hin))
    refine ⟨Call.flush_cmd :: l, ?_, ?_, ?_, ?_, ?_, ?_⟩
    · rw [if_pos h, hl]; simp [St.call]
    · simp [h, SPP_RET_OK, hno Call.flush_cmd (by decide)]
    · simp [hno Call.update_cls_table (by decide)]
    · simp [hno Call.update_comp (by decide)]
    · simp [hno Call.update_port (by decide)]
    · simp only [exec_calls, List.filterMap_cons]
      rw [List.filterMap_eq_nil_iff]
      intro c hc
      have := hmem c hc
      simp [flush_steps] at this
      rcases this with rfl | rfl | rfl | rfl <;> rfl
  · exact ⟨[], by simp [h], by simp [h, SPP_RET_OK], by simp, by simp, by simp, rfl⟩

/-- `exec_calls` distributes over concatenation. -/
theorem exec_calls_append (a b : List Call) : exec_calls (a ++ b) = exec_calls a ++ exec_calls b := by
  simp [exec_calls, List.filterMap_append]

/-- Flushing calls no `exec_one_cmd`. -/
theorem flush_if_ok_exec_calls (env : Env) (ret : Int) (s : St) :
    exec_calls (flush_if_ok env ret s).2.trace = exec_calls s.trace := by
  obtain ⟨l, hl, _, _, _, _, h⟩ := flush_if_ok_trace env ret s
  rw [hl, exec_calls_append, h, List.append_nil]

/-- `exec_one_cmd` calls no `exec_one_cmd`. -/
theorem exec_one_cmd_exec_calls (env : Env) (cmd : sppwk_cmd_attrs) (s : St) (r : Int) (s1 : St)
    (h : exec_one_cmd env cmd s = some (r, s1)) : exec_calls s1.trace = exec_calls s.trace := by
  unfold exec_one_cmd at h
  split at h
  · dsimp only at h
    split at h
    · simp at h
    · simp only [Option.some.injEq] at h
      have hs := congrArg Prod.snd h
      simp only at hs
      rw [← hs, flush_if_ok_exec_calls]
      simp [St.call, exec_calls_append, exec_calls]
  · dsimp only at h
    split at h
    · simp at h
    · simp only [Option.some.injEq] at h
      have hs := congrArg Prod.snd h
      simp only at hs
      rw [← hs, flush_if_ok_exec_calls]
      simp [St.call, exec_calls_append, exec_calls]
  · split at h
    · simp at h
    · rename_i ret s0 hu
      simp only [Option.some.injEq] at h
      obtain ⟨l0, hl0, hmem⟩ := update_comp_trace env _ _ _ _ _ _ _ hu
      have hs := congrArg Prod.snd h
      simp only at hs
      rw [← hs, flush_if_ok_exec_calls, hl0, exec_calls_append]
      have : exec_calls l0 = [] := by
        simp only [exec_calls]
        rw [List.filterMap_eq_nil_iff]
        intro c hc
        obtain ⟨id, rfl⟩ := hmem c hc
        rfl
      rw [this, List.append_nil]
      simp [St.call, exec_calls]
  · dsimp only at h
    split at h
    · simp at h
    · simp only [Option.some.injEq] at h
      have hs := congrArg Prod.snd h
      simp only at hs
      rw [← hs, flush_if_ok_exec_calls]
      simp [St.call, exec_calls_append, exec_calls]
  · simp at h; rw [← h.2]

/-! ## Lemmas on the results of a request -/

/-- `set_cmd_result` with `CMD_SUCCESS` overwrites the whole slot. -/
theorem set_cmd_result_success (r : cmd_result) (msg : String) :
    set_cmd_result r CMD_SUCCESS msg = res_success := by
  simp [set_cmd_result, res_success]

/-- `set_cmd_result` with `CMD_FAILED` overwrites the whole slot. -/
theorem set_cmd_result_failed (r : cmd_result) (msg : String) :
    set_cmd_result r CMD_FAILED msg = res_failure msg := by
  simp [set_cmd_result, CMD_FAILED, CMD_SUCCESS, res_failure]

/-- `set_cmd_result` with `CMD_INVALID` overwrites the whole slot. -/
theorem set_cmd_result_invalid (r : cmd_result) (msg : String) :
    set_cmd_result r CMD_INVALID msg = res_invalid := by
  simp [set_cmd_result, CMD_FAILED, CMD_SUCCESS, CMD_INVALID, res_invalid]

/-- Writing a result inside the array. -/
theorem set_result_at_spec (results : List cmd_result) (i : Nat) (code : Int) (msg : String)
    (h : i < results.length) :
    set_result_at results i code msg
      = some (results.set i (set_cmd_result results[i] code msg)) := by
  simp [set_result_at, List.getElem?_eq_getElem h]

/-- The first loop of `prepare_parse_err_msg` fills the slots `i .. i + fuel - 1`. -/
theorem prepare_loop_spec (code : Int) (fuel : Nat) :
    ∀ (i : Nat) (results : List cmd_result), i + fuel ≤ results.length →
      ∃ r, prepare_loop code fuel i results = some r ∧ r.length = results.length ∧
        ∀ j, r[j]? = if i ≤ j ∧ j < i + fuel then
            some (if code = 0 then res_success else res_invalid)
          else results[j]? := by
  induction fuel with
  | zero =>
    intro i results _
    refine ⟨results, rfl, rfl, fun j => ?_⟩
    have : ¬ (i ≤ j ∧ j < i + 0) := by omega
    rw [if_neg this]
  | succ n ih =>
    intro i results h
    have hi : i < results.length := by omega
    obtain ⟨r, hr, hlen, hget⟩ := ih (i + 1)
      (results.set i (set_cmd_result results[i] (if code = 0 then CMD_SUCCESS else CMD_INVALID) ""))
      (by simp; omega)
    refine ⟨r, ?_, by simpa using hlen, fun j => ?_⟩
    · simp [prepare_loop, set_result_at_spec _ _ _ _ hi, hr]
    · rw [hget j]
      by_cases hj : j = i
      · subst hj
        have h1 : ¬ (j + 1 ≤ j ∧ j < j + 1 + n) := by omega
        have h2 : (j ≤ j ∧ j < j + (n + 1)) := by omega
        simp only [h1, h2, if_false, if_true]
        rw [List.getElem?_set_self hi]
        by_cases hc : code = 0 <;>
          simp [hc, set_cmd_result_success, set_cmd_result_invalid]
      · rw [List.getElem?_set_ne (Ne.symm hj)]
        by_cases hr : i + 1 ≤ j ∧ j < i + 1 + n
        · have : i ≤ j ∧ j < i + (n + 1) := by omega
          simp [hr, this]
        · have : ¬ (i ≤ j ∧ j < i + (n + 1)) := by omega
          simp [hr, this]

/-- The inner loop of `exec_cmds` is the first loop of `prepare_parse_err_msg` run
with a non-zero code. -/
theorem invalidate_rest_eq (fuel : Nat) : ∀ (i : Nat) (results : List cmd_result),
    invalidate_rest fuel i results = prepare_loop 1 fuel i results := by
  induction fuel with
  | zero => intro i results; rfl
  | succ n ih =>
    intro i results
    simp only [invalidate_rest, prepare_loop]
    cases h : set_result_at results i CMD_INVALID "" with
    | none => simp [h]
    | some r => simp [h, ih]

/-- The inner loop of `exec_cmds` marks the slots `i .. i + fuel - 1` invalid. -/
theorem invalidate_rest_spec (fuel i : Nat) (results : List cmd_result)
    (h : i + fuel ≤ results.length) :
    ∃ r, invalidate_rest fuel i results = some r ∧ r.length = results.length ∧
      ∀ j, r[j]? = if i ≤ j ∧ j < i + fuel then some res_invalid else results[j]? := by
  rw [invalidate_rest_eq]
  obtain ⟨r, h1, h2, h3⟩ := prepare_loop_spec 1 fuel i results h
  exact ⟨r, h1, h2, fun j => by rw [h3 j]; simp⟩

/-- The loop of `exec_cmds` when every command it runs succeeds. -/
theorem exec_loop_ok (env : Env) (cmds : List sppwk_cmd_attrs) (st : Nat → St) (fuel : Nat) :
    ∀ (i : Nat) (results : List cmd_result), i + fuel ≤ results.length →
      (∀ j, i ≤ j → j < i + fuel → ∃ c, cmds[j]? = some c ∧
        exec_one_cmd env c ((st j).call (Call.exec_one_cmd c)) = some (SPP_RET_OK, st (j + 1))) →
      ∃ res, exec_loop env cmds fuel i results (st i) = some (res, st (i + fuel)) ∧
        res.length = results.length ∧
        ∀ j, res[j]? = if i ≤ j ∧ j < i + fuel then some res_success else results[j]? := by
  induction fuel with
  | zero =>
    intro i results _ _
    refine ⟨results, rfl, rfl, fun j => ?_⟩
    have : ¬ (i ≤ j ∧ j < i + 0) := by omega
    rw [if_neg this]
  | succ n ih =>
    intro i results h hok
    have hi : i < results.length := by omega
    obtain ⟨c, hc, hex⟩ := hok i (le_refl _) (by omega)
    obtain ⟨res, hres, hlen, hget⟩ := ih (i + 1)
      (results.set i (set_cmd_result results[i] CMD_SUCCESS "")) (by simp; omega)
      (fun j h1 h2 => hok j (by omega) (by omega))
    refine ⟨res, ?_, by simpa using hlen, fun j => ?_⟩
    · simp only [exec_loop, hc, hex, set_result_at_spec _ _ _ _ hi]
      simp only [ne_eq, not_true_eq_false, if_false]
      rw [hres]
      congr 3
      omega
    · rw [hget j]
      by_cases hj : j = i
      · subst hj
        have h1 : ¬ (j + 1 ≤ j ∧ j < j + 1 + n) := by omega
        have h2 : (j ≤ j ∧ j < j + (n + 1)) := by omega
        rw [if_neg h1, if_pos h2, List.getElem?_set_self hi, set_cmd_result_success]
      · rw [List.getElem?_set_ne (Ne.symm hj)]
        by_cases hr : i + 1 ≤ j ∧ j < i + 1 + n
        · have : i ≤ j ∧ j < i + (n + 1) := by omega
          simp [hr, this]
        · have : ¬ (i ≤ j ∧ j < i + (n + 1)) := by omega
          simp [hr, this]

/-- The loop of `exec_cmds` when command `k` is the first to fail. -/
theorem exec_loop_fail (env : Env) (cmds : List sppwk_cmd_attrs) (st : Nat → St) (k : Nat)
    (r : Int) (sk : St) (hr : r ≠ SPP_RET_OK)
    (hfail : ∃ c, cmds[k]? = some c ∧
      exec_one_cmd env c ((st k).call (Call.exec_one_cmd c)) = some (r, sk)) (fuel : Nat) :
    ∀ (i : Nat) (results : List cmd_result), i ≤ k → k < i + fuel → i + fuel ≤ results.length →
      (∀ j, i ≤ j → j < k → ∃ c, cmds[j]? = some c ∧
        exec_one_cmd env c ((st j).call (Call.exec_one_cmd c)) = some (SPP_RET_OK, st (j + 1))) →
      ∃ res, exec_loop env cmds fuel i results (st i) = some (res, sk) ∧
        res.length = results.length ∧
        ∀ j, res[j]? =
          if i ≤ j ∧ j < k then some res_success
          else if j = k then some (res_failure "error occur")
          else if k < j ∧ j < i + fuel then some res_invalid
          else results[j]? := by
  induction fuel with
  | zero => intro i results h1 h2; omega
  | succ n ih =>
    intro i results hik hk h hok
    have hi : i < results.length := by omega
    by_cases hek : i = k
    · subst hek
      obtain ⟨c, hc, hex⟩ := hfail
      obtain ⟨res, hres, hlen, hget⟩ := invalidate_rest_spec n (i + 1)
        (results.set i (set_cmd_result results[i] CMD_FAILED "error occur")) (by simp; omega)
      refine ⟨res, ?_, by simpa using hlen, fun j => ?_⟩
      · simp only [exec_loop, hc, hex, set_result_at_spec _ _ _ _ hi]
        simp only [ne_eq, hr, not_false_eq_true, if_true]
        rw [hres]
      · rw [hget j]
        have h0 : ¬ (i ≤ j ∧ j < i) := by omega
        rw [if_neg h0]
        by_cases hj : j = i
        · subst hj
          have h1 : ¬ (j + 1 ≤ j ∧ j < j + 1 + n) := by omega
          rw [if_neg h1, if_pos rfl, List.getElem?_set_self hi, set_cmd_result_failed]
        · rw [if_neg hj, List.getElem?_set_ne (Ne.symm hj)]
          by_cases hr : i + 1 ≤ j ∧ j < i + 1 + n
          · have : i < j ∧ j < i + (n + 1) := by omega
            simp [hr, this]
          · have : ¬ (i < j ∧ j < i + (n + 1)) := by omega
            simp [hr, this]
    · obtain ⟨c, hc, hex⟩ := hok i (le_refl _) (by omega)
      obtain ⟨res, hres, hlen, hget⟩ := ih (i + 1)
        (results.set i (set_cmd_result results[i] CMD_SUCCESS "")) (by omega) (by omega)
        (by simp; omega) (fun j h1 h2 => hok j (by omega) h2)
      refine ⟨res, ?_, by simpa using hlen, fun j => ?_⟩
      · simp only [exec_loop, hc, hex, set_result_at_spec _ _ _ _ hi]
        simp only [ne_eq, not_true_eq_false, if_false]
        rw [hres]
      · rw [hget j]
        by_cases hj : j = i
        · subst hj
          have h1 : ¬ (j + 1 ≤ j ∧ j < k) := by omega
          have h2 : (j ≤ j ∧ j < k) := by omega
          have h3 : ¬ (j = k) := by omega
          have h4 : ¬ (k < j ∧ j < j + 1 + n) := by omega
          rw [if_neg h1, if_neg h3, if_neg h4, if_pos h2, List.getElem?_set_self hi,
            set_cmd_result_success]
        · rw [List.getElem?_set_ne (Ne.symm hj)]
          by_cases ha : i + 1 ≤ j ∧ j < k
          · have : i ≤ j ∧ j < k := by omega
            rw [if_pos ha, if_pos this]
          · have : ¬ (i ≤ j ∧ j < k) := by omega
            rw [if_neg ha, if_neg this]
            by_cases hb : j = k
            · rw [if_pos hb, if_pos hb]
            · rw [if_neg hb, if_neg hb]
              by_cases hc : k < j ∧ j < i + 1 + n
              · have : k < j ∧ j < i + (n + 1) := by omega
                rw [if_pos hc, if_pos this]
              · have : ¬ (k < j ∧ j < i + (n + 1)) := by omega
                rw [if_neg hc, if_neg this]

/-- The calls of `exec_one_cmd` recorded while the first `k` commands succeed. -/
theorem exec_calls_take (env : Env) (cmds : List sppwk_cmd_attrs) (st : Nat → St) (k : Nat)
    (hok : ∀ j, j < k → ∃ c, cmds[j]? = some c ∧
        exec_one_cmd env c ((st j).call (Call.exec_one_cmd c)) = some (SPP_RET_OK, st (j + 1))) :
    exec_calls (st k).trace = exec_calls (st 0).trace ++ cmds.take k := by
  induction k with
  | zero => simp
  | succ n ih =>
    obtain ⟨c, hc, hex⟩ := hok n (by omega)
    rw [exec_one_cmd_exec_calls env c _ _ _ hex, List.take_succ, hc]
    simp only [St.call, exec_calls_append, Option.toList]
    rw [ih (fun j hj => hok j (by omega)), List.append_assoc]
    rfl

/-- Writing a result keeps the size of the array. -/
theorem set_result_at_length (results r : List cmd_result) (i : Nat) (code : Int) (msg : String)
    (h : set_result_at results i code msg = some r) : r.length = results.length := by
  unfold set_result_at at h
  split at h
  · simp at h
  · simp only [Option.some.injEq] at h
    rw [← h, List.length_set]

/-- The inner loop of `exec_cmds` keeps the size of the array. -/
theorem invalidate_rest_length (fuel : Nat) : ∀ (i : Nat) (results r : List cmd_result),
    invalidate_rest fuel i results = some r → r.length = results.length := by
  induction fuel with
  | zero => intro i results r h; simp [invalidate_rest] at h; rw [h]
  | succ n ih =>
    intro i results r h
    simp only [invalidate_rest] at h
    split at h
    · simp at h
    · rename_i r1 h1
      rw [ih _ _ _ h, set_result_at_length _ _ _ _ _ h1]

/-- The loop of `exec_cmds` keeps the size of the array. -/
theorem exec_loop_length (env : Env) (cmds : List sppwk_cmd_attrs) (fuel : Nat) :
    ∀ (i : Nat) (results res : List cmd_result) (s s1 : St),
      exec_loop env cmds fuel i results s = some (res, s1) → res.length = results.length := by
  induction fuel with
  | zero => intro i results res s s1 h; simp [exec_loop] at h; rw [h.1]
  | succ n ih =>
    intro i results res s s1 h
    simp only [exec_loop] at h
    split at h
    · simp at h
    · split at h
      · simp at h
      · split_ifs at h
        · split at h
          · simp at h
          · rename_i r1 h1
            split at h
            · simp at h
            · rename_i r2 h2
              simp only [Option.some.injEq, Prod.mk.injEq] at h
              rw [← h.1, invalidate_rest_length _ _ _ _ h2, set_result_at_length _ _ _ _ _ h1]
        · split at h
          · simp at h
          · rename_i r1 h1
            rw [ih _ _ _ _ _ h, set_result_at_length _ _ _ _ _ h1]

/-! ## Lemmas on port records and ability slots -/

/-- The scanning loop stops at the lowest slot from `cnt` on holding `ops`, or
at `max` when there is none. -/
theorem scan_ability_spec (ops : sppwk_port_abl_ops) (ability : List spp_port_ability)
    (max : Nat) (fuel : Nat) :
    ∀ cnt, cnt ≤ max → max ≤ cnt + fuel →
      cnt ≤ scan_ability ops ability max fuel cnt ∧
      scan_ability ops ability max fuel cnt ≤ max ∧
      (∀ j, cnt ≤ j → j < scan_ability ops ability max fuel cnt →
        (ability.getD j zero_ability).ops ≠ ops) ∧
      (scan_ability ops ability max fuel cnt < max →
        (ability.getD (scan_ability ops ability max fuel cnt) zero_ability).ops = ops) := by
  induction fuel with
  | zero =>
    intro cnt h1 h2
    have : cnt = max := by omega
    simp only [scan_ability]
    exact ⟨le_refl _, h1, fun j h3 h4 => by omega, fun h => by omega⟩
  | succ n ih =>
    intro cnt h1 h2
    simp only [scan_ability]
    split_ifs with hc
    · obtain ⟨a, b, c, d⟩ := ih (cnt + 1) (by omega) (by omega)
      refine ⟨by omega, b, fun j h3 h4 => ?_, d⟩
      by_cases hj : j = cnt
      · rw [hj]; exact hc.2
      · exact c j (by omega) h4
    · refine ⟨le_refl _, h1, fun j h3 h4 => by omega, fun h => ?_⟩
      by_contra hne
      exact hc ⟨h, hne⟩

/-- The loop of the `DEL` case zeroes the slots in use whose direction is `rxtx`
and keeps the others. -/
theorem clear_abilities_spec (rxtx : spp_port_rxtx) (fuel : Nat) :
    ∀ (cnt : Nat) (ability : List spp_port_ability),
      (clear_abilities rxtx fuel cnt ability).length = ability.length ∧
      ∀ j, (clear_abilities rxtx fuel cnt ability)[j]? =
        if cnt ≤ j ∧ j < cnt + fuel ∧ j < ability.length ∧
            (ability.getD j zero_ability).ops ≠ SPPWK_PORT_ABL_OPS_NONE ∧
            (ability.getD j zero_ability).rxtx = rxtx
        then some zero_ability else ability[j]? := by
  induction fuel with
  | zero =>
    intro cnt ability
    refine ⟨rfl, fun j => ?_⟩
    rw [if_neg (by omega)]
    rfl
  | succ n ih =>
    intro cnt ability
    simp only [clear_abilities]
    split_ifs with h1 h2
    · obtain ⟨hl, hg⟩ := ih (cnt + 1) ability
      refine ⟨hl, fun j => ?_⟩
      rw [hg j]
      by_cases hj : j = cnt
      · subst hj
        rw [if_neg (by omega), if_neg (fun h => h.2.2.2.1 h1)]
      · congr 1
        apply propext
        constructor <;> (intro h; refine ⟨by omega, by omega, h.2.2⟩)
    · obtain ⟨hl, hg⟩ := ih (cnt + 1) (ability.set cnt zero_ability)
      refine ⟨by rw [hl, List.length_set], fun j => ?_⟩
      rw [hg j]
      by_cases hj : j = cnt
      · subst hj
        rw [if_neg (by omega)]
        by_cases hlen : j < ability.length
        · rw [List.getElem?_set_self hlen, if_pos ⟨le_refl _, by omega, hlen, h1, h2⟩]
        · rw [if_neg (by omega), List.getElem?_eq_none (by simp; omega),
            List.getElem?_eq_none (by omega)]
      · rw [List.getElem?_set_ne (Ne.symm hj), List.length_set,
          List.getD_eq_getElem?_getD, List.getElem?_set_ne (Ne.symm hj),
          ← List.getD_eq_getElem?_getD]
        congr 1
        apply propext
        constructor <;> (intro h; refine ⟨by omega, by omega, h.2.2⟩)
    · obtain ⟨hl, hg⟩ := ih (cnt + 1) ability
      refine ⟨hl, fun j => ?_⟩
      rw [hg j]
      by_cases hj : j = cnt
      · subst hj
        rw [if_neg (by omega), if_neg (fun h => h2 h.2.2.2.2)]
      · congr 1
        apply propext
        constructor <;> (intro h; refine ⟨by omega, by omega, h.2.2⟩)

/-- Writing a port record leaves the worker records alone. -/
theorem write_port_comp_info (m : MngData) (p : PortPtr) (v : sppwk_port_info) :
    (write_port m p v).comp_info = m.comp_info := by
  unfold write_port; split <;> rfl

/-- Writing a port record leaves the change flags of the workers alone. -/
theorem write_port_change_component (m : MngData) (p : PortPtr) (v : sppwk_port_info) :
    (write_port m p v).change_component = m.change_component := by
  unfold write_port; split <;> rfl

/-- Writing a port record leaves the lcore records and their flags alone. -/
theorem write_port_core (m : MngData) (p : PortPtr) (v : sppwk_port_info) :
    (write_port m p v).core_info = m.core_info ∧
    (write_port m p v).change_core = m.change_core := by
  unfold write_port; split <;> exact ⟨rfl, rfl⟩

/-- Reading back the record that was written. -/
theorem read_write_port_same (m : MngData) (p : PortPtr) (v pinfo : sppwk_port_info)
    (h : read_port m p = some pinfo) : read_port (write_port m p v) p = some v := by
  obtain ⟨k, n⟩ := p
  cases k <;> simp only [read_port, write_port, port_table] at h ⊢
  · obtain ⟨hlt, _⟩ := List.getElem?_eq_some_iff.mp h
    exact List.getElem?_set_self hlt
  · obtain ⟨hlt, _⟩ := List.getElem?_eq_some_iff.mp h
    exact List.getElem?_set_self hlt
  · obtain ⟨hlt, _⟩ := List.getElem?_eq_some_iff.mp h
    exact List.getElem?_set_self hlt
  · simp at h

/-- Writing a port record leaves the other port records alone. -/
theorem read_write_port_other (m : MngData) (p q : PortPtr) (v : sppwk_port_info)
    (h : q ≠ p) : read_port (write_port m p v) q = read_port m q := by
  obtain ⟨k, n⟩ := p
  obtain ⟨k1, n1⟩ := q
  have hn : k1 = k → n ≠ n1 := by
    intro hk hn
    apply h
    rw [hk, hn]
  cases k <;> cases k1 <;> simp only [read_port, write_port, port_table] <;>
    first
      | rfl
      | exact List.getElem?_set_ne (hn rfl)

/-- The pointer `get_sppwk_port` returns refers to a record. -/
theorem get_sppwk_port_read (m : MngData) (k : port_type) (n : Int) (p : PortPtr)
    (h : get_sppwk_port m k n = some p) : ∃ pinfo, read_port m p = some pinfo := by
  unfold get_sppwk_port at h
  split_ifs at h with hc
  simp only [Option.some.injEq] at h
  subst h
  exact ⟨_, List.getElem?_eq_getElem hc.2⟩

/-- Dereferencing a pointer to a record. -/
theorem deref_port_some (m : MngData) (p : PortPtr) (pinfo : sppwk_port_info)
    (h : read_port m p = some pinfo) : deref_port m (some p) = some (p, pinfo) := by
  simp [deref_port, h]

/-- The id `sppwk_get_lcore_id` returns is the index of a worker record. -/
theorem sppwk_get_lcore_id_lt (m : MngData) (name : String) (wid : Nat)
    (h : sppwk_get_lcore_id m name = (wid : Int)) : wid < m.comp_info.length := by
  unfold sppwk_get_lcore_id at h
  simp only at h
  split_ifs at h with h1 h2
  · simp [SPP_RET_NG] at h
  · have : List.findIdx (fun c => decide (c.name = name)) m.comp_info = wid := by exact_mod_cast h
    rw [← this]
    exact h2
  · simp [SPP_RET_NG] at h

/-- Reading the selected list and counter back after `put_ports`. -/
theorem sel_put_ports (rxtx : spp_port_rxtx) (c : sppwk_comp_info) (nof : Int)
    (ports : List (Option PortPtr)) :
    sel_nof rxtx (put_ports rxtx c nof ports) = nof ∧
    sel_ports rxtx (put_ports rxtx c nof ports) = ports := by
  unfold sel_nof sel_ports put_ports
  split_ifs <;> exact ⟨rfl, rfl⟩

/-- `put_ports` touches the selected side only. -/
theorem put_ports_frame (rxtx : spp_port_rxtx) (c : sppwk_comp_info) (nof : Int)
    (ports : List (Option PortPtr)) :
    (put_ports rxtx c nof ports).name = c.name ∧
    (put_ports rxtx c nof ports).wk_type = c.wk_type ∧
    (put_ports rxtx c nof ports).lcore_id = c.lcore_id ∧
    (put_ports rxtx c nof ports).comp_id = c.comp_id ∧
    (rxtx = SPP_PORT_RXTX_RX →
      (put_ports rxtx c nof ports).nof_tx = c.nof_tx ∧
      (put_ports rxtx c nof ports).tx_ports = c.tx_ports) ∧
    (rxtx ≠ SPP_PORT_RXTX_RX →
      (put_ports rxtx c nof ports).nof_rx = c.nof_rx ∧
      (put_ports rxtx c nof ports).rx_ports = c.rx_ports) := by
  unfold put_ports
  split_ifs with h
  · exact ⟨rfl, rfl, rfl, rfl, fun _ => ⟨rfl, rfl⟩, fun h1 => absurd h h1⟩
  · exact ⟨rfl, rfl, rfl, rfl, fun h1 => absurd h1 h, fun _ => ⟨rfl, rfl⟩⟩

/-- The result of `update_port` for the ADD of a port that is not yet attached. -/
theorem update_port_add_new_eq (env : Env) (port : sppwk_port_idx) (rxtx : spp_port_rxtx)
    (name : String) (ability : spp_port_ability) (m : MngData) (wid : Nat)
    (c : sppwk_comp_info) (p : PortPtr) (pinfo : sppwk_port_info)
    (hw : sppwk_get_lcore_id m name = (wid : Int)) (hc : m.comp_info[wid]? = some c)
    (hp : get_sppwk_port m port.iface_type port.iface_no = some p)
    (hr : read_port m p = some pinfo)
    (hcount : check_port_count c.wk_type rxtx c.nof_rx c.nof_tx = SPP_RET_OK)
    (hnew : get_idx_port_info (some p) (sel_nof rxtx c) (sel_ports rxtx c) < 0)
    (hnof0 : 0 ≤ sel_nof rxtx c) (hnof : sel_nof rxtx c < env.RTE_MAX_ETHPORTS)
    (hcap : (sel_ports rxtx c).length = env.RTE_MAX_ETHPORTS) :
    update_port env SPPWK_ACT_ADD port rxtx name ability m =
      if ability.ops ≠ SPPWK_PORT_ABL_OPS_NONE ∧
          scan_ability SPPWK_PORT_ABL_OPS_NONE pinfo.ability env.SPP_PORT_ABILITY_MAX
            env.SPP_PORT_ABILITY_MAX 0 ≥ env.SPP_PORT_ABILITY_MAX then
        some (SPP_RET_NG, m)
      else
        some (SPP_RET_OK, set_change_component
          { write_port m p
              { pinfo with
                ability :=
                  if ability.ops ≠ SPPWK_PORT_ABL_OPS_NONE then
                    pinfo.ability.set
                      (scan_ability SPPWK_PORT_ABL_OPS_NONE pinfo.ability
                        env.SPP_PORT_ABILITY_MAX env.SPP_PORT_ABILITY_MAX 0) ability
                  else pinfo.ability,
                iface_type := port.iface_type } with
            comp_info := m.comp_info.set wid
              (put_ports rxtx c (sel_nof rxtx c + 1)
                ((sel_ports rxtx c).set (sel_nof rxtx c).toNat (some p))) } wid 1) := by
  have h1 : ¬ ((wid : Int) < 0) := by omega
  have h2 : ¬ (check_port_count c.wk_type rxtx c.nof_rx c.nof_tx ≠ SPP_RET_OK) :=
    not_not.mpr hcount
  have h3 : ¬ (get_idx_port_info (some p) (sel_nof rxtx c) (sel_ports rxtx c) ≥ SPP_RET_OK) := by
    simp only [SPP_RET_OK]; omega
  have h4 : ¬ (sel_nof rxtx c ≥ (env.RTE_MAX_ETHPORTS : Int)) := by omega
  have h5 : ¬ (sel_nof rxtx c < 0 ∨ (sel_ports rxtx c).length ≤ (sel_nof rxtx c).toNat) := by
    rw [hcap]; omega
  unfold update_port
  simp only [hw, Int.toNat_ofNat, hc, hp, deref_port_some m p pinfo hr]
  rw [if_neg h1, if_neg h2, if_neg h3, if_neg h4]
  simp only [h5, if_false, write_port_comp_info]

/-- Reading a port record depends on the three port tables only. -/
theorem read_port_congr (m m1 : MngData) (p : PortPtr) (h1 : m1.nic = m.nic)
    (h2 : m1.vhost = m.vhost) (h3 : m1.ring = m.ring) : read_port m1 p = read_port m p := by
  obtain ⟨k, n⟩ := p
  cases k <;> simp only [read_port, port_table, h1, h2, h3]

/-- Updating worker records and change flags leaves the port records alone. -/
theorem read_port_after (mw : MngData) (ci : List sppwk_comp_info) (wid : Nat) (v : Int)
    (q : PortPtr) :
    read_port (set_change_component { mw with comp_info := ci } wid v) q = read_port mw q :=
  read_port_congr mw _ q rfl rfl rfl

/-- The scanning loop, run over the whole ability array, finds the lowest slot
holding `ops` when there is one. -/
theorem scan_ability_lowest (ops : sppwk_port_abl_ops) (ability : List spp_port_ability)
    (max : Nat) (habl : ability.length = max) :
    (scan_ability ops ability max max 0 < max ↔
      ∃ i, i < max ∧ ∃ a, ability[i]? = some a ∧ a.ops = ops) ∧
    scan_ability ops ability max max 0 ≤ max ∧
    (scan_ability ops ability max max 0 < max →
      (∃ a, ability[scan_ability ops ability max max 0]? = some a ∧ a.ops = ops) ∧
      ∀ j, j < scan_ability ops ability max max 0 → ∀ a, ability[j]? = some a → a.ops ≠ ops) := by
  obtain ⟨_, h2, h3, h4⟩ := scan_ability_spec ops ability max max 0 (Nat.zero_le _) (by omega)
  have hget : ∀ j a, ability[j]? = some a → ability.getD j zero_ability = a := by
    intro j a h
    rw [List.getD_eq_getElem?_getD, h]; rfl
  have hlow : ∀ j, j < scan_ability ops ability max max 0 → ∀ a, ability[j]? = some a →
      a.ops ≠ ops := by
    intro j hj a ha
    rw [← hget j a ha]
    exact h3 j (Nat.zero_le _) hj
  refine ⟨⟨fun h => ?_, fun ⟨i, hi, a, ha, hops⟩ => ?_⟩, h2, fun h => ⟨?_, hlow⟩⟩
  · refine ⟨_, h, ability.getD (scan_ability ops ability max max 0) zero_ability, ?_, h4 h⟩
    rw [List.getD_eq_getElem?_getD, List.getElem?_eq_getElem (by omega)]; rfl
  · by_contra hn
    exact hlow i (by omega) a ha hops
  · refine ⟨ability.getD (scan_ability ops ability max max 0) zero_ability, ?_, h4 h⟩
    rw [List.getD_eq_getElem?_getD, List.getElem?_eq_getElem (by omega)]; rfl

/-- `get_idx_port_info` finds a port exactly when it is among the first
`nof_ports` entries of the list. -/
theorem get_idx_port_info_nonneg_iff (p_info : Option PortPtr) (nof_ports : Int)
    (ports : List (Option PortPtr)) :
    (get_idx_port_info p_info nof_ports ports ≥ 0 ↔ p_info ∈ ports.take nof_ports.toNat) ∧
    (get_idx_port_info p_info nof_ports ports < 0 ↔ p_info ∉ ports.take nof_ports.toNat) := by
  unfold get_idx_port_info
  simp only
  by_cases h : p_info ∈ ports.take nof_ports.toNat
  · rw [if_pos (List.findIdx_lt_length.mpr ⟨p_info, h, by simp⟩)]
    exact ⟨⟨fun _ => h, fun _ => by omega⟩, ⟨fun h1 => by omega, fun h1 => absurd h h1⟩⟩
  · rw [if_neg (fun h1 => h (by
      obtain ⟨x, hx, hp⟩ := List.findIdx_lt_length.mp h1
      simp only [decide_eq_true_eq] at hp
      rw [← hp]; exact hx))]
    exact ⟨⟨fun h1 => by simp [SPP_RET_NG] at h1, fun h1 => absurd h1 h⟩,
      ⟨fun _ => h, fun _ => by simp [SPP_RET_NG]⟩⟩

/-- `delete_port_info` returns 0 exactly when the port is among the first
`nof_ports` entries of the list, and leaves the list alone otherwise. -/
theorem delete_port_info_spec (p_info : Option PortPtr) (nof_ports : Int)
    (ports : List (Option PortPtr)) :
    ((delete_port_info p_info nof_ports ports).1 = 0 ↔ p_info ∈ ports.take nof_ports.toNat) ∧
    (p_info ∉ ports.take nof_ports.toNat → delete_port_info p_info nof_ports ports = (-1, ports)) := by
  obtain ⟨h1, h2⟩ := get_idx_port_info_nonneg_iff p_info nof_ports ports
  unfold delete_port_info
  simp only
  by_cases h : p_info ∈ ports.take nof_ports.toNat
  · rw [if_neg (fun h3 => h2.mp h3 h)]
    exact ⟨⟨fun _ => h, fun _ => rfl⟩, fun h3 => absurd h h3⟩
  · rw [if_pos (h2.mpr h)]
    exact ⟨⟨fun h3 => by simp at h3, fun h3 => absurd h3 h⟩, fun _ => rfl⟩

/-- Updating a change flag leaves the port records alone. -/
theorem read_port_flag (mw : MngData) (wid : Nat) (v : Int) (q : PortPtr) :
    read_port (set_change_component mw wid v) q = read_port mw q :=
  read_port_congr mw _ q rfl rfl rfl

/-- The result of `update_port` for the ADD, with the ability `ADD_VLANTAG`, of a
port that is already attached. -/
theorem update_port_add_vlan_eq (env : Env) (port : sppwk_port_idx) (rxtx : spp_port_rxtx)
    (name : String) (ability : spp_port_ability) (m : MngData) (wid : Nat)
    (c : sppwk_comp_info) (p : PortPtr) (pinfo : sppwk_port_info)
    (hw : sppwk_get_lcore_id m name = (wid : Int)) (hc : m.comp_info[wid]? = some c)
    (hp : get_sppwk_port m port.iface_type port.iface_no = some p)
    (hr : read_port m p = some pinfo)
    (hcount : check_port_count c.wk_type rxtx c.nof_rx c.nof_tx = SPP_RET_OK)
    (hreg : some p ∈ (sel_ports rxtx c).take (sel_nof rxtx c).toNat)
    (hops : ability.ops = SPPWK_PORT_ABL_OPS_ADD_VLANTAG) :
    update_port env SPPWK_ACT_ADD port rxtx name ability m =
      if scan_ability SPPWK_PORT_ABL_OPS_ADD_VLANTAG pinfo.ability env.SPP_PORT_ABILITY_MAX
          env.SPP_PORT_ABILITY_MAX 0 ≥ env.SPP_PORT_ABILITY_MAX then
        some (SPP_RET_NG, m)
      else
        some (SPP_RET_OK, set_change_component
          (write_port m p
            { pinfo with
              ability := pinfo.ability.set
                (scan_ability SPPWK_PORT_ABL_OPS_ADD_VLANTAG pinfo.ability
                  env.SPP_PORT_ABILITY_MAX env.SPP_PORT_ABILITY_MAX 0) ability }) wid 1) := by
  have h1 : ¬ ((wid : Int) < 0) := by omega
  have h2 : ¬ (check_port_count c.wk_type rxtx c.nof_rx c.nof_tx ≠ SPP_RET_OK) :=
    not_not.mpr hcount
  have h3 : get_idx_port_info (some p) (sel_nof rxtx c) (sel_ports rxtx c) ≥ SPP_RET_OK :=
    (get_idx_port_info_nonneg_iff _ _ _).1.mpr hreg
  unfold update_port
  simp only [hw, Int.toNat_ofNat, hc, hp, deref_port_some m p pinfo hr]
  rw [if_neg h1, if_neg h2, if_pos h3, if_pos hops]

/-- The result of `update_port` for the ADD, without the ability `ADD_VLANTAG`,
of a port that is already attached, when the count check passes. -/
theorem update_port_add_attached_eq (env : Env) (port : sppwk_port_idx) (rxtx : spp_port_rxtx)
    (name : String) (ability : spp_port_ability) (m : MngData) (wid : Nat)
    (c : sppwk_comp_info) (p : PortPtr)
    (hw : sppwk_get_lcore_id m name = (wid : Int)) (hc : m.comp_info[wid]? = some c)
    (hp : get_sppwk_port m port.iface_type port.iface_no = some p)
    (hcount : check_port_count c.wk_type rxtx c.nof_rx c.nof_tx = SPP_RET_OK)
    (hreg : some p ∈ (sel_ports rxtx c).take (sel_nof rxtx c).toNat)
    (hops : ability.ops ≠ SPPWK_PORT_ABL_OPS_ADD_VLANTAG) :
    update_port env SPPWK_ACT_ADD port rxtx name ability m = some (SPP_RET_OK, m) := by
  have h1 : ¬ ((wid : Int) < 0) := by omega
  have h2 : ¬ (check_port_count c.wk_type rxtx c.nof_rx c.nof_tx ≠ SPP_RET_OK) :=
    not_not.mpr hcount
  have h3 : get_idx_port_info (some p) (sel_nof rxtx c) (sel_ports rxtx c) ≥ SPP_RET_OK :=
    (get_idx_port_info_nonneg_iff _ _ _).1.mpr hreg
  unfold update_port
  simp only [hw, Int.toNat_ofNat, hc, hp]
  rw [if_neg h1, if_neg h2, if_pos h3, if_neg hops]

/-- The result of `update_port` for a DEL. -/
theorem update_port_del_eq (env : Env) (port : sppwk_port_idx) (rxtx : spp_port_rxtx)
    (name : String) (ability : spp_port_ability) (m : MngData) (wid : Nat)
    (c : sppwk_comp_info) (p : PortPtr) (pinfo : sppwk_port_info)
    (hw : sppwk_get_lcore_id m name = (wid : Int)) (hc : m.comp_info[wid]? = some c)
    (hp : get_sppwk_port m port.iface_type port.iface_no = some p)
    (hr : read_port m p = some pinfo) :
    update_port env SPPWK_ACT_DEL port rxtx name ability m =
      some (SPP_RET_OK, set_change_component
        { write_port m p
            { pinfo with
              ability := clear_abilities rxtx env.SPP_PORT_ABILITY_MAX 0 pinfo.ability } with
          comp_info := m.comp_info.set wid
            (put_ports rxtx c
              (if (delete_port_info (some p) (sel_nof rxtx c) (sel_ports rxtx c)).1 = 0 then
                sel_nof rxtx c - 1 else sel_nof rxtx c)
              (delete_port_info (some p) (sel_nof rxtx c) (sel_ports rxtx c)).2) } wid 1) := by
  have h1 : ¬ ((wid : Int) < 0) := by omega
  unfold update_port
  simp only [hw, Int.toNat_ofNat, hc, hp, deref_port_some m p pinfo hr]
  rw [if_neg h1]
  simp only [write_port_comp_info]

/-! ## Lemmas: the classifier table -/

/-- Marking the workers that use a port leaves the port records alone. -/
theorem read_port_mark (mw : MngData) (p : PortPtr) (rxtx : spp_port_rxtx) (q : PortPtr) :
    read_port (set_component_change_port mw p rxtx) q = read_port mw q :=
  read_port_congr mw _ q rfl rfl rfl

/-- The value stored for a MAC address is the conversion result seen as a
`uint64_t`. -/
theorem mac_uint64_cast (v : Int) :
    (((v % 2 ^ 64).toNat : Nat) : Int) = v % 2 ^ 64 ∧
    (0 ≤ v → v < 2 ^ 64 → (((v % 2 ^ 64).toNat : Nat) : Int) = v) := by
  have h : (0 : Int) ≤ v % 2 ^ 64 := Int.emod_nonneg _ (by norm_num)
  refine ⟨Int.toNat_of_nonneg h, fun h1 h2 => ?_⟩
  rw [Int.toNat_of_nonneg h, Int.emod_eq_of_lt h1 h2]

/-- The result of `update_cls_table` for an ADD on a bound port. -/
theorem update_cls_table_add_eq (env : Env) (t : spp_classifier_type) (vid : Int)
    (mac_str : String) (port : sppwk_port_idx) (m : MngData) (p : PortPtr)
    (pinfo : sppwk_port_info)
    (hconv : env.sppwk_convert_mac_str_to_int64 mac_str ≠ -1)
    (hp : get_sppwk_port m port.iface_type port.iface_no = some p)
    (hr : read_port m p = some pinfo) (hbound : pinfo.iface_type ≠ UNDEF) :
    update_cls_table env SPPWK_ACT_ADD t vid mac_str port m =
      if pinfo.cls_attrs.vlantag.vid ≠ ETH_VLAN_ID_MAX ∨ pinfo.cls_attrs.mac_addr ≠ 0 then
        some (SPP_RET_NG, m)
      else
        some (SPP_RET_OK, set_component_change_port
          (write_port m p
            { pinfo with
              cls_attrs :=
                { vlantag := { pinfo.cls_attrs.vlantag with vid := vid },
                  mac_addr := (env.sppwk_convert_mac_str_to_int64 mac_str % 2 ^ 64).toNat,
                  mac_addr_str := mac_str } }) p SPP_PORT_RXTX_TX) := by
  unfold update_cls_table
  simp only [hp, hr]
  rw [if_neg hconv, if_neg hbound]
  by_cases h1 : pinfo.cls_attrs.vlantag.vid ≠ ETH_VLAN_ID_MAX
  · rw [if_pos h1, if_pos (Or.inl h1)]
  · rw [if_neg h1]
    by_cases h2 : pinfo.cls_attrs.mac_addr ≠ 0
    · rw [if_pos h2, if_pos (Or.inr h2)]
    · rw [if_neg h2, if_neg (by rintro (h | h); exact h1 h; exact h2 h)]

/-- The result of `update_cls_table` for a DEL on a bound port. -/
theorem update_cls_table_del_eq (env : Env) (t : spp_classifier_type) (vid : Int)
    (mac_str : String) (port : sppwk_port_idx) (m : MngData) (p : PortPtr)
    (pinfo : sppwk_port_info)
    (hconv : env.sppwk_convert_mac_str_to_int64 mac_str ≠ -1)
    (hp : get_sppwk_port m port.iface_type port.iface_no = some p)
    (hr : read_port m p = some pinfo) (hbound : pinfo.iface_type ≠ UNDEF) :
    update_cls_table env SPPWK_ACT_DEL t vid mac_str port m =
      if (pinfo.cls_attrs.vlantag.vid ≠ 0 ∧ pinfo.cls_attrs.vlantag.vid ≠ vid) ∨
          (pinfo.cls_attrs.mac_addr ≠ 0 ∧ pinfo.cls_attrs.mac_addr ≠
            (env.sppwk_convert_mac_str_to_int64 mac_str % 2 ^ 64).toNat) then
        some (SPP_RET_NG, m)
      else
        some (SPP_RET_OK, set_component_change_port
          (write_port m p
            { pinfo with
              cls_attrs :=
                { vlantag := { pinfo.cls_attrs.vlantag with vid := ETH_VLAN_ID_MAX },
                  mac_addr := 0, mac_addr_str := "" } }) p SPP_PORT_RXTX_TX) := by
  unfold update_cls_table
  simp only [hp, hr]
  rw [if_neg hconv, if_neg hbound]
  by_cases h1 : pinfo.cls_attrs.vlantag.vid ≠ 0 ∧ pinfo.cls_attrs.vlantag.vid ≠ vid
  · rw [if_pos h1, if_pos (Or.inl h1)]
  · rw [if_neg h1]
    by_cases h2 : pinfo.cls_attrs.mac_addr ≠ 0 ∧ pinfo.cls_attrs.mac_addr ≠
        (env.sppwk_convert_mac_str_to_int64 mac_str % 2 ^ 64).toNat
    · rw [if_pos h2, if_pos (Or.inr h2)]
    · rw [if_neg h2, if_neg (by rintro (h | h); exact h1 h; exact h2 h)]

/-- The traced handler computes what `update_cls_table` computes. -/
theorem update_cls_table_traced_mng (env : Env) (a : sppwk_action) (t : spp_classifier_type)
    (vid : Int) (mac_str : String) (port : sppwk_port_idx) (s : St) :
    (update_cls_table_traced env a t vid mac_str port s).map (fun r => (r.1, r.2.mng)) =
      update_cls_table env a t vid mac_str port s.mng := by
  unfold update_cls_table_traced update_cls_table
  simp only
  split_ifs
  · rfl
  · split
    · rfl
    · split
      · rfl
      · cases a <;> simp only <;> split_ifs <;> rfl

/-- An ADD aimed at a port whose classifier attributes are set fails and
changes nothing, whatever else the request holds. -/
theorem update_cls_table_add_set (env : Env) (t : spp_classifier_type) (vid : Int)
    (mac_str : String) (port : sppwk_port_idx) (m : MngData) (p : PortPtr)
    (pinfo : sppwk_port_info)
    (hp : get_sppwk_port m port.iface_type port.iface_no = some p)
    (hr : read_port m p = some pinfo)
    (hset : pinfo.cls_attrs.vlantag.vid ≠ ETH_VLAN_ID_MAX ∨ pinfo.cls_attrs.mac_addr ≠ 0) :
    update_cls_table env SPPWK_ACT_ADD t vid mac_str port m = some (SPP_RET_NG, m) := by
  unfold update_cls_table
  simp only [hp, hr]
  split_ifs <;> first | rfl | (exfalso; tauto)

/-- An ADD leaves alone every port record whose classifier attributes are set. -/
theorem update_cls_table_add_frame (env : Env) (t : spp_classifier_type) (vid : Int)
    (mac_str : String) (port : sppwk_port_idx) (m : MngData) (r : Int) (m1 : MngData)
    (h : update_cls_table env SPPWK_ACT_ADD t vid mac_str port m = some (r, m1))
    (q : PortPtr) (qinfo : sppwk_port_info) (hq : read_port m q = some qinfo)
    (hset : qinfo.cls_attrs.vlantag.vid ≠ ETH_VLAN_ID_MAX ∨ qinfo.cls_attrs.mac_addr ≠ 0) :
    read_port m1 q = some qinfo := by
  unfold update_cls_table at h
  simp only at h
  split at h
  · simp only [Option.some.injEq, Prod.mk.injEq] at h
    rw [← h.2]; exact hq
  · split at h
    · simp only [Option.some.injEq, Prod.mk.injEq] at h
      rw [← h.2]; exact hq
    · split at h
      · simp at h
      · rename_i _ p hp _ pinfo hr
        split at h
        · simp only [Option.some.injEq, Prod.mk.injEq] at h
          rw [← h.2]; exact hq
        · split at h
          · simp only [Option.some.injEq, Prod.mk.injEq] at h
            rw [← h.2]; exact hq
          · split at h
            · simp only [Option.some.injEq, Prod.mk.injEq] at h
              rw [← h.2]; exact hq
            · rename_i h1 h2
              simp only [Option.some.injEq, Prod.mk.injEq] at h
              rw [← h.2, read_port_mark]
              by_cases hqp : q = p
              · subst hqp
                rw [hr] at hq
                simp only [Option.some.injEq] at hq
                subst hq
                exfalso
                rcases hset with h3 | h3
                · exact h1 h3
                · exact h2 h3
              · rw [read_write_port_other m p q _ hqp]; exact hq

/-! ## Lemmas: workers -/

/-- `sppwk_get_lcore_id` is negative for a name that no worker record carries. -/
theorem sppwk_get_lcore_id_unknown (m : MngData) (name : String)
    (h : ∀ c ∈ m.comp_info, c.name ≠ name) : sppwk_get_lcore_id m name < 0 := by
  unfold sppwk_get_lcore_id
  simp only
  split_ifs with h1 h2
  · decide
  · exfalso
    obtain ⟨c, hc, hn⟩ := List.findIdx_lt_length.mp h2
    simp only [decide_eq_true_eq] at hn
    exact h c hc hn
  · decide

/-- When `sppwk_get_lcore_id` is negative for a non-empty name, no worker record
carries the name. -/
theorem sppwk_get_lcore_id_neg (m : MngData) (name : String) (hne : name ≠ "")
    (h : sppwk_get_lcore_id m name < 0) : ∀ c ∈ m.comp_info, c.name ≠ name := by
  unfold sppwk_get_lcore_id at h
  simp only at h
  rw [if_neg hne] at h
  intro c hc hn
  rw [if_pos (List.findIdx_lt_length.mpr ⟨c, hc, by simpa using hn⟩)] at h
  omega

/-- The record `sppwk_get_lcore_id` finds carries the name. -/
theorem sppwk_get_lcore_id_name (m : MngData) (name : String) (wid : Nat)
    (h : sppwk_get_lcore_id m name = (wid : Int)) :
    name ≠ "" ∧ ∃ c, m.comp_info[wid]? = some c ∧ c.name = name := by
  have hlt := sppwk_get_lcore_id_lt m name wid h
  unfold sppwk_get_lcore_id at h
  simp only at h
  split_ifs at h with h1 h2
  · simp [SPP_RET_NG] at h
  · have hw : List.findIdx (fun c => decide (c.name = name)) m.comp_info = wid := by
      exact_mod_cast h
    refine ⟨h1, m.comp_info[wid], List.getElem?_eq_getElem hlt, ?_⟩
    have := @List.findIdx_getElem _ (fun c => decide (c.name = name)) m.comp_info h2
    simp only [decide_eq_true_eq] at this
    simpa [hw] using this
  · simp [SPP_RET_NG] at h

/-- The id `get_free_lcore_id` returns is the index of a worker record. -/
theorem get_free_lcore_id_lt (m : MngData) (wid : Nat)
    (h : get_free_lcore_id m = (wid : Int)) : wid < m.comp_info.length := by
  unfold get_free_lcore_id at h
  simp only at h
  split_ifs at h with h2
  · have : List.findIdx (fun c => decide (c.wk_type = SPPWK_TYPE_NONE)) m.comp_info = wid := by
      exact_mod_cast h
    rw [← this]
    exact h2
  · simp [SPP_RET_NG] at h

/-- Erasing at the index of the first occurrence erases the first occurrence. -/
theorem eraseIdx_findIdx_eq_erase (a : Int) (l : List Int) :
    l.eraseIdx (l.findIdx (fun x => decide (x = a))) = l.erase a := by
  induction l with
  | nil => rfl
  | cons b l ih =>
    rw [List.findIdx_cons, List.erase_cons]
    by_cases h : b = a
    · simp [h]
    · simp [h, ih]

/-- `del_comp_info` removes the first occurrence of the id from the first
`nof_comps` entries and returns 0 when the id is among them, and leaves the
list alone otherwise. -/
theorem del_comp_info_spec (lcore_id : Int) (nof_comps : Int) (comp_ary : List Int) :
    (lcore_id ∈ comp_ary.take nof_comps.toNat →
      del_comp_info lcore_id nof_comps comp_ary =
        (0, (comp_ary.take nof_comps.toNat).erase lcore_id ++ [0] ++
          comp_ary.drop nof_comps.toNat)) ∧
    (lcore_id ∉ comp_ary.take nof_comps.toNat →
      del_comp_info lcore_id nof_comps comp_ary = (-1, comp_ary)) := by
  unfold del_comp_info
  simp only
  constructor
  · intro h
    rw [if_pos (List.findIdx_lt_length.mpr ⟨lcore_id, h, by simp⟩), eraseIdx_findIdx_eq_erase]
  · intro h
    rw [if_neg (fun h1 => h (by
      obtain ⟨x, hx, hp⟩ := List.findIdx_lt_length.mp h1
      simp only [decide_eq_true_eq] at hp
      rw [← hp]; exact hx))]

/-- The result of `update_comp` for a START that passes the three checks. -/
theorem update_comp_start_eq (env : Env) (name : String) (lcore_id : Nat)
    (wk_type : sppwk_worker_type) (s : St) (wid : Nat) (info : core_mng_info)
    (core : core_info) (old : sppwk_comp_info)
    (hinfo : s.mng.core_info[lcore_id]? = some info) (hstat : info.status ≠ SPP_CORE_UNUSE)
    (hname : sppwk_get_lcore_id s.mng name < 0)
    (hfree : get_free_lcore_id s.mng = (wid : Int))
    (hcore : info.core[info.upd_index]? = some core)
    (hold : s.mng.comp_info[wid]? = some old)
    (hnum0 : 0 ≤ core.num) (hnum : core.num.toNat < core.id.length) :
    update_comp env SPPWK_ACT_START name lcore_id wk_type s =
      some (SPP_RET_OK, ⟨
        set_change_core (set_change_component
          (put_core
            { s.mng with
              comp_info := s.mng.comp_info.set wid
                ({ zero_comp_info old with
                   name := name, wk_type := wk_type, lcore_id := lcore_id,
                   comp_id := wid } : sppwk_comp_info) }
            lcore_id info { num := core.num + 1, id := core.id.set core.num.toNat wid })
          wid 1) lcore_id, s.trace⟩) := by
  unfold update_comp
  simp only [hinfo, hfree, Int.toNat_ofNat, hcore, hold]
  rw [if_neg hstat, if_neg (by omega), if_neg (by omega), if_neg (by omega)]

/-- The result of `update_comp` for the STOP of an existing worker. -/
theorem update_comp_stop_eq (env : Env) (name : String) (lcore_id : Nat)
    (wk_type : sppwk_worker_type) (s : St) (wid : Nat) (info : core_mng_info)
    (core : core_info) (old : sppwk_comp_info)
    (hw : sppwk_get_lcore_id s.mng name = (wid : Int))
    (hold : s.mng.comp_info[wid]? = some old)
    (hinfo : s.mng.core_info[old.lcore_id]? = some info)
    (hcore : info.core[info.upd_index]? = some core) :
    update_comp env SPPWK_ACT_STOP name lcore_id wk_type s =
      some (SPP_RET_OK, ⟨
        set_change_core (set_change_component
          (put_core
            { s.mng with comp_info := s.mng.comp_info.set wid (zero_comp_info old) }
            old.lcore_id info
            { num := if (del_comp_info wid core.num core.id).1 ≥ 0 then core.num - 1
                else core.num,
              id := (del_comp_info wid core.num core.id).2 })
          wid 0) old.lcore_id, s.trace⟩) := by
  unfold update_comp
  simp only [hw, Int.toNat_ofNat, hold, hinfo, hcore]
  rw [if_neg (by omega)]
  simp [zero_comp_info]

/-- Writing one entry and reading the first entries up to it. -/
theorem take_set_succ (l : List Int) (n : Nat) (x : Int) (h : n < l.length) :
    (l.set n x).take (n + 1) = l.take n ++ [x] := by
  rw [List.take_succ, List.getElem?_set_self h, List.set_take,
    List.set_eq_of_length_le (by simp)]
  rfl

/-- `sppwk_get_lcore_id` finds a non-empty name that a worker record carries. -/
theorem sppwk_get_lcore_id_known (m : MngData) (name : String) (hne : name ≠ "")
    (h : ∃ c ∈ m.comp_info, c.name = name) : 0 ≤ sppwk_get_lcore_id m name := by
  by_contra hneg
  obtain ⟨c, hc, hn⟩ := h
  exact sppwk_get_lcore_id_neg m name hne (by omega) c hc hn

/-- `get_free_lcore_id` is negative when every worker record has a type. -/
theorem get_free_lcore_id_none (m : MngData)
    (h : ∀ c ∈ m.comp_info, c.wk_type ≠ SPPWK_TYPE_NONE) : get_free_lcore_id m < 0 := by
  unfold get_free_lcore_id
  simp only
  split_ifs with h2
  · exfalso
    obtain ⟨c, hc, hn⟩ := List.findIdx_lt_length.mp h2
    simp only [decide_eq_true_eq] at hn
    exact h c hc hn
  · decide

/-- A START that does not succeed returns NG and changes nothing. -/
theorem update_comp_start_ng (env : Env) (name : String) (lcore_id : Nat)
    (wk_type : sppwk_worker_type) (s : St) (r : Int) (s1 : St)
    (h : update_comp env SPPWK_ACT_START name lcore_id wk_type s = some (r, s1))
    (hr : r ≠ SPP_RET_OK) : r = SPP_RET_NG ∧ s1 = s := by
  unfold update_comp at h
  simp only at h
  split at h
  · simp at h
  · split_ifs at h
    all_goals first
      | (simp only [Option.some.injEq, Prod.mk.injEq] at h
         exact ⟨h.1.symm, h.2.symm⟩)
      | (split at h
         · split_ifs at h
           simp only [Option.some.injEq, Prod.mk.injEq] at h
           exact absurd h.1.symm hr
         · simp at h)

/-- A STOP adds nothing to the trace: `init_classifier_info` is not called. -/
theorem update_comp_stop_trace (env : Env) (name : String) (lcore_id : Nat)
    (wk_type : sppwk_worker_type) (s : St) (r : Int) (s1 : St)
    (h : update_comp env SPPWK_ACT_STOP name lcore_id wk_type s = some (r, s1)) :
    s1.trace = s.trace := by
  unfold update_comp at h
  simp only at h
  split_ifs at h
  · simp only [Option.some.injEq, Prod.mk.injEq] at h
    rw [← h.2]
  · split at h
    · simp at h
    · split at h
      · simp at h
      · split at h
        · simp at h
        · simp only [Option.some.injEq, Prod.mk.injEq] at h
          rw [← h.2]
          simp [zero_comp_info]

/-- What a START or STOP does to the worker records: nothing, or it writes one
record, which carries a name no record had (START) or is zeroed (STOP). -/
theorem update_comp_comp_info (env : Env) (a : sppwk_action) (name : String) (lcore_id : Nat)
    (wk_type : sppwk_worker_type) (s : St) (r : Int) (s1 : St)
    (ha : a = SPPWK_ACT_START ∨ a = SPPWK_ACT_STOP)
    (h : update_comp env a name lcore_id wk_type s = some (r, s1)) :
    s1.mng.comp_info = s.mng.comp_info ∨
    ∃ wid c1, s1.mng.comp_info = s.mng.comp_info.set wid c1 ∧
      ((a = SPPWK_ACT_START ∧ sppwk_get_lcore_id s.mng name < 0 ∧ c1.name = name) ∨
        (c1.name = "" ∧ c1.wk_type = SPPWK_TYPE_NONE)) := by
  unfold update_comp at h
  rcases ha with ha | ha <;> subst ha <;> simp only at h
  · -- START
    split at h
    · simp at h
    · split_ifs at h with h1 h2 h3
      · simp only [Option.some.injEq, Prod.mk.injEq] at h; rw [← h.2]; exact Or.inl rfl
      · simp only [Option.some.injEq, Prod.mk.injEq] at h; rw [← h.2]; exact Or.inl rfl
      · simp only [Option.some.injEq, Prod.mk.injEq] at h; rw [← h.2]; exact Or.inl rfl
      · split at h
        · split_ifs at h
          simp only [Option.some.injEq, Prod.mk.injEq] at h
          rw [← h.2]
          exact Or.inr ⟨_, _, rfl, Or.inl ⟨rfl, by omega, rfl⟩⟩
        · simp at h
  · -- STOP
    split_ifs at h
    · simp only [Option.some.injEq, Prod.mk.injEq] at h; rw [← h.2]; exact Or.inl rfl
    · split at h
      · simp at h
      · split at h
        · simp at h
        · split at h
          · simp at h
          · simp only [Option.some.injEq, Prod.mk.injEq] at h
            rw [← h.2]
            exact Or.inr ⟨_, _, rfl, Or.inr ⟨rfl, rfl⟩⟩

/-- Writing a record whose name is empty or carried by no record keeps the names
pairwise different. -/
theorem names_distinct_set (l : List sppwk_comp_info) (wid : Nat) (c1 : sppwk_comp_info)
    (hl : names_distinct l) (hc : c1.name = "" ∨ ∀ c ∈ l, c.name ≠ c1.name) :
    names_distinct (l.set wid c1) := by
  intro i j ci cj hij hi hj hne
  by_cases h1 : i = wid
  · subst h1
    have hlt : i < l.length := by
      have := (List.getElem?_eq_some_iff.mp hi).1
      simpa using this
    rw [List.getElem?_set_self hlt] at hi
    simp only [Option.some.injEq] at hi
    subst hi
    rw [List.getElem?_set_ne hij] at hj
    rcases hc with hc | hc
    · exact absurd hc hne
    · exact fun heq => hc cj (List.getElem?_mem hj) heq.symm
  · rw [List.getElem?_set_ne (Ne.symm h1)] at hi
    by_cases h2 : j = wid
    · subst h2
      have hlt : j < l.length := by
        have := (List.getElem?_eq_some_iff.mp hj).1
        simpa using this
      rw [List.getElem?_set_self hlt] at hj
      simp only [Option.some.injEq] at hj
      subst hj
      rcases hc with hc | hc
      · rw [hc]; exact hne
      · exact hc ci (List.getElem?_mem hi)
    · rw [List.getElem?_set_ne (Ne.symm h2)] at hj
      exact hl i j ci cj hij hi hj hne

/-- Along START and STOP calls the records that carry a name keep pairwise
different names. -/
theorem comp_reachable_names (env : Env) (P : String → Prop) (s0 s : St)
    (h0 : no_workers s0.mng) (h : comp_reachable env P s0 s) :
    names_distinct s.mng.comp_info := by
  induction h with
  | init =>
    intro i j ci cj _ hi _ hne
    exact absurd (h0 ci (List.getElem?_mem hi)).1 hne
  | step s s1 a name lcore_id wk_type r _ ha _ hstep ih =>
    rcases update_comp_comp_info env a name lcore_id wk_type s r s1 ha hstep with h1 | h1
    · rw [h1]; exact ih
    · obtain ⟨wid, c1, hset, hc⟩ := h1
      rw [hset]
      refine names_distinct_set _ wid c1 ih ?_
      rcases hc with ⟨_, hneg, hn⟩ | ⟨hn, _⟩
      · by_cases he : name = ""
        · exact Or.inl (hn.trans he)
        · rw [hn]; exact Or.inr (sppwk_get_lcore_id_neg s.mng name he hneg)
      · exact Or.inl hn

/-- Along START calls with non-empty names and STOP calls every record with a
worker type carries a name. -/
theorem comp_reachable_typed (env : Env) (s0 s : St) (h0 : no_workers s0.mng)
    (h : comp_reachable env (fun n => n ≠ "") s0 s) :
    ∀ c ∈ s.mng.comp_info, c.wk_type ≠ SPPWK_TYPE_NONE → c.name ≠ "" := by
  induction h with
  | init =>
    intro c hc ht
    exact absurd (h0 c hc).2 ht
  | step s s1 a name lcore_id wk_type r _ ha hP hstep ih =>
    rcases update_comp_comp_info env a name lcore_id wk_type s r s1 ha hstep with h1 | h1
    · rw [h1]; exact ih
    · obtain ⟨wid, c1, hset, hc⟩ := h1
      rw [hset]
      intro c hmem ht
      rcases List.mem_or_eq_of_mem_set hmem with h2 | h2
      · exact ih c h2 ht
      · subst h2
        rcases hc with ⟨hs, _, hn⟩ | ⟨_, hn⟩
        · rw [hn]; exact hP hs
        · exact absurd hn ht

/-! ## Lemmas: `flush_cmd` -/

/-- The result of `flush_cmd` when the port step fails. -/
theorem flush_cmd_port_fail (env : Env) (s : St)
    (h : (env.update_port_info s.mng).1 < SPP_RET_OK) :
    flush_cmd env s = ((env.update_port_info s.mng).1,
      ⟨(env.update_port_info s.mng).2, s.trace ++ [Call.update_port_info]⟩) := by
  unfold flush_cmd
  simp only [St.call]
  rw [if_pos h]

/-- The result of `flush_cmd` when the port step does not fail. -/
theorem flush_cmd_port_ok (env : Env) (s : St)
    (h : ¬ (env.update_port_info s.mng).1 < SPP_RET_OK) :
    flush_cmd env s =
      ((env.update_comp_info (env.update_lcore_info (env.update_port_info s.mng).2)).1,
        ⟨env.backup_mng_info
          (env.update_comp_info (env.update_lcore_info (env.update_port_info s.mng).2)).2,
         s.trace ++ [Call.update_port_info, Call.update_lcore_info, Call.update_comp_info,
           Call.backup_mng_info]⟩) := by
  unfold flush_cmd
  simp only [St.call]
  rw [if_neg h]
  simp

/-- The snapshot is taken exactly when the port step does not fail. -/
theorem flush_cmd_backup_iff (env : Env) (s : St) :
    (∃ l, (flush_cmd env s).2.trace = s.trace ++ l ∧
      (Call.backup_mng_info ∈ l ↔ ¬ (env.update_port_info s.mng).1 < SPP_RET_OK)) := by
  by_cases h : (env.update_port_info s.mng).1 < SPP_RET_OK
  · rw [flush_cmd_port_fail env s h]
    exact ⟨_, rfl, by simp [h]⟩
  · rw [flush_cmd_port_ok env s h]
    exact ⟨_, rfl, by simp [h]⟩

/-- The management data `flush_cmd` leaves: those the port step left when it
failed, and those the four steps left, one after the other, when it did not. -/
theorem flush_cmd_mng (env : Env) (s : St) :
    ((env.update_port_info s.mng).1 < SPP_RET_OK →
      (flush_cmd env s).1 = (env.update_port_info s.mng).1 ∧
      (flush_cmd env s).2.mng = (env.update_port_info s.mng).2) ∧
    (¬ (env.update_port_info s.mng).1 < SPP_RET_OK →
      (flush_cmd env s).1 =
        (env.update_comp_info (env.update_lcore_info (env.update_port_info s.mng).2)).1 ∧
      (flush_cmd env s).2.mng = env.backup_mng_info
        (env.update_comp_info (env.update_lcore_info (env.update_port_info s.mng).2)).2) := by
  constructor
  · intro h
    rw [flush_cmd_port_fail env s h]
    exact ⟨rfl, rfl⟩
  · intro h
    rw [flush_cmd_port_ok env s h]
    exact ⟨rfl, rfl⟩

/-! ## Lemmas: the writes of `update_port` -/

/-- A pointer that can be dereferenced is not null and refers to a record. -/
theorem deref_port_eq_some (m : MngData) (o : Option PortPtr) (p : PortPtr)
    (pinfo : sppwk_port_info) (h : deref_port m o = some (p, pinfo)) :
    o = some p ∧ read_port m p = some pinfo := by
  unfold deref_port at h
  split at h
  · simp at h
  · split at h
    · simp at h
    · simp only [Option.some.injEq, Prod.mk.injEq] at h
      obtain ⟨h1, h2⟩ := h
      subst h1 h2
      exact ⟨rfl, by assumption⟩

/-- The ways in which `update_port` returns: without a change, or after one of
its three writes, the overwrite of an `ADD_VLANTAG` slot of an attached port,
the attachment of a port, or a DEL. -/
theorem update_port_cases (env : Env) (wk_action : sppwk_action) (port : sppwk_port_idx)
    (rxtx : spp_port_rxtx) (name : String) (ability : spp_port_ability) (m : MngData)
    (r : Int) (m1 : MngData)
    (h : update_port env wk_action port rxtx name ability m = some (r, m1)) :
    m1 = m ∨
    ∃ (wid : Nat) (c : sppwk_comp_info) (p : PortPtr) (pinfo : sppwk_port_info),
      sppwk_get_lcore_id m name = (wid : Int) ∧
      m.comp_info[wid]? = some c ∧
      get_sppwk_port m port.iface_type port.iface_no = some p ∧
      read_port m p = some pinfo ∧
      ((wk_action = SPPWK_ACT_ADD ∧ ability.ops = SPPWK_PORT_ABL_OPS_ADD_VLANTAG ∧
          scan_ability SPPWK_PORT_ABL_OPS_ADD_VLANTAG pinfo.ability env.SPP_PORT_ABILITY_MAX
            env.SPP_PORT_ABILITY_MAX 0 < env.SPP_PORT_ABILITY_MAX ∧
          get_idx_port_info (some p) (sel_nof rxtx c) (sel_ports rxtx c) ≥ 0 ∧
          m1 = set_change_component
            (write_port m p
              { pinfo with
                ability := pinfo.ability.set
                  (scan_ability SPPWK_PORT_ABL_OPS_ADD_VLANTAG pinfo.ability
                    env.SPP_PORT_ABILITY_MAX env.SPP_PORT_ABILITY_MAX 0) ability }) wid 1) ∨
        (wk_action = SPPWK_ACT_ADD ∧
          check_port_count c.wk_type rxtx c.nof_rx c.nof_tx = SPP_RET_OK ∧
          get_idx_port_info (some p) (sel_nof rxtx c) (sel_ports rxtx c) < 0 ∧
          0 ≤ sel_nof rxtx c ∧ (sel_nof rxtx c).toNat < (sel_ports rxtx c).length ∧
          (ability.ops ≠ SPPWK_PORT_ABL_OPS_NONE →
            scan_ability SPPWK_PORT_ABL_OPS_NONE pinfo.ability env.SPP_PORT_ABILITY_MAX
              env.SPP_PORT_ABILITY_MAX 0 < env.SPP_PORT_ABILITY_MAX) ∧
          m1 = set_change_component
            { write_port m p
                { pinfo with
                  ability :=
                    if ability.ops ≠ SPPWK_PORT_ABL_OPS_NONE then
                      pinfo.ability.set
                        (scan_ability SPPWK_PORT_ABL_OPS_NONE pinfo.ability
                          env.SPP_PORT_ABILITY_MAX env.SPP_PORT_ABILITY_MAX 0) ability
                    else pinfo.ability,
                  iface_type := port.iface_type } with
              comp_info := m.comp_info.set wid
                (put_ports rxtx c (sel_nof rxtx c + 1)
                  ((sel_ports rxtx c).set (sel_nof rxtx c).toNat (some p))) } wid 1) ∨
        (wk_action = SPPWK_ACT_DEL ∧
          m1 = set_change_component
            { write_port m p
                { pinfo with
                  ability := clear_abilities rxtx env.SPP_PORT_ABILITY_MAX 0 pinfo.ability } with
              comp_info := m.comp_info.set wid
                (put_ports rxtx c
                  (if (delete_port_info (some p) (sel_nof rxtx c) (sel_ports rxtx c)).1 = 0
                    then sel_nof rxtx c - 1 else sel_nof rxtx c)
                  (delete_port_info (some p) (sel_nof rxtx c) (sel_ports rxtx c)).2) }
            wid 1)) := by
  unfold update_port at h
  simp only at h
  split at h
  · simp only [Option.some.injEq, Prod.mk.injEq] at h
    exact Or.inl h.2.symm
  · split at h
    · simp at h
    · rename_i hneg _ c hc
      have hw : sppwk_get_lcore_id m name = ((sppwk_get_lcore_id m name).toNat : Int) :=
        (Int.toNat_of_nonneg (by omega)).symm
      cases wk_action <;> simp only at h
      · simp only [Option.some.injEq, Prod.mk.injEq] at h; exact Or.inl h.2.symm
      · simp only [Option.some.injEq, Prod.mk.injEq] at h; exact Or.inl h.2.symm
      · simp only [Option.some.injEq, Prod.mk.injEq] at h; exact Or.inl h.2.symm
      · -- ADD
        split at h
        · simp only [Option.some.injEq, Prod.mk.injEq] at h; exact Or.inl h.2.symm
        · rename_i hcount
          split at h
          · rename_i hreg
            split at h
            · rename_i hops
              split at h
              · simp at h
              · rename_i p pinfo hd
                obtain ⟨hp, hr⟩ := deref_port_eq_some m _ p pinfo hd
                split at h
                · simp only [Option.some.injEq, Prod.mk.injEq] at h; exact Or.inl h.2.symm
                · rename_i hcnt
                  simp only [Option.some.injEq, Prod.mk.injEq] at h
                  refine Or.inr ⟨_, c, p, pinfo, hw, hc, hp, hr, Or.inl ⟨rfl, hops, by omega, ?_,
                    h.2.symm⟩⟩
                  rw [hp] at hreg
                  simpa [SPP_RET_OK] using hreg
            · simp only [Option.some.injEq, Prod.mk.injEq] at h; exact Or.inl h.2.symm
          · rename_i hreg
            split at h
            · simp only [Option.some.injEq, Prod.mk.injEq] at h; exact Or.inl h.2.symm
            · split at h
              · simp at h
              · rename_i p pinfo hd
                obtain ⟨hp, hr⟩ := deref_port_eq_some m _ p pinfo hd
                split at h
                · simp only [Option.some.injEq, Prod.mk.injEq] at h; exact Or.inl h.2.symm
                · rename_i hfull
                  split at h
                  · simp at h
                  · rename_i hbound
                    simp only [Option.some.injEq, Prod.mk.injEq, write_port_comp_info] at h
                    refine Or.inr ⟨_, c, p, pinfo, hw, hc, hp, hr, Or.inr (Or.inl ⟨rfl,
                      not_not.mp hcount, ?_, by omega, by omega, ?_, ?_⟩)⟩
                    · rw [hp] at hreg
                      simp only [SPP_RET_OK] at hreg
                      omega
                    · intro hne
                      by_contra hge
                      exact hfull ⟨hne, by omega⟩
                    · rw [← h.2, hp]
      · -- DEL
        split at h
        · simp at h
        · rename_i p pinfo hd
          obtain ⟨hp, hr⟩ := deref_port_eq_some m _ p pinfo hd
          simp only [Option.some.injEq, Prod.mk.injEq, write_port_comp_info] at h
          refine Or.inr ⟨_, c, p, pinfo, hw, hc, hp, hr, Or.inr (Or.inr ⟨rfl, ?_⟩)⟩
          rw [← h.2, hp]

/-! ## Lemmas: invariants of the handlers -/

/-- An `int` value that an arithmetic step yields without overflow is kept. -/
theorem int_wrap_eq (x : Int) (h1 : -2147483648 ≤ x) (h2 : x < 2147483648) : int_wrap x = x := by
  unfold int_wrap
  omega

/-- A count that `check_port_count` accepts is within the limit of the type once
the port is counted, for counters that are not negative and within the limit
before. -/
theorem check_port_count_ok (c : sppwk_comp_info) (rxtx : spp_port_rxtx) (n : Int)
    (ps : List (Option PortPtr))
    (h : check_port_count c.wk_type rxtx c.nof_rx c.nof_tx = SPP_RET_OK)
    (hn : n = sel_nof rxtx c + 1) (hlim : within_limits c) (h0 : 0 ≤ c.nof_rx)
    (h1 : 0 ≤ c.nof_tx) : within_limits (put_ports rxtx c n ps) := by
  subst hn
  obtain ⟨l1, l2, l3, l4⟩ := hlim
  unfold check_port_count int_wrap at h
  unfold within_limits put_ports sel_nof
  by_cases hr : rxtx = SPP_PORT_RXTX_RX
  · simp only [hr, if_true] at h ⊢
    cases ht : c.wk_type <;> rw [ht] at h <;> simp only at h <;>
      (try split_ifs at h) <;> first
        | (simp [SPP_RET_NG, SPP_RET_OK] at h; done)
        | (simp only [ht]; refine ⟨?_, ?_, ?_, ?_⟩ <;> intro h2 <;>
            first
              | (exact absurd h2 (by decide))
              | (have b1 := l1 ht; omega)
              | (have b2 := l2 ht; omega)
              | (have b3 := l3 ht; omega)
              | (have b4 := l4 ht; omega))
  · simp only [hr, if_false] at h ⊢
    cases ht : c.wk_type <;> rw [ht] at h <;> simp only at h <;>
      (try split_ifs at h) <;> first
        | (simp [SPP_RET_NG, SPP_RET_OK] at h; done)
        | (simp only [ht]; refine ⟨?_, ?_, ?_, ?_⟩ <;> intro h2 <;>
            first
              | (exact absurd h2 (by decide))
              | (have b1 := l1 ht; omega)
              | (have b2 := l2 ht; omega)
              | (have b3 := l3 ht; omega)
              | (have b4 := l4 ht; omega))

/-- The function `delete_port_info` returns 0 only for a positive counter. -/
theorem delete_port_info_pos (p_info : Option PortPtr) (nof : Int)
    (ports : List (Option PortPtr)) (h : (delete_port_info p_info nof ports).1 = 0) :
    1 ≤ nof := by
  have hmem := (delete_port_info_spec p_info nof ports).1.mp h
  have hlen : 0 < (ports.take nof.toNat).length := List.length_pos_of_mem hmem
  rw [List.length_take] at hlen
  omega

/-- Storing a counter that is not negative keeps the counters of a worker from
being negative. -/
theorem put_ports_nonneg (rxtx : spp_port_rxtx) (c : sppwk_comp_info) (n : Int)
    (ps : List (Option PortPtr)) (h0 : 0 ≤ c.nof_rx) (h1 : 0 ≤ c.nof_tx) (hn : 0 ≤ n) :
    0 ≤ (put_ports rxtx c n ps).nof_rx ∧ 0 ≤ (put_ports rxtx c n ps).nof_tx := by
  unfold put_ports
  split_ifs
  · exact ⟨hn, h1⟩
  · exact ⟨h0, hn⟩

/-- Lowering or keeping the selected counter keeps the counters within the limit. -/
theorem within_limits_put_le (c : sppwk_comp_info) (rxtx : spp_port_rxtx) (n : Int)
    (ps : List (Option PortPtr)) (h : within_limits c) (hn : n ≤ sel_nof rxtx c) :
    within_limits (put_ports rxtx c n ps) := by
  unfold within_limits put_ports at *
  unfold sel_nof at hn
  obtain ⟨h1, h2, h3, h4⟩ := h
  by_cases hr : rxtx = SPP_PORT_RXTX_RX
  · simp only [hr, if_true] at hn ⊢
    exact ⟨fun h => ⟨by have := h1 h; omega, (h1 h).2⟩, h2, fun h => by have := h3 h; omega,
      fun h => ⟨by have := h4 h; omega, (h4 h).2⟩⟩
  · simp only [hr, if_false] at hn ⊢
    exact ⟨fun h => ⟨(h1 h).1, by have := h1 h; omega⟩, fun h => by have := h2 h; omega, h3,
      fun h => ⟨(h4 h).1, by have := h4 h; omega⟩⟩

/-- The worker type is not touched by `put_ports`. -/
theorem put_ports_wk_type (rxtx : spp_port_rxtx) (c : sppwk_comp_info) (n : Int)
    (ps : List (Option PortPtr)) : (put_ports rxtx c n ps).wk_type = c.wk_type := by
  unfold put_ports; split <;> rfl

/-- One `update_port` call keeps the type of every worker, keeps its counters
from being negative and keeps them within the limit of the type. -/
theorem update_port_limits (env : Env) (wk_action : sppwk_action) (port : sppwk_port_idx)
    (rxtx : spp_port_rxtx) (name : String) (ability : spp_port_ability) (m : MngData)
    (r : Int) (m1 : MngData)
    (h : update_port env wk_action port rxtx name ability m = some (r, m1))
    (w : Nat) (t : sppwk_worker_type)
    (hinv : ∃ c, m.comp_info[w]? = some c ∧ c.wk_type = t ∧ within_limits c ∧
      0 ≤ c.nof_rx ∧ 0 ≤ c.nof_tx) :
    ∃ c, m1.comp_info[w]? = some c ∧ c.wk_type = t ∧ within_limits c ∧
      0 ≤ c.nof_rx ∧ 0 ≤ c.nof_tx := by
  obtain ⟨c0, hc0, ht, hlim, hrx, htx⟩ := hinv
  have hw : w < m.comp_info.length := (List.getElem?_eq_some_iff.mp hc0).1
  rcases update_port_cases env wk_action port rxtx name ability m r m1 h with h1 | h1
  · rw [h1]; exact ⟨c0, hc0, ht, hlim, hrx, htx⟩
  · obtain ⟨wid, c, p, pinfo, _, hc, _, _, hcase⟩ := h1
    rcases hcase with ⟨_, _, _, _, hm⟩ | ⟨_, hcount, _, hsel, _, _, hm⟩ | ⟨_, hm⟩
    · rw [hm]
      simp only [set_change_component, write_port_comp_info]
      exact ⟨c0, hc0, ht, hlim, hrx, htx⟩
    · rw [hm]
      simp only [set_change_component]
      by_cases hww : w = wid
      · subst hww
        rw [hc0] at hc
        simp only [Option.some.injEq] at hc
        subst hc
        exact ⟨_, List.getElem?_set_self hw, (put_ports_wk_type _ _ _ _).trans ht,
          check_port_count_ok c0 rxtx _ _ hcount rfl hlim hrx htx,
          put_ports_nonneg rxtx c0 _ _ hrx htx (by omega)⟩
      · rw [List.getElem?_set_ne (Ne.symm hww)]
        exact ⟨c0, hc0, ht, hlim, hrx, htx⟩
    · rw [hm]
      simp only [set_change_component]
      by_cases hww : w = wid
      · subst hww
        rw [hc0] at hc
        simp only [Option.some.injEq] at hc
        subst hc
        have hsel : 0 ≤ sel_nof rxtx c0 := by
          unfold sel_nof; split_ifs
          · exact hrx
          · exact htx
        refine ⟨_, List.getElem?_set_self hw, (put_ports_wk_type _ _ _ _).trans ht,
          within_limits_put_le c0 rxtx _ _ hlim ?_, put_ports_nonneg rxtx c0 _ _ hrx htx ?_⟩
        · split_ifs <;> omega
        · split_ifs with h3
          · have := delete_port_info_pos _ _ _ h3; omega
          · exact hsel
      · rw [List.getElem?_set_ne (Ne.symm hww)]
        exact ⟨c0, hc0, ht, hlim, hrx, htx⟩

/-- `update_port` leaves the lcore records and their change flags alone. -/
theorem update_port_core (env : Env) (wk_action : sppwk_action) (port : sppwk_port_idx)
    (rxtx : spp_port_rxtx) (name : String) (ability : spp_port_ability) (m : MngData)
    (r : Int) (m1 : MngData)
    (h : update_port env wk_action port rxtx name ability m = some (r, m1)) :
    m1.core_info = m.core_info ∧ m1.change_core = m.change_core := by
  rcases update_port_cases env wk_action port rxtx name ability m r m1 h with h1 | h1
  · rw [h1]; exact ⟨rfl, rfl⟩
  · obtain ⟨wid, c, p, pinfo, _, _, _, _, hcase⟩ := h1
    rcases hcase with ⟨_, _, _, _, hm⟩ | ⟨_, _, _, _, _, _, hm⟩ | ⟨_, hm⟩ <;>
      (rw [hm]; simp only [set_change_component]; exact write_port_core m p _)

/-- `update_cls_table` leaves the lcore records and their change flags alone. -/
theorem update_cls_table_core (env : Env) (a : sppwk_action) (t : spp_classifier_type)
    (vid : Int) (mac_str : String) (port : sppwk_port_idx) (m : MngData) (r : Int)
    (m1 : MngData) (h : update_cls_table env a t vid mac_str port m = some (r, m1)) :
    m1.core_info = m.core_info ∧ m1.change_core = m.change_core := by
  unfold update_cls_table at h
  simp only at h
  have hng : ∀ {x : Int}, some (x, m) = some (r, m1) →
      m1.core_info = m.core_info ∧ m1.change_core = m.change_core := by
    intro x hx
    simp only [Option.some.injEq, Prod.mk.injEq] at hx
    rw [← hx.2]; exact ⟨rfl, rfl⟩
  have hok : ∀ {x : Int} (p : PortPtr) (v : sppwk_port_info),
      some (x, set_component_change_port (write_port m p v) p SPP_PORT_RXTX_TX) = some (r, m1) →
      m1.core_info = m.core_info ∧ m1.change_core = m.change_core := by
    intro x p v hx
    simp only [Option.some.injEq, Prod.mk.injEq] at hx
    rw [← hx.2]
    simp only [set_component_change_port]
    exact write_port_core m p v
  split at h
  · exact hng h
  · split at h
    · exact hng h
    · split at h
      · simp at h
      · split at h
        · exact hng h
        · cases a <;> simp only at h
          · simp only [Option.some.injEq, Prod.mk.injEq] at h
            rw [← h.2]; exact ⟨rfl, rfl⟩
          · simp only [Option.some.injEq, Prod.mk.injEq] at h
            rw [← h.2]; exact ⟨rfl, rfl⟩
          · simp only [Option.some.injEq, Prod.mk.injEq] at h
            rw [← h.2]; exact ⟨rfl, rfl⟩
          · split_ifs at h
            · exact hng h
            · exact hng h
            · exact hok _ _ h
          · split_ifs at h
            · exact hng h
            · exact hng h
            · exact hok _ _ h

/-- What `update_comp` does to the lcore records: nothing, or it writes the
staging side of one record. -/
theorem update_comp_core_info (env : Env) (a : sppwk_action) (name : String) (lcore_id : Nat)
    (wk_type : sppwk_worker_type) (s : St) (r : Int) (s1 : St)
    (h : update_comp env a name lcore_id wk_type s = some (r, s1)) :
    s1.mng.core_info = s.mng.core_info ∨
    ∃ (L : Nat) (info : core_mng_info) (core1 : core_info),
      s.mng.core_info[L]? = some info ∧
      s1.mng.core_info = s.mng.core_info.set L
        { info with core := info.core.set info.upd_index core1 } := by
  unfold update_comp at h
  cases a <;> simp only at h
  · simp only [Option.some.injEq, Prod.mk.injEq] at h; rw [← h.2]; exact Or.inl rfl
  · -- START
    split at h
    · simp at h
    · rename_i info hinfo
      split_ifs at h
      · simp only [Option.some.injEq, Prod.mk.injEq] at h; rw [← h.2]; exact Or.inl rfl
      · simp only [Option.some.injEq, Prod.mk.injEq] at h; rw [← h.2]; exact Or.inl rfl
      · simp only [Option.some.injEq, Prod.mk.injEq] at h; rw [← h.2]; exact Or.inl rfl
      · split at h
        · split_ifs at h
          simp only [Option.some.injEq, Prod.mk.injEq] at h
          rw [← h.2]
          exact Or.inr ⟨lcore_id, info, _, hinfo, rfl⟩
        · simp at h
  · -- STOP
    split_ifs at h
    · simp only [Option.some.injEq, Prod.mk.injEq] at h; rw [← h.2]; exact Or.inl rfl
    · split at h
      · simp at h
      · split at h
        · simp at h
        · rename_i old _ _ info hinfo
          split at h
          · simp at h
          · simp only [Option.some.injEq, Prod.mk.injEq] at h
            rw [← h.2]
            exact Or.inr ⟨old.lcore_id, info, _, hinfo, rfl⟩
  · simp only [Option.some.injEq, Prod.mk.injEq] at h; rw [← h.2]; exact Or.inl rfl
  · simp only [Option.some.injEq, Prod.mk.injEq] at h; rw [← h.2]; exact Or.inl rfl

/-- Writing the entry after the first `n` and reading the first `n + 1`. -/
theorem take_set_succ_ports (l : List (Option PortPtr)) (n : Nat) (x : Option PortPtr)
    (h : n < l.length) : (l.set n x).take (n + 1) = l.take n ++ [x] := by
  rw [List.take_succ, List.getElem?_set_self h, List.set_take,
    List.set_eq_of_length_le (by simp)]
  rfl

/-- A worker stays in order when the selected side is replaced by a list in
order. -/
theorem attached_ok_put (R : PortPtr → Prop) (rxtx : spp_port_rxtx) (c : sppwk_comp_info)
    (n : Int) (ps : List (Option PortPtr)) (h : attached_ok R c) (hn : n.toNat ≤ ps.length)
    (hps : ∀ e ∈ ps.take n.toNat, ∃ p, e = some p ∧ R p) :
    attached_ok R (put_ports rxtx c n ps) := by
  obtain ⟨h1, h2, h3⟩ := h
  unfold attached_ok attached put_ports at *
  by_cases hr : rxtx = SPP_PORT_RXTX_RX
  · simp only [hr, if_true]
    refine ⟨hn, h2, fun e he => ?_⟩
    rcases List.mem_append.mp he with he | he
    · exact hps e he
    · exact h3 e (List.mem_append_right _ he)
  · simp only [hr, if_false]
    refine ⟨h1, hn, fun e he => ?_⟩
    rcases List.mem_append.mp he with he | he
    · exact h3 e (List.mem_append_left _ he)
    · exact hps e he

/-- The ports on the selected side of a worker in order satisfy the condition. -/
theorem attached_ok_sel (R : PortPtr → Prop) (rxtx : spp_port_rxtx) (c : sppwk_comp_info)
    (h : attached_ok R c) :
    (sel_nof rxtx c).toNat ≤ (sel_ports rxtx c).length ∧
    ∀ e ∈ (sel_ports rxtx c).take (sel_nof rxtx c).toNat, ∃ p, e = some p ∧ R p := by
  obtain ⟨h1, h2, h3⟩ := h
  unfold attached at h3
  unfold sel_nof sel_ports
  by_cases hr : rxtx = SPP_PORT_RXTX_RX
  · simp only [hr, if_true]
    exact ⟨h1, fun e he => h3 e (List.mem_append_left _ he)⟩
  · simp only [hr, if_false]
    exact ⟨h2, fun e he => h3 e (List.mem_append_right _ he)⟩

/-- The condition on the attached ports may be weakened. -/
theorem attached_ok_mono (R R1 : PortPtr → Prop) (c : sppwk_comp_info)
    (h : attached_ok R c) (hR : ∀ p, R p → R1 p) : attached_ok R1 c := by
  obtain ⟨h1, h2, h3⟩ := h
  refine ⟨h1, h2, fun e he => ?_⟩
  obtain ⟨p, hp, hRp⟩ := h3 e he
  exact ⟨p, hp, hR p hRp⟩

/-- What `delete_port_info` leaves among the first entries was there before. -/
theorem delete_port_info_take (p_info : Option PortPtr) (nof : Int)
    (ports : List (Option PortPtr)) (hcap : nof.toNat ≤ ports.length) :
    ((delete_port_info p_info nof ports).1 = 0 →
      (nof - 1).toNat ≤ (delete_port_info p_info nof ports).2.length ∧
      ∀ e ∈ (delete_port_info p_info nof ports).2.take (nof - 1).toNat,
        e ∈ ports.take nof.toNat) ∧
    ((delete_port_info p_info nof ports).1 ≠ 0 →
      (delete_port_info p_info nof ports).2 = ports) := by
  unfold delete_port_info
  simp only
  split_ifs with h
  · exact ⟨fun h1 => by simp at h1, fun _ => rfl⟩
  · refine ⟨fun _ => ?_, fun h1 => absurd rfl h1⟩
    have hidx : (get_idx_port_info p_info nof ports).toNat < (ports.take nof.toNat).length := by
      unfold get_idx_port_info at h ⊢
      simp only at h ⊢
      split_ifs at h ⊢ with h2
      · simp only [Int.toNat_ofNat]
        exact h2
      · simp [SPP_RET_NG] at h
    have hlen : ((ports.take nof.toNat).eraseIdx (get_idx_port_info p_info nof ports).toNat).length
        = (nof - 1).toNat := by
      rw [List.length_eraseIdx_of_lt hidx, List.length_take, Nat.min_eq_left hcap]
      omega
    constructor
    · simp only [List.length_append, hlen, List.length_drop, List.length_cons, List.length_nil]
      omega
    · intro e he
      rw [List.append_assoc, ← hlen, List.take_left] at he
      exact List.mem_of_mem_eraseIdx he

/-- Writing a port record whose kind is kept or is not `UNDEF` keeps the bound
ports bound. -/
theorem bound_port_write (m : MngData) (p0 : PortPtr) (pinfo v : sppwk_port_info)
    (hr : read_port m p0 = some pinfo)
    (hv : v.iface_type = pinfo.iface_type ∨ v.iface_type ≠ UNDEF) (q : PortPtr)
    (h : bound_port m q) : bound_port (write_port m p0 v) q := by
  obtain ⟨qinfo, hq, hk⟩ := h
  by_cases hqp : q = p0
  · subst hqp
    refine ⟨v, read_write_port_same m q v pinfo hr, ?_⟩
    rcases hv with hv | hv
    · rw [hv]
      rw [hr] at hq
      simp only [Option.some.injEq] at hq
      rw [hq]; exact hk
    · exact hv
  · exact ⟨qinfo, by rw [read_write_port_other m p0 q v hqp]; exact hq, hk⟩

/-- One `update_port` call with a port kind other than `UNDEF` keeps every
attached port bound. -/
theorem update_port_attached (env : Env) (wk_action : sppwk_action) (port : sppwk_port_idx)
    (rxtx : spp_port_rxtx) (name : String) (ability : spp_port_ability) (m : MngData)
    (r : Int) (m1 : MngData)
    (h : update_port env wk_action port rxtx name ability m = some (r, m1))
    (hkind : port.iface_type ≠ UNDEF)
    (hinv : ∀ c ∈ m.comp_info, attached_ok (bound_port m) c) :
    ∀ c ∈ m1.comp_info, attached_ok (bound_port m1) c := by
  rcases update_port_cases env wk_action port rxtx name ability m r m1 h with h1 | h1
  · rw [h1]; exact hinv
  · obtain ⟨wid, c0, p, pinfo, _, hc0, _, hr, hcase⟩ := h1
    have hc0mem : c0 ∈ m.comp_info := List.getElem?_mem hc0
    rcases hcase with ⟨_, _, _, _, hm⟩ | ⟨_, _, _, hnof0, hnof, _, hm⟩ | ⟨_, hm⟩
    · -- overwrite of a slot
      have hR : ∀ q, bound_port m q → bound_port m1 q := by
        intro q hq
        obtain ⟨qi, h1, h2⟩ := bound_port_write m p pinfo
          { pinfo with
            ability := pinfo.ability.set
              (scan_ability SPPWK_PORT_ABL_OPS_ADD_VLANTAG pinfo.ability
                env.SPP_PORT_ABILITY_MAX env.SPP_PORT_ABILITY_MAX 0) ability }
          hr (Or.inl rfl) q hq
        exact ⟨qi, by rw [hm, read_port_flag]; exact h1, h2⟩
      intro c hc
      have hc1 : c ∈ m.comp_info := by
        rw [hm] at hc
        simpa [set_change_component, write_port_comp_info] using hc
      exact attached_ok_mono _ _ c (hinv c hc1) hR
    · -- attachment
      have hR : ∀ q, bound_port m q → bound_port m1 q := by
        intro q hq
        obtain ⟨qi, h1, h2⟩ := bound_port_write m p pinfo
          { pinfo with
            ability :=
              if ability.ops ≠ SPPWK_PORT_ABL_OPS_NONE then
                pinfo.ability.set
                  (scan_ability SPPWK_PORT_ABL_OPS_NONE pinfo.ability
                    env.SPP_PORT_ABILITY_MAX env.SPP_PORT_ABILITY_MAX 0) ability
              else pinfo.ability,
            iface_type := port.iface_type } hr (Or.inr hkind) q hq
        exact ⟨qi, by rw [hm, read_port_after]; exact h1, h2⟩
      have hp1 : bound_port m1 p :=
        ⟨_, by rw [hm, read_port_after]; exact read_write_port_same m p _ pinfo hr, hkind⟩
      intro c hc
      rw [hm] at hc
      simp only [set_change_component] at hc
      rcases List.mem_or_eq_of_mem_set hc with hc | hc
      · exact attached_ok_mono _ _ c (hinv c hc) hR
      · rw [hc]
        have h0 := attached_ok_mono _ _ c0 (hinv c0 hc0mem) hR
        obtain ⟨_, hsel⟩ := attached_ok_sel _ rxtx c0 h0
        have hn1 : (sel_nof rxtx c0 + 1).toNat = (sel_nof rxtx c0).toNat + 1 := by omega
        refine attached_ok_put _ rxtx c0 _ _ h0 ?_ ?_
        · rw [List.length_set]; omega
        · intro e he
          rw [hn1, take_set_succ_ports _ _ _ hnof] at he
          rcases List.mem_append.mp he with he | he
          · exact hsel e he
          · simp only [List.mem_singleton] at he
            exact ⟨p, he, hp1⟩
    · -- DEL
      have hR : ∀ q, bound_port m q → bound_port m1 q := by
        intro q hq
        obtain ⟨qi, h1, h2⟩ := bound_port_write m p pinfo
          { pinfo with
            ability := clear_abilities rxtx env.SPP_PORT_ABILITY_MAX 0 pinfo.ability }
          hr (Or.inl rfl) q hq
        exact ⟨qi, by rw [hm, read_port_after]; exact h1, h2⟩
      intro c hc
      rw [hm] at hc
      simp only [set_change_component] at hc
      rcases List.mem_or_eq_of_mem_set hc with hc | hc
      · exact attached_ok_mono _ _ c (hinv c hc) hR
      · rw [hc]
        have h0 := attached_ok_mono _ _ c0 (hinv c0 hc0mem) hR
        obtain ⟨hcap, hsel⟩ := attached_ok_sel _ rxtx c0 h0
        obtain ⟨hd0, hd1⟩ := delete_port_info_take (some p) (sel_nof rxtx c0)
          (sel_ports rxtx c0) hcap
        by_cases hdel : (delete_port_info (some p) (sel_nof rxtx c0) (sel_ports rxtx c0)).1 = 0
        · rw [if_pos hdel]
          exact attached_ok_put _ rxtx c0 _ _ h0 (hd0 hdel).1
            (fun e he => hsel e ((hd0 hdel).2 e he))
        · rw [if_neg hdel, hd1 hdel]
          exact attached_ok_put _ rxtx c0 _ _ h0 hcap hsel

/-- Counting after one entry was written. -/
theorem countP_set_ability (f : spp_port_ability → Bool) (a : spp_port_ability) :
    ∀ (l : List spp_port_ability) (i : Nat),
      (l.set i a).countP f + (if f (l.getD i zero_ability) = true ∧ i < l.length then 1 else 0)
        = l.countP f + (if f a = true ∧ i < l.length then 1 else 0)
  | [], i => by simp
  | b :: l, 0 => by
    simp only [List.set_cons_zero, List.countP_cons, List.getD_cons_zero, List.length_cons,
      Nat.zero_lt_succ, and_true]
    omega
  | b :: l, i + 1 => by
    have ih := countP_set_ability f a l i
    simp only [List.set_cons_succ, List.countP_cons, List.getD_cons_succ, List.length_cons,
      Nat.add_lt_add_iff_right] at ih ⊢
    omega

/-- Writing an entry adds at most one to the count. -/
theorem countP_set_le_succ (f : spp_port_ability → Bool) (a : spp_port_ability)
    (l : List spp_port_ability) (i : Nat) : (l.set i a).countP f ≤ l.countP f + 1 := by
  have h := countP_set_ability f a l i
  split_ifs at h <;> omega

/-- Writing an entry that does not count, or over one that counts, adds nothing
to the count. -/
theorem countP_set_le (f : spp_port_ability → Bool) (a : spp_port_ability)
    (l : List spp_port_ability) (i : Nat)
    (h : f a = false ∨ f (l.getD i zero_ability) = true) :
    (l.set i a).countP f ≤ l.countP f := by
  have h1 := countP_set_ability f a l i
  rcases h with h | h
  · simp only [h, Bool.false_eq_true, false_and, if_false] at h1
    omega
  · simp only [h, true_and] at h1
    split_ifs at h1 <;> omega

/-- The loop of the DEL case adds no `ADD_VLANTAG` slot. -/
theorem clear_abilities_countP (rxtx : spp_port_rxtx) (fuel : Nat) :
    ∀ (cnt : Nat) (ability : List spp_port_ability),
      (clear_abilities rxtx fuel cnt ability).countP
          (fun a => decide (a.ops = SPPWK_PORT_ABL_OPS_ADD_VLANTAG)) ≤
        ability.countP (fun a => decide (a.ops = SPPWK_PORT_ABL_OPS_ADD_VLANTAG)) := by
  induction fuel with
  | zero => intro cnt ability; exact le_refl _
  | succ n ih =>
    intro cnt ability
    simp only [clear_abilities]
    split_ifs
    · exact ih _ _
    · exact le_trans (ih _ _) (countP_set_le _ _ _ _ (Or.inl (by decide)))
    · exact ih _ _

/-- A record that can be read is in one of the three port tables. -/
theorem read_port_mem (m : MngData) (q : PortPtr) (qinfo : sppwk_port_info)
    (h : read_port m q = some qinfo) : qinfo ∈ m.nic ++ m.vhost ++ m.ring := by
  obtain ⟨k, n⟩ := q
  cases k <;> simp only [read_port, port_table] at h
  · exact List.mem_append_left _ (List.mem_append_left _ (List.getElem?_mem h))
  · exact List.mem_append_left _ (List.mem_append_right _ (List.getElem?_mem h))
  · exact List.mem_append_right _ (List.getElem?_mem h)
  · simp at h

/-- One `update_port` call that does not attach a port holding an `ADD_VLANTAG`
slot with that op keeps every port at one such slot at most. -/
theorem update_port_vlan_slots (env : Env) (wk_action : sppwk_action) (port : sppwk_port_idx)
    (rxtx : spp_port_rxtx) (name : String) (ability : spp_port_ability) (m : MngData)
    (r : Int) (m1 : MngData)
    (h : update_port env wk_action port rxtx name ability m = some (r, m1))
    (hQ : vlan_attach_once wk_action port rxtx name ability m)
    (hinv : ∀ q qinfo, read_port m q = some qinfo → vlan_slots qinfo ≤ 1) :
    ∀ q qinfo, read_port m1 q = some qinfo → vlan_slots qinfo ≤ 1 := by
  rcases update_port_cases env wk_action port rxtx name ability m r m1 h with h1 | h1
  · rw [h1]; exact hinv
  · obtain ⟨wid, c0, p, pinfo, hw, hc0, hp, hr, hcase⟩ := h1
    have key : ∀ (v : sppwk_port_info) (mw : MngData),
        (∀ q, read_port mw q = read_port (write_port m p v) q) → vlan_slots v ≤ 1 →
        ∀ q qinfo, read_port mw q = some qinfo → vlan_slots qinfo ≤ 1 := by
      intro v mw hmw hv q qinfo hq
      rw [hmw] at hq
      by_cases hqp : q = p
      · subst hqp
        rw [read_write_port_same m q v pinfo hr] at hq
        simp only [Option.some.injEq] at hq
        rw [← hq]; exact hv
      · rw [read_write_port_other m p q v hqp] at hq
        exact hinv q qinfo hq
    have hpin := hinv p pinfo hr
    obtain ⟨_, _, _, h4⟩ := scan_ability_spec SPPWK_PORT_ABL_OPS_ADD_VLANTAG pinfo.ability
      env.SPP_PORT_ABILITY_MAX env.SPP_PORT_ABILITY_MAX 0 (Nat.zero_le _) (by omega)
    rcases hcase with ⟨_, _, hcnt, _, hm⟩ | ⟨ha, _, hnew, _, _, _, hm⟩ | ⟨_, hm⟩
    · rw [hm]
      refine key _ _ (fun q => read_port_flag _ _ _ q) ?_
      exact le_trans (countP_set_le _ _ _ _ (Or.inr (by simpa using h4 hcnt))) hpin
    · rw [hm]
      refine key _ _ (fun q => read_port_after _ _ _ _ q) ?_
      unfold vlan_slots at hpin ⊢
      simp only
      split_ifs with hops
      · by_cases hv : ability.ops = SPPWK_PORT_ABL_OPS_ADD_VLANTAG
        · have h0 : vlan_slots pinfo = 0 := hQ.2 ha hv wid c0 p pinfo hw hc0 hp hr hnew
          unfold vlan_slots at h0
          exact le_trans (countP_set_le_succ _ _ _ _) (by omega)
        · exact le_trans (countP_set_le _ _ _ _ (Or.inl (by simpa using hv))) hpin
      · exact hpin
    · rw [hm]
      refine key _ _ (fun q => read_port_after _ _ _ _ q) ?_
      exact le_trans (clear_abilities_countP rxtx _ 0 pinfo.ability) hpin

/-- A port without abilities has no `ADD_VLANTAG` slot. -/
theorem no_ability_vlan_slots (m : MngData) (h : no_ability m) (q : PortPtr)
    (qinfo : sppwk_port_info) (hq : read_port m q = some qinfo) : vlan_slots qinfo = 0 := by
  unfold vlan_slots
  rw [List.countP_eq_zero]
  intro a ha
  rw [h qinfo (read_port_mem m q qinfo hq) a ha]
  decide

/-! ## Lemmas: workers and the id lists of the lcores -/

/-- The record `get_free_lcore_id` finds has no worker type. -/
theorem get_free_lcore_id_free (m : MngData) (wid : Nat) (c : sppwk_comp_info)
    (h : get_free_lcore_id m = (wid : Int)) (hc : m.comp_info[wid]? = some c) :
    c.wk_type = SPPWK_TYPE_NONE := by
  unfold get_free_lcore_id at h
  simp only at h
  split_ifs at h with h2
  · have hw : List.findIdx (fun c => decide (c.wk_type = SPPWK_TYPE_NONE)) m.comp_info = wid := by
      exact_mod_cast h
    have := @List.findIdx_getElem _ (fun c => decide (c.wk_type = SPPWK_TYPE_NONE))
      m.comp_info h2
    simp only [decide_eq_true_eq] at this
    have hget : m.comp_info[wid]? = some (m.comp_info[List.findIdx
        (fun c => decide (c.wk_type = SPPWK_TYPE_NONE)) m.comp_info]) := by
      rw [← hw]; exact List.getElem?_eq_getElem h2
    rw [hc] at hget
    simp only [Option.some.injEq] at hget
    rw [hget]; exact this
  · simp [SPP_RET_NG] at h

/-- The ways in which a START or a STOP returns: without a change of the
management data, or after the writes of the START or of the STOP case. -/
theorem update_comp_cases (env : Env) (a : sppwk_action) (name : String) (lcore_id : Nat)
    (wk_type : sppwk_worker_type) (s : St) (r : Int) (s1 : St)
    (ha : a = SPPWK_ACT_START ∨ a = SPPWK_ACT_STOP)
    (h : update_comp env a name lcore_id wk_type s = some (r, s1)) :
    s1.mng = s.mng ∨
    (∃ (wid : Nat) (info : core_mng_info) (core : core_info) (old : sppwk_comp_info),
      a = SPPWK_ACT_START ∧ s.mng.core_info[lcore_id]? = some info ∧
      get_free_lcore_id s.mng = (wid : Int) ∧ info.core[info.upd_index]? = some core ∧
      s.mng.comp_info[wid]? = some old ∧ 0 ≤ core.num ∧ core.num.toNat < core.id.length ∧
      s1.mng = set_change_core (set_change_component
        (put_core
          { s.mng with
            comp_info := s.mng.comp_info.set wid
              ({ zero_comp_info old with
                 name := name, wk_type := wk_type, lcore_id := lcore_id,
                 comp_id := wid } : sppwk_comp_info) }
          lcore_id info ⟨core.num + 1, core.id.set core.num.toNat wid⟩)
        wid 1) lcore_id) ∨
    (∃ (wid : Nat) (info : core_mng_info) (core : core_info) (old : sppwk_comp_info),
      a = SPPWK_ACT_STOP ∧ sppwk_get_lcore_id s.mng name = (wid : Int) ∧
      s.mng.comp_info[wid]? = some old ∧ s.mng.core_info[old.lcore_id]? = some info ∧
      info.core[info.upd_index]? = some core ∧
      s1.mng = set_change_core (set_change_component
        (put_core
          { s.mng with comp_info := s.mng.comp_info.set wid (zero_comp_info old) }
          old.lcore_id info
          ⟨if (del_comp_info wid core.num core.id).1 ≥ 0 then core.num - 1 else core.num,
            (del_comp_info wid core.num core.id).2⟩)
        wid 0) old.lcore_id) := by
  unfold update_comp at h
  rcases ha with ha | ha <;> subst ha <;> simp only at h
  · -- START
    split at h
    · simp at h
    · rename_i info hinfo
      split_ifs at h with h1 h2 h3
      · simp only [Option.some.injEq, Prod.mk.injEq] at h; rw [← h.2]; exact Or.inl rfl
      · simp only [Option.some.injEq, Prod.mk.injEq] at h; rw [← h.2]; exact Or.inl rfl
      · simp only [Option.some.injEq, Prod.mk.injEq] at h; rw [← h.2]; exact Or.inl rfl
      · have hw : get_free_lcore_id s.mng = ((get_free_lcore_id s.mng).toNat : Int) :=
          (Int.toNat_of_nonneg (by omega)).symm
        split at h
        · rename_i core old hcore hold
          split_ifs at h with h4
          simp only [Option.some.injEq, Prod.mk.injEq] at h
          refine Or.inr (Or.inl ⟨_, info, core, old, rfl, hinfo, hw, hcore, hold, by omega,
            by omega, ?_⟩)
          rw [← h.2, ← hw]
        · simp at h
  · -- STOP
    split_ifs at h with h1
    · simp only [Option.some.injEq, Prod.mk.injEq] at h; rw [← h.2]; exact Or.inl rfl
    · have hw : sppwk_get_lcore_id s.mng name = ((sppwk_get_lcore_id s.mng name).toNat : Int) :=
        (Int.toNat_of_nonneg (by omega)).symm
      split at h
      · simp at h
      · rename_i old hold
        split at h
        · simp at h
        · rename_i info hinfo
          split at h
          · simp at h
          · rename_i core hcore
            simp only [Option.some.injEq, Prod.mk.injEq] at h
            refine Or.inr (Or.inr ⟨_, info, core, old, rfl, hw, hold, hinfo, hcore, ?_⟩)
            rw [← h.2, ← hw]

/-- The staging list of the lcore of a stopped worker: the id is erased from
its entries, and `num` stays within the list. -/
theorem stop_core_staging (wid : Int) (core : core_info) (h0 : 0 ≤ core.num)
    (hcap : core.num.toNat ≤ core.id.length) :
    0 ≤ (if (del_comp_info wid core.num core.id).1 ≥ 0 then core.num - 1 else core.num) ∧
    (if (del_comp_info wid core.num core.id).1 ≥ 0 then core.num - 1 else core.num).toNat ≤
      (del_comp_info wid core.num core.id).2.length ∧
    (del_comp_info wid core.num core.id).2.take
        (if (del_comp_info wid core.num core.id).1 ≥ 0 then core.num - 1 else core.num).toNat =
      (core.id.take core.num.toNat).erase wid := by
  by_cases hmem : wid ∈ core.id.take core.num.toNat
  · rw [(del_comp_info_spec wid core.num core.id).1 hmem]
    have hpos : 0 < (core.id.take core.num.toNat).length := List.length_pos_of_mem hmem
    have hlt : (core.id.take core.num.toNat).length = core.num.toNat := by
      rw [List.length_take, Nat.min_eq_left hcap]
    have hlen : ((core.id.take core.num.toNat).erase wid).length = (core.num - 1).toNat := by
      rw [List.length_erase_of_mem hmem, hlt]; omega
    simp only [ge_iff_le, le_refl, if_true]
    refine ⟨by omega, ?_, ?_⟩
    · simp only [List.length_append, hlen, List.length_drop, List.length_cons, List.length_nil]
      omega
    · rw [List.append_assoc, ← hlen, List.take_left]
  · rw [(del_comp_info_spec wid core.num core.id).2 hmem]
    simp only [ge_iff_le, Int.reduceNeg, Left.nonneg_neg_iff, Int.reduceLE, if_false]
    exact ⟨h0, hcap, (List.erase_of_not_mem hmem).symm⟩

/-- A START with a worker type and a STOP keep the id lists in agreement with
the worker records. -/
theorem update_comp_pinned (env : Env) (a : sppwk_action) (name : String) (lcore_id : Nat)
    (wk_type : sppwk_worker_type) (s : St) (r : Int) (s1 : St)
    (ha : a = SPPWK_ACT_START ∨ a = SPPWK_ACT_STOP)
    (ht : a = SPPWK_ACT_START → wk_type ≠ SPPWK_TYPE_NONE)
    (h : update_comp env a name lcore_id wk_type s = some (r, s1))
    (hinv : pinned_ok s.mng) : pinned_ok s1.mng := by
  rcases update_comp_cases env a name lcore_id wk_type s r s1 ha h with h1 | h1 | h1
  · rw [h1]; exact hinv
  · -- START
    obtain ⟨wid, info0, core0, old, hst, hinfo0, hfree, hcore0, hold, hnum0, hnum, hm⟩ := h1
    have hfreet := get_free_lcore_id_free s.mng wid old hfree hold
    have hwid : wid < s.mng.comp_info.length := (List.getElem?_eq_some_iff.mp hold).1
    have hL0 : lcore_id < s.mng.core_info.length := (List.getElem?_eq_some_iff.mp hinfo0).1
    have hu : info0.upd_index < info0.core.length := (List.getElem?_eq_some_iff.mp hcore0).1
    obtain ⟨_, _, hnd0, hiff0⟩ := hinv lcore_id info0 core0 hinfo0 hcore0
    have hci : s1.mng.comp_info = s.mng.comp_info.set wid
        ({ zero_comp_info old with
           name := name, wk_type := wk_type, lcore_id := lcore_id,
           comp_id := wid } : sppwk_comp_info) := by rw [hm]; rfl
    have hco : s1.mng.core_info = s.mng.core_info.set lcore_id
        { info0 with
          core := info0.core.set info0.upd_index
            (⟨core0.num + 1, core0.id.set core0.num.toNat wid⟩ : core_info) } := by
      rw [hm]; rfl
    intro L info core hinfo hcore
    rw [hco] at hinfo
    by_cases hL : L = lcore_id
    · subst hL
      rw [List.getElem?_set_self hL0] at hinfo
      simp only [Option.some.injEq] at hinfo
      subst hinfo
      simp only at hcore
      rw [List.getElem?_set_self hu] at hcore
      simp only [Option.some.injEq] at hcore
      subst hcore
      simp only
      have hn1 : (core0.num + 1).toNat = core0.num.toNat + 1 := by omega
      have hnotin : (wid : Int) ∉ core0.id.take core0.num.toNat := by
        intro hin
        obtain ⟨w, c, hx, hc, hu1, _⟩ := (hiff0 wid).mp hin
        have : w = wid := by exact_mod_cast hx.symm
        subst this
        rw [hold] at hc
        simp only [Option.some.injEq] at hc
        subst hc
        exact hu1 hfreet
      rw [hn1, take_set_succ core0.id core0.num.toNat wid hnum]
      refine ⟨by omega, by rw [List.length_set]; omega, ?_, fun x => ?_⟩
      · rw [List.nodup_append]
        refine ⟨hnd0, List.nodup_singleton _, ?_⟩
        intro y hy hy1
        simp only [List.mem_singleton] at hy1
        subst hy1
        exact hnotin hy
      · rw [hci]
        constructor
        · intro hx
          rcases List.mem_append.mp hx with hx | hx
          · obtain ⟨w, c, hxw, hc, hu1, hl⟩ := (hiff0 x).mp hx
            have hne : w ≠ wid := by
              intro he
              subst he
              rw [hold] at hc
              simp only [Option.some.injEq] at hc
              subst hc
              exact hu1 hfreet
            exact ⟨w, c, hxw, by rw [List.getElem?_set_ne (Ne.symm hne)]; exact hc, hu1, hl⟩
          · simp only [List.mem_singleton] at hx
            exact ⟨wid, _, hx, List.getElem?_set_self hwid, ht hst, rfl⟩
        · rintro ⟨w, c, hxw, hc, hu1, hl⟩
          by_cases hne : w = wid
          · subst hne
            exact List.mem_append_right _ (by simp [hxw])
          · rw [List.getElem?_set_ne (Ne.symm hne)] at hc
            exact List.mem_append_left _ ((hiff0 x).mpr ⟨w, c, hxw, hc, hu1, hl⟩)
    · rw [List.getElem?_set_ne (Ne.symm hL)] at hinfo
      obtain ⟨hb0, hb1, hnd, hiff⟩ := hinv L info core hinfo hcore
      refine ⟨hb0, hb1, hnd, fun x => ?_⟩
      rw [hiff x, hci]
      constructor
      · rintro ⟨w, c, hxw, hc, hu1, hl⟩
        have hne : w ≠ wid := by
          intro he
          subst he
          rw [hold] at hc
          simp only [Option.some.injEq] at hc
          subst hc
          exact hu1 hfreet
        exact ⟨w, c, hxw, by rw [List.getElem?_set_ne (Ne.symm hne)]; exact hc, hu1, hl⟩
      · rintro ⟨w, c, hxw, hc, hu1, hl⟩
        by_cases hne : w = wid
        · subst hne
          rw [List.getElem?_set_self hwid] at hc
          simp only [Option.some.injEq] at hc
          subst hc
          exact absurd hl.symm hL
        · rw [List.getElem?_set_ne (Ne.symm hne)] at hc
          exact ⟨w, c, hxw, hc, hu1, hl⟩
  · -- STOP
    obtain ⟨wid, info0, core0, old, _, _, hold, hinfo0, hcore0, hm⟩ := h1
    have hwid : wid < s.mng.comp_info.length := (List.getElem?_eq_some_iff.mp hold).1
    have hL0 : old.lcore_id < s.mng.core_info.length := (List.getElem?_eq_some_iff.mp hinfo0).1
    have hu : info0.upd_index < info0.core.length := (List.getElem?_eq_some_iff.mp hcore0).1
    obtain ⟨hb00, hb01, hnd0, hiff0⟩ := hinv old.lcore_id info0 core0 hinfo0 hcore0
    obtain ⟨hs0, hs1, hs2⟩ := stop_core_staging wid core0 hb00 hb01
    have hci : s1.mng.comp_info = s.mng.comp_info.set wid (zero_comp_info old) := by
      rw [hm]; rfl
    have hco : s1.mng.core_info = s.mng.core_info.set old.lcore_id
        { info0 with
          core := info0.core.set info0.upd_index
            (⟨if (del_comp_info wid core0.num core0.id).1 ≥ 0 then core0.num - 1
                else core0.num,
              (del_comp_info wid core0.num core0.id).2⟩ : core_info) } := by
      rw [hm]; rfl
    have hrec : ∀ (L : Nat) (x : Int),
        (∃ (w : Nat) (c : sppwk_comp_info), x = (w : Int) ∧
          (s.mng.comp_info.set wid (zero_comp_info old))[w]? = some c ∧
          c.wk_type ≠ SPPWK_TYPE_NONE ∧ c.lcore_id = L) ↔
        x ≠ (wid : Int) ∧ ∃ (w : Nat) (c : sppwk_comp_info), x = (w : Int) ∧
          s.mng.comp_info[w]? = some c ∧ c.wk_type ≠ SPPWK_TYPE_NONE ∧ c.lcore_id = L := by
      intro L x
      constructor
      · rintro ⟨w, c, hxw, hc, hu1, hl⟩
        have hne : w ≠ wid := by
          intro he
          subst he
          rw [List.getElem?_set_self hwid] at hc
          simp only [Option.some.injEq] at hc
          subst hc
          exact hu1 rfl
        rw [List.getElem?_set_ne (Ne.symm hne)] at hc
        exact ⟨by rw [hxw]; exact_mod_cast hne, w, c, hxw, hc, hu1, hl⟩
      · rintro ⟨hx, w, c, hxw, hc, hu1, hl⟩
        have hne : w ≠ wid := by
          intro he
          subst he
          exact hx hxw
        exact ⟨w, c, hxw, by rw [List.getElem?_set_ne (Ne.symm hne)]; exact hc, hu1, hl⟩
    intro L info core hinfo hcore
    rw [hco] at hinfo
    rw [hci]
    by_cases hL : L = old.lcore_id
    · subst hL
      rw [List.getElem?_set_self hL0] at hinfo
      simp only [Option.some.injEq] at hinfo
      subst hinfo
      simp only at hcore
      rw [List.getElem?_set_self hu] at hcore
      simp only [Option.some.injEq] at hcore
      subst hcore
      simp only
      refine ⟨hs0, hs1, ?_, fun x => ?_⟩
      · rw [hs2]; exact hnd0.erase _
      · rw [hs2, hnd0.mem_erase_iff, hrec, hiff0 x]
    · rw [List.getElem?_set_ne (Ne.symm hL)] at hinfo
      obtain ⟨hb0, hb1, hnd, hiff⟩ := hinv L info core hinfo hcore
      refine ⟨hb0, hb1, hnd, fun x => ?_⟩
      rw [hrec, hiff x]
      constructor
      · rintro ⟨w, c, hxw, hc, hu1, hl⟩
        refine ⟨?_, w, c, hxw, hc, hu1, hl⟩
        intro hx
        have : w = wid := by
          rw [hxw] at hx
          exact_mod_cast hx
        subst this
        rw [hold] at hc
        simp only [Option.some.injEq] at hc
        subst hc
        exact hL hl.symm
      · rintro ⟨_, h2⟩
        exact h2

/-- The worker records in use that are pinned to an lcore. -/
theorem mem_pinned_workers (m : MngData) (L w : Nat) :
    w ∈ pinned_workers m L ↔
      ∃ c, m.comp_info[w]? = some c ∧ c.wk_type ≠ SPPWK_TYPE_NONE ∧ c.lcore_id = L := by
  unfold pinned_workers
  rw [List.mem_filter, List.mem_range]
  constructor
  · rintro ⟨_, h2⟩
    split at h2
    · rename_i c hc
      exact ⟨c, hc, by simpa using h2⟩
    · simp at h2
  · rintro ⟨c, hc, h2⟩
    refine ⟨(List.getElem?_eq_some_iff.mp hc).1, ?_⟩
    rw [hc]
    simpa using h2

/-- In the initial state the id lists agree with the worker records. -/
theorem comp_initial_pinned (m : MngData) (h : comp_initial m) : pinned_ok m := by
  obtain ⟨h1, h2⟩ := h
  intro L info core hinfo hcore
  have hn : core.num = 0 := h2 info (List.getElem?_mem hinfo) core (List.getElem?_mem hcore)
  rw [hn]
  refine ⟨le_refl _, Nat.zero_le _, by simp, fun x => ?_⟩
  simp only [Int.toNat_zero, List.take_zero, List.not_mem_nil, false_iff]
  rintro ⟨w, c, _, hc, hu, _⟩
  exact hu (h1 c (List.getElem?_mem hc)).2

/-! ## Lemmas: response composition -/

/-- Writing at the end of the buffer appends. -/
theorem sprintf_at_end (buf text : String) : sprintf_at buf (strlen buf) text = buf ++ text := by
  apply String.ext
  rw [String.data_append]
  show buf.data.take buf.data.length ++ text.data = buf.data ++ text.data
  rw [List.take_length]

/-- A string of length 0 is the empty string. -/
theorem strlen_eq_zero (s : String) : strlen s = 0 ↔ s = "" := by
  constructor
  · intro h
    apply String.ext
    exact List.length_eq_zero.mp h
  · intro h
    rw [h]; rfl

/-- No separator is added to an empty buffer, one is added to any other. -/
theorem JSON_APPEND_COMMA_eq (s : String) :
    JSON_APPEND_COMMA (strlen s) = if s = "" then "" else ", " := by
  unfold JSON_APPEND_COMMA
  by_cases h : s = ""
  · rw [if_neg (not_not.mpr ((strlen_eq_zero s).mpr h)), if_pos h]
  · rw [if_pos (fun h1 => h ((strlen_eq_zero s).mp h1)), if_neg h]; rfl

/-- `append_json_str_value` with enough memory. -/
theorem append_json_str_value_ok (B : strbuf_ops) (hB : strbuf_ok B) (name output str : String) :
    append_json_str_value B name output str =
      (SPP_RET_OK, output ++ ((if output = "" then "" else ", ") ++ "\"" ++ name ++ "\": \"" ++
        str ++ "\"")) := by
  unfold append_json_str_value
  simp only
  rw [hB.2 output "" _ (Nat.zero_le _), String.append_empty]
  simp only
  rw [sprintf_at_end, JSON_APPEND_COMMA_eq]

/-- `append_json_array_brackets` with enough memory. -/
theorem append_json_array_brackets_ok (B : strbuf_ops) (hB : strbuf_ok B)
    (name output str : String) :
    append_json_array_brackets B name output str =
      (SPP_RET_OK, output ++ ((if output = "" then "" else ", ") ++ "\"" ++ name ++ "\": [ " ++
        str ++ " ]")) := by
  unfold append_json_array_brackets
  simp only
  rw [hB.2 output "" _ (Nat.zero_le _), String.append_empty]
  simp only
  rw [sprintf_at_end, JSON_APPEND_COMMA_eq]

/-- `append_json_block_brackets` without a name, with enough memory. -/
theorem append_json_block_brackets_noname (B : strbuf_ops) (hB : strbuf_ok B)
    (output str : String) :
    append_json_block_brackets B "" output str =
      (SPP_RET_OK, output ++ ((if output = "" then "" else ", ") ++ "\x7b " ++ str ++ " \x7d")) := by
  unfold append_json_block_brackets
  simp only
  rw [hB.2 output "" _ (Nat.zero_le _), String.append_empty]
  simp only [if_true]
  rw [sprintf_at_end, JSON_APPEND_COMMA_eq, String.append_empty]

/-- `append_json_block_brackets` with a name, with enough memory. -/
theorem append_json_block_brackets_name (B : strbuf_ops) (hB : strbuf_ok B)
    (name output str : String) (hn : name ≠ "") :
    append_json_block_brackets B name output str =
      (SPP_RET_OK, output ++ ((if output = "" then "" else ", ") ++ "\"" ++ name ++
        "\": \x7b " ++ str ++ " \x7d")) := by
  unfold append_json_block_brackets
  simp only
  rw [hB.2 output "" _ (Nat.zero_le _), String.append_empty]
  simp only
  rw [if_neg hn, sprintf_at_end, JSON_APPEND_COMMA_eq]

/-- A string that ends with a non-empty string is not empty. -/
theorem append_ne_empty (s t : String) (h : t ≠ "") : s ++ t ≠ "" := by
  intro h1
  have h2 := congrArg String.length h1
  rw [String.length_append] at h2
  have h3 : t.length = 0 := by
    have : ("" : String).length = 0 := rfl
    omega
  exact h ((strlen_eq_zero t).mp h3)

/-- `append_result_value` on an empty buffer, with enough memory. -/
theorem append_result_value_ok (B : strbuf_ops) (hB : strbuf_ok B) (res : cmd_result) :
    append_result_value B "result" "" res = (SPP_RET_OK, "\"result\": \"" ++ res.result ++ "\"") := by
  have hl : ("\"" : String) ++ "result" ++ "\": \"" = "\"result\": \"" := by decide
  unfold append_result_value
  rw [append_json_str_value_ok B hB, if_pos rfl]
  simp only [String.empty_append, hl]

/-- `append_error_details_value` on an empty buffer, with enough memory. -/
theorem append_error_details_value_ok (B : strbuf_ops) (hB : strbuf_ok B) (res : cmd_result) :
    append_error_details_value B "error_details" "" res =
      (SPP_RET_OK, if res.err_msg = "" then ""
        else "\"error_details\": \x7b " ++ ("\"message\": \"" ++ res.err_msg ++ "\"") ++ " \x7d") := by
  have hl : ("\"" : String) ++ "message" ++ "\": \"" = "\"message\": \"" := by decide
  have hl2 : ("\"" : String) ++ "error_details" ++ "\": \x7b " = "\"error_details\": \x7b " := by
    decide
  unfold append_error_details_value
  by_cases hm : res.err_msg = ""
  · rw [if_pos hm, if_pos hm]
  · rw [if_neg hm, if_neg hm, hB.1]
    simp only
    rw [append_json_str_value_ok B hB, if_pos rfl]
    simp only
    rw [if_neg (by simp [SPP_RET_OK]), append_json_block_brackets_name B hB _ _ _ (by decide),
      if_pos rfl]
    simp only [String.empty_append, hl, hl2]

/-- One round of the loop of `append_response_list_value` for an entry whose
function succeeds, with enough memory. -/
theorem append_response_list_loop_step (B : strbuf_ops) (hB : strbuf_ok B) (tmp : cmd_result)
    (tag : String) (f : strbuf_ops → String → String → cmd_result → Int × String)
    (rest : List (String × (strbuf_ops → String → String → cmd_result → Int × String)))
    (output v : String) (htag : tag ≠ "") (hf : f B tag "" tmp = (SPP_RET_OK, v)) :
    append_response_list_loop B tmp ((tag, f) :: rest) output =
      if v = "" then append_response_list_loop B tmp rest output
      else append_response_list_loop B tmp rest
        (output ++ (if output = "" then "" else ", ") ++ v) := by
  have hok : ¬ (SPP_RET_OK < SPP_RET_OK) := by simp [SPP_RET_OK]
  rw [append_response_list_loop, if_neg htag, hf]
  simp only
  rw [if_neg hok]
  by_cases hv : v = ""
  · rw [if_pos hv, if_pos hv]
  · rw [if_neg hv, if_neg hv]
    by_cases ho : output = ""
    · rw [if_neg (not_not.mpr ho), if_pos ho]
      simp only
      rw [if_neg hok, hB.2 _ _ _ (le_refl _), String.append_empty]
    · rw [if_pos ho, if_neg ho]
      unfold append_json_comma
      rw [hB.2 _ _ _ (le_refl _)]
      simp only
      rw [if_neg hok, hB.2 _ _ _ (le_refl _)]
      rfl

/-- `append_response_list_value` over `response_result_list`, from an empty
buffer, with enough memory. -/
theorem append_response_list_value_ok (B : strbuf_ops) (hB : strbuf_ok B) (res : cmd_result) :
    append_response_list_value B "" response_result_list res =
      (SPP_RET_OK, result_inner res) := by
  have hq : ("\"" : String) ≠ "" := by decide
  have h1 : "\"result\": \"" ++ res.result ++ "\"" ≠ "" := append_ne_empty _ _ hq
  have hb : (" \x7d" : String) ≠ "" := by decide
  unfold append_response_list_value
  rw [hB.1]
  simp only [response_result_list]
  rw [append_response_list_loop_step B hB res _ _ _ _ _ (by decide)
      (append_result_value_ok B hB res), if_neg h1,
    append_response_list_loop_step B hB res _ _ _ _ _ (by decide)
      (append_error_details_value_ok B hB res)]
  simp only [append_response_list_loop]
  unfold result_inner
  by_cases hm : res.err_msg = ""
  · simp only [hm, if_true, String.empty_append, String.append_empty]
  · simp only [hm, if_false, if_true, String.empty_append, String.append_empty]
    rw [if_neg (append_ne_empty _ _ hb), if_neg h1]
    simp only [String.append_assoc]

/-- The loop of `append_command_results_value` with enough memory: each result
adds its block to the buffer, after a separator unless the buffer is empty. -/
theorem append_command_results_loop_ok (B : strbuf_ops) (hB : strbuf_ok B)
    (results : List cmd_result) :
    ∀ (rs : List cmd_result) (i : Nat) (buff2 : String), results.drop i = rs →
      append_command_results_loop B results rs.length i buff2 =
        some (SPP_RET_OK, rs.foldl (fun acc res =>
          acc ++ ((if acc = "" then "" else ", ") ++ "\x7b " ++ result_inner res ++ " \x7d"))
          buff2) := by
  intro rs
  induction rs with
  | nil => intro i buff2 _; rfl
  | cons r rs ih =>
    intro i buff2 hdrop
    have hi : results[i]? = some r := by
      have h := @List.getElem?_drop _ results i 0
      rw [hdrop] at h
      simpa using h.symm
    have hnext : results.drop (i + 1) = rs := by
      rw [← List.drop_drop, hdrop]; rfl
    simp only [List.length_cons, append_command_results_loop, hi,
      append_response_list_value_ok B hB, append_json_block_brackets_noname B hB]
    rw [if_neg (by simp [SPP_RET_OK]), if_neg (by simp [SPP_RET_OK]), ih (i + 1) _ hnext]
    rfl

/-- Adding blocks to a buffer that is not empty separates them by commas. -/
theorem foldl_blocks_go (f : cmd_result → String) :
    ∀ (rs : List cmd_result) (acc : String), acc ≠ "" →
      rs.foldl (fun acc res => acc ++ ((if acc = "" then "" else ", ") ++ "\x7b " ++ f res ++
        " \x7d")) acc =
      String.intercalate.go acc ", " (rs.map (fun res => "\x7b " ++ f res ++ " \x7d")) := by
  intro rs
  induction rs with
  | nil => intro acc _; rfl
  | cons r rs ih =>
    intro acc hacc
    simp only [List.foldl_cons, List.map_cons, String.intercalate.go]
    rw [if_neg hacc, ih _ (append_ne_empty _ _ (append_ne_empty _ _ (by decide)))]
    simp only [String.append_assoc]

/-- Adding blocks to an empty buffer yields the blocks separated by commas. -/
theorem foldl_blocks_intercalate (f : cmd_result → String) (rs : List cmd_result) :
    rs.foldl (fun acc res => acc ++ ((if acc = "" then "" else ", ") ++ "\x7b " ++ f res ++
        " \x7d")) "" =
      ", ".intercalate (rs.map (fun res => "\x7b " ++ f res ++ " \x7d")) := by
  cases rs with
  | nil => rfl
  | cons r rs =>
    simp only [List.foldl_cons, List.map_cons, String.intercalate, if_true,
      String.empty_append]
    rw [foldl_blocks_go f rs _ (append_ne_empty _ _ (by decide))]

/-- The block of a result set by `set_cmd_result` is the block of the
specification. -/
theorem result_block_eq (r0 : cmd_result) (code : Int) (msg : String)
    (h : code = CMD_SUCCESS ∨ code = CMD_INVALID ∨ (code = CMD_FAILED ∧ msg ≠ "")) :
    "\x7b " ++ result_inner (set_cmd_result r0 code msg) ++ " \x7d" =
      result_block_spec code msg := by
  rcases h with h | h | ⟨h, hm⟩
  · subst h
    rw [set_cmd_result_success]
    unfold result_block_spec
    rw [if_pos rfl]
    decide
  · subst h
    rw [set_cmd_result_invalid]
    unfold result_block_spec
    rw [if_neg (by decide), if_neg (by decide)]
    decide
  · subst h
    rw [set_cmd_result_failed]
    unfold result_block_spec
    rw [if_neg (by decide), if_pos rfl]
    have hin : result_inner (res_failure msg) =
        "\"result\": \"" ++ "error" ++ "\"" ++
          (", " ++ ("\"error_details\": \x7b " ++ ("\"message\": \"" ++ msg ++ "\"") ++
            " \x7d")) := by
      show (_ ++ if msg = "" then _ else _) = _
      rw [if_neg hm]
      rfl
    rw [hin]
    have h1 : ("\x7b " : String) ++ ("\"result\": \"" ++ ("error" ++ ("\"" ++ (", " ++
        ("\"error_details\": \x7b " ++ "\"message\": \""))))) =
        "\x7b \"result\": \"error\", \"error_details\": \x7b \"message\": \"" := by decide
    have h2 : ("\"" : String) ++ (" \x7d" ++ " \x7d") = "\" \x7d \x7d" := by decide
    rw [← h1]
    simp only [String.append_assoc, h2]

/-! ## Lemmas: round trips and the bounds of the array writes -/

/-- The port lookup depends on the sizes of the port tables only, which writing
a record and marking its users keep. -/
theorem get_sppwk_port_write_mark (m : MngData) (p : PortPtr) (v : sppwk_port_info)
    (rxtx : spp_port_rxtx) (k : port_type) (n : Int) :
    get_sppwk_port (set_component_change_port (write_port m p v) p rxtx) k n =
      get_sppwk_port m k n := by
  obtain ⟨pk, pn⟩ := p
  cases pk <;> cases k <;>
    simp only [get_sppwk_port, set_component_change_port, write_port, port_table,
      List.length_set]

/-- The counter and the array selected by `rxtx` of a worker whose counters are
in range. -/
theorem counters_in_range_sel (env : Env) (c : sppwk_comp_info) (rxtx : spp_port_rxtx)
    (h : counters_in_range env c) :
    0 ≤ sel_nof rxtx c ∧ sel_nof rxtx c ≤ (env.RTE_MAX_ETHPORTS : Int) ∧
    (sel_ports rxtx c).length = env.RTE_MAX_ETHPORTS := by
  obtain ⟨h1, h2, h3, h4, h5, h6⟩ := h
  unfold sel_nof sel_ports
  split_ifs
  · exact ⟨h1, h2, h5⟩
  · exact ⟨h3, h4, h6⟩

/-- Storing a counter in range and an array of full size keeps the counters of
a worker in range. -/
theorem counters_in_range_put (env : Env) (c : sppwk_comp_info) (rxtx : spp_port_rxtx)
    (nof : Int) (ports : List (Option PortPtr)) (h : counters_in_range env c)
    (h1 : 0 ≤ nof) (h2 : nof ≤ (env.RTE_MAX_ETHPORTS : Int))
    (h3 : ports.length = env.RTE_MAX_ETHPORTS) :
    counters_in_range env (put_ports rxtx c nof ports) := by
  obtain ⟨a1, a2, a3, a4, a5, a6⟩ := h
  unfold put_ports
  split_ifs
  · exact ⟨h1, h2, a3, a4, h3, a6⟩
  · exact ⟨a1, a2, h1, h2, a5, h3⟩

/-- What `delete_port_info` returns for a counter within the array: an array of
the same size, and the value 0 only when the counter is positive. -/
theorem delete_port_info_length (p_info : Option PortPtr) (nof : Int)
    (ports : List (Option PortPtr)) (h0 : 0 ≤ nof) (hcap : nof.toNat ≤ ports.length) :
    (delete_port_info p_info nof ports).2.length = ports.length ∧
    ((delete_port_info p_info nof ports).1 = 0 → 1 ≤ nof) := by
  have hspec := (delete_port_info_spec p_info nof ports).1
  have hpos : (delete_port_info p_info nof ports).1 = 0 → 1 ≤ nof := by
    intro h
    have hmem := hspec.mp h
    have hlen : 0 < (ports.take nof.toNat).length := List.length_pos_of_mem hmem
    rw [List.length_take] at hlen
    omega
  refine ⟨?_, hpos⟩
  by_cases h : (delete_port_info p_info nof ports).1 = 0
  · have h1 := hpos h
    have hidx : get_idx_port_info p_info nof ports ≥ 0 :=
      (get_idx_port_info_nonneg_iff p_info nof ports).1.mpr (hspec.mp h)
    have hlt : (get_idx_port_info p_info nof ports).toNat < (ports.take nof.toNat).length := by
      unfold get_idx_port_info at hidx ⊢
      simp only at hidx ⊢
      split_ifs at hidx ⊢ with h2
      · simp only [Int.toNat_ofNat]
        exact h2
      · simp [SPP_RET_NG] at hidx
    unfold delete_port_info
    simp only
    rw [if_neg (by omega)]
    simp only [List.length_append, List.length_eraseIdx_of_lt hlt, List.length_take,
      List.length_drop, List.length_cons, List.length_nil]
    omega
  · rw [(delete_port_info_take p_info nof ports hcap).2 h]

/-- One `update_port` call keeps the counters of every worker in range. -/
theorem update_port_counters_in_range (env : Env) (wk_action : sppwk_action)
    (port : sppwk_port_idx) (rxtx : spp_port_rxtx) (name : String) (ability : spp_port_ability)
    (m : MngData) (r : Int) (m1 : MngData)
    (h : update_port env wk_action port rxtx name ability m = some (r, m1))
    (hinv : ∀ c ∈ m.comp_info, counters_in_range env c) :
    ∀ c ∈ m1.comp_info, counters_in_range env c := by
  rcases update_port_cases env wk_action port rxtx name ability m r m1 h with h1 | h1
  · rw [h1]; exact hinv
  · obtain ⟨wid, c, p, pinfo, _, hc, _, _, hcase⟩ := h1
    have hcm : c ∈ m.comp_info := List.getElem?_mem hc
    obtain ⟨s1, s2, s3⟩ := counters_in_range_sel env c rxtx (hinv c hcm)
    rcases hcase with ⟨_, _, _, _, hm⟩ | ⟨_, _, _, _, hlt, _, hm⟩ | ⟨_, hm⟩
    · rw [hm]
      simp only [set_change_component, write_port_comp_info]
      exact hinv
    · rw [hm]
      simp only [set_change_component]
      intro c1 hc1
      rcases List.mem_or_eq_of_mem_set hc1 with h2 | h2
      · exact hinv c1 h2
      · rw [h2]
        refine counters_in_range_put env c rxtx _ _ (hinv c hcm) (by omega) ?_ ?_
        · rw [s3] at hlt; omega
        · rw [List.length_set]; exact s3
    · rw [hm]
      simp only [set_change_component]
      intro c1 hc1
      rcases List.mem_or_eq_of_mem_set hc1 with h2 | h2
      · exact hinv c1 h2
      · rw [h2]
        obtain ⟨d1, d2⟩ := delete_port_info_length (some p) (sel_nof rxtx c) (sel_ports rxtx c)
          s1 (by rw [s3]; omega)
        refine counters_in_range_put env c rxtx _ _ (hinv c hcm) ?_ ?_ (d1.trans s3)
        · split_ifs with h3
          · have := d2 h3; omega
          · exact s1
        · split_ifs <;> omega

/-- The function `del_comp_info` keeps the size of the id array. -/
theorem del_comp_info_length (wid : Int) (n : Int) (ids : List Int)
    (hcap : n.toNat ≤ ids.length) : (del_comp_info wid n ids).2.length = ids.length := by
  by_cases hmem : wid ∈ ids.take n.toNat
  · rw [(del_comp_info_spec wid n ids).1 hmem]
    have hpos : 0 < (ids.take n.toNat).length := List.length_pos_of_mem hmem
    simp only [List.length_append, List.length_erase_of_mem hmem, List.length_drop,
      List.length_cons, List.length_nil]
    rw [List.length_take] at hpos ⊢
    omega
  · rw [(del_comp_info_spec wid n ids).2 hmem]

/-- Storing a side whose id array has room keeps the room of every id array. -/
theorem id_capacity_put (m : MngData) (ci : List sppwk_comp_info) (L : Nat)
    (info : core_mng_info) (core1 : core_info) (wid : Nat) (v : Int) (hinfo : info ∈ m.core_info)
    (hlen : ci.length = m.comp_info.length) (hcore : m.comp_info.length ≤ core1.id.length)
    (h : id_capacity m) :
    id_capacity (set_change_core (set_change_component
      (put_core { m with comp_info := ci } L info core1) wid v) L) := by
  intro i hi c hc
  simp only [set_change_core, set_change_component, put_core] at hi hc ⊢
  rw [hlen]
  rcases List.mem_or_eq_of_mem_set hi with h1 | h1
  · exact h i h1 c hc
  · rw [h1] at hc
    simp only at hc
    rcases List.mem_or_eq_of_mem_set hc with h2 | h2
    · exact h info hinfo c h2
    · rw [h2]; exact hcore

/-- One START or STOP keeps the room of every id array, when the id lists agree
with the worker records. -/
theorem update_comp_capacity (env : Env) (a : sppwk_action) (name : String) (lcore_id : Nat)
    (wk_type : sppwk_worker_type) (s : St) (r : Int) (s1 : St)
    (ha : a = SPPWK_ACT_START ∨ a = SPPWK_ACT_STOP)
    (h : update_comp env a name lcore_id wk_type s = some (r, s1))
    (hp : pinned_ok s.mng) (hinv : id_capacity s.mng) : id_capacity s1.mng := by
  rcases update_comp_cases env a name lcore_id wk_type s r s1 ha h with h1 | h1 | h1
  · rw [h1]; exact hinv
  · obtain ⟨wid, info, core, old, _, hinfo, _, hcore, _, _, _, hm⟩ := h1
    rw [hm]
    refine id_capacity_put s.mng _ lcore_id info _ wid 1 (List.getElem?_mem hinfo)
      (List.length_set _ _ _) ?_ hinv
    simp only [List.length_set]
    exact hinv info (List.getElem?_mem hinfo) core (List.getElem?_mem hcore)
  · obtain ⟨wid, info, core, old, _, _, _, hinfo, hcore, hm⟩ := h1
    rw [hm]
    refine id_capacity_put s.mng _ old.lcore_id info _ wid 0 (List.getElem?_mem hinfo)
      (List.length_set _ _ _) ?_ hinv
    simp only
    rw [del_comp_info_length _ _ _ (hp _ info core hinfo hcore).2.1]
    exact hinv info (List.getElem?_mem hinfo) core (List.getElem?_mem hcore)

/-- While a worker id is free, the id list of an lcore that agrees with the
worker records holds fewer ids than the pool has. -/
theorem pinned_ok_num_lt (m : MngData) (L : Nat) (info : core_mng_info) (core : core_info)
    (wid : Nat) (hp : pinned_ok m) (hinfo : m.core_info[L]? = some info)
    (hcore : info.core[info.upd_index]? = some core)
    (hfree : get_free_lcore_id m = (wid : Int)) :
    0 ≤ core.num ∧ core.num.toNat < m.comp_info.length := by
  obtain ⟨h0, hcap, hnd, hiff⟩ := hp L info core hinfo hcore
  refine ⟨h0, ?_⟩
  have hwid := get_free_lcore_id_lt m wid hfree
  have hsub : core.id.take core.num.toNat ⊆
      (pinned_workers m L).map (fun (w : Nat) => (w : Int)) := by
    intro x hx
    obtain ⟨w, c, hxw, hc, hu, hl⟩ := (hiff x).mp hx
    exact List.mem_map.mpr ⟨w, (mem_pinned_workers m L w).mpr ⟨c, hc, hu, hl⟩, hxw.symm⟩
  have hle := (List.Nodup.subperm hnd hsub).length_le
  rw [List.length_take, Nat.min_eq_left hcap, List.length_map] at hle
  have hlt : (pinned_workers m L).length < (List.range m.comp_info.length).length := by
    unfold pinned_workers
    rw [List.length_filter_lt_length_iff_exists]
    refine ⟨wid, List.mem_range.mpr hwid, ?_⟩
    have hget : m.comp_info[wid]? = some (m.comp_info.get ⟨wid, hwid⟩) :=
      List.getElem?_eq_getElem hwid
    rw [hget]
    simp only [decide_eq_true_eq, not_and, not_not]
    intro hne
    exact absurd (get_free_lcore_id_free m wid _ hfree hget) hne
  rw [List.length_range] at hlt
  omega

/-! ## Lemmas: status composition -/

/-- `append_json_uint_value` with enough memory. -/
theorem append_json_uint_value_ok (B : strbuf_ops) (hB : strbuf_ok B) (name output : String)
    (value : Nat) :
    append_json_uint_value B name output value =
      (SPP_RET_OK, output ++ ((if output = "" then "" else ", ") ++ "\"" ++ name ++ "\": " ++
        fmt_u value)) := by
  unfold append_json_uint_value
  simp only
  rw [hB.2 output "" _ (Nat.zero_le _), String.append_empty]
  simp only
  rw [sprintf_at_end, JSON_APPEND_COMMA_eq]

/-- `append_json_int_value` with enough memory. -/
theorem append_json_int_value_ok (B : strbuf_ops) (hB : strbuf_ok B) (name output : String)
    (value : Int) :
    append_json_int_value B name output value =
      (SPP_RET_OK, output ++ ((if output = "" then "" else ", ") ++ "\"" ++ name ++ "\": " ++
        fmt_d value)) := by
  unfold append_json_int_value
  simp only
  rw [hB.2 output "" _ (Nat.zero_le _), String.append_empty]
  simp only
  rw [sprintf_at_end, JSON_APPEND_COMMA_eq]

/-- A string that starts with a non-empty string is not empty. -/
theorem append_ne_empty_left (s t : String) (h : s ≠ "") : s ++ t ≠ "" := by
  intro h1
  have h2 := congrArg String.length h1
  rw [String.length_append] at h2
  have h3 : s.length = 0 := by
    have : ("" : String).length = 0 := rfl
    omega
  exact h ((strlen_eq_zero s).mp h3)

/-- The text of a member is not empty. -/
theorem member_text_ne_empty (c : appender_call) : member_text c ≠ "" := by
  cases c with
  | uint name value =>
    simp only [member_text, String.append_assoc]
    exact append_ne_empty_left _ _ (by decide)
  | int name value =>
    simp only [member_text, String.append_assoc]
    exact append_ne_empty_left _ _ (by decide)
  | str name str =>
    simp only [member_text, String.append_assoc]
    exact append_ne_empty_left _ _ (by decide)
  | array name str =>
    simp only [member_text, String.append_assoc]
    exact append_ne_empty_left _ _ (by decide)
  | block name str =>
    simp only [member_text]
    split_ifs
    · simp only [String.append_assoc]
      exact append_ne_empty_left _ _ (by decide)
    · simp only [String.append_assoc]
      exact append_ne_empty_left _ _ (by decide)

/-- A typed appender with enough memory keeps the buffer, adds a separator
unless the buffer is empty, and adds the member. -/
theorem run_appender_ok (B : strbuf_ops) (hB : strbuf_ok B) (output : String)
    (c : appender_call) :
    run_appender B output c =
      (SPP_RET_OK, output ++ ((if output = "" then "" else ", ") ++ member_text c)) := by
  cases c with
  | uint name value =>
    simp only [run_appender, member_text, append_json_uint_value_ok B hB, String.append_assoc]
  | int name value =>
    simp only [run_appender, member_text, append_json_int_value_ok B hB, String.append_assoc]
  | str name str =>
    simp only [run_appender, member_text, append_json_str_value_ok B hB, String.append_assoc]
  | array name str =>
    simp only [run_appender, member_text, append_json_array_brackets_ok B hB,
      String.append_assoc]
  | block name str =>
    simp only [run_appender, member_text]
    by_cases hn : name = ""
    · subst hn
      rw [append_json_block_brackets_noname B hB, if_pos rfl]
      simp only [String.append_assoc]
    · rw [append_json_block_brackets_name B hB _ _ _ hn, if_neg hn]
      simp only [String.append_assoc]

/-- Appender calls on a buffer that is not empty add their members, each after
a separator. -/
theorem run_appenders_go (B : strbuf_ops) (hB : strbuf_ok B) :
    ∀ (cs : List appender_call) (acc : String), acc ≠ "" →
      run_appenders B cs acc =
        (SPP_RET_OK, String.intercalate.go acc ", " (cs.map member_text)) := by
  intro cs
  induction cs with
  | nil => intro acc _; rfl
  | cons c cs ih =>
    intro acc hacc
    simp only [run_appenders, List.map_cons, String.intercalate.go, run_appender_ok B hB]
    rw [if_neg hacc, ih _ (append_ne_empty _ _ (append_ne_empty _ _ (member_text_ne_empty c)))]
    simp only [String.append_assoc]

/-- Appender calls on an empty buffer yield their members joined by separators. -/
theorem run_appenders_ok (B : strbuf_ops) (hB : strbuf_ok B) (cs : List appender_call) :
    run_appenders B cs "" = (SPP_RET_OK, ", ".intercalate (cs.map member_text)) := by
  cases cs with
  | nil => rfl
  | cons c cs =>
    simp only [run_appenders, List.map_cons, String.intercalate, run_appender_ok B hB, if_true,
      String.empty_append]
    rw [run_appenders_go B hB cs _ (member_text_ne_empty c)]

/-- The length of texts joined by a separator, after a first text. -/
theorem intercalate_go_length (sep : String) :
    ∀ (l : List String) (acc : String),
      (String.intercalate.go acc sep l).length =
        acc.length + (l.map String.length).sum + sep.length * l.length := by
  intro l
  induction l with
  | nil => intro acc; simp [String.intercalate.go]
  | cons a l ih =>
    intro acc
    simp only [String.intercalate.go, ih, String.length_append, List.map_cons, List.sum_cons,
      List.length_cons]
    ring

/-- The length of texts joined by a separator: between `k` texts stand `k - 1`
separators. -/
theorem intercalate_length (sep : String) (l : List String) :
    (sep.intercalate l).length = (l.map String.length).sum + sep.length * (l.length - 1) := by
  cases l with
  | nil => rfl
  | cons a l =>
    simp only [String.intercalate, intercalate_go_length, List.map_cons, List.sum_cons,
      List.length_cons, Nat.add_sub_cancel]

/-- A string buffer that never runs out of memory has enough memory. -/
theorem ex_strbuf_ok : strbuf_ok ex_strbuf := ⟨fun _ => rfl, fun _ _ _ _ => rfl⟩

/-- The flush check of a port that has a record. -/
theorem spp_check_flush_port_eq (m : MngData) (type : port_type) (i : Nat)
    (port : sppwk_port_info) (h : (port_table m type)[i]? = some port) :
    spp_check_flush_port m type (i : Int) = some (decide (port.ethdev_port_id ≥ 0)) := by
  have hlt : i < (port_table m type).length := (List.getElem?_eq_some_iff.mp h).1
  unfold spp_check_flush_port get_sppwk_port
  rw [if_pos ⟨Int.ofNat_nonneg i, by simpa using hlt⟩]
  simp only [deref_port, read_port, Int.toNat_ofNat, h]

/-- Joining texts after a first text that has a prefix. -/
theorem intercalate_go_append (sep : String) :
    ∀ (l : List String) (a b : String),
      String.intercalate.go (a ++ b) sep l = a ++ String.intercalate.go b sep l := by
  intro l
  induction l with
  | nil => intro a b; rfl
  | cons x l ih =>
    intro a b
    simp only [String.intercalate.go]
    rw [String.append_assoc, String.append_assoc, ih, String.append_assoc]

/-- The loop of `append_interface_array` after the first number: every flushed
port adds a separator and its number. -/
theorem append_interface_array_loop_go (B : strbuf_ops) (hB : strbuf_ok B) (m : MngData)
    (type : port_type) :
    ∀ (fuel i port_cnt : Nat) (output : String), port_cnt ≠ 0 →
      (∀ j, i ≤ j → j < i + fuel → ∃ port, (port_table m type)[j]? = some port) →
      append_interface_array_loop B m type fuel i port_cnt output =
        some (SPP_RET_OK, String.intercalate.go output ", "
          (((List.range' i fuel).filter (fun j =>
            match (port_table m type)[j]? with
            | some port => decide (port.ethdev_port_id ≥ 0)
            | none => false)).map (fun (j : Nat) => fmt_d (j : Int)))) := by
  intro fuel
  induction fuel with
  | zero => intro i port_cnt output _ _; rfl
  | succ fuel ih =>
    intro i port_cnt output hcnt hrec
    obtain ⟨port, hport⟩ := hrec i (le_refl _) (by omega)
    have hrec1 : ∀ j, i + 1 ≤ j → j < i + 1 + fuel →
        ∃ port, (port_table m type)[j]? = some port :=
      fun j h1 h2 => hrec j (by omega) (by omega)
    rw [List.range'_succ, List.filter_cons]
    simp only [append_interface_array_loop, spp_check_flush_port_eq m type i port hport, hport]
    by_cases hf : port.ethdev_port_id ≥ 0
    · simp only [hf, decide_True, if_true, List.map_cons, String.intercalate.go]
      rw [hB.2 _ _ _ (le_refl _)]
      simp only
      rw [ih (i + 1) (port_cnt + 1) _ (by omega) hrec1]
      simp only [JSON_APPEND_COMMA, if_pos hcnt, JSON_COMMA, String.append_assoc]
    · simp only [hf, decide_False, if_false, Bool.false_eq_true]
      exact ih (i + 1) port_cnt output hcnt hrec1

/-- The loop of `append_interface_array` before the first number: the numbers
of the flushed ports follow the buffer, joined by separators. -/
theorem append_interface_array_loop_ok (B : strbuf_ops) (hB : strbuf_ok B) (m : MngData)
    (type : port_type) :
    ∀ (fuel i : Nat) (output : String),
      (∀ j, i ≤ j → j < i + fuel → ∃ port, (port_table m type)[j]? = some port) →
      append_interface_array_loop B m type fuel i 0 output =
        some (SPP_RET_OK, output ++ ", ".intercalate
          (((List.range' i fuel).filter (fun j =>
            match (port_table m type)[j]? with
            | some port => decide (port.ethdev_port_id ≥ 0)
            | none => false)).map (fun (j : Nat) => fmt_d (j : Int)))) := by
  intro fuel
  induction fuel with
  | zero =>
    intro i output _
    simp only [append_interface_array_loop, List.range'_zero, List.filter_nil, List.map_nil,
      String.intercalate, String.append_empty]
  | succ fuel ih =>
    intro i output hrec
    obtain ⟨port, hport⟩ := hrec i (le_refl _) (by omega)
    have hrec1 : ∀ j, i + 1 ≤ j → j < i + 1 + fuel →
        ∃ port, (port_table m type)[j]? = some port :=
      fun j h1 h2 => hrec j (by omega) (by omega)
    rw [List.range'_succ, List.filter_cons]
    simp only [append_interface_array_loop, spp_check_flush_port_eq m type i port hport, hport]
    by_cases hf : port.ethdev_port_id ≥ 0
    · simp only [hf, decide_True, if_true, List.map_cons, String.intercalate]
      rw [hB.2 _ _ _ (le_refl _)]
      simp only
      rw [append_interface_array_loop_go B hB m type fuel (i + 1) (0 + 1) _ (by omega) hrec1]
      simp only [JSON_APPEND_COMMA, ne_eq, not_true_eq_false, if_false, String.empty_append]
      rw [intercalate_go_append]
    · simp only [hf, decide_False, if_false, Bool.false_eq_true]
      exact ih (i + 1) output hrec1

/-- `append_json_int_value` on a buffer that is not empty, with enough memory. -/
theorem append_json_int_value_sep (B : strbuf_ops) (hB : strbuf_ok B) (name output : String)
    (value : Int) (h : output ≠ "") :
    append_json_int_value B name output value =
      (SPP_RET_OK, output ++ (", \"" ++ (name ++ ("\": " ++ fmt_d value)))) := by
  rw [append_json_int_value_ok B hB, if_neg h]
  simp only [String.append_assoc]
  rfl

/-- `append_vlan_value` on an empty buffer, with enough memory: one triple. -/
theorem append_vlan_value_ok (B : strbuf_ops) (hB : strbuf_ok B) (ope : Nat) (str : String)
    (vid pcp : Int) (h : PORT_ABILITY_STAT_LIST[ope]? = some str) :
    append_vlan_value B "" ope vid pcp = some (SPP_RET_OK, vlan_triple_text (str, vid, pcp)) := by
  have e1 : append_json_str_value B "operation" "" str =
      (SPP_RET_OK, "\"operation\": \"" ++ (str ++ "\"")) := by
    rw [append_json_str_value_ok B hB, if_pos rfl, String.empty_append]
    simp only [String.append_assoc]
    rfl
  have hne : "\"operation\": \"" ++ (str ++ "\"") ≠ "" := append_ne_empty_left _ _ (by decide)
  unfold append_vlan_value
  simp only [h, e1]
  rw [if_neg (by decide), append_json_int_value_sep B hB _ _ _ hne]
  simp only
  rw [if_neg (by decide),
    append_json_int_value_sep B hB _ _ _ (append_ne_empty_left _ _ hne)]
  simp only
  rw [if_neg (by decide)]
  simp only [vlan_triple_text, String.append_assoc]
  rfl

/-- The name of a VLAN op in `PORT_ABILITY_STAT_LIST`. -/
theorem abl_ops_name (a : spp_port_ability)
    (h : a.ops = SPPWK_PORT_ABL_OPS_ADD_VLANTAG ∨ a.ops = SPPWK_PORT_ABL_OPS_DEL_VLANTAG) :
    PORT_ABILITY_STAT_LIST[abl_ops_value a.ops]? =
      some (if a.ops = SPPWK_PORT_ABL_OPS_ADD_VLANTAG then "add" else "del") := by
  rcases h with h | h <;> rw [h] <;> rfl

/-- The loop of `append_vlan_block` on an empty buffer, with enough memory: it
ends with the counter `SPP_PORT_ABILITY_MAX + 2` and the triple of the first
slot with a VLAN op, and with the counter `SPP_PORT_ABILITY_MAX` and an empty
buffer when there is no such slot. -/
theorem append_vlan_block_loop_ok (B : strbuf_ops) (hB : strbuf_ok B) (env : Env)
    (info : List spp_port_ability) (hlen : info.length = env.SPP_PORT_ABILITY_MAX) :
    ∀ (fuel i : Nat), i + fuel = env.SPP_PORT_ABILITY_MAX →
      append_vlan_block_loop B env info fuel i "" =
        match (info.drop i).find? (fun a => decide (a.ops = SPPWK_PORT_ABL_OPS_ADD_VLANTAG ∨
            a.ops = SPPWK_PORT_ABL_OPS_DEL_VLANTAG)) with
        | some a =>
          some (SPP_RET_OK, env.SPP_PORT_ABILITY_MAX + 1 + 1,
            vlan_triple_text
              (if a.ops = SPPWK_PORT_ABL_OPS_ADD_VLANTAG then "add" else "del", a.data.vid,
                a.data.pcp))
        | none => some (SPP_RET_OK, env.SPP_PORT_ABILITY_MAX, "") := by
  intro fuel
  induction fuel with
  | zero =>
    intro i hi
    have hi2 : info.length ≤ i := by omega
    rw [List.drop_eq_nil_of_le hi2]
    simp only [append_vlan_block_loop, List.find?_nil]
    rw [show i = env.SPP_PORT_ABILITY_MAX by omega]
  | succ fuel ih =>
    intro i hi
    have hlt : i < info.length := by omega
    have hget : info[i]? = some (info.get ⟨i, hlt⟩) := List.getElem?_eq_getElem hlt
    have hdrop : info.drop i = info.get ⟨i, hlt⟩ :: info.drop (i + 1) := by
      rw [List.drop_eq_getElem_cons hlt]; rfl
    rw [hdrop, List.find?_cons]
    simp only [append_vlan_block_loop]
    rw [if_neg (by omega), hget]
    simp only
    by_cases hp : (info.get ⟨i, hlt⟩).ops = SPPWK_PORT_ABL_OPS_ADD_VLANTAG ∨
        (info.get ⟨i, hlt⟩).ops = SPPWK_PORT_ABL_OPS_DEL_VLANTAG
    · rw [if_pos hp, append_vlan_value_ok B hB _ _ _ _ (abl_ops_name _ hp)]
      simp only [decide_eq_true hp]
      rw [if_neg (by decide)]
      cases fuel with
      | zero => rfl
      | succ fuel =>
        simp only [append_vlan_block_loop]
        rw [if_pos (by omega)]
    · rw [if_neg hp]
      simp only [decide_eq_false hp]
      exact ih (i + 1) (by omega)

/-! ## Lemmas: the lcore step of the flush -/

/-- C1: after a request that parsed and does not ask for exit, when command `k` is
the first whose `exec_one_cmd` returns a non-OK status, `exec_cmds` hands to
`send_result_spp_ctl` results that are SUCCESS before `k`, FAILURE with the
message "error occur" at `k` and INVALID after `k`, and `exec_one_cmd` has been
called on the commands `0 .. k` in order and on no other; when no command
fails, all `n` results are SUCCESS. Here `st j` is the state before command `j`. -/
theorem exec_cmds_stops_at_first_error (env : Env) (req_str : String) (s : St) (st : Nat → St)
    (n : Nat)
    (hparse : (env.sppwk_parse_req req_str).1 = SPP_RET_OK)
    (hn : (env.sppwk_parse_req req_str).2.1.nof_cmds = n)
    (hmax : n ≤ env.SPPWK_MAX_CMDS)
    (hexit : (env.sppwk_parse_req req_str).2.1.is_requested_exit = 0)
    (h0 : st 0 = s) :
    (∀ k r sk, k < n →
      (∀ j, j < k → ∃ c, (env.sppwk_parse_req req_str).2.1.commands[j]? = some c ∧
        exec_one_cmd env c ((st j).call (Call.exec_one_cmd c)) = some (SPP_RET_OK, st (j + 1))) →
      (∃ c, (env.sppwk_parse_req req_str).2.1.commands[k]? = some c ∧
        exec_one_cmd env c ((st k).call (Call.exec_one_cmd c)) = some (r, sk)) →
      r ≠ SPP_RET_OK →
      ∃ results sf, exec_cmds env req_str s = some (SPP_RET_OK, sf) ∧
        sf = sk.call (Call.send_result_spp_ctl (env.sppwk_parse_req req_str).2.1 results) ∧
        (∀ i, i < k → results[i]? = some res_success) ∧
        results[k]? = some (res_failure "error occur") ∧
        (∀ i, k < i → i < n → results[i]? = some res_invalid) ∧
        exec_calls sf.trace = exec_calls s.trace ++
          (env.sppwk_parse_req req_str).2.1.commands.take (k + 1)) ∧
    ((∀ j, j < n → ∃ c, (env.sppwk_parse_req req_str).2.1.commands[j]? = some c ∧
        exec_one_cmd env c ((st j).call (Call.exec_one_cmd c)) = some (SPP_RET_OK, st (j + 1))) →
      ∃ results sf, exec_cmds env req_str s = some (SPP_RET_OK, sf) ∧
        sf = (st n).call (Call.send_result_spp_ctl (env.sppwk_parse_req req_str).2.1 results) ∧
        (∀ i, i < n → results[i]? = some res_success) ∧
        exec_calls sf.trace = exec_calls s.trace ++
          (env.sppwk_parse_req req_str).2.1.commands.take n) := by
  have hp : ¬ (env.sppwk_parse_req req_str).1 ≠ SPP_RET_OK := by simp [hparse]
  have hx : ¬ (env.sppwk_parse_req req_str).2.1.is_requested_exit ≠ 0 := by simp [hexit]
  have hsend : ∀ (x : St) (req : sppwk_cmd_req) (res : List cmd_result),
      exec_calls (x.call (Call.send_result_spp_ctl req res)).trace = exec_calls x.trace := by
    intro x req res
    simp [St.call, exec_calls_append, exec_calls]
  constructor
  · intro k r sk hk hok hfail hr
    obtain ⟨res, hres, hlen, hget⟩ := exec_loop_fail env _ st k r sk hr hfail n 0
      (List.replicate env.SPPWK_MAX_CMDS zero_cmd_result) (Nat.zero_le _) (by omega)
      (by simp; omega) (fun j _ hj => hok j hj)
    refine ⟨res, _, ?_, rfl, ?_, ?_, ?_, ?_⟩
    · unfold exec_cmds
      simp only [hp, hx, if_false, hn, Int.toNat_ofNat]
      rw [← h0, hres]
    · intro i hi
      rw [hget i, if_pos ⟨Nat.zero_le _, hi⟩]
    · rw [hget k, if_neg (by omega), if_pos rfl]
    · intro i h1 h2
      rw [hget i, if_neg (by omega), if_neg (by omega), if_pos ⟨h1, by omega⟩]
    · obtain ⟨c, hc, hex⟩ := hfail
      rw [hsend, exec_one_cmd_exec_calls env c _ _ _ hex, List.take_succ, hc]
      simp only [St.call, exec_calls_append, Option.toList]
      rw [exec_calls_take env _ st k hok, h0, List.append_assoc]
      rfl
  · intro hok
    obtain ⟨res, hres, hlen, hget⟩ := exec_loop_ok env
      (env.sppwk_parse_req req_str).2.1.commands st n 0
      (List.replicate env.SPPWK_MAX_CMDS zero_cmd_result) (by simp; omega)
      (fun j _ hj => hok j (by omega))
    refine ⟨res, _, ?_, rfl, ?_, ?_⟩
    · unfold exec_cmds
      simp only [hp, hx, if_false, hn, Int.toNat_ofNat]
      rw [← h0, hres, Nat.zero_add]
    · intro i hi
      rw [hget i, if_pos ⟨Nat.zero_le _, by omega⟩]
    · rw [hsend, exec_calls_take env _ st n hok, h0]

/-- C1 at the request `ex_req`, whose second command fails. -/
theorem exec_cmds_stops_at_first_error_witness :
    ∃ results sf, exec_cmds ex_env "status; port; status" ex_st = some (SPP_RET_OK, sf) ∧
      sf = ex_st_failed.call (Call.send_result_spp_ctl ex_req results) ∧
      (∀ i, i < 1 → results[i]? = some res_success) ∧
      results[1]? = some (res_failure "error occur") ∧
      (∀ i, 1 < i → i < 3 → results[i]? = some res_invalid) ∧
      exec_calls sf.trace = exec_calls ex_st.trace ++ ex_req.commands.take (1 + 1) :=
  (exec_cmds_stops_at_first_error ex_env "status; port; status" ex_st ex_states 3
    rfl rfl (by decide) rfl rfl).1 1 SPP_RET_NG ex_st_failed (by decide) (by decide)
    ⟨_, rfl, by decide⟩ (by decide)

/-- C2 as stated fails: with three commands and a parse error at index 1, the
result of command 0 is INVALID, not SUCCESS. -/
theorem prepare_parse_err_msg_before_error_invalid :
    ∃ r, prepare_parse_err_msg (List.replicate 3 zero_cmd_result)
        { ex_req with nof_cmds := 3, nof_valid_cmds := 1 }
        ⟨SPPWK_PARSE_WRONG_FORMAT, "", ""⟩ = some r ∧
      r = [res_invalid, res_failure "Wrong message format", res_invalid] ∧
      r[0]? = some res_invalid ∧ r[0]? ≠ some res_success :=
  ⟨_, rfl, rfl, rfl, by decide⟩

/-- C2, amended: for a request of `n` commands for which the parser reports a
non-zero code at index `k = nof_valid_cmds < n`, `prepare_parse_err_msg` leaves
`results[k]` FAILURE with the message of `get_parse_err_msg` and `results[i]`
INVALID for every other `i < n`, before `k` as well as after it; the slots from
`n` on are not touched. -/
theorem prepare_parse_err_msg_marks (results : List cmd_result) (request : sppwk_cmd_req)
    (wk_err_msg : sppwk_parse_err_msg) (n k : Nat)
    (hn : request.nof_cmds = n) (hk : request.nof_valid_cmds = k) (hkn : k < n)
    (hlen : n ≤ results.length) (hcode : wk_err_msg.code ≠ 0) :
    ∃ r, prepare_parse_err_msg results request wk_err_msg = some r ∧
      r.length = results.length ∧
      r[k]? = some (res_failure (get_parse_err_msg wk_err_msg)) ∧
      (∀ i, i < n → i ≠ k → r[i]? = some res_invalid) ∧
      (∀ i, n ≤ i → r[i]? = results[i]?) := by
  obtain ⟨r1, h1, hl1, hg1⟩ := prepare_loop_spec wk_err_msg.code n 0 results (by omega)
  have hk1 : k < r1.length := by omega
  have hneg : ¬ ((k : Int) < 0) := by omega
  refine ⟨r1.set k (set_cmd_result r1[k] CMD_FAILED (get_parse_err_msg wk_err_msg)), ?_, ?_, ?_,
    ?_, ?_⟩
  · unfold prepare_parse_err_msg
    rw [hn, hk, Int.toNat_ofNat, h1]
    simp only
    rw [if_pos hcode, if_neg hneg, Int.toNat_ofNat, set_result_at_spec _ _ _ _ hk1]
  · rw [List.length_set, hl1]
  · rw [List.getElem?_set_self hk1, set_cmd_result_failed]
  · intro i hi hik
    rw [List.getElem?_set_ne (Ne.symm hik), hg1 i, if_pos ⟨Nat.zero_le _, by omega⟩,
      if_neg hcode]
  · intro i hi
    rw [List.getElem?_set_ne (by omega), hg1 i, if_neg (by omega)]

/-- C2, amended, at a request of three commands with a parse error at index 1. -/
theorem prepare_parse_err_msg_marks_witness :
    ∃ r, prepare_parse_err_msg (List.replicate 3 zero_cmd_result)
        { ex_req with nof_cmds := 3, nof_valid_cmds := 1 }
        ⟨SPPWK_PARSE_WRONG_FORMAT, "", ""⟩ = some r ∧
      r.length = (List.replicate 3 zero_cmd_result).length ∧
      r[1]? = some (res_failure (get_parse_err_msg ⟨SPPWK_PARSE_WRONG_FORMAT, "", ""⟩)) ∧
      (∀ i, i < 3 → i ≠ 1 → r[i]? = some res_invalid) ∧
      (∀ i, 3 ≤ i → r[i]? = (List.replicate 3 zero_cmd_result)[i]?) :=
  prepare_parse_err_msg_marks (List.replicate 3 zero_cmd_result)
    { ex_req with nof_cmds := 3, nof_valid_cmds := 1 } ⟨SPPWK_PARSE_WRONG_FORMAT, "", ""⟩ 3 1
    rfl rfl (by decide) (by decide) (by decide)

/-- C3: `exec_cmds` returns the terminate signal `SPP_RET_NG` exactly when the
request parsed and asks for exit; the response is then sent with `results[0]`
marked SUCCESS with an empty message, whatever the loop over the commands left
there; a request that fails to parse yields `SPP_RET_OK`. -/
theorem exec_cmds_terminate_iff_exit (env : Env) (req_str : String) (s : St) :
    (∀ r s1, exec_cmds env req_str s = some (r, s1) →
      (r = SPP_RET_NG ↔ (env.sppwk_parse_req req_str).1 = SPP_RET_OK ∧
        (env.sppwk_parse_req req_str).2.1.is_requested_exit ≠ 0) ∧
      (r = SPP_RET_NG ∨ r = SPP_RET_OK)) ∧
    ((env.sppwk_parse_req req_str).1 = SPP_RET_OK →
      (env.sppwk_parse_req req_str).2.1.is_requested_exit ≠ 0 →
      0 < env.SPPWK_MAX_CMDS →
      ∀ results s1,
        exec_loop env (env.sppwk_parse_req req_str).2.1.commands
          (env.sppwk_parse_req req_str).2.1.nof_cmds.toNat 0
          (List.replicate env.SPPWK_MAX_CMDS zero_cmd_result) s = some (results, s1) →
        ∃ results1, exec_cmds env req_str s = some (SPP_RET_NG,
            s1.call (Call.send_result_spp_ctl (env.sppwk_parse_req req_str).2.1 results1)) ∧
          results1[0]? = some res_success ∧ ∀ i, 0 < i → results1[i]? = results[i]?) ∧
    ((env.sppwk_parse_req req_str).1 ≠ SPP_RET_OK →
      ∀ results,
        prepare_parse_err_msg (List.replicate env.SPPWK_MAX_CMDS zero_cmd_result)
          (env.sppwk_parse_req req_str).2.1 (env.sppwk_parse_req req_str).2.2 = some results →
        exec_cmds env req_str s = some (SPP_RET_OK,
          s.call (Call.send_decode_error_response (env.sppwk_parse_req req_str).2.1 results))) := by
  refine ⟨?_, ?_, ?_⟩
  · intro r s1 h
    unfold exec_cmds at h
    simp only at h
    by_cases hp : (env.sppwk_parse_req req_str).1 = SPP_RET_OK
    · rw [if_neg (not_not.mpr hp)] at h
      split at h
      · simp at h
      · by_cases hx : (env.sppwk_parse_req req_str).2.1.is_requested_exit ≠ 0
        · rw [if_pos hx] at h
          split at h
          · simp at h
          · simp only [Option.some.injEq, Prod.mk.injEq] at h
            rw [← h.1]
            exact ⟨⟨fun _ => ⟨hp, hx⟩, fun _ => rfl⟩, Or.inl rfl⟩
        · rw [if_neg hx] at h
          simp only [Option.some.injEq, Prod.mk.injEq] at h
          rw [← h.1]
          refine ⟨⟨fun h1 => ?_, fun h1 => absurd h1.2 hx⟩, Or.inr rfl⟩
          simp [SPP_RET_OK, SPP_RET_NG] at h1
    · rw [if_pos hp] at h
      split at h
      · simp at h
      · simp only [Option.some.injEq, Prod.mk.injEq] at h
        rw [← h.1]
        refine ⟨⟨fun h1 => ?_, fun h1 => absurd h1.1 hp⟩, Or.inr rfl⟩
        simp [SPP_RET_OK, SPP_RET_NG] at h1
  · intro hp hx hmax results s1 hloop
    have hlen := exec_loop_length env _ _ _ _ _ _ _ hloop
    have h0 : 0 < results.length := by rw [hlen]; simpa using hmax
    refine ⟨results.set 0 (set_cmd_result results[0] CMD_SUCCESS ""), ?_, ?_, ?_⟩
    · unfold exec_cmds
      simp only
      rw [if_neg (not_not.mpr hp), hloop]
      simp only
      rw [if_pos hx, set_result_at_spec _ _ _ _ h0]
    · rw [List.getElem?_set_self h0, set_cmd_result_success]
    · intro i hi
      rw [List.getElem?_set_ne (by omega)]
  · intro hp results hprep
    unfold exec_cmds
    simp only
    rw [if_pos hp, hprep]

/-- C4: `exec_one_cmd` dispatches on the command kind. For a classifier, worker
or port command it calls the matching handler once (the call that opens the
added trace), calls none of the three handlers again, and calls `flush_cmd`
once exactly when the handler returned 0; it returns the handler's error
otherwise and the result of `flush_cmd` in the success case. For the other
command kinds it returns success and leaves the state, trace included, as it
was. -/
theorem exec_one_cmd_dispatch (env : Env) (cmd : sppwk_cmd_attrs) (s : St) :
    (cmd.type = SPPWK_CMDTYPE_CLS_MAC ∨ cmd.type = SPPWK_CMDTYPE_CLS_VLAN →
      ∀ ret m, update_cls_table env cmd.spec.cls_table.wk_action cmd.spec.cls_table.type
          cmd.spec.cls_table.vid cmd.spec.cls_table.mac cmd.spec.cls_table.port s.mng
            = some (ret, m) →
        ∃ ret1 s1 l, exec_one_cmd env cmd s = some (ret1, s1) ∧
          s1.trace = s.trace ++ Call.update_cls_table :: l ∧
          l.count Call.update_cls_table = 0 ∧ l.count Call.update_comp = 0 ∧
          l.count Call.update_port = 0 ∧
          l.count Call.flush_cmd = (if ret = SPP_RET_OK then 1 else 0) ∧
          (ret ≠ SPP_RET_OK → ret1 = ret ∧ s1.mng = m) ∧
          (ret = SPP_RET_OK → (ret1, s1) =
            flush_cmd env ⟨m, s.trace ++ [Call.update_cls_table, Call.flush_cmd]⟩)) ∧
    (cmd.type = SPPWK_CMDTYPE_WORKER →
      ∀ ret s0, update_comp env cmd.spec.comp.wk_action cmd.spec.comp.name cmd.spec.comp.core
          cmd.spec.comp.wk_type (s.call Call.update_comp) = some (ret, s0) →
        ∃ ret1 s1 l, exec_one_cmd env cmd s = some (ret1, s1) ∧
          s1.trace = s.trace ++ Call.update_comp :: l ∧
          l.count Call.update_cls_table = 0 ∧ l.count Call.update_comp = 0 ∧
          l.count Call.update_port = 0 ∧
          l.count Call.flush_cmd = (if ret = SPP_RET_OK then 1 else 0) ∧
          (ret ≠ SPP_RET_OK → ret1 = ret ∧ s1 = s0) ∧
          (ret = SPP_RET_OK → (ret1, s1) = flush_cmd env (s0.call Call.flush_cmd))) ∧
    (cmd.type = SPPWK_CMDTYPE_PORT →
      ∀ ret m, update_port env cmd.spec.port.wk_action cmd.spec.port.port cmd.spec.port.rxtx
          cmd.spec.port.name cmd.spec.port.ability s.mng = some (ret, m) →
        ∃ ret1 s1 l, exec_one_cmd env cmd s = some (ret1, s1) ∧
          s1.trace = s.trace ++ Call.update_port :: l ∧
          l.count Call.update_cls_table = 0 ∧ l.count Call.update_comp = 0 ∧
          l.count Call.update_port = 0 ∧
          l.count Call.flush_cmd = (if ret = SPP_RET_OK then 1 else 0) ∧
          (ret ≠ SPP_RET_OK → ret1 = ret ∧ s1.mng = m) ∧
          (ret = SPP_RET_OK → (ret1, s1) =
            flush_cmd env ⟨m, s.trace ++ [Call.update_port, Call.flush_cmd]⟩)) ∧
    (cmd.type = SPPWK_CMDTYPE_CLIENT_ID ∨ cmd.type = SPPWK_CMDTYPE_STATUS ∨
        cmd.type = SPPWK_CMDTYPE_EXIT →
      exec_one_cmd env cmd s = some (SPP_RET_OK, s)) := by
  refine ⟨?_, ?_, ?_, ?_⟩
  · intro ht ret m hu
    obtain ⟨l, hl, h1, h2, h3, h4, _⟩ :=
      flush_if_ok_trace env ret { s.call Call.update_cls_table with mng := m }
    refine ⟨(flush_if_ok env ret { s.call Call.update_cls_table with mng := m }).1,
      (flush_if_ok env ret { s.call Call.update_cls_table with mng := m }).2, l, ?_, ?_,
      h2, h3, h4, h1, ?_, ?_⟩
    · rcases ht with ht | ht <;> simp [exec_one_cmd, ht, St.call] at hu ⊢ <;> simp [hu]
    · rw [hl]; simp [St.call]
    · intro hne
      have : ¬ ret = 0 := hne
      simp [flush_if_ok, this]
    · intro he
      have : ret = 0 := he
      simp [flush_if_ok, this, St.call]
  · intro ht ret s0 hu
    obtain ⟨l0, hl0, hmem⟩ := update_comp_trace env _ _ _ _ _ _ _ hu
    obtain ⟨l, hl, h1, h2, h3, h4, _⟩ := flush_if_ok_trace env ret s0
    have hno : ∀ c, (∀ id, c ≠ Call.init_classifier_info id) → l0.count c = 0 := fun c hc =>
      List.count_eq_zero.mpr (fun hin => by
        obtain ⟨id, hid⟩ := hmem c hin
        exact hc id hid)
    refine ⟨(flush_if_ok env ret s0).1, (flush_if_ok env ret s0).2, l0 ++ l, ?_, ?_, ?_, ?_, ?_, ?_,
      ?_, ?_⟩
    · simp [exec_one_cmd, ht, hu]
    · rw [hl, hl0]; simp [St.call]
    · rw [List.count_append, h2, hno _ (by intro id; simp)]
    · rw [List.count_append, h3, hno _ (by intro id; simp)]
    · rw [List.count_append, h4, hno _ (by intro id; simp)]
    · rw [List.count_append, h1, hno _ (by intro id; simp)]; simp
    · intro hne
      have : ¬ ret = 0 := hne
      simp [flush_if_ok, this]
    · intro he
      have : ret = 0 := he
      simp [flush_if_ok, this]
  · intro ht ret m hu
    obtain ⟨l, hl, h1, h2, h3, h4, _⟩ :=
      flush_if_ok_trace env ret { s.call Call.update_port with mng := m }
    refine ⟨(flush_if_ok env ret { s.call Call.update_port with mng := m }).1,
      (flush_if_ok env ret { s.call Call.update_port with mng := m }).2, l, ?_, ?_,
      h2, h3, h4, h1, ?_, ?_⟩
    · simp [exec_one_cmd, ht, St.call] at hu ⊢; simp [hu]
    · rw [hl]; simp [St.call]
    · intro hne
      have : ¬ ret = 0 := hne
      simp [flush_if_ok, this]
    · intro he
      have : ret = 0 := he
      simp [flush_if_ok, this, St.call]
  · intro ht
    rcases ht with ht | ht | ht <;> simp [exec_one_cmd, ht]

/-- C3 at the request `exit`: the terminate signal, and a response whose first
result is SUCCESS. -/
theorem exec_cmds_terminate_iff_exit_witness :
    ∃ results1, exec_cmds ex_env_exit "exit" ex_st = some (SPP_RET_NG,
        (St.call ex_st (Call.exec_one_cmd (ex_cmd SPPWK_CMDTYPE_EXIT))).call
          (Call.send_result_spp_ctl ex_req_exit results1)) ∧
      results1[0]? = some res_success ∧
      ∀ i, 0 < i → results1[i]? = [res_success, zero_cmd_result, zero_cmd_result][i]? :=
  (exec_cmds_terminate_iff_exit ex_env_exit "exit" ex_st).2.1 rfl (by decide) (by decide)
    [res_success, zero_cmd_result, zero_cmd_result]
    (St.call ex_st (Call.exec_one_cmd (ex_cmd SPPWK_CMDTYPE_EXIT))) (by decide)

/-- C4 at a port command whose handler fails: no flush, the handler's error is
returned. -/
theorem exec_one_cmd_dispatch_witness :
    ∃ ret1 s1 l,
      exec_one_cmd ex_env (ex_port_cmd SPPWK_ACT_ADD PHY 0 SPP_PORT_RXTX_TX "fwd1") ex_st
        = some (ret1, s1) ∧
      s1.trace = ex_st.trace ++ Call.update_port :: l ∧
      l.count Call.update_cls_table = 0 ∧ l.count Call.update_comp = 0 ∧
      l.count Call.update_port = 0 ∧
      l.count Call.flush_cmd = (if SPP_RET_NG = SPP_RET_OK then 1 else 0) ∧
      (SPP_RET_NG ≠ SPP_RET_OK → ret1 = SPP_RET_NG ∧ s1.mng = ex_mng) ∧
      (SPP_RET_NG = SPP_RET_OK → (ret1, s1) =
        flush_cmd ex_env ⟨ex_mng, ex_st.trace ++ [Call.update_port, Call.flush_cmd]⟩) :=
  (exec_one_cmd_dispatch ex_env (ex_port_cmd SPPWK_ACT_ADD PHY 0 SPP_PORT_RXTX_TX "fwd1")
    ex_st).2.2.1 rfl SPP_RET_NG ex_mng (by decide)

/-! ## Port counts -/

/-- C5, counterexample: a forwarder whose rx count is `INT_MAX`, which is not
negative. The statement `num_rx++` wraps to the least `int`, so
`check_port_count` returns OK, although the count after adding one, `INT_MAX + 1`,
is above the limit 1 of a forwarder; the same happens on the tx side. -/
theorem check_port_count_wraps :
    (0 : Int) ≤ INT_MAX ∧
    check_port_count SPPWK_TYPE_FWD SPP_PORT_RXTX_RX INT_MAX 0 = SPP_RET_OK ∧
    ¬ (INT_MAX + 1 ≤ 1 ∧ (0 : Int) ≤ 1) ∧
    ¬ (check_port_count SPPWK_TYPE_FWD SPP_PORT_RXTX_RX INT_MAX 0 = SPP_RET_OK ↔
      INT_MAX + (if SPP_PORT_RXTX_RX = SPP_PORT_RXTX_RX then 1 else 0) ≤ 1 ∧
      (0 : Int) + (if SPP_PORT_RXTX_RX = SPP_PORT_RXTX_RX then 0 else 1) ≤ 1) ∧
    check_port_count SPPWK_TYPE_FWD SPP_PORT_RXTX_TX 0 INT_MAX = SPP_RET_OK := by
  decide

/-- C5, amended: for counts that are not negative and below `INT_MAX`,
`check_port_count` returns OK exactly when the counts, after one was added to
the side `rxtx` (the rx side for `SPP_PORT_RXTX_RX`, the tx side otherwise),
are within the limit of the worker type: FWD rx and tx at most 1, MRG tx at
most 1, CLS rx at most 1, MIR rx at most 1 and tx at most 2; for a record
without worker type it returns NG, and it returns nothing but OK and NG. -/
theorem check_port_count_limits (rxtx : spp_port_rxtx) (num_rx num_tx : Int)
    (hrx0 : 0 ≤ num_rx) (htx0 : 0 ≤ num_tx) (hrx : num_rx < INT_MAX) (htx : num_tx < INT_MAX) :
    (check_port_count SPPWK_TYPE_FWD rxtx num_rx num_tx = SPP_RET_OK ↔
      num_rx + (if rxtx = SPP_PORT_RXTX_RX then 1 else 0) ≤ 1 ∧
      num_tx + (if rxtx = SPP_PORT_RXTX_RX then 0 else 1) ≤ 1) ∧
    (check_port_count SPPWK_TYPE_MRG rxtx num_rx num_tx = SPP_RET_OK ↔
      num_tx + (if rxtx = SPP_PORT_RXTX_RX then 0 else 1) ≤ 1) ∧
    (check_port_count SPPWK_TYPE_CLS rxtx num_rx num_tx = SPP_RET_OK ↔
      num_rx + (if rxtx = SPP_PORT_RXTX_RX then 1 else 0) ≤ 1) ∧
    (check_port_count SPPWK_TYPE_MIR rxtx num_rx num_tx = SPP_RET_OK ↔
      num_rx + (if rxtx = SPP_PORT_RXTX_RX then 1 else 0) ≤ 1 ∧
      num_tx + (if rxtx = SPP_PORT_RXTX_RX then 0 else 1) ≤ 2) ∧
    check_port_count SPPWK_TYPE_NONE rxtx num_rx num_tx = SPP_RET_NG ∧
    ∀ t, check_port_count t rxtx num_rx num_tx = SPP_RET_OK ∨
      check_port_count t rxtx num_rx num_tx = SPP_RET_NG := by
  have key : ∀ (c : Prop) [Decidable c], ((if c then SPP_RET_NG else SPP_RET_OK) = SPP_RET_OK ↔ ¬ c) := by
    intro c _
    by_cases hc : c <;> simp [hc, SPP_RET_NG, SPP_RET_OK]
  have wrx : int_wrap (num_rx + 1) = num_rx + 1 :=
    int_wrap_eq _ (by omega) (by unfold INT_MAX at hrx; omega)
  have wtx : int_wrap (num_tx + 1) = num_tx + 1 :=
    int_wrap_eq _ (by omega) (by unfold INT_MAX at htx; omega)
  refine ⟨?_, ?_, ?_, ?_, ?_, ?_⟩
  · by_cases h : rxtx = SPP_PORT_RXTX_RX <;>
      simp only [check_port_count, wrx, wtx, h, if_true, if_false, key] <;> omega
  · by_cases h : rxtx = SPP_PORT_RXTX_RX <;>
      simp only [check_port_count, wrx, wtx, h, if_true, if_false, key] <;> omega
  · by_cases h : rxtx = SPP_PORT_RXTX_RX <;>
      simp only [check_port_count, wrx, wtx, h, if_true, if_false, key] <;> omega
  · by_cases h : rxtx = SPP_PORT_RXTX_RX <;>
      simp only [check_port_count, wrx, wtx, h, if_true, if_false, key] <;> omega
  · simp [check_port_count]
  · intro t
    cases t <;> simp only [check_port_count] <;> (try split_ifs) <;> simp

/-- C5, witness: a forwarder with one rx port and no tx port may get a tx port
and no second rx port. -/
theorem check_port_count_limits_witness :
    check_port_count SPPWK_TYPE_FWD SPP_PORT_RXTX_TX 1 0 = SPP_RET_OK ∧
    ¬ check_port_count SPPWK_TYPE_FWD SPP_PORT_RXTX_RX 1 0 = SPP_RET_OK :=
  ⟨(check_port_count_limits SPP_PORT_RXTX_TX 1 0 (by decide) (by decide) (by decide)
      (by decide)).1.mpr (by decide),
    fun h => absurd ((check_port_count_limits SPP_PORT_RXTX_RX 1 0 (by decide) (by decide)
      (by decide) (by decide)).1.mp h) (by decide)⟩

/-! ## `update_port` -/

/-- C6 as stated fails: the forwarder `fwd1` of `ex_mng` has `phy:1` in its tx
list, and the ADD of `phy:1` on the tx side with an ability of op NONE returns
failure, because the count check is made before the list is searched. -/
theorem update_port_add_attached_at_limit_fails :
    sppwk_get_lcore_id ex_mng "fwd1" = 0 ∧
    (ex_mng.comp_info[0]?).map
      (fun c => decide (some (PortPtr.mk PHY 1) ∈ c.tx_ports.take c.nof_tx.toNat)) = some true ∧
    zero_ability.ops = SPPWK_PORT_ABL_OPS_NONE ∧
    update_port ex_env SPPWK_ACT_ADD ⟨PHY, 1⟩ SPP_PORT_RXTX_TX "fwd1" zero_ability ex_mng
      = some (SPP_RET_NG, ex_mng) := by
  decide

/-- C6, amended: for an existing worker that passes the count check for `rxtx`
and a port already in the worker's list for `rxtx`, `update_port` with action
ADD and an ability of op NONE returns success and changes nothing: the
management data after the call is the management data before it. -/
theorem update_port_add_attached_idempotent (env : Env) (port : sppwk_port_idx)
    (rxtx : spp_port_rxtx) (name : String) (ability : spp_port_ability) (m : MngData)
    (wid : Nat) (c : sppwk_comp_info) (p : PortPtr)
    (hw : sppwk_get_lcore_id m name = (wid : Int)) (hc : m.comp_info[wid]? = some c)
    (hp : get_sppwk_port m port.iface_type port.iface_no = some p)
    (hcount : check_port_count c.wk_type rxtx c.nof_rx c.nof_tx = SPP_RET_OK)
    (hreg : some p ∈ (sel_ports rxtx c).take (sel_nof rxtx c).toNat)
    (hops : ability.ops = SPPWK_PORT_ABL_OPS_NONE) :
    update_port env SPPWK_ACT_ADD port rxtx name ability m = some (SPP_RET_OK, m) :=
  update_port_add_attached_eq env port rxtx name ability m wid c p hw hc hp hcount hreg
    (by rw [hops]; decide)

/-- C6, amended, at the merger `mrg1` of `ex_mng_mrg`, which has `phy:1` in its rx
list and no limit on rx ports. -/
theorem update_port_add_attached_idempotent_witness :
    update_port ex_env SPPWK_ACT_ADD ⟨PHY, 1⟩ SPP_PORT_RXTX_RX "mrg1" zero_ability ex_mng_mrg
      = some (SPP_RET_OK, ex_mng_mrg) :=
  update_port_add_attached_idempotent ex_env ⟨PHY, 1⟩ SPP_PORT_RXTX_RX "mrg1" zero_ability
    ex_mng_mrg 0 _ ⟨PHY, 1⟩ rfl rfl rfl (by decide) (by decide) rfl

/-- C7: failure atomicity of `update_port`. Whenever `update_port` returns a
status other than OK, the status is NG and the management data (worker
records, port records with their ability slots and kind, change flags) is
what it was before the call. It does fail for an unknown worker name, for an
ADD over the limit of the worker type, for an action that is neither ADD nor
DEL and for the ADD of a new port to a list already holding
`RTE_MAX_ETHPORTS` ports (the failures for want of an ability slot are part
of C8 and C9); in particular a tx ADD on a forwarder that already has a tx
port (a tx count of at least 1, below `INT_MAX`, where the count check would
wrap) fails and leaves everything, its tx list included, unchanged. -/
theorem update_port_failure_atomic (env : Env) (wk_action : sppwk_action)
    (port : sppwk_port_idx) (rxtx : spp_port_rxtx) (name : String)
    (ability : spp_port_ability) (m : MngData) :
    (∀ r m1, update_port env wk_action port rxtx name ability m = some (r, m1) →
      r ≠ SPP_RET_OK → r = SPP_RET_NG ∧ m1 = m) ∧
    (sppwk_get_lcore_id m name < 0 →
      update_port env wk_action port rxtx name ability m = some (SPP_RET_NG, m)) ∧
    (∀ (wid : Nat) (c : sppwk_comp_info),
      sppwk_get_lcore_id m name = (wid : Int) → m.comp_info[wid]? = some c →
      (wk_action = SPPWK_ACT_ADD →
        check_port_count c.wk_type rxtx c.nof_rx c.nof_tx ≠ SPP_RET_OK →
        update_port env wk_action port rxtx name ability m = some (SPP_RET_NG, m)) ∧
      (wk_action ≠ SPPWK_ACT_ADD → wk_action ≠ SPPWK_ACT_DEL →
        update_port env wk_action port rxtx name ability m = some (SPP_RET_NG, m)) ∧
      (wk_action = SPPWK_ACT_ADD →
        check_port_count c.wk_type rxtx c.nof_rx c.nof_tx = SPP_RET_OK →
        get_sppwk_port m port.iface_type port.iface_no ∉
          (sel_ports rxtx c).take (sel_nof rxtx c).toNat →
        sel_nof rxtx c ≥ (env.RTE_MAX_ETHPORTS : Int) →
        update_port env wk_action port rxtx name ability m = some (SPP_RET_NG, m)) ∧
      (wk_action = SPPWK_ACT_ADD → rxtx = SPP_PORT_RXTX_TX → c.wk_type = SPPWK_TYPE_FWD →
        1 ≤ c.nof_tx → c.nof_tx < INT_MAX →
        update_port env wk_action port rxtx name ability m = some (SPP_RET_NG, m))) := by
  have hadd : ∀ (wid : Nat) (c : sppwk_comp_info),
      sppwk_get_lcore_id m name = (wid : Int) → m.comp_info[wid]? = some c →
      check_port_count c.wk_type rxtx c.nof_rx c.nof_tx ≠ SPP_RET_OK →
      update_port env SPPWK_ACT_ADD port rxtx name ability m = some (SPP_RET_NG, m) := by
    intro wid c hw hc hcount
    unfold update_port
    simp only [hw, Int.toNat_ofNat, hc]
    rw [if_neg (by omega), if_pos hcount]
  refine ⟨?_, ?_, ?_⟩
  · intro r m1 h hr
    unfold update_port at h
    simp only at h
    repeat' split at h
    all_goals first
      | (simp at h; done)
      | (simp only [Option.some.injEq, Prod.mk.injEq] at h
         obtain ⟨h1, h2⟩ := h
         first
           | exact ⟨h1.symm, h2.symm⟩
           | exact absurd h1.symm hr)
  · intro h
    unfold update_port
    simp only [h, if_true]
  · intro wid c hw hc
    refine ⟨fun ha hcount => ?_, fun h1 h2 => ?_, fun ha hcount hnin hfull => ?_,
      fun ha hx ht hn hmax => ?_⟩
    · subst ha; exact hadd wid c hw hc hcount
    · unfold update_port
      simp only [hw, Int.toNat_ofNat, hc]
      rw [if_neg (by omega)]
    · subst ha
      have h3 : ¬ (get_idx_port_info (get_sppwk_port m port.iface_type port.iface_no)
          (sel_nof rxtx c) (sel_ports rxtx c) ≥ SPP_RET_OK) := by
        have := (get_idx_port_info_nonneg_iff
          (get_sppwk_port m port.iface_type port.iface_no) (sel_nof rxtx c)
          (sel_ports rxtx c)).2.mpr hnin
        simp only [SPP_RET_OK]; omega
      unfold update_port
      simp only [hw, Int.toNat_ofNat, hc]
      rw [if_neg (by omega), if_neg (not_not.mpr hcount), if_neg h3, if_pos hfull]
    · subst ha
      apply hadd wid c hw hc
      rw [ht, hx]
      have hwrap : int_wrap (c.nof_tx + 1) = c.nof_tx + 1 :=
        int_wrap_eq _ (by omega) (by unfold INT_MAX at hmax; omega)
      simp only [check_port_count, hwrap, SPP_RET_NG, SPP_RET_OK, reduceCtorEq, if_false, ne_eq,
        ite_eq_right_iff, not_forall]
      exact ⟨Or.inr (by omega), by decide⟩

/-- C7 at the forwarder `fwd1` of `ex_mng`, which has the tx port `phy:1`: the ADD
of `phy:0` as a second tx port fails and changes nothing. -/
theorem update_port_failure_atomic_witness :
    update_port ex_env SPPWK_ACT_ADD ⟨PHY, 0⟩ SPP_PORT_RXTX_TX "fwd1" zero_ability ex_mng
      = some (SPP_RET_NG, ex_mng) :=
  ((update_port_failure_atomic ex_env SPPWK_ACT_ADD ⟨PHY, 0⟩ SPP_PORT_RXTX_TX "fwd1"
    zero_ability ex_mng).2.2 0 _ rfl rfl).2.2.2 rfl rfl rfl (by decide) (by decide)

/-- C8: ADD of a port that is not yet in the worker's list for `rxtx`, for an
existing worker passing the count check whose list holds fewer than
`RTE_MAX_ETHPORTS` ports. `update_port` succeeds exactly when the ability has
op NONE or the port has a slot with op NONE, and fails changing nothing
otherwise. On success: when the op is not NONE the ability is written to the
lowest slot with op NONE and no other slot changes (no slot changes when the
op is NONE); the kind of the port is set from the request, its other fields
stay; the port is stored at index `nof` of the list for `rxtx` and that
counter grows by one; the other side, the other workers, the other ports and
the lcore records are unchanged; the change flag of the worker is 1. -/
theorem update_port_add_new (env : Env) (port : sppwk_port_idx) (rxtx : spp_port_rxtx)
    (name : String) (ability : spp_port_ability) (m : MngData) (wid : Nat)
    (c : sppwk_comp_info) (p : PortPtr) (pinfo : sppwk_port_info)
    (hw : sppwk_get_lcore_id m name = (wid : Int)) (hc : m.comp_info[wid]? = some c)
    (hp : get_sppwk_port m port.iface_type port.iface_no = some p)
    (hr : read_port m p = some pinfo)
    (hcount : check_port_count c.wk_type rxtx c.nof_rx c.nof_tx = SPP_RET_OK)
    (hnew : some p ∉ (sel_ports rxtx c).take (sel_nof rxtx c).toNat)
    (hnof0 : 0 ≤ sel_nof rxtx c) (hnof : sel_nof rxtx c < env.RTE_MAX_ETHPORTS)
    (hcap : (sel_ports rxtx c).length = env.RTE_MAX_ETHPORTS)
    (hflags : wid < m.change_component.length)
    (habl : pinfo.ability.length = env.SPP_PORT_ABILITY_MAX) :
    ((∃ m1, update_port env SPPWK_ACT_ADD port rxtx name ability m = some (SPP_RET_OK, m1)) ↔
      (ability.ops = SPPWK_PORT_ABL_OPS_NONE ∨
        ∃ i, i < env.SPP_PORT_ABILITY_MAX ∧
          ∃ a, pinfo.ability[i]? = some a ∧ a.ops = SPPWK_PORT_ABL_OPS_NONE)) ∧
    ((∀ m1, update_port env SPPWK_ACT_ADD port rxtx name ability m ≠ some (SPP_RET_OK, m1)) →
      update_port env SPPWK_ACT_ADD port rxtx name ability m = some (SPP_RET_NG, m)) ∧
    (∀ m1, update_port env SPPWK_ACT_ADD port rxtx name ability m = some (SPP_RET_OK, m1) →
      (∃ pinfo1, read_port m1 p = some pinfo1 ∧
        pinfo1.iface_type = port.iface_type ∧ pinfo1.iface_no = pinfo.iface_no ∧
        pinfo1.ethdev_port_id = pinfo.ethdev_port_id ∧ pinfo1.cls_attrs = pinfo.cls_attrs ∧
        (ability.ops = SPPWK_PORT_ABL_OPS_NONE → pinfo1.ability = pinfo.ability) ∧
        (ability.ops ≠ SPPWK_PORT_ABL_OPS_NONE →
          ∃ cnt, cnt < env.SPP_PORT_ABILITY_MAX ∧
            (∃ a, pinfo.ability[cnt]? = some a ∧ a.ops = SPPWK_PORT_ABL_OPS_NONE) ∧
            (∀ j, j < cnt → ∀ a, pinfo.ability[j]? = some a →
              a.ops ≠ SPPWK_PORT_ABL_OPS_NONE) ∧
            pinfo1.ability = pinfo.ability.set cnt ability)) ∧
      (∃ c1, m1.comp_info[wid]? = some c1 ∧
        sel_ports rxtx c1 = (sel_ports rxtx c).set (sel_nof rxtx c).toNat (some p) ∧
        (sel_ports rxtx c1)[(sel_nof rxtx c).toNat]? = some (some p) ∧
        sel_nof rxtx c1 = sel_nof rxtx c + 1 ∧
        (rxtx = SPP_PORT_RXTX_RX → c1.nof_tx = c.nof_tx ∧ c1.tx_ports = c.tx_ports) ∧
        (rxtx ≠ SPP_PORT_RXTX_RX → c1.nof_rx = c.nof_rx ∧ c1.rx_ports = c.rx_ports) ∧
        c1.name = c.name ∧ c1.wk_type = c.wk_type ∧ c1.lcore_id = c.lcore_id) ∧
      m1.change_component[wid]? = some 1 ∧
      (∀ q, q ≠ p → read_port m1 q = read_port m q) ∧
      (∀ w, w ≠ wid → m1.comp_info[w]? = m.comp_info[w]? ∧
        m1.change_component[w]? = m.change_component[w]?) ∧
      m1.core_info = m.core_info ∧ m1.change_core = m.change_core) := by
  have heq := update_port_add_new_eq env port rxtx name ability m wid c p pinfo hw hc hp hr
    hcount ((get_idx_port_info_nonneg_iff _ _ _).2.mpr hnew) hnof0 hnof hcap
  obtain ⟨hiff, hle, hlow⟩ := scan_ability_lowest SPPWK_PORT_ABL_OPS_NONE pinfo.ability
    env.SPP_PORT_ABILITY_MAX habl
  have hwid : wid < m.comp_info.length := (List.getElem?_eq_some_iff.mp hc).1
  have hcase : (ability.ops ≠ SPPWK_PORT_ABL_OPS_NONE ∧
      scan_ability SPPWK_PORT_ABL_OPS_NONE pinfo.ability env.SPP_PORT_ABILITY_MAX
        env.SPP_PORT_ABILITY_MAX 0 ≥ env.SPP_PORT_ABILITY_MAX) ↔
      ¬ (ability.ops = SPPWK_PORT_ABL_OPS_NONE ∨
        ∃ i, i < env.SPP_PORT_ABILITY_MAX ∧
          ∃ a, pinfo.ability[i]? = some a ∧ a.ops = SPPWK_PORT_ABL_OPS_NONE) := by
    rw [← hiff]
    constructor
    · rintro ⟨h1, h2⟩ (h3 | h3)
      · exact h1 h3
      · omega
    · intro h
      exact ⟨fun h1 => h (Or.inl h1), by
        by_contra h2
        exact h (Or.inr (by omega))⟩
  refine ⟨?_, ?_, ?_⟩
  · rw [heq]
    constructor
    · rintro ⟨m1, h⟩
      by_contra hn
      rw [if_pos (hcase.mpr hn)] at h
      simp [SPP_RET_NG, SPP_RET_OK] at h
    · intro h
      rw [if_neg (fun hn => hcase.mp hn h)]
      exact ⟨_, rfl⟩
  · intro h
    rw [heq] at h ⊢
    by_cases hn : ability.ops ≠ SPPWK_PORT_ABL_OPS_NONE ∧
        scan_ability SPPWK_PORT_ABL_OPS_NONE pinfo.ability env.SPP_PORT_ABILITY_MAX
          env.SPP_PORT_ABILITY_MAX 0 ≥ env.SPP_PORT_ABILITY_MAX
    · rw [if_pos hn]
    · rw [if_neg hn] at h
      exact absurd rfl (h _)
  · intro m1 h
    rw [heq] at h
    by_cases hn : ability.ops ≠ SPPWK_PORT_ABL_OPS_NONE ∧
        scan_ability SPPWK_PORT_ABL_OPS_NONE pinfo.ability env.SPP_PORT_ABILITY_MAX
          env.SPP_PORT_ABILITY_MAX 0 ≥ env.SPP_PORT_ABILITY_MAX
    · rw [if_pos hn] at h
      simp [SPP_RET_NG, SPP_RET_OK] at h
    rw [if_neg hn] at h
    simp only [Option.some.injEq, Prod.mk.injEq, true_and] at h
    subst h
    refine ⟨⟨{ pinfo with
        ability :=
          if ability.ops ≠ SPPWK_PORT_ABL_OPS_NONE then
            pinfo.ability.set
              (scan_ability SPPWK_PORT_ABL_OPS_NONE pinfo.ability
                env.SPP_PORT_ABILITY_MAX env.SPP_PORT_ABILITY_MAX 0) ability
          else pinfo.ability,
        iface_type := port.iface_type }, ?_, rfl, rfl, rfl, rfl, fun h0 => ?_, fun h0 => ?_⟩,
      ⟨put_ports rxtx c (sel_nof rxtx c + 1)
        ((sel_ports rxtx c).set (sel_nof rxtx c).toNat (some p)), ?_, ?_, ?_, ?_, ?_, ?_, ?_⟩,
      ?_, ?_, ?_, ?_, ?_⟩
    · rw [read_port_after]
      exact read_write_port_same m p _ pinfo hr
    · simp only [ne_eq, h0, not_true_eq_false, if_false]
    · have hlt : scan_ability SPPWK_PORT_ABL_OPS_NONE pinfo.ability env.SPP_PORT_ABILITY_MAX
          env.SPP_PORT_ABILITY_MAX 0 < env.SPP_PORT_ABILITY_MAX := by
        by_contra h2
        exact hn ⟨h0, by omega⟩
      exact ⟨_, hlt, (hlow hlt).1, (hlow hlt).2, by simp only [ne_eq, h0, not_false_eq_true, if_true]⟩
    · simp only [set_change_component]
      exact List.getElem?_set_self hwid
    · exact (sel_put_ports rxtx c _ _).2
    · rw [(sel_put_ports rxtx c _ _).2]
      exact List.getElem?_set_self (by rw [hcap]; omega)
    · exact (sel_put_ports rxtx c _ _).1
    · exact (put_ports_frame rxtx c _ _).2.2.2.2.1
    · exact (put_ports_frame rxtx c _ _).2.2.2.2.2
    · exact ⟨(put_ports_frame rxtx c _ _).1, (put_ports_frame rxtx c _ _).2.1,
        (put_ports_frame rxtx c _ _).2.2.1⟩
    · simp only [set_change_component, write_port_change_component]
      exact List.getElem?_set_self hflags
    · intro q hq
      rw [read_port_after]
      exact read_write_port_other m p q _ hq
    · intro w hw1
      simp only [set_change_component, write_port_change_component]
      exact ⟨List.getElem?_set_ne (Ne.symm hw1), List.getElem?_set_ne (Ne.symm hw1)⟩
    · simp only [set_change_component]
      exact (write_port_core m p _).1
    · simp only [set_change_component]
      exact (write_port_core m p _).2

/-- C8 at the merger `mrg1` of `ex_mng_mrg`: `phy:0`, not yet attached, is added
on the rx side with a VLAN ability. -/
theorem update_port_add_new_witness :
    ∃ m1, update_port ex_env SPPWK_ACT_ADD ⟨PHY, 0⟩ SPP_PORT_RXTX_RX "mrg1" ex_add_vlan
      ex_mng_mrg = some (SPP_RET_OK, m1) :=
  (update_port_add_new ex_env ⟨PHY, 0⟩ SPP_PORT_RXTX_RX "mrg1" ex_add_vlan ex_mng_mrg 0 _
    ⟨PHY, 0⟩ _ rfl rfl rfl rfl (by decide) (by decide) (by decide) (by decide) rfl
    (by decide) rfl).1.mpr (Or.inr ⟨0, by decide, _, rfl, rfl⟩)

/-- C9: ADD with the ability `ADD_VLANTAG` of a port that is already in the
worker's list for `rxtx`, for an existing worker passing the count check.
When a slot of the port holds `ADD_VLANTAG`, `update_port` succeeds, writes
the ability over the lowest such slot and leaves the other slots, the other
fields of the port, the other ports, every worker record (lists and counters)
and the lcore records unchanged, and sets the change flag of the worker to 1.
It fails, changing nothing, exactly when no slot holds `ADD_VLANTAG`. -/
theorem update_port_add_vlan_attached (env : Env) (port : sppwk_port_idx)
    (rxtx : spp_port_rxtx) (name : String) (ability : spp_port_ability) (m : MngData)
    (wid : Nat) (c : sppwk_comp_info) (p : PortPtr) (pinfo : sppwk_port_info)
    (hw : sppwk_get_lcore_id m name = (wid : Int)) (hc : m.comp_info[wid]? = some c)
    (hp : get_sppwk_port m port.iface_type port.iface_no = some p)
    (hr : read_port m p = some pinfo)
    (hcount : check_port_count c.wk_type rxtx c.nof_rx c.nof_tx = SPP_RET_OK)
    (hreg : some p ∈ (sel_ports rxtx c).take (sel_nof rxtx c).toNat)
    (hops : ability.ops = SPPWK_PORT_ABL_OPS_ADD_VLANTAG)
    (hflags : wid < m.change_component.length)
    (habl : pinfo.ability.length = env.SPP_PORT_ABILITY_MAX) :
    ((∃ i, i < env.SPP_PORT_ABILITY_MAX ∧
        ∃ a, pinfo.ability[i]? = some a ∧ a.ops = SPPWK_PORT_ABL_OPS_ADD_VLANTAG) →
      ∃ m1 cnt, update_port env SPPWK_ACT_ADD port rxtx name ability m = some (SPP_RET_OK, m1) ∧
        cnt < env.SPP_PORT_ABILITY_MAX ∧
        (∃ a, pinfo.ability[cnt]? = some a ∧ a.ops = SPPWK_PORT_ABL_OPS_ADD_VLANTAG) ∧
        (∀ j, j < cnt → ∀ a, pinfo.ability[j]? = some a →
          a.ops ≠ SPPWK_PORT_ABL_OPS_ADD_VLANTAG) ∧
        read_port m1 p = some { pinfo with ability := pinfo.ability.set cnt ability } ∧
        (∀ q, q ≠ p → read_port m1 q = read_port m q) ∧
        m1.comp_info = m.comp_info ∧
        m1.change_component[wid]? = some 1 ∧
        (∀ w, w ≠ wid → m1.change_component[w]? = m.change_component[w]?) ∧
        m1.core_info = m.core_info ∧ m1.change_core = m.change_core) ∧
    (update_port env SPPWK_ACT_ADD port rxtx name ability m = some (SPP_RET_NG, m) ↔
      ¬ ∃ i, i < env.SPP_PORT_ABILITY_MAX ∧
        ∃ a, pinfo.ability[i]? = some a ∧ a.ops = SPPWK_PORT_ABL_OPS_ADD_VLANTAG) := by
  have heq := update_port_add_vlan_eq env port rxtx name ability m wid c p pinfo hw hc hp hr
    hcount hreg hops
  obtain ⟨hiff, hle, hlow⟩ := scan_ability_lowest SPPWK_PORT_ABL_OPS_ADD_VLANTAG pinfo.ability
    env.SPP_PORT_ABILITY_MAX habl
  refine ⟨fun hex => ?_, ?_⟩
  · have hlt := hiff.mpr hex
    rw [heq, if_neg (by omega)]
    refine ⟨_, _, rfl, hlt, (hlow hlt).1, (hlow hlt).2, ?_, ?_, ?_, ?_, ?_, ?_, ?_⟩
    · rw [read_port_flag]
      exact read_write_port_same m p _ pinfo hr
    · intro q hq
      rw [read_port_flag]
      exact read_write_port_other m p q _ hq
    · simp only [set_change_component]
      exact write_port_comp_info m p _
    · simp only [set_change_component, write_port_change_component]
      exact List.getElem?_set_self hflags
    · intro w hw1
      simp only [set_change_component, write_port_change_component]
      exact List.getElem?_set_ne (Ne.symm hw1)
    · simp only [set_change_component]
      exact (write_port_core m p _).1
    · simp only [set_change_component]
      exact (write_port_core m p _).2
  · rw [heq, ← hiff]
    constructor
    · intro h hlt
      rw [if_neg (by omega)] at h
      simp [SPP_RET_NG, SPP_RET_OK] at h
    · intro h
      rw [if_pos (by omega)]

/-- C9 at the merger `mrg1` of `ex_mng_mrg`, whose rx port `phy:1` carries an
`ADD_VLANTAG` ability in slot 0. -/
theorem update_port_add_vlan_attached_witness :
    ∃ m1 cnt, update_port ex_env SPPWK_ACT_ADD ⟨PHY, 1⟩ SPP_PORT_RXTX_RX "mrg1"
        { ex_add_vlan with data := ⟨200, 0, 0⟩ } ex_mng_mrg = some (SPP_RET_OK, m1) ∧
      cnt < ex_env.SPP_PORT_ABILITY_MAX ∧
      (∃ a, [ex_add_vlan, zero_ability][cnt]? = some a ∧
        a.ops = SPPWK_PORT_ABL_OPS_ADD_VLANTAG) ∧
      (∀ j, j < cnt → ∀ a, [ex_add_vlan, zero_ability][j]? = some a →
        a.ops ≠ SPPWK_PORT_ABL_OPS_ADD_VLANTAG) ∧
      read_port m1 ⟨PHY, 1⟩ = some
        { ex_port with
          iface_type := PHY,
          ability := [ex_add_vlan, zero_ability].set cnt
            { ex_add_vlan with data := ⟨200, 0, 0⟩ } } ∧
      (∀ q, q ≠ ⟨PHY, 1⟩ → read_port m1 q = read_port ex_mng_mrg q) ∧
      m1.comp_info = ex_mng_mrg.comp_info ∧
      m1.change_component[0]? = some 1 ∧
      (∀ w, w ≠ 0 → m1.change_component[w]? = ex_mng_mrg.change_component[w]?) ∧
      m1.core_info = ex_mng_mrg.core_info ∧ m1.change_core = ex_mng_mrg.change_core :=
  (update_port_add_vlan_attached ex_env ⟨PHY, 1⟩ SPP_PORT_RXTX_RX "mrg1"
    { ex_add_vlan with data := ⟨200, 0, 0⟩ } ex_mng_mrg 0 _ ⟨PHY, 1⟩ _ rfl rfl rfl rfl
    (by decide) (by decide) rfl (by decide) rfl).1 ⟨0, by decide, _, rfl, rfl⟩

/-- C10: DEL for an existing worker and port. `update_port` returns success;
every ability slot of the port that was in use with direction `rxtx` is
zeroed, every slot whose direction differs from `rxtx` and every slot not in
use is unchanged; the counter of the worker for `rxtx` is decremented by one
exactly when `delete_port_info` returned 0, that is when the port was in the
worker's list for `rxtx`, and is unchanged otherwise (and so is the list
then); the other side of the worker, the other workers, the other ports and
the lcore records are unchanged; the change flag of the worker is 1. -/
theorem update_port_del (env : Env) (port : sppwk_port_idx) (rxtx : spp_port_rxtx)
    (name : String) (ability : spp_port_ability) (m : MngData) (wid : Nat)
    (c : sppwk_comp_info) (p : PortPtr) (pinfo : sppwk_port_info)
    (hw : sppwk_get_lcore_id m name = (wid : Int)) (hc : m.comp_info[wid]? = some c)
    (hp : get_sppwk_port m port.iface_type port.iface_no = some p)
    (hr : read_port m p = some pinfo)
    (hflags : wid < m.change_component.length)
    (habl : pinfo.ability.length = env.SPP_PORT_ABILITY_MAX) :
    ∃ m1 pinfo1 c1,
      update_port env SPPWK_ACT_DEL port rxtx name ability m = some (SPP_RET_OK, m1) ∧
      read_port m1 p = some pinfo1 ∧
      (∀ i a, i < env.SPP_PORT_ABILITY_MAX → pinfo.ability[i]? = some a →
        (a.ops ≠ SPPWK_PORT_ABL_OPS_NONE → a.rxtx = rxtx →
          pinfo1.ability[i]? = some zero_ability) ∧
        (a.rxtx ≠ rxtx → pinfo1.ability[i]? = some a) ∧
        (a.ops = SPPWK_PORT_ABL_OPS_NONE → pinfo1.ability[i]? = some a)) ∧
      pinfo1.ability.length = pinfo.ability.length ∧
      pinfo1.iface_type = pinfo.iface_type ∧ pinfo1.cls_attrs = pinfo.cls_attrs ∧
      m1.comp_info[wid]? = some c1 ∧
      ((delete_port_info (some p) (sel_nof rxtx c) (sel_ports rxtx c)).1 = 0 ↔
        some p ∈ (sel_ports rxtx c).take (sel_nof rxtx c).toNat) ∧
      (some p ∈ (sel_ports rxtx c).take (sel_nof rxtx c).toNat →
        sel_nof rxtx c1 = sel_nof rxtx c - 1) ∧
      (some p ∉ (sel_ports rxtx c).take (sel_nof rxtx c).toNat →
        sel_nof rxtx c1 = sel_nof rxtx c ∧ sel_ports rxtx c1 = sel_ports rxtx c) ∧
      sel_ports rxtx c1 = (delete_port_info (some p) (sel_nof rxtx c) (sel_ports rxtx c)).2 ∧
      (rxtx = SPP_PORT_RXTX_RX → c1.nof_tx = c.nof_tx ∧ c1.tx_ports = c.tx_ports) ∧
      (rxtx ≠ SPP_PORT_RXTX_RX → c1.nof_rx = c.nof_rx ∧ c1.rx_ports = c.rx_ports) ∧
      m1.change_component[wid]? = some 1 ∧
      (∀ q, q ≠ p → read_port m1 q = read_port m q) ∧
      (∀ w, w ≠ wid → m1.comp_info[w]? = m.comp_info[w]? ∧
        m1.change_component[w]? = m.change_component[w]?) ∧
      m1.core_info = m.core_info ∧ m1.change_core = m.change_core := by
  have heq := update_port_del_eq env port rxtx name ability m wid c p pinfo hw hc hp hr
  obtain ⟨hclen, hcget⟩ := clear_abilities_spec rxtx env.SPP_PORT_ABILITY_MAX 0 pinfo.ability
  obtain ⟨hdel, hkeep⟩ := delete_port_info_spec (some p) (sel_nof rxtx c) (sel_ports rxtx c)
  have hwid : wid < m.comp_info.length := (List.getElem?_eq_some_iff.mp hc).1
  refine ⟨_, { pinfo with
      ability := clear_abilities rxtx env.SPP_PORT_ABILITY_MAX 0 pinfo.ability },
    put_ports rxtx c
      (if (delete_port_info (some p) (sel_nof rxtx c) (sel_ports rxtx c)).1 = 0 then
        sel_nof rxtx c - 1 else sel_nof rxtx c)
      (delete_port_info (some p) (sel_nof rxtx c) (sel_ports rxtx c)).2,
    heq, ?_, ?_, hclen, rfl, rfl, ?_, hdel, ?_, ?_, ?_, ?_, ?_, ?_, ?_, ?_, ?_, ?_⟩
  · rw [read_port_after]
    exact read_write_port_same m p _ pinfo hr
  · intro i a hi ha
    have hlt : i < pinfo.ability.length := by omega
    have hd : pinfo.ability.getD i zero_ability = a := by
      rw [List.getD_eq_getElem?_getD, ha]; rfl
    simp only
    rw [hcget i, hd]
    refine ⟨fun h1 h2 => ?_, fun h1 => ?_, fun h1 => ?_⟩
    · rw [if_pos ⟨Nat.zero_le _, by omega, hlt, h1, h2⟩]
    · rw [if_neg (fun h => h1 h.2.2.2.2), ha]
    · rw [if_neg (fun h => h.2.2.2.1 h1), ha]
  · simp only [set_change_component]
    exact List.getElem?_set_self hwid
  · intro hin
    rw [(sel_put_ports rxtx c _ _).1, if_pos (hdel.mpr hin)]
  · intro hnin
    rw [(sel_put_ports rxtx c _ _).1, (sel_put_ports rxtx c _ _).2, hkeep hnin]
    exact ⟨by simp, rfl⟩
  · exact (sel_put_ports rxtx c _ _).2
  · exact (put_ports_frame rxtx c _ _).2.2.2.2.1
  · exact (put_ports_frame rxtx c _ _).2.2.2.2.2
  · simp only [set_change_component, write_port_change_component]
    exact List.getElem?_set_self hflags
  · intro q hq
    rw [read_port_after]
    exact read_write_port_other m p q _ hq
  · intro w hw1
    simp only [set_change_component, write_port_change_component]
    exact ⟨List.getElem?_set_ne (Ne.symm hw1), List.getElem?_set_ne (Ne.symm hw1)⟩
  · simp only [set_change_component]
    exact (write_port_core m p _).1
  · simp only [set_change_component]
    exact (write_port_core m p _).2

/-- C10 at the forwarder `fwd1` of `ex_mng`: its tx port `phy:1`, which carries a
tx ability, is deleted from the tx side. -/
theorem update_port_del_witness :
    ∃ m1, update_port ex_env SPPWK_ACT_DEL ⟨PHY, 1⟩ SPP_PORT_RXTX_TX "fwd1" zero_ability ex_mng
        = some (SPP_RET_OK, m1) ∧
      (read_port m1 ⟨PHY, 1⟩).map (fun r => r.ability) = some [zero_ability, zero_ability] ∧
      (m1.comp_info[0]?).map (fun c => (c.nof_tx, c.tx_ports, c.nof_rx, c.rx_ports))
        = some (0, [none, none], 1, [some ⟨PHY, 0⟩, none]) ∧
      m1.change_component[0]? = some 1 := by
  obtain ⟨m1, pinfo1, c1, h1, _⟩ := update_port_del ex_env ⟨PHY, 1⟩ SPP_PORT_RXTX_TX "fwd1"
    zero_ability ex_mng 0 _ ⟨PHY, 1⟩ _ rfl rfl rfl rfl (by decide) rfl
  refine ⟨m1, h1, ?_⟩
  have h2 : some (SPP_RET_OK, m1) = update_port ex_env SPPWK_ACT_DEL ⟨PHY, 1⟩ SPP_PORT_RXTX_TX
      "fwd1" zero_ability ex_mng := h1.symm
  have h3 : update_port ex_env SPPWK_ACT_DEL ⟨PHY, 1⟩ SPP_PORT_RXTX_TX "fwd1" zero_ability ex_mng
      = some (SPP_RET_OK, (((update_port ex_env SPPWK_ACT_DEL ⟨PHY, 1⟩ SPP_PORT_RXTX_TX "fwd1"
          zero_ability ex_mng).getD (0, ex_mng)).2)) := by decide
  rw [h3] at h2
  simp only [Option.some.injEq, Prod.mk.injEq, true_and] at h2
  rw [h2]
  decide

/-! ## Claims: `update_cls_table` -/

/-- C11: ADD on a bound port (kind other than UNDEF) with a MAC string that
parses. `update_cls_table` fails, changing nothing, exactly when the stored
VLAN id differs from the sentinel `ETH_VLAN_ID_MAX` (4095) or the stored MAC
address is non-zero. Otherwise it succeeds and the port record holds the
requested VLAN id, the integer value of `mac_str` (the conversion result as a
`uint64_t`, which is the conversion result itself when that lies in the range)
and `mac_str`; the other fields of the record (pcp, tci, kind, number, ethdev
id, ability slots) and every other port record are unchanged. -/
theorem update_cls_table_add (env : Env) (t : spp_classifier_type) (vid : Int)
    (mac_str : String) (port : sppwk_port_idx) (m : MngData) (p : PortPtr)
    (pinfo : sppwk_port_info)
    (hconv : env.sppwk_convert_mac_str_to_int64 mac_str ≠ -1)
    (hp : get_sppwk_port m port.iface_type port.iface_no = some p)
    (hr : read_port m p = some pinfo) (hbound : pinfo.iface_type ≠ UNDEF) :
    ETH_VLAN_ID_MAX = 4095 ∧
    (update_cls_table env SPPWK_ACT_ADD t vid mac_str port m = some (SPP_RET_NG, m) ↔
      (pinfo.cls_attrs.vlantag.vid ≠ ETH_VLAN_ID_MAX ∨ pinfo.cls_attrs.mac_addr ≠ 0)) ∧
    (¬ (pinfo.cls_attrs.vlantag.vid ≠ ETH_VLAN_ID_MAX ∨ pinfo.cls_attrs.mac_addr ≠ 0) →
      ∃ m1 pinfo1,
        update_cls_table env SPPWK_ACT_ADD t vid mac_str port m = some (SPP_RET_OK, m1) ∧
        read_port m1 p = some pinfo1 ∧
        pinfo1.cls_attrs.vlantag.vid = vid ∧
        (pinfo1.cls_attrs.mac_addr : Int) = env.sppwk_convert_mac_str_to_int64 mac_str % 2 ^ 64 ∧
        (0 ≤ env.sppwk_convert_mac_str_to_int64 mac_str →
          env.sppwk_convert_mac_str_to_int64 mac_str < 2 ^ 64 →
          (pinfo1.cls_attrs.mac_addr : Int) = env.sppwk_convert_mac_str_to_int64 mac_str) ∧
        pinfo1.cls_attrs.mac_addr_str = mac_str ∧
        pinfo1.cls_attrs.vlantag.pcp = pinfo.cls_attrs.vlantag.pcp ∧
        pinfo1.cls_attrs.vlantag.tci = pinfo.cls_attrs.vlantag.tci ∧
        pinfo1.iface_type = pinfo.iface_type ∧ pinfo1.iface_no = pinfo.iface_no ∧
        pinfo1.ethdev_port_id = pinfo.ethdev_port_id ∧ pinfo1.ability = pinfo.ability ∧
        (∀ q, q ≠ p → read_port m1 q = read_port m q)) := by
  have heq := update_cls_table_add_eq env t vid mac_str port m p pinfo hconv hp hr hbound
  refine ⟨rfl, ?_, fun hn => ?_⟩
  · rw [heq]
    constructor
    · intro h
      by_contra hn
      rw [if_neg hn] at h
      simp [SPP_RET_NG, SPP_RET_OK] at h
    · intro h
      rw [if_pos h]
  · rw [heq, if_neg hn]
    refine ⟨_, { pinfo with
        cls_attrs :=
          { vlantag := { pinfo.cls_attrs.vlantag with vid := vid },
            mac_addr := (env.sppwk_convert_mac_str_to_int64 mac_str % 2 ^ 64).toNat,
            mac_addr_str := mac_str } },
      rfl, ?_, rfl, ?_, ?_, rfl, rfl, rfl, rfl, rfl, rfl, rfl, ?_⟩
    · rw [read_port_mark]
      exact read_write_port_same m p _ pinfo hr
    · exact (mac_uint64_cast _).1
    · exact (mac_uint64_cast _).2
    · intro q hq
      rw [read_port_mark]
      exact read_write_port_other m p q _ hq

/-- C11 at `phy:1` of `ex_mng_init`, bound and without classifier attributes: the
ADD of the rule (vid 100, mac 5) does not fail. -/
theorem update_cls_table_add_witness :
    (update_cls_table ex_env SPPWK_ACT_ADD SPP_CLASSIFIER_TYPE_VLAN 100 "00:00:00:00:00:05"
        ⟨PHY, 1⟩ ex_mng_init = some (SPP_RET_NG, ex_mng_init) ↔
      (({ ex_port with iface_type := PHY } : sppwk_port_info).cls_attrs.vlantag.vid
          ≠ ETH_VLAN_ID_MAX ∨
        ({ ex_port with iface_type := PHY } : sppwk_port_info).cls_attrs.mac_addr ≠ 0)) :=
  (update_cls_table_add ex_env SPP_CLASSIFIER_TYPE_VLAN 100 "00:00:00:00:00:05" ⟨PHY, 1⟩
    ex_mng_init ⟨PHY, 1⟩ { ex_port with iface_type := PHY } (by decide) rfl rfl
    (by decide)).2.1

/-- C12: DEL on a bound port with a MAC string that parses. `update_cls_table`
fails, changing nothing, exactly when the stored VLAN id is non-zero and
differs from the requested one, or the stored MAC address is non-zero and
differs from the requested one (the conversion result as a `uint64_t`).
Otherwise it succeeds and the port record holds the sentinel 4095 as VLAN id,
the MAC address 0 and the empty MAC string; the other fields of the record and
every other port record are unchanged. -/
theorem update_cls_table_del (env : Env) (t : spp_classifier_type) (vid : Int)
    (mac_str : String) (port : sppwk_port_idx) (m : MngData) (p : PortPtr)
    (pinfo : sppwk_port_info)
    (hconv : env.sppwk_convert_mac_str_to_int64 mac_str ≠ -1)
    (hp : get_sppwk_port m port.iface_type port.iface_no = some p)
    (hr : read_port m p = some pinfo) (hbound : pinfo.iface_type ≠ UNDEF) :
    ETH_VLAN_ID_MAX = 4095 ∧
    (update_cls_table env SPPWK_ACT_DEL t vid mac_str port m = some (SPP_RET_NG, m) ↔
      ((pinfo.cls_attrs.vlantag.vid ≠ 0 ∧ pinfo.cls_attrs.vlantag.vid ≠ vid) ∨
        (pinfo.cls_attrs.mac_addr ≠ 0 ∧ (pinfo.cls_attrs.mac_addr : Int) ≠
          env.sppwk_convert_mac_str_to_int64 mac_str % 2 ^ 64))) ∧
    (¬ ((pinfo.cls_attrs.vlantag.vid ≠ 0 ∧ pinfo.cls_attrs.vlantag.vid ≠ vid) ∨
        (pinfo.cls_attrs.mac_addr ≠ 0 ∧ (pinfo.cls_attrs.mac_addr : Int) ≠
          env.sppwk_convert_mac_str_to_int64 mac_str % 2 ^ 64)) →
      ∃ m1 pinfo1,
        update_cls_table env SPPWK_ACT_DEL t vid mac_str port m = some (SPP_RET_OK, m1) ∧
        read_port m1 p = some pinfo1 ∧
        pinfo1.cls_attrs.vlantag.vid = ETH_VLAN_ID_MAX ∧
        pinfo1.cls_attrs.mac_addr = 0 ∧
        pinfo1.cls_attrs.mac_addr_str = "" ∧
        pinfo1.cls_attrs.vlantag.pcp = pinfo.cls_attrs.vlantag.pcp ∧
        pinfo1.cls_attrs.vlantag.tci = pinfo.cls_attrs.vlantag.tci ∧
        pinfo1.iface_type = pinfo.iface_type ∧ pinfo1.iface_no = pinfo.iface_no ∧
        pinfo1.ethdev_port_id = pinfo.ethdev_port_id ∧ pinfo1.ability = pinfo.ability ∧
        (∀ q, q ≠ p → read_port m1 q = read_port m q)) := by
  have heq := update_cls_table_del_eq env t vid mac_str port m p pinfo hconv hp hr hbound
  have hcast : (pinfo.cls_attrs.mac_addr : Int) ≠
        env.sppwk_convert_mac_str_to_int64 mac_str % 2 ^ 64 ↔
      pinfo.cls_attrs.mac_addr ≠ (env.sppwk_convert_mac_str_to_int64 mac_str % 2 ^ 64).toNat := by
    rw [← (mac_uint64_cast (env.sppwk_convert_mac_str_to_int64 mac_str)).1]
    exact not_congr Nat.cast_inj
  rw [hcast]
  refine ⟨rfl, ?_, fun hn => ?_⟩
  · rw [heq]
    constructor
    · intro h
      by_contra hn
      rw [if_neg hn] at h
      simp [SPP_RET_NG, SPP_RET_OK] at h
    · intro h
      rw [if_pos h]
  · rw [heq, if_neg hn]
    refine ⟨_, { pinfo with
        cls_attrs :=
          { vlantag := { pinfo.cls_attrs.vlantag with vid := ETH_VLAN_ID_MAX },
            mac_addr := 0, mac_addr_str := "" } },
      rfl, ?_, rfl, rfl, rfl, rfl, rfl, rfl, rfl, rfl, rfl, ?_⟩
    · rw [read_port_mark]
      exact read_write_port_same m p _ pinfo hr
    · intro q hq
      rw [read_port_mark]
      exact read_write_port_other m p q _ hq

/-- C12 at `phy:1` of `ex_mng_rule`, which holds the rule (vid 100, mac 5): the
DEL of that rule succeeds and resets the VLAN id to the sentinel. -/
theorem update_cls_table_del_witness :
    ∃ m1 pinfo1,
      update_cls_table ex_env SPPWK_ACT_DEL SPP_CLASSIFIER_TYPE_VLAN 100 "00:00:00:00:00:05"
        ⟨PHY, 1⟩ ex_mng_rule = some (SPP_RET_OK, m1) ∧
      read_port m1 ⟨PHY, 1⟩ = some pinfo1 ∧
      pinfo1.cls_attrs.vlantag.vid = ETH_VLAN_ID_MAX ∧ pinfo1.cls_attrs.mac_addr = 0 ∧
      pinfo1.cls_attrs.mac_addr_str = "" := by
  obtain ⟨m1, pinfo1, h1, h2, h3, h4, h5, _⟩ :=
    (update_cls_table_del ex_env SPP_CLASSIFIER_TYPE_VLAN 100 "00:00:00:00:00:05" ⟨PHY, 1⟩
      ex_mng_rule ⟨PHY, 1⟩
      { ex_port with iface_type := PHY, cls_attrs := ⟨⟨100, 0, 0⟩, 5, "00:00:00:00:00:05"⟩ }
      (by decide) rfl rfl (by decide)).2.2 (by decide)
  exact ⟨m1, pinfo1, h1, h2, h3, h4, h5⟩

/-- C13: failures of `update_cls_table`, read on the handler with its trace
(`update_cls_table_traced`, which computes the same status and management
data). It fails when `mac_str` does not parse (the conversion yields -1), when
the port reference resolves to no port record and when the resolved port has
kind UNDEF. Whenever it returns a status other than OK (these three cases and
the ADD and DEL conflicts), the status is NG and the state is what it was: the
management data, so every port record with its VLAN id, MAC address and MAC
string, and the trace, so `set_component_change_port` was not called. On
success that call is the one entry added to the trace. -/
theorem update_cls_table_failure (env : Env) (a : sppwk_action) (t : spp_classifier_type)
    (vid : Int) (mac_str : String) (port : sppwk_port_idx) (s : St) :
    (update_cls_table_traced env a t vid mac_str port s).map (fun r => (r.1, r.2.mng)) =
      update_cls_table env a t vid mac_str port s.mng ∧
    (env.sppwk_convert_mac_str_to_int64 mac_str = -1 →
      update_cls_table_traced env a t vid mac_str port s = some (SPP_RET_NG, s)) ∧
    (get_sppwk_port s.mng port.iface_type port.iface_no = none →
      update_cls_table_traced env a t vid mac_str port s = some (SPP_RET_NG, s)) ∧
    (∀ p pinfo, get_sppwk_port s.mng port.iface_type port.iface_no = some p →
      read_port s.mng p = some pinfo → pinfo.iface_type = UNDEF →
      update_cls_table_traced env a t vid mac_str port s = some (SPP_RET_NG, s)) ∧
    (∀ r s1, update_cls_table_traced env a t vid mac_str port s = some (r, s1) →
      (r ≠ SPP_RET_OK → r = SPP_RET_NG ∧ s1 = s) ∧
      (r = SPP_RET_OK → ∃ p, get_sppwk_port s.mng port.iface_type port.iface_no = some p ∧
        s1.trace = s.trace ++ [Call.set_component_change_port p SPP_PORT_RXTX_TX])) := by
  refine ⟨update_cls_table_traced_mng env a t vid mac_str port s, ?_, ?_, ?_, ?_⟩
  · intro h
    unfold update_cls_table_traced
    simp only [h, if_true]
  · intro h
    unfold update_cls_table_traced
    simp only [h]
    split_ifs <;> rfl
  · intro p pinfo hp hr hu
    unfold update_cls_table_traced
    simp only [hp, hr, hu, if_true]
    split_ifs <;> rfl
  · intro r s1 h
    unfold update_cls_table_traced at h
    simp only at h
    have hng : SPP_RET_NG ≠ SPP_RET_OK := by decide
    repeat' split at h
    all_goals first
      | (simp at h; done)
      | (simp only [Option.some.injEq, Prod.mk.injEq] at h
         obtain ⟨h1, h2⟩ := h
         subst h1
         first
           | exact ⟨fun _ => ⟨rfl, h2.symm⟩, fun h3 => absurd h3 hng⟩
           | (refine ⟨fun h3 => absurd rfl h3, fun _ => ⟨_, ‹_›, ?_⟩⟩
              rw [← h2]; rfl))

/-- C13 at `phy:1` of `ex_mng_rule`, which holds a rule with vid 100: the DEL with
vid 101 fails, the rule stays and nothing is called. -/
theorem update_cls_table_failure_witness :
    update_cls_table_traced ex_env SPPWK_ACT_DEL SPP_CLASSIFIER_TYPE_VLAN 101
        "00:00:00:00:00:05" ⟨PHY, 1⟩ ⟨ex_mng_rule, []⟩ = some (SPP_RET_NG, ⟨ex_mng_rule, []⟩) ∧
      SPP_RET_NG = SPP_RET_NG ∧ (⟨ex_mng_rule, []⟩ : St) = ⟨ex_mng_rule, []⟩ :=
  ⟨by decide,
    ((update_cls_table_failure ex_env SPPWK_ACT_DEL SPP_CLASSIFIER_TYPE_VLAN 101
      "00:00:00:00:00:05" ⟨PHY, 1⟩ ⟨ex_mng_rule, []⟩).2.2.2.2 SPP_RET_NG ⟨ex_mng_rule, []⟩
      (by decide)).1 (by decide)⟩

/-- C14, counterexample: `ex_mng_init` is an initial state (every port has the
VLAN id 4095 and the MAC address 0), one ADD of the rule (vid 100, mac 5) on
`phy:1` is accepted, and in the state it leads to, `ex_mng_rule`, the port
`phy:1` has a VLAN id other than the sentinel together with a non-zero MAC
address. -/
theorem update_cls_table_add_sets_both :
    cls_initial ex_mng_init ∧ cls_reachable ex_env ex_mng_init ex_mng_rule ∧
    update_cls_table ex_env SPPWK_ACT_ADD SPP_CLASSIFIER_TYPE_VLAN 100 "00:00:00:00:00:05"
      ⟨PHY, 1⟩ ex_mng_init = some (SPP_RET_OK, ex_mng_rule) ∧
    ∃ pinfo, read_port ex_mng_rule ⟨PHY, 1⟩ = some pinfo ∧
      pinfo.cls_attrs.vlantag.vid ≠ ETH_VLAN_ID_MAX ∧ pinfo.cls_attrs.mac_addr ≠ 0 := by
  have h : update_cls_table ex_env SPPWK_ACT_ADD SPP_CLASSIFIER_TYPE_VLAN 100
      "00:00:00:00:00:05" ⟨PHY, 1⟩ ex_mng_init = some (SPP_RET_OK, ex_mng_rule) := by decide
  exact ⟨by unfold cls_initial; decide, cls_reachable.step _ _ _ _ _ _ _ _ cls_reachable.init h,
    h, _, rfl, by decide, by decide⟩

/-- C14, amended: in every state, reachable from the initial state by
`update_cls_table` calls or not, an ADD aimed at a port whose stored VLAN id
differs from the sentinel 4095 or whose stored MAC address is non-zero is
rejected and changes nothing, and no ADD, accepted or not, changes a port
record in that condition: a VLAN id or MAC address that is set is never
overwritten. -/
theorem update_cls_table_add_keeps_set (env : Env) (m : MngData)
    (t : spp_classifier_type) (vid : Int) (mac_str : String) (port : sppwk_port_idx) :
    (∀ p pinfo, get_sppwk_port m port.iface_type port.iface_no = some p →
      read_port m p = some pinfo →
      pinfo.cls_attrs.vlantag.vid ≠ ETH_VLAN_ID_MAX ∨ pinfo.cls_attrs.mac_addr ≠ 0 →
      update_cls_table env SPPWK_ACT_ADD t vid mac_str port m = some (SPP_RET_NG, m)) ∧
    (∀ r m1, update_cls_table env SPPWK_ACT_ADD t vid mac_str port m = some (r, m1) →
      ∀ q qinfo, read_port m q = some qinfo →
        qinfo.cls_attrs.vlantag.vid ≠ ETH_VLAN_ID_MAX ∨ qinfo.cls_attrs.mac_addr ≠ 0 →
        read_port m1 q = some qinfo) :=
  ⟨fun p pinfo hp hr hset => update_cls_table_add_set env t vid mac_str port m p pinfo hp hr hset,
   fun r m1 h q qinfo hq hset =>
    update_cls_table_add_frame env t vid mac_str port m r m1 h q qinfo hq hset⟩

/-- C14, amended, at `ex_mng_rule`, reached from `ex_mng_init` by one ADD: a
second ADD on `phy:1`, with vid 200, is rejected and changes nothing. -/
theorem update_cls_table_add_keeps_set_witness :
    cls_initial ex_mng_init ∧ cls_reachable ex_env ex_mng_init ex_mng_rule ∧
    update_cls_table ex_env SPPWK_ACT_ADD SPP_CLASSIFIER_TYPE_VLAN 200 "00:00:00:00:00:05"
      ⟨PHY, 1⟩ ex_mng_rule = some (SPP_RET_NG, ex_mng_rule) :=
  ⟨by unfold cls_initial; decide,
    cls_reachable.step _ _ SPPWK_ACT_ADD SPP_CLASSIFIER_TYPE_VLAN 100 "00:00:00:00:00:05"
      ⟨PHY, 1⟩ SPP_RET_OK cls_reachable.init (by decide),
    (update_cls_table_add_keeps_set ex_env ex_mng_rule SPP_CLASSIFIER_TYPE_VLAN 200
      "00:00:00:00:00:05" ⟨PHY, 1⟩).1 ⟨PHY, 1⟩ _ rfl rfl (Or.inl (by decide))⟩

/-! ## Claims: `update_comp` -/

/-- C15: START on an lcore whose status is not UNUSE, with a name that no worker
record carries, in a state with a free worker id `wid`; the staging list of the
lcore has room for one more id and the change flags exist. `update_comp`
returns success. Afterwards the record `wid` has the given name, worker type
and lcore, `comp_id = wid`, `nof_rx = nof_tx = 0` and port arrays whose entries
are all empty; the staging list `core[upd_index]` of the lcore is the old list
with `wid` written after its `num` entries and `num` increased by one, the
other side of the lcore record is unchanged; `change_component[wid] = 1` and
`change_core[lcore_id] = 1`; every other worker record, lcore record and
change flag, the port records and the trace are unchanged. -/
theorem update_comp_start (env : Env) (name : String) (lcore_id : Nat)
    (wk_type : sppwk_worker_type) (s : St) (wid : Nat) (info : core_mng_info)
    (core : core_info) (old : sppwk_comp_info)
    (hinfo : s.mng.core_info[lcore_id]? = some info) (hstat : info.status ≠ SPP_CORE_UNUSE)
    (hname : ∀ c ∈ s.mng.comp_info, c.name ≠ name)
    (hfree : get_free_lcore_id s.mng = (wid : Int))
    (hold : s.mng.comp_info[wid]? = some old)
    (hcore : info.core[info.upd_index]? = some core)
    (hnum0 : 0 ≤ core.num) (hnum : core.num.toNat < core.id.length)
    (hflag : wid < s.mng.change_component.length)
    (hcflag : lcore_id < s.mng.change_core.length) :
    ∃ s1 c1 info1 core1,
      update_comp env SPPWK_ACT_START name lcore_id wk_type s = some (SPP_RET_OK, s1) ∧
      s1.mng.comp_info[wid]? = some c1 ∧
      c1.name = name ∧ c1.wk_type = wk_type ∧ c1.lcore_id = lcore_id ∧ c1.comp_id = wid ∧
      c1.nof_rx = 0 ∧ c1.nof_tx = 0 ∧
      c1.rx_ports = List.replicate old.rx_ports.length none ∧
      c1.tx_ports = List.replicate old.tx_ports.length none ∧
      s1.mng.core_info[lcore_id]? = some info1 ∧
      info1.status = info.status ∧ info1.ref_index = info.ref_index ∧
      info1.upd_index = info.upd_index ∧
      info1.core[info.upd_index]? = some core1 ∧
      (∀ k, k ≠ info.upd_index → info1.core[k]? = info.core[k]?) ∧
      core1.num = core.num + 1 ∧
      core1.id.take (core.num.toNat + 1) = core.id.take core.num.toNat ++ [(wid : Int)] ∧
      core1.id.drop (core.num.toNat + 1) = core.id.drop (core.num.toNat + 1) ∧
      s1.mng.change_component[wid]? = some 1 ∧
      s1.mng.change_core[lcore_id]? = some 1 ∧
      (∀ w, w ≠ wid → s1.mng.comp_info[w]? = s.mng.comp_info[w]? ∧
        s1.mng.change_component[w]? = s.mng.change_component[w]?) ∧
      (∀ l, l ≠ lcore_id → s1.mng.core_info[l]? = s.mng.core_info[l]? ∧
        s1.mng.change_core[l]? = s.mng.change_core[l]?) ∧
      s1.mng.nic = s.mng.nic ∧ s1.mng.vhost = s.mng.vhost ∧ s1.mng.ring = s.mng.ring ∧
      s1.trace = s.trace := by
  have heq := update_comp_start_eq env name lcore_id wk_type s wid info core old hinfo hstat
    (sppwk_get_lcore_id_unknown s.mng name hname) hfree hcore hold hnum0 hnum
  have hwid : wid < s.mng.comp_info.length := (List.getElem?_eq_some_iff.mp hold).1
  have hl : lcore_id < s.mng.core_info.length := (List.getElem?_eq_some_iff.mp hinfo).1
  have hu : info.upd_index < info.core.length := (List.getElem?_eq_some_iff.mp hcore).1
  refine ⟨_,
    { zero_comp_info old with
      name := name, wk_type := wk_type, lcore_id := lcore_id, comp_id := wid },
    { info with
      core := info.core.set info.upd_index
        (⟨core.num + 1, core.id.set core.num.toNat wid⟩ : core_info) },
    { num := core.num + 1, id := core.id.set core.num.toNat wid }, heq, ?_, rfl, rfl, rfl, rfl, rfl, rfl, rfl, rfl, ?_, rfl, rfl, rfl, ?_, ?_,
    rfl, ?_, ?_, ?_, ?_, ?_, ?_, rfl, rfl, rfl, rfl⟩
  · simp only [set_change_core, set_change_component, put_core]
    exact List.getElem?_set_self hwid
  · simp only [set_change_core, set_change_component, put_core]
    exact List.getElem?_set_self hl
  · exact List.getElem?_set_self hu
  · intro k hk
    exact List.getElem?_set_ne (Ne.symm hk)
  · exact take_set_succ core.id core.num.toNat wid hnum
  · exact List.drop_set_of_lt _ _ (by omega)
  · simp only [set_change_core, set_change_component, put_core]
    exact List.getElem?_set_self hflag
  · simp only [set_change_core, set_change_component, put_core]
    exact List.getElem?_set_self hcflag
  · intro w hw
    simp only [set_change_core, set_change_component, put_core]
    exact ⟨List.getElem?_set_ne (Ne.symm hw), List.getElem?_set_ne (Ne.symm hw)⟩
  · intro l hl1
    simp only [set_change_core, set_change_component, put_core]
    exact ⟨List.getElem?_set_ne (Ne.symm hl1), List.getElem?_set_ne (Ne.symm hl1)⟩

/-- C15 at `ex_mng_init`: the START of the forwarder `fwd1` on lcore 1 takes the
free worker id 0 and leads to `ex_mng_one`. -/
theorem update_comp_start_witness :
    ∃ s1, update_comp ex_env SPPWK_ACT_START "fwd1" 1 SPPWK_TYPE_FWD ⟨ex_mng_init, []⟩
        = some (SPP_RET_OK, s1) ∧
      s1.mng.change_component[0]? = some 1 ∧ s1.mng.change_core[1]? = some 1 := by
  obtain ⟨s1, c1, info1, core1, h, h1⟩ :=
    update_comp_start ex_env "fwd1" 1 SPPWK_TYPE_FWD ⟨ex_mng_init, []⟩ 0 ex_core ⟨0, [0, 0]⟩
      ex_comp rfl (by decide) (by decide) (by decide) rfl rfl (by decide) (by decide)
      (by decide) (by decide)
  exact ⟨s1, h, h1.2.2.2.2.2.2.2.2.2.2.2.2.2.2.2.2.2.2.1,
    h1.2.2.2.2.2.2.2.2.2.2.2.2.2.2.2.2.2.2.2.1⟩

/-- C16: failures of START, for an lcore that has a record. `update_comp` returns
NG and leaves the whole state (worker records, lcore records with their lists,
`change_core`, `change_component`, trace) as it was when the status of the
lcore is UNUSE, when `sppwk_get_lcore_id` finds the name, which it does for a
non-empty name that a worker record carries, and when `get_free_lcore_id`
finds no free id, which is so when every worker record has a type. Every
START that does not return OK returns NG and changes nothing. -/
theorem update_comp_start_failure (env : Env) (name : String) (lcore_id : Nat)
    (wk_type : sppwk_worker_type) (s : St) (info : core_mng_info)
    (hinfo : s.mng.core_info[lcore_id]? = some info) :
    (info.status = SPP_CORE_UNUSE →
      update_comp env SPPWK_ACT_START name lcore_id wk_type s = some (SPP_RET_NG, s)) ∧
    (0 ≤ sppwk_get_lcore_id s.mng name →
      update_comp env SPPWK_ACT_START name lcore_id wk_type s = some (SPP_RET_NG, s)) ∧
    (name ≠ "" → (∃ c ∈ s.mng.comp_info, c.name = name) →
      update_comp env SPPWK_ACT_START name lcore_id wk_type s = some (SPP_RET_NG, s)) ∧
    (get_free_lcore_id s.mng < 0 →
      update_comp env SPPWK_ACT_START name lcore_id wk_type s = some (SPP_RET_NG, s)) ∧
    ((∀ c ∈ s.mng.comp_info, c.wk_type ≠ SPPWK_TYPE_NONE) →
      update_comp env SPPWK_ACT_START name lcore_id wk_type s = some (SPP_RET_NG, s)) ∧
    (∀ r s1, update_comp env SPPWK_ACT_START name lcore_id wk_type s = some (r, s1) →
      r ≠ SPP_RET_OK → r = SPP_RET_NG ∧ s1 = s) := by
  have h1 : info.status = SPP_CORE_UNUSE →
      update_comp env SPPWK_ACT_START name lcore_id wk_type s = some (SPP_RET_NG, s) := by
    intro h
    unfold update_comp
    simp only [hinfo, h, if_true]
  have h2 : 0 ≤ sppwk_get_lcore_id s.mng name →
      update_comp env SPPWK_ACT_START name lcore_id wk_type s = some (SPP_RET_NG, s) := by
    intro h
    unfold update_comp
    simp only [hinfo]
    split_ifs <;> rfl
  have h3 : get_free_lcore_id s.mng < 0 →
      update_comp env SPPWK_ACT_START name lcore_id wk_type s = some (SPP_RET_NG, s) := by
    intro h
    unfold update_comp
    simp only [hinfo]
    split_ifs <;> rfl
  exact ⟨h1, h2, fun hne hex => h2 (sppwk_get_lcore_id_known s.mng name hne hex), h3,
    fun hall => h3 (get_free_lcore_id_none s.mng hall),
    fun r s1 h hr => update_comp_start_ng env name lcore_id wk_type s r s1 h hr⟩

/-- C16 at `ex_mng`, whose worker 0 is named `fwd1`: a second START with that name
fails and changes nothing. -/
theorem update_comp_start_failure_witness :
    ex_mng.core_info[1]? = some { ex_core with core := [⟨0, [0, 0]⟩, ⟨1, [0, 0]⟩] } ∧
    update_comp ex_env SPPWK_ACT_START "fwd1" 1 SPPWK_TYPE_MRG ex_st
      = some (SPP_RET_NG, ex_st) :=
  ⟨rfl, (update_comp_start_failure ex_env "fwd1" 1 SPPWK_TYPE_MRG ex_st _ rfl).2.2.1
    (by decide) ⟨_, List.mem_cons_self _ _, rfl⟩⟩

/-- C17: STOP with a name that no worker record carries. The lookup of the name
is negative, `update_comp` returns success and the whole state (management
data and trace) is what it was, whatever the lcore and worker type given. -/
theorem update_comp_stop_unknown (env : Env) (name : String) (lcore_id : Nat)
    (wk_type : sppwk_worker_type) (s : St)
    (hname : ∀ c ∈ s.mng.comp_info, c.name ≠ name) :
    sppwk_get_lcore_id s.mng name < 0 ∧
    update_comp env SPPWK_ACT_STOP name lcore_id wk_type s = some (SPP_RET_OK, s) := by
  have h := sppwk_get_lcore_id_unknown s.mng name hname
  refine ⟨h, ?_⟩
  unfold update_comp
  simp only
  rw [if_pos h]

/-- C17 at `ex_mng`, which has no worker `fwd2`. -/
theorem update_comp_stop_unknown_witness :
    (∀ c ∈ ex_st.mng.comp_info, c.name ≠ "fwd2") ∧
    update_comp ex_env SPPWK_ACT_STOP "fwd2" 0 SPPWK_TYPE_NONE ex_st = some (SPP_RET_OK, ex_st) :=
  ⟨by decide, (update_comp_stop_unknown ex_env "fwd2" 0 SPPWK_TYPE_NONE ex_st (by decide)).2⟩

/-- C18: STOP of the worker `name`, found with id `wid`, whose record names the
lcore `L = old.lcore_id` and whose id is among the `num` entries of the
staging list of `L`. `update_comp` returns success whatever its argument
`lcore_id`. Afterwards the record `wid` is zeroed; in the staging list
`core[upd_index]` of `L` the first occurrence of `wid` is removed from the
`num` entries, which close ranks, and `num` is decremented by one, the other
side of the lcore record is unchanged; `change_component[wid] = 0` and
`change_core[L] = 1`; every other worker record, lcore record and change flag,
the port records and the trace are unchanged. -/
theorem update_comp_stop (env : Env) (name : String) (lcore_id : Nat)
    (wk_type : sppwk_worker_type) (s : St) (wid : Nat) (info : core_mng_info)
    (core : core_info) (old : sppwk_comp_info)
    (hw : sppwk_get_lcore_id s.mng name = (wid : Int))
    (hold : s.mng.comp_info[wid]? = some old)
    (hinfo : s.mng.core_info[old.lcore_id]? = some info)
    (hcore : info.core[info.upd_index]? = some core)
    (hmem : (wid : Int) ∈ core.id.take core.num.toNat)
    (hcap : core.num.toNat ≤ core.id.length)
    (hflag : wid < s.mng.change_component.length)
    (hcflag : old.lcore_id < s.mng.change_core.length) :
    ∃ s1 c1 info1 core1,
      update_comp env SPPWK_ACT_STOP name lcore_id wk_type s = some (SPP_RET_OK, s1) ∧
      old.name = name ∧
      s1.mng.comp_info[wid]? = some c1 ∧
      c1.name = "" ∧ c1.wk_type = SPPWK_TYPE_NONE ∧ c1.lcore_id = 0 ∧ c1.comp_id = 0 ∧
      c1.nof_rx = 0 ∧ c1.nof_tx = 0 ∧
      c1.rx_ports = List.replicate old.rx_ports.length none ∧
      c1.tx_ports = List.replicate old.tx_ports.length none ∧
      s1.mng.core_info[old.lcore_id]? = some info1 ∧
      info1.status = info.status ∧ info1.ref_index = info.ref_index ∧
      info1.upd_index = info.upd_index ∧
      info1.core[info.upd_index]? = some core1 ∧
      (∀ k, k ≠ info.upd_index → info1.core[k]? = info.core[k]?) ∧
      core1.num = core.num - 1 ∧
      core1.id = (core.id.take core.num.toNat).erase (wid : Int) ++ [0] ++
        core.id.drop core.num.toNat ∧
      core1.id.take (core.num.toNat - 1) = (core.id.take core.num.toNat).erase (wid : Int) ∧
      s1.mng.change_component[wid]? = some 0 ∧
      s1.mng.change_core[old.lcore_id]? = some 1 ∧
      (∀ w, w ≠ wid → s1.mng.comp_info[w]? = s.mng.comp_info[w]? ∧
        s1.mng.change_component[w]? = s.mng.change_component[w]?) ∧
      (∀ l, l ≠ old.lcore_id → s1.mng.core_info[l]? = s.mng.core_info[l]? ∧
        s1.mng.change_core[l]? = s.mng.change_core[l]?) ∧
      s1.mng.nic = s.mng.nic ∧ s1.mng.vhost = s.mng.vhost ∧ s1.mng.ring = s.mng.ring ∧
      s1.trace = s.trace := by
  have heq := update_comp_stop_eq env name lcore_id wk_type s wid info core old hw hold hinfo
    hcore
  have hdel := (del_comp_info_spec wid core.num core.id).1 hmem
  rw [hdel] at heq
  have hwid : wid < s.mng.comp_info.length := (List.getElem?_eq_some_iff.mp hold).1
  have hl : old.lcore_id < s.mng.core_info.length := (List.getElem?_eq_some_iff.mp hinfo).1
  have hu : info.upd_index < info.core.length := (List.getElem?_eq_some_iff.mp hcore).1
  have hnm : old.name = name := by
    obtain ⟨_, c, hc, hn⟩ := sppwk_get_lcore_id_name s.mng name wid hw
    rw [hold] at hc
    simp only [Option.some.injEq] at hc
    rw [hc]; exact hn
  have hlen : ((core.id.take core.num.toNat).erase (wid : Int)).length = core.num.toNat - 1 := by
    rw [List.length_erase_of_mem hmem, List.length_take, Nat.min_eq_left hcap]
  refine ⟨_, zero_comp_info old,
    { info with
      core := info.core.set info.upd_index
        (⟨core.num - 1, (core.id.take core.num.toNat).erase (wid : Int) ++ [0] ++
          core.id.drop core.num.toNat⟩ : core_info) },
    ⟨core.num - 1, (core.id.take core.num.toNat).erase (wid : Int) ++ [0] ++
      core.id.drop core.num.toNat⟩, heq, hnm, ?_, rfl, rfl, rfl, rfl, rfl, rfl, rfl, rfl, ?_,
    rfl, rfl, rfl, ?_, ?_, rfl, rfl, ?_, ?_, ?_, ?_, ?_, rfl, rfl, rfl, rfl⟩
  · simp only [set_change_core, set_change_component, put_core]
    exact List.getElem?_set_self hwid
  · simp only [set_change_core, set_change_component, put_core]
    exact List.getElem?_set_self hl
  · exact List.getElem?_set_self hu
  · intro k hk
    exact List.getElem?_set_ne (Ne.symm hk)
  · show List.take (core.num.toNat - 1) ((core.id.take core.num.toNat).erase (wid : Int) ++ [0] ++
        core.id.drop core.num.toNat) = _
    rw [List.append_assoc, ← hlen, List.take_left]
  · simp only [set_change_core, set_change_component, put_core]
    exact List.getElem?_set_self hflag
  · simp only [set_change_core, set_change_component, put_core]
    exact List.getElem?_set_self hcflag
  · intro w hw1
    simp only [set_change_core, set_change_component, put_core]
    exact ⟨List.getElem?_set_ne (Ne.symm hw1), List.getElem?_set_ne (Ne.symm hw1)⟩
  · intro l hl1
    simp only [set_change_core, set_change_component, put_core]
    exact ⟨List.getElem?_set_ne (Ne.symm hl1), List.getElem?_set_ne (Ne.symm hl1)⟩

/-- C18 at `ex_mng_two`: the STOP of the merger `mrg1`, worker 1 on lcore 1, called
with lcore 0, succeeds, clears the change flag of worker 1 and sets the one of
lcore 1. -/
theorem update_comp_stop_witness :
    ∃ s1, update_comp ex_env SPPWK_ACT_STOP "mrg1" 0 SPPWK_TYPE_NONE ⟨ex_mng_two, []⟩
        = some (SPP_RET_OK, s1) ∧
      s1.mng.change_component[1]? = some 0 ∧ s1.mng.change_core[1]? = some 1 := by
  obtain ⟨s1, c1, info1, core1, h, h1⟩ :=
    update_comp_stop ex_env "mrg1" 0 SPPWK_TYPE_NONE ⟨ex_mng_two, []⟩ 1
      { ex_core with core := [⟨0, [0, 0]⟩, ⟨2, [0, 1]⟩] } ⟨2, [0, 1]⟩
      { ex_comp with name := "mrg1", wk_type := SPPWK_TYPE_MRG, lcore_id := 1, comp_id := 1 }
      (by decide) rfl rfl rfl (by decide) (by decide) (by decide) (by decide)
  exact ⟨s1, h, h1.2.2.2.2.2.2.2.2.2.2.2.2.2.2.2.2.2.2.2.1,
    h1.2.2.2.2.2.2.2.2.2.2.2.2.2.2.2.2.2.2.2.2.1⟩

/-- C19, failing input: with `SPP_VF_MODULE` defined, the STOP of `cls1`, worker 0
of `ex_mng_cls`, whose type at the time of the call is CLS, returns success
without a call of `init_classifier_info`: the type is read from the record
after it was zeroed. -/
theorem update_comp_stop_cls_no_reinit :
    ex_env.SPP_VF_MODULE = true ∧
    sppwk_get_lcore_id ex_mng_cls "cls1" = 0 ∧
    (ex_mng_cls.comp_info[0]?).map (fun c => c.wk_type) = some SPPWK_TYPE_CLS ∧
    ∃ s1, update_comp ex_env SPPWK_ACT_STOP "cls1" 1 SPPWK_TYPE_CLS ⟨ex_mng_cls, []⟩
        = some (SPP_RET_OK, s1) ∧
      s1.trace = [] ∧ Call.init_classifier_info 0 ∉ s1.trace := by
  refine ⟨rfl, by decide, rfl, ?_⟩
  have h := update_comp_stop_eq ex_env "cls1" 1 SPPWK_TYPE_CLS ⟨ex_mng_cls, []⟩ 0
    { ex_core with core := [⟨0, [0, 0]⟩, ⟨1, [0, 0]⟩] } ⟨1, [0, 0]⟩ _ (by decide) rfl rfl rfl
  exact ⟨_, h, rfl, by simp⟩

/-- C20: worker names are pairwise distinct in every state reachable from a state
without workers by START and STOP calls of `update_comp`. Whatever names
START is given, two distinct records of which one carries a name have
different names; when START is given non-empty names, as worker names are,
two distinct records that both have a worker type have different names. -/
theorem worker_names_distinct (env : Env) (s0 s : St) (h0 : no_workers s0.mng) :
    (∀ P : String → Prop, comp_reachable env P s0 s →
      ∀ (i j : Nat) (ci cj : sppwk_comp_info), i ≠ j → s.mng.comp_info[i]? = some ci → s.mng.comp_info[j]? = some cj →
        ci.name ≠ "" → ci.name ≠ cj.name) ∧
    (comp_reachable env (fun n => n ≠ "") s0 s →
      ∀ (i j : Nat) (ci cj : sppwk_comp_info), i ≠ j → s.mng.comp_info[i]? = some ci → s.mng.comp_info[j]? = some cj →
        ci.wk_type ≠ SPPWK_TYPE_NONE → cj.wk_type ≠ SPPWK_TYPE_NONE → ci.name ≠ cj.name) :=
  ⟨fun P h => comp_reachable_names env P s0 s h0 h,
   fun h i j ci cj hij hi hj hti _ =>
    comp_reachable_names env _ s0 s h0 h i j ci cj hij hi hj
      (comp_reachable_typed env s0 s h0 h ci (List.getElem?_mem hi) hti)⟩

/-- C20 at `ex_mng_two`, reached from `ex_mng_init` by the START of `fwd1` and of
`mrg1`: its two workers have different names. -/
theorem worker_names_distinct_witness :
    no_workers ex_mng_init ∧
    comp_reachable ex_env (fun n => n ≠ "") ⟨ex_mng_init, []⟩ ⟨ex_mng_two, []⟩ ∧
    ∀ (i j : Nat) (ci cj : sppwk_comp_info), i ≠ j → ex_mng_two.comp_info[i]? = some ci →
      ex_mng_two.comp_info[j]? = some cj → ci.wk_type ≠ SPPWK_TYPE_NONE →
      cj.wk_type ≠ SPPWK_TYPE_NONE → ci.name ≠ cj.name :=
  have h0 : no_workers ex_mng_init := by unfold no_workers; decide
  have h2 : comp_reachable ex_env (fun n => n ≠ "") ⟨ex_mng_init, []⟩ ⟨ex_mng_two, []⟩ :=
    comp_reachable.step ⟨ex_mng_one, []⟩ _ SPPWK_ACT_START "mrg1" 1 SPPWK_TYPE_MRG SPP_RET_OK
      (comp_reachable.step _ _ SPPWK_ACT_START "fwd1" 1 SPPWK_TYPE_FWD SPP_RET_OK
        comp_reachable.init (Or.inl rfl) (fun _ => by decide) (by decide))
      (Or.inl rfl) (fun _ => by decide) (by decide)
  ⟨h0, h2, (worker_names_distinct ex_env ⟨ex_mng_init, []⟩ ⟨ex_mng_two, []⟩ h0).2 h2⟩

/-! ## Claims: invariants, flush and response -/

/-- C22: the counters of a worker started with `nof_rx = nof_tx = 0` respect the
limit of its type in every state reachable by `update_port` calls with action
ADD or DEL, on any worker, port and direction. The type of the worker does
not change, and: FWD `nof_rx ≤ 1` and `nof_tx ≤ 1`; MRG `nof_tx ≤ 1`; CLS
`nof_rx ≤ 1`; MIR `nof_rx ≤ 1` and `nof_tx ≤ 2`. -/
theorem update_port_counters_within_limits (env : Env) (m0 m : MngData) (w : Nat)
    (c0 : sppwk_comp_info)
    (hc0 : m0.comp_info[w]? = some c0) (hrx : c0.nof_rx = 0) (htx : c0.nof_tx = 0)
    (hreach : port_reachable env add_or_del m0 m) :
    ∃ c, m.comp_info[w]? = some c ∧ c.wk_type = c0.wk_type ∧
      (c.wk_type = SPPWK_TYPE_FWD → c.nof_rx ≤ 1 ∧ c.nof_tx ≤ 1) ∧
      (c.wk_type = SPPWK_TYPE_MRG → c.nof_tx ≤ 1) ∧
      (c.wk_type = SPPWK_TYPE_CLS → c.nof_rx ≤ 1) ∧
      (c.wk_type = SPPWK_TYPE_MIR → c.nof_rx ≤ 1 ∧ c.nof_tx ≤ 2) := by
  have hinv : ∃ c, m.comp_info[w]? = some c ∧ c.wk_type = c0.wk_type ∧ within_limits c ∧
      0 ≤ c.nof_rx ∧ 0 ≤ c.nof_tx := by
    induction hreach with
    | init =>
      refine ⟨c0, hc0, rfl, ⟨?_, ?_, ?_, ?_⟩, by omega, by omega⟩ <;> intro _ <;>
        simp [hrx, htx]
    | step m m1 a port rxtx name ability r _ _ hstep ih =>
      exact update_port_limits env a port rxtx name ability m r m1 hstep w c0.wk_type ih
  obtain ⟨c, hc, ht, hlim, _, _⟩ := hinv
  exact ⟨c, hc, ht, hlim⟩

/-- C22 at the forwarder `fwd1` of `ex_mng_two`, after `phy:0` was attached to it
as tx port. -/
theorem update_port_counters_within_limits_witness :
    ∃ c, ex_mng_vlan_one.comp_info[0]? = some c ∧ c.wk_type = SPPWK_TYPE_FWD ∧
      (c.wk_type = SPPWK_TYPE_FWD → c.nof_rx ≤ 1 ∧ c.nof_tx ≤ 1) ∧
      (c.wk_type = SPPWK_TYPE_MRG → c.nof_tx ≤ 1) ∧
      (c.wk_type = SPPWK_TYPE_CLS → c.nof_rx ≤ 1) ∧
      (c.wk_type = SPPWK_TYPE_MIR → c.nof_rx ≤ 1 ∧ c.nof_tx ≤ 2) :=
  update_port_counters_within_limits ex_env ex_mng_two ex_mng_vlan_one 0
    { ex_comp with name := "fwd1", wk_type := SPPWK_TYPE_FWD, lcore_id := 1 } rfl rfl rfl
    (port_reachable.step _ _ SPPWK_ACT_ADD ⟨PHY, 0⟩ SPP_PORT_RXTX_TX "fwd1" ex_add_vlan
      SPP_RET_OK port_reachable.init (Or.inl rfl) (by decide))

/-- C23, counterexample: in `ex_mng_two` every ability slot of every port has the
op NONE; two ADD calls attach `phy:0` as tx port, with the ability
`ex_add_vlan`, to the forwarder `fwd1` and then to the merger `mrg1`; the
second call finds the port in no list of `mrg1` and writes the ability to the
lowest slot with op NONE, so that `phy:0` holds two `ADD_VLANTAG` slots. -/
theorem update_port_two_vlan_slots :
    no_ability ex_mng_two ∧
    update_port ex_env SPPWK_ACT_ADD ⟨PHY, 0⟩ SPP_PORT_RXTX_TX "fwd1" ex_add_vlan ex_mng_two
      = some (SPP_RET_OK, ex_mng_vlan_one) ∧
    update_port ex_env SPPWK_ACT_ADD ⟨PHY, 0⟩ SPP_PORT_RXTX_TX "mrg1" ex_add_vlan
      ex_mng_vlan_one = some (SPP_RET_OK, ex_mng_vlan_two) ∧
    port_reachable ex_env add_or_del ex_mng_two ex_mng_vlan_two ∧
    ∃ pinfo, read_port ex_mng_vlan_two ⟨PHY, 0⟩ = some pinfo ∧
      pinfo.ability = [ex_add_vlan, ex_add_vlan] ∧ vlan_slots pinfo = 2 := by
  have h1 : update_port ex_env SPPWK_ACT_ADD ⟨PHY, 0⟩ SPP_PORT_RXTX_TX "fwd1" ex_add_vlan
      ex_mng_two = some (SPP_RET_OK, ex_mng_vlan_one) := by decide
  have h2 : update_port ex_env SPPWK_ACT_ADD ⟨PHY, 0⟩ SPP_PORT_RXTX_TX "mrg1" ex_add_vlan
      ex_mng_vlan_one = some (SPP_RET_OK, ex_mng_vlan_two) := by decide
  refine ⟨by unfold no_ability; decide, h1, h2, ?_, _, rfl, rfl, by decide⟩
  exact port_reachable.step _ _ _ _ _ _ _ _
    (port_reachable.step _ _ _ _ _ _ _ _ port_reachable.init (Or.inl rfl) h1) (Or.inl rfl) h2

/-- C23, amended: in every state reachable from the initial state (every ability
slot of every port has the op NONE) by `update_port` calls with action ADD or
DEL, over any workers and directions, none of which attaches, with the op
`ADD_VLANTAG`, a port that holds an `ADD_VLANTAG` slot to a list the port is
not yet in, every port has at most one ability slot whose op is
`ADD_VLANTAG`. -/
theorem update_port_one_vlan_slot (env : Env) (m0 m : MngData) (hinit : no_ability m0)
    (hreach : port_reachable env vlan_attach_once m0 m) :
    ∀ q qinfo, read_port m q = some qinfo → vlan_slots qinfo ≤ 1 := by
  induction hreach with
  | init =>
    intro q qinfo hq
    have h0 := no_ability_vlan_slots m0 hinit q qinfo hq
    omega
  | step m m1 a port rxtx name ability r _ hQ hstep ih =>
    exact update_port_vlan_slots env a port rxtx name ability m r m1 hstep hQ ih

/-- C23, amended, at `ex_mng_vlan_one`, reached from `ex_mng_two` by the ADD that
attaches `phy:0` with `ex_add_vlan` to `fwd1`: `phy:0` holds one `ADD_VLANTAG`
slot. -/
theorem update_port_one_vlan_slot_witness :
    no_ability ex_mng_two ∧ port_reachable ex_env vlan_attach_once ex_mng_two ex_mng_vlan_one ∧
    ∀ q qinfo, read_port ex_mng_vlan_one q = some qinfo → vlan_slots qinfo ≤ 1 :=
  have h0 : no_ability ex_mng_two := by unfold no_ability; decide
  have hr : port_reachable ex_env vlan_attach_once ex_mng_two ex_mng_vlan_one :=
    port_reachable.step _ _ SPPWK_ACT_ADD ⟨PHY, 0⟩ SPP_PORT_RXTX_TX "fwd1" ex_add_vlan
      SPP_RET_OK port_reachable.init
      ⟨Or.inl rfl, fun _ _ _ _ p pinfo _ _ _ hr _ => no_ability_vlan_slots ex_mng_two h0 p pinfo hr⟩
      (by decide)
  ⟨h0, hr, update_port_one_vlan_slot ex_env ex_mng_two ex_mng_vlan_one h0 hr⟩

/-- C24: every port attached to a worker is bound, in every state reachable from
a state in which no worker has a port attached by `update_port` calls whose
port kind is one of PHY, VHOST and RING (any action, worker and direction).
Every one of the first `nof_rx` entries of `rx_ports` and of the first
`nof_tx` entries of `tx_ports` of a worker refers to a port record whose kind
is not `UNDEF`. -/
theorem attached_ports_bound (env : Env) (m0 m : MngData) (hinit : none_attached m0)
    (hreach : port_reachable env kind_given m0 m) :
    ∀ c ∈ m.comp_info, ∀ e ∈ c.rx_ports.take c.nof_rx.toNat ++ c.tx_ports.take c.nof_tx.toNat,
      ∃ p pinfo, e = some p ∧ read_port m p = some pinfo ∧ pinfo.iface_type ≠ UNDEF := by
  have hall : ∀ c ∈ m.comp_info, attached_ok (bound_port m) c := by
    induction hreach with
    | init =>
      intro c hc
      obtain ⟨h1, h2⟩ := hinit c hc
      refine ⟨by rw [h1]; exact Nat.zero_le _, by rw [h2]; exact Nat.zero_le _, fun e he => ?_⟩
      unfold attached at he
      rw [h1, h2] at he
      simp at he
    | step m m1 a port rxtx name ability r _ hQ hstep ih =>
      exact update_port_attached env a port rxtx name ability m r m1 hstep hQ ih
  intro c hc e he
  obtain ⟨p, hp, pinfo, hr, hk⟩ := (hall c hc).2.2 e he
  exact ⟨p, pinfo, hp, hr, hk⟩

/-- C24 at `ex_mng_vlan_one`, reached from `ex_mng_two`, where no port is attached,
by the ADD of `phy:0` to `fwd1`. -/
theorem attached_ports_bound_witness :
    none_attached ex_mng_two ∧ port_reachable ex_env kind_given ex_mng_two ex_mng_vlan_one ∧
    ∀ c ∈ ex_mng_vlan_one.comp_info,
      ∀ e ∈ c.rx_ports.take c.nof_rx.toNat ++ c.tx_ports.take c.nof_tx.toNat,
        ∃ p pinfo, e = some p ∧ read_port ex_mng_vlan_one p = some pinfo ∧
          pinfo.iface_type ≠ UNDEF :=
  have h0 : none_attached ex_mng_two := by unfold none_attached; decide
  have hr : port_reachable ex_env kind_given ex_mng_two ex_mng_vlan_one :=
    port_reachable.step _ _ SPPWK_ACT_ADD ⟨PHY, 0⟩ SPP_PORT_RXTX_TX "fwd1" ex_add_vlan
      SPP_RET_OK port_reachable.init (by unfold kind_given; decide) (by decide)
  ⟨h0, hr, attached_ports_bound ex_env ex_mng_two ex_mng_vlan_one h0 hr⟩

/-- C25: the handlers write the staging view only. Whatever its arguments and
its result, `update_comp` keeps the number of lcore records and, in every
lcore record, `upd_index`, `ref_index`, the status and every side of `core`
other than `core[upd_index]`, in particular the side `core[1 - upd_index]`
with its `num` and its entries; `update_port` and `update_cls_table` leave
every lcore record as it is. -/
theorem handlers_write_staging_only (env : Env) :
    (∀ (a : sppwk_action) (name : String) (lcore_id : Nat) (wk_type : sppwk_worker_type)
        (s : St) (r : Int) (s1 : St),
      update_comp env a name lcore_id wk_type s = some (r, s1) →
      s1.mng.core_info.length = s.mng.core_info.length ∧
      ∀ (L : Nat) (info : core_mng_info), s.mng.core_info[L]? = some info →
        ∃ info1, s1.mng.core_info[L]? = some info1 ∧
          info1.upd_index = info.upd_index ∧ info1.ref_index = info.ref_index ∧
          info1.status = info.status ∧ info1.core.length = info.core.length ∧
          (∀ k, k ≠ info.upd_index → info1.core[k]? = info.core[k]?) ∧
          info1.core[1 - info.upd_index]? = info.core[1 - info.upd_index]?) ∧
    (∀ (a : sppwk_action) (port : sppwk_port_idx) (rxtx : spp_port_rxtx) (name : String)
        (ability : spp_port_ability) (m : MngData) (r : Int) (m1 : MngData),
      update_port env a port rxtx name ability m = some (r, m1) →
      m1.core_info = m.core_info) ∧
    (∀ (a : sppwk_action) (t : spp_classifier_type) (vid : Int) (mac_str : String)
        (port : sppwk_port_idx) (m : MngData) (r : Int) (m1 : MngData),
      update_cls_table env a t vid mac_str port m = some (r, m1) →
      m1.core_info = m.core_info) := by
  refine ⟨fun a name lcore_id wk_type s r s1 h => ?_,
    fun a port rxtx name ability m r m1 h =>
      (update_port_core env a port rxtx name ability m r m1 h).1,
    fun a t vid mac_str port m r m1 h =>
      (update_cls_table_core env a t vid mac_str port m r m1 h).1⟩
  rcases update_comp_core_info env a name lcore_id wk_type s r s1 h with h1 | h1
  · rw [h1]
    exact ⟨rfl, fun L info hL => ⟨info, hL, rfl, rfl, rfl, rfl, fun _ _ => rfl, rfl⟩⟩
  · obtain ⟨L0, info0, core1, h0, hset⟩ := h1
    rw [hset]
    refine ⟨List.length_set _ _ _, fun L info hL => ?_⟩
    by_cases hLL : L = L0
    · subst hLL
      rw [h0] at hL
      simp only [Option.some.injEq] at hL
      subst hL
      have hlt : L < s.mng.core_info.length := (List.getElem?_eq_some_iff.mp h0).1
      refine ⟨_, List.getElem?_set_self hlt, rfl, rfl, rfl, List.length_set _ _ _,
        fun k hk => List.getElem?_set_ne (Ne.symm hk), List.getElem?_set_ne ?_⟩
      omega
    · rw [List.getElem?_set_ne (Ne.symm hLL)]
      exact ⟨info, hL, rfl, rfl, rfl, rfl, fun _ _ => rfl, rfl⟩

/-- C26: `flush_cmd` runs the port step `update_port_info` first. When that step
returns a negative value, `flush_cmd` returns this value and makes no other
call. Otherwise it runs the core step `update_lcore_info`, the worker step
`update_comp_info` and `backup_mng_info`, in this order, each on the
management data the step before left, and returns the result of the worker
step. -/
theorem flush_cmd_order (env : Env) (s : St) :
    ((env.update_port_info s.mng).1 < 0 →
      (flush_cmd env s).1 = (env.update_port_info s.mng).1 ∧
      (flush_cmd env s).2.trace = s.trace ++ [Call.update_port_info] ∧
      (flush_cmd env s).2.mng = (env.update_port_info s.mng).2) ∧
    (¬ (env.update_port_info s.mng).1 < 0 →
      (flush_cmd env s).1 =
        (env.update_comp_info (env.update_lcore_info (env.update_port_info s.mng).2)).1 ∧
      (flush_cmd env s).2.trace =
        s.trace ++ [Call.update_port_info, Call.update_lcore_info, Call.update_comp_info,
          Call.backup_mng_info] ∧
      (flush_cmd env s).2.mng = env.backup_mng_info
        (env.update_comp_info (env.update_lcore_info (env.update_port_info s.mng).2)).2) := by
  constructor
  · intro h
    rw [flush_cmd_port_fail env s h]
    exact ⟨rfl, rfl, rfl⟩
  · intro h
    rw [flush_cmd_port_ok env s h]
    exact ⟨rfl, rfl, rfl⟩

/-- C27, failing input: with a dataplane whose worker step fails
(`ex_env_comp_fail`) while the port step succeeds, `flush_cmd` returns
`SPP_RET_NG`, which is not `SPP_RET_OK`, and has called `backup_mng_info`: the
snapshot is taken although the flush failed. -/
theorem flush_cmd_backup_on_failure :
    ∃ s1, flush_cmd ex_env_comp_fail ex_st = (SPP_RET_NG, s1) ∧ SPP_RET_NG ≠ SPP_RET_OK ∧
      s1.trace = [Call.update_port_info, Call.update_lcore_info, Call.update_comp_info,
        Call.backup_mng_info] ∧
      Call.backup_mng_info ∈ s1.trace :=
  ⟨_, flush_cmd_port_ok ex_env_comp_fail ex_st (by decide), by decide, rfl, by decide⟩

/-- C28, counterexample: with a dataplane whose port step fails
(`ex_env_port_fail`), the command that attaches `phy:0` as second rx port to
the merger `mrg1` of `ex_mng_mrg`. The handler `update_port` succeeds and
leaves `ex_mng_mrg_two`; the flush fails in its port step; `exec_one_cmd`
returns `SPP_RET_NG` after the calls `update_port`, `flush_cmd` and
`update_port_info`, and the state it leaves is `ex_mng_mrg_two`, with the two
rx ports of `mrg1`, not the state `ex_mng_mrg` before the command. -/
theorem exec_one_cmd_flush_failure_keeps_edits :
    update_port ex_env_port_fail SPPWK_ACT_ADD ⟨PHY, 0⟩ SPP_PORT_RXTX_RX "mrg1" zero_ability
        ex_mng_mrg = some (SPP_RET_OK, ex_mng_mrg_two) ∧
    (flush_cmd ex_env_port_fail ⟨ex_mng_mrg_two, [Call.update_port, Call.flush_cmd]⟩).1
      = SPP_RET_NG ∧
    exec_one_cmd ex_env_port_fail (ex_port_cmd SPPWK_ACT_ADD PHY 0 SPP_PORT_RXTX_RX "mrg1")
        ⟨ex_mng_mrg, []⟩ =
      some (SPP_RET_NG,
        ⟨ex_mng_mrg_two, [Call.update_port, Call.flush_cmd, Call.update_port_info]⟩) ∧
    ex_mng_mrg_two ≠ ex_mng_mrg ∧
    (ex_mng_mrg.comp_info[0]?).map (fun c => c.nof_rx) = some 1 ∧
    (ex_mng_mrg_two.comp_info[0]?).map (fun c => c.nof_rx) = some 2 := by
  refine ⟨by decide, by decide, by decide, by decide, rfl, rfl⟩

/-- C28, amended: a command whose handler succeeds and whose flush fails. For a
classifier, worker or port command whose handler returned `SPP_RET_OK` and
left the management data `m`, and whose flush returns another status,
`exec_one_cmd` returns the status of the flush, so that the command is reported
as failed, and leaves the state the flush left of `m`: the management data
`update_port_info` left of `m` when the port step failed, and those the four
publication steps left of `m` otherwise. The state is computed from the
handler's result alone; the state before the command is not restored. -/
theorem exec_one_cmd_flush_failure_no_rollback (env : Env) (cmd : sppwk_cmd_attrs) (s : St) :
    (cmd.type = SPPWK_CMDTYPE_CLS_MAC ∨ cmd.type = SPPWK_CMDTYPE_CLS_VLAN →
      ∀ m, update_cls_table env cmd.spec.cls_table.wk_action cmd.spec.cls_table.type
          cmd.spec.cls_table.vid cmd.spec.cls_table.mac cmd.spec.cls_table.port s.mng
            = some (SPP_RET_OK, m) →
        (flush_cmd env ⟨m, s.trace ++ [Call.update_cls_table, Call.flush_cmd]⟩).1 ≠ SPP_RET_OK →
        ∃ r s1, exec_one_cmd env cmd s = some (r, s1) ∧ r ≠ SPP_RET_OK ∧
          (r, s1) = flush_cmd env ⟨m, s.trace ++ [Call.update_cls_table, Call.flush_cmd]⟩ ∧
          ((env.update_port_info m).1 < SPP_RET_OK →
            r = (env.update_port_info m).1 ∧ s1.mng = (env.update_port_info m).2) ∧
          (¬ (env.update_port_info m).1 < SPP_RET_OK →
            s1.mng = env.backup_mng_info
              (env.update_comp_info (env.update_lcore_info (env.update_port_info m).2)).2)) ∧
    (cmd.type = SPPWK_CMDTYPE_WORKER →
      ∀ s0, update_comp env cmd.spec.comp.wk_action cmd.spec.comp.name cmd.spec.comp.core
          cmd.spec.comp.wk_type (s.call Call.update_comp) = some (SPP_RET_OK, s0) →
        (flush_cmd env (s0.call Call.flush_cmd)).1 ≠ SPP_RET_OK →
        ∃ r s1, exec_one_cmd env cmd s = some (r, s1) ∧ r ≠ SPP_RET_OK ∧
          (r, s1) = flush_cmd env (s0.call Call.flush_cmd) ∧
          ((env.update_port_info s0.mng).1 < SPP_RET_OK →
            r = (env.update_port_info s0.mng).1 ∧ s1.mng = (env.update_port_info s0.mng).2) ∧
          (¬ (env.update_port_info s0.mng).1 < SPP_RET_OK →
            s1.mng = env.backup_mng_info
              (env.update_comp_info
                (env.update_lcore_info (env.update_port_info s0.mng).2)).2)) ∧
    (cmd.type = SPPWK_CMDTYPE_PORT →
      ∀ m, update_port env cmd.spec.port.wk_action cmd.spec.port.port cmd.spec.port.rxtx
          cmd.spec.port.name cmd.spec.port.ability s.mng = some (SPP_RET_OK, m) →
        (flush_cmd env ⟨m, s.trace ++ [Call.update_port, Call.flush_cmd]⟩).1 ≠ SPP_RET_OK →
        ∃ r s1, exec_one_cmd env cmd s = some (r, s1) ∧ r ≠ SPP_RET_OK ∧
          (r, s1) = flush_cmd env ⟨m, s.trace ++ [Call.update_port, Call.flush_cmd]⟩ ∧
          ((env.update_port_info m).1 < SPP_RET_OK →
            r = (env.update_port_info m).1 ∧ s1.mng = (env.update_port_info m).2) ∧
          (¬ (env.update_port_info m).1 < SPP_RET_OK →
            s1.mng = env.backup_mng_info
              (env.update_comp_info (env.update_lcore_info (env.update_port_info m).2)).2)) := by
  have key : ∀ s2 : St, (flush_cmd env s2).1 ≠ SPP_RET_OK →
      (flush_cmd env s2).1 ≠ SPP_RET_OK ∧
      ((flush_cmd env s2).1, (flush_cmd env s2).2) = flush_cmd env s2 ∧
      ((env.update_port_info s2.mng).1 < SPP_RET_OK →
        (flush_cmd env s2).1 = (env.update_port_info s2.mng).1 ∧
        (flush_cmd env s2).2.mng = (env.update_port_info s2.mng).2) ∧
      (¬ (env.update_port_info s2.mng).1 < SPP_RET_OK →
        (flush_cmd env s2).2.mng = env.backup_mng_info
          (env.update_comp_info (env.update_lcore_info (env.update_port_info s2.mng).2)).2) :=
    fun s2 h => ⟨h, rfl, (flush_cmd_mng env s2).1, fun h2 => ((flush_cmd_mng env s2).2 h2).2⟩
  refine ⟨?_, ?_, ?_⟩
  · intro ht m hu hf
    refine ⟨_, _, ?_, key ⟨m, s.trace ++ [Call.update_cls_table, Call.flush_cmd]⟩ hf⟩
    rcases ht with ht | ht <;>
      simp [exec_one_cmd, ht, St.call, flush_if_ok, SPP_RET_OK] at hu ⊢ <;> simp [hu]
  · intro ht s0 hu hf
    refine ⟨_, _, ?_, key (s0.call Call.flush_cmd) hf⟩
    simp [exec_one_cmd, ht, flush_if_ok, SPP_RET_OK] at hu ⊢
    simp [hu]
  · intro ht m hu hf
    refine ⟨_, _, ?_, key ⟨m, s.trace ++ [Call.update_port, Call.flush_cmd]⟩ hf⟩
    simp [exec_one_cmd, ht, St.call, flush_if_ok, SPP_RET_OK] at hu ⊢
    simp [hu]

/-- C28, witness: the port command of the counterexample, with the port step that
fails. -/
theorem exec_one_cmd_flush_failure_no_rollback_witness :
    ∃ r s1, exec_one_cmd ex_env_port_fail
        (ex_port_cmd SPPWK_ACT_ADD PHY 0 SPP_PORT_RXTX_RX "mrg1") ⟨ex_mng_mrg, []⟩ =
        some (r, s1) ∧ r ≠ SPP_RET_OK ∧
      (r, s1) = flush_cmd ex_env_port_fail
        ⟨ex_mng_mrg_two, ([] : List Call) ++ [Call.update_port, Call.flush_cmd]⟩ ∧
      ((ex_env_port_fail.update_port_info ex_mng_mrg_two).1 < SPP_RET_OK →
        r = (ex_env_port_fail.update_port_info ex_mng_mrg_two).1 ∧
        s1.mng = (ex_env_port_fail.update_port_info ex_mng_mrg_two).2) ∧
      (¬ (ex_env_port_fail.update_port_info ex_mng_mrg_two).1 < SPP_RET_OK →
        s1.mng = ex_env_port_fail.backup_mng_info
          (ex_env_port_fail.update_comp_info (ex_env_port_fail.update_lcore_info
            (ex_env_port_fail.update_port_info ex_mng_mrg_two).2)).2) :=
  (exec_one_cmd_flush_failure_no_rollback ex_env_port_fail
    (ex_port_cmd SPPWK_ACT_ADD PHY 0 SPP_PORT_RXTX_RX "mrg1") ⟨ex_mng_mrg, []⟩).2.2 rfl
    ex_mng_mrg_two (by decide) (by decide)

/-- C29: the message `get_parse_err_msg` derives from a parse-error record.
"Wrong message format" for `WRONG_FORMAT`; "Unknown command(" followed by the
details of the record and ")" for `UNKNOWN_CMD`; "No or insufficient number
of params (", "Invalid value type (" and "Invalid value (", each followed by
the `msg` of the record and ")", for `NO_PARAM`, `INVALID_TYPE` and
`INVALID_VALUE`; "Failed to parse with unexpected reason" for every other
code. -/
theorem get_parse_err_msg_table (e : sppwk_parse_err_msg) :
    (e.code = SPPWK_PARSE_WRONG_FORMAT → get_parse_err_msg e = "Wrong message format") ∧
    (e.code = SPPWK_PARSE_UNKNOWN_CMD →
      get_parse_err_msg e = "Unknown command(" ++ e.details ++ ")") ∧
    (e.code = SPPWK_PARSE_NO_PARAM →
      get_parse_err_msg e = "No or insufficient number of params (" ++ e.msg ++ ")") ∧
    (e.code = SPPWK_PARSE_INVALID_TYPE →
      get_parse_err_msg e = "Invalid value type (" ++ e.msg ++ ")") ∧
    (e.code = SPPWK_PARSE_INVALID_VALUE →
      get_parse_err_msg e = "Invalid value (" ++ e.msg ++ ")") ∧
    (e.code ≠ SPPWK_PARSE_WRONG_FORMAT → e.code ≠ SPPWK_PARSE_UNKNOWN_CMD →
      e.code ≠ SPPWK_PARSE_NO_PARAM → e.code ≠ SPPWK_PARSE_INVALID_TYPE →
      e.code ≠ SPPWK_PARSE_INVALID_VALUE →
      get_parse_err_msg e = "Failed to parse with unexpected reason") := by
  unfold get_parse_err_msg
  refine ⟨fun h => ?_, fun h => ?_, fun h => ?_, fun h => ?_, fun h => ?_,
    fun h1 h2 h3 h4 h5 => ?_⟩
  · rw [if_pos h]
  · rw [if_neg (by rw [h]; decide), if_pos h]
  · rw [if_neg (by rw [h]; decide), if_neg (by rw [h]; decide), if_pos h]
  · rw [if_neg (by rw [h]; decide), if_neg (by rw [h]; decide), if_neg (by rw [h]; decide),
      if_pos h]
  · rw [if_neg (by rw [h]; decide), if_neg (by rw [h]; decide), if_neg (by rw [h]; decide),
      if_neg (by rw [h]; decide), if_pos h]
  · rw [if_neg h1, if_neg h2, if_neg h3, if_neg h4, if_neg h5]

/-- C30: the value `results` of a response, with a string buffer that does not
run out of memory. For results set by `set_cmd_result` with the codes SUCCESS,
INVALID, or FAILED with a non-empty message, `append_command_results_value`
on an empty buffer returns success and yields the text `"results": [ `, the
blocks of the results in input order separated by `, `, and ` ]`, one block
for each result: the block with `"result": "success"` or with
`"result": "invalid"` alone, or with `"result": "error"` followed by the
`error_details` block that holds the message. -/
theorem append_command_results_value_format (B : strbuf_ops) (hB : strbuf_ok B)
    (inputs : List (cmd_result × Int × String))
    (hcodes : ∀ x ∈ inputs, x.2.1 = CMD_SUCCESS ∨ x.2.1 = CMD_INVALID ∨
      (x.2.1 = CMD_FAILED ∧ x.2.2 ≠ "")) :
    append_command_results_value B "results" "" (inputs.length : Int)
        (inputs.map (fun x => set_cmd_result x.1 x.2.1 x.2.2)) =
      some (SPP_RET_OK, results_json_spec (inputs.map (fun x => (x.2.1, x.2.2)))) ∧
    results_json_spec (inputs.map (fun x => (x.2.1, x.2.2))) =
      "\"results\": [ " ++
        ", ".intercalate (inputs.map (fun x => result_block_spec x.2.1 x.2.2)) ++ " ]" ∧
    (inputs.map (fun x => result_block_spec x.2.1 x.2.2)).length = inputs.length ∧
    (∀ msg, result_block_spec CMD_SUCCESS msg = "\x7b \"result\": \"success\" \x7d") ∧
    (∀ msg, result_block_spec CMD_INVALID msg = "\x7b \"result\": \"invalid\" \x7d") ∧
    (∀ msg, result_block_spec CMD_FAILED msg =
      "\x7b \"result\": \"error\", \"error_details\": \x7b \"message\": \"" ++ msg ++
        "\" \x7d \x7d") := by
  refine ⟨?_, ?_, by simp, fun _ => rfl, fun _ => rfl, fun _ => rfl⟩
  · unfold append_command_results_value
    rw [hB.1]
    simp only [Int.toNat_ofNat]
    have hlen : inputs.length = (inputs.map (fun x => set_cmd_result x.1 x.2.1 x.2.2)).length := by
      simp
    rw [hlen, append_command_results_loop_ok B hB
      (inputs.map (fun x => set_cmd_result x.1 x.2.1 x.2.2))
      (inputs.map (fun x => set_cmd_result x.1 x.2.1 x.2.2)) 0 "" (List.drop_zero _)]
    simp only
    rw [if_neg (by simp [SPP_RET_OK]), append_json_array_brackets_ok B hB, if_pos rfl,
      foldl_blocks_intercalate]
    unfold results_json_spec
    have hl : ("\"" : String) ++ "results" ++ "\": [ " = "\"results\": [ " := by decide
    simp only [String.empty_append, hl, List.map_map]
    have hmap : List.map ((fun res => "\x7b " ++ result_inner res ++ " \x7d") ∘
          fun x => set_cmd_result x.1 x.2.1 x.2.2) inputs =
        List.map ((fun x => result_block_spec x.1 x.2) ∘ fun x => (x.2.1, x.2.2)) inputs :=
      List.map_congr_left (fun x hx => result_block_eq x.1 x.2.1 x.2.2 (hcodes x hx))
    rw [hmap]
  · unfold results_json_spec
    simp only [List.map_map]
    rfl

/-- C30 for the three results of a request whose second command failed. -/
theorem append_command_results_value_format_witness :
    strbuf_ok ex_strbuf ∧
    append_command_results_value ex_strbuf "results" "" 3
        [set_cmd_result zero_cmd_result CMD_SUCCESS "",
         set_cmd_result zero_cmd_result CMD_FAILED "error occur",
         set_cmd_result zero_cmd_result CMD_INVALID ""] =
      some (SPP_RET_OK,
        "\"results\": [ \x7b \"result\": \"success\" \x7d, \x7b \"result\": \"error\", \"error_details\": \x7b \"message\": \"error occur\" \x7d \x7d, \x7b \"result\": \"invalid\" \x7d ]") :=
  have hB : strbuf_ok ex_strbuf := ⟨fun _ => rfl, fun _ _ _ _ => rfl⟩
  ⟨hB, (append_command_results_value_format ex_strbuf hB
    [(zero_cmd_result, CMD_SUCCESS, ""), (zero_cmd_result, CMD_FAILED, "error occur"),
     (zero_cmd_result, CMD_INVALID, "")] (by decide)).1.trans (by decide)⟩

/-! ## Claims: round trips, bounds of the array writes, other actions -/

/-- C36: classifier ADD/DEL round trip. For a bound port whose classifier
attributes are unset (VLAN id 4095, MAC address 0, empty MAC string), every
VLAN id (those of [0, 4095] among them) and every MAC string that parses,
`update_cls_table` ADD followed by `update_cls_table` DEL with the same
arguments both return `SPP_RET_OK`, and the port record is then what it was
before the two calls: VLAN id 4095, MAC address 0, empty MAC string. -/
theorem update_cls_table_add_del_round_trip (env : Env) (t : spp_classifier_type) (vid : Int)
    (mac_str : String) (port : sppwk_port_idx) (m : MngData) (p : PortPtr)
    (pinfo : sppwk_port_info)
    (hconv : env.sppwk_convert_mac_str_to_int64 mac_str ≠ -1)
    (hp : get_sppwk_port m port.iface_type port.iface_no = some p)
    (hr : read_port m p = some pinfo) (hbound : pinfo.iface_type ≠ UNDEF)
    (hvid : pinfo.cls_attrs.vlantag.vid = ETH_VLAN_ID_MAX)
    (hmac : pinfo.cls_attrs.mac_addr = 0) (hstr : pinfo.cls_attrs.mac_addr_str = "") :
    ETH_VLAN_ID_MAX = 4095 ∧
    ∃ m1 m2 pinfo2,
      update_cls_table env SPPWK_ACT_ADD t vid mac_str port m = some (SPP_RET_OK, m1) ∧
      update_cls_table env SPPWK_ACT_DEL t vid mac_str port m1 = some (SPP_RET_OK, m2) ∧
      read_port m2 p = some pinfo2 ∧
      pinfo2.cls_attrs.vlantag.vid = 4095 ∧ pinfo2.cls_attrs.mac_addr = 0 ∧
      pinfo2.cls_attrs.mac_addr_str = "" ∧ pinfo2 = pinfo := by
  refine ⟨rfl, ?_⟩
  have hadd := update_cls_table_add_eq env t vid mac_str port m p pinfo hconv hp hr hbound
  rw [if_neg (by rintro (h | h); exact h hvid; exact h hmac)] at hadd
  have hr1 := read_write_port_same m p
    ({ pinfo with
      cls_attrs :=
        { vlantag := { pinfo.cls_attrs.vlantag with vid := vid },
          mac_addr := (env.sppwk_convert_mac_str_to_int64 mac_str % 2 ^ 64).toNat,
          mac_addr_str := mac_str } } : sppwk_port_info) pinfo hr
  rw [← read_port_mark _ p SPP_PORT_RXTX_TX p] at hr1
  have hp1 := get_sppwk_port_write_mark m p
    ({ pinfo with
      cls_attrs :=
        { vlantag := { pinfo.cls_attrs.vlantag with vid := vid },
          mac_addr := (env.sppwk_convert_mac_str_to_int64 mac_str % 2 ^ 64).toNat,
          mac_addr_str := mac_str } } : sppwk_port_info) SPP_PORT_RXTX_TX
    port.iface_type port.iface_no
  rw [hp] at hp1
  have hdel := update_cls_table_del_eq env t vid mac_str port _ p _ hconv hp1 hr1 hbound
  rw [if_neg (by rintro (⟨_, h⟩ | ⟨_, h⟩); exact h rfl; exact h rfl)] at hdel
  have hr2 : read_port
      (set_component_change_port
        (write_port
          (set_component_change_port
            (write_port m p
              { pinfo with
                cls_attrs :=
                  { vlantag := { pinfo.cls_attrs.vlantag with vid := vid },
                    mac_addr := (env.sppwk_convert_mac_str_to_int64 mac_str % 2 ^ 64).toNat,
                    mac_addr_str := mac_str } }) p SPP_PORT_RXTX_TX)
          p pinfo) p SPP_PORT_RXTX_TX) p = some pinfo := by
    rw [read_port_mark]
    exact read_write_port_same _ p _ _ hr1
  have hpi : ({ pinfo with
      cls_attrs :=
        { vlantag := { pinfo.cls_attrs.vlantag with vid := ETH_VLAN_ID_MAX },
          mac_addr := 0, mac_addr_str := "" } } : sppwk_port_info) = pinfo := by
    obtain ⟨it, ino, eth, ⟨⟨v, pcp, tci⟩, mac, ms⟩, ab⟩ := pinfo
    simp only at hvid hmac hstr
    subst hvid hmac hstr
    rfl
  simp only [hpi] at hdel
  exact ⟨_, _, pinfo, hadd, hdel, hr2, hvid, hmac, hstr, rfl⟩

/-- C36, witness: the round trip on the unset port `phy:1` of `ex_mng_init`. -/
theorem update_cls_table_add_del_round_trip_witness :
    ∃ m1 m2 pinfo2,
      update_cls_table ex_env SPPWK_ACT_ADD SPP_CLASSIFIER_TYPE_VLAN 100 "00:00:00:00:00:05"
        ⟨PHY, 1⟩ ex_mng_init = some (SPP_RET_OK, m1) ∧
      update_cls_table ex_env SPPWK_ACT_DEL SPP_CLASSIFIER_TYPE_VLAN 100 "00:00:00:00:00:05"
        ⟨PHY, 1⟩ m1 = some (SPP_RET_OK, m2) ∧
      read_port m2 ⟨PHY, 1⟩ = some pinfo2 ∧
      pinfo2.cls_attrs.vlantag.vid = 4095 ∧ pinfo2.cls_attrs.mac_addr = 0 ∧
      pinfo2.cls_attrs.mac_addr_str = "" ∧ pinfo2 = { ex_port with iface_type := PHY } :=
  (update_cls_table_add_del_round_trip ex_env SPP_CLASSIFIER_TYPE_VLAN 100 "00:00:00:00:00:05"
    ⟨PHY, 1⟩ ex_mng_init ⟨PHY, 1⟩ { ex_port with iface_type := PHY } (by decide) rfl rfl
    (by decide) (by decide) (by decide) (by decide)).2

/-- C37: DEL on a bound port with a MAC string that parses. When the classifier
attributes of the port are unset (VLAN id 4095, MAC address 0),
`update_cls_table` DEL returns `SPP_RET_OK` exactly when the requested VLAN id
is 4095, and fails changing nothing otherwise. Consequently, whatever the
attributes of the port were, a DEL that has returned `SPP_RET_OK` and is
repeated with the same arguments returns `SPP_RET_OK` exactly when its VLAN id
is 4095. -/
theorem update_cls_table_del_unset (env : Env) (t : spp_classifier_type) (vid : Int)
    (mac_str : String) (port : sppwk_port_idx) (m : MngData) (p : PortPtr)
    (pinfo : sppwk_port_info)
    (hconv : env.sppwk_convert_mac_str_to_int64 mac_str ≠ -1)
    (hp : get_sppwk_port m port.iface_type port.iface_no = some p)
    (hr : read_port m p = some pinfo) (hbound : pinfo.iface_type ≠ UNDEF) :
    ETH_VLAN_ID_MAX = 4095 ∧
    (pinfo.cls_attrs.vlantag.vid = ETH_VLAN_ID_MAX → pinfo.cls_attrs.mac_addr = 0 →
      ((∃ m1, update_cls_table env SPPWK_ACT_DEL t vid mac_str port m = some (SPP_RET_OK, m1)) ↔
        vid = 4095) ∧
      (vid ≠ 4095 →
        update_cls_table env SPPWK_ACT_DEL t vid mac_str port m = some (SPP_RET_NG, m))) ∧
    (∀ m1, update_cls_table env SPPWK_ACT_DEL t vid mac_str port m = some (SPP_RET_OK, m1) →
      ((∃ m2, update_cls_table env SPPWK_ACT_DEL t vid mac_str port m1 = some (SPP_RET_OK, m2)) ↔
        vid = 4095) ∧
      (vid ≠ 4095 →
        update_cls_table env SPPWK_ACT_DEL t vid mac_str port m1 = some (SPP_RET_NG, m1))) := by
  have key : ∀ (m0 : MngData) (pinfo0 : sppwk_port_info),
      get_sppwk_port m0 port.iface_type port.iface_no = some p →
      read_port m0 p = some pinfo0 → pinfo0.iface_type ≠ UNDEF →
      pinfo0.cls_attrs.vlantag.vid = ETH_VLAN_ID_MAX → pinfo0.cls_attrs.mac_addr = 0 →
      ((∃ m1, update_cls_table env SPPWK_ACT_DEL t vid mac_str port m0 =
          some (SPP_RET_OK, m1)) ↔ vid = 4095) ∧
      (vid ≠ 4095 →
        update_cls_table env SPPWK_ACT_DEL t vid mac_str port m0 = some (SPP_RET_NG, m0)) := by
    intro m0 pinfo0 hp0 hr0 hb0 hv hm
    have hdel := update_cls_table_del_eq env t vid mac_str port m0 p pinfo0 hconv hp0 hr0 hb0
    rw [hv, hm] at hdel
    by_cases hvid : vid = 4095
    · rw [if_neg (by
        rintro (⟨_, h⟩ | ⟨h, _⟩)
        · exact h (by rw [hvid]; rfl)
        · exact h rfl)] at hdel
      exact ⟨⟨fun _ => hvid, fun _ => ⟨_, hdel⟩⟩, fun h => absurd hvid h⟩
    · rw [if_pos (Or.inl ⟨by decide, fun h => hvid (by rw [← h]; rfl)⟩)] at hdel
      refine ⟨⟨?_, fun h => absurd h hvid⟩, fun _ => hdel⟩
      rintro ⟨m1, h1⟩
      rw [hdel] at h1
      simp only [Option.some.injEq, Prod.mk.injEq] at h1
      exact absurd h1.1 (by decide)
  refine ⟨rfl, fun hv hm => key m pinfo hp hr hbound hv hm, ?_⟩
  intro m1 h1
  have hdel := update_cls_table_del_eq env t vid mac_str port m p pinfo hconv hp hr hbound
  rw [h1] at hdel
  split_ifs at hdel with hc
  · simp only [Option.some.injEq, Prod.mk.injEq] at hdel
    exact absurd hdel.1 (by decide)
  · simp only [Option.some.injEq, Prod.mk.injEq, true_and] at hdel
    have hp1 : get_sppwk_port m1 port.iface_type port.iface_no = some p := by
      rw [hdel, get_sppwk_port_write_mark]; exact hp
    have hr1 : read_port m1 p = some
        ({ pinfo with
          cls_attrs :=
            { vlantag := { pinfo.cls_attrs.vlantag with vid := ETH_VLAN_ID_MAX },
              mac_addr := 0, mac_addr_str := "" } } : sppwk_port_info) := by
      rw [hdel, read_port_mark]
      exact read_write_port_same m p _ pinfo hr
    exact key m1 _ hp1 hr1 hbound rfl rfl

/-- C37, witness: on the unset port `phy:1` of `ex_mng_init` a DEL with the
VLAN id 100 fails, and after the DEL that removes the rule of `ex_mng_rule`, the
same DEL fails as well. -/
theorem update_cls_table_del_unset_witness :
    update_cls_table ex_env SPPWK_ACT_DEL SPP_CLASSIFIER_TYPE_VLAN 100 "00:00:00:00:00:05"
      ⟨PHY, 1⟩ ex_mng_init = some (SPP_RET_NG, ex_mng_init) ∧
    ∀ m1, update_cls_table ex_env SPPWK_ACT_DEL SPP_CLASSIFIER_TYPE_VLAN 100
        "00:00:00:00:00:05" ⟨PHY, 1⟩ ex_mng_rule = some (SPP_RET_OK, m1) →
      update_cls_table ex_env SPPWK_ACT_DEL SPP_CLASSIFIER_TYPE_VLAN 100 "00:00:00:00:00:05"
        ⟨PHY, 1⟩ m1 = some (SPP_RET_NG, m1) :=
  ⟨((update_cls_table_del_unset ex_env SPP_CLASSIFIER_TYPE_VLAN 100 "00:00:00:00:00:05"
      ⟨PHY, 1⟩ ex_mng_init ⟨PHY, 1⟩ { ex_port with iface_type := PHY } (by decide) rfl rfl
      (by decide)).2.1 (by decide) (by decide)).2 (by decide),
   fun m1 h1 =>
    ((update_cls_table_del_unset ex_env SPP_CLASSIFIER_TYPE_VLAN 100 "00:00:00:00:00:05"
      ⟨PHY, 1⟩ ex_mng_rule ⟨PHY, 1⟩
      { ex_port with iface_type := PHY, cls_attrs := ⟨⟨100, 0, 0⟩, 5, "00:00:00:00:00:05"⟩ }
      (by decide) rfl rfl (by decide)).2.2 m1 h1).2 (by decide)⟩

/-- C40: an action other than START and STOP. In every state `update_comp`
returns `SPP_RET_NG`; the state it leaves differs from the one it found in the
flag `change_core[0]` only, which is 1: the worker records, the core lists, the
`change_worker` flags, the other `change_core` flags, the port records and the
recorded calls are what they were. -/
theorem update_comp_other_action (env : Env) (a : sppwk_action) (name : String)
    (lcore_id : Nat) (wk_type : sppwk_worker_type) (s : St)
    (hstart : a ≠ SPPWK_ACT_START) (hstop : a ≠ SPPWK_ACT_STOP) :
    ∃ s1, update_comp env a name lcore_id wk_type s = some (SPP_RET_NG, s1) ∧
      s1.mng.comp_info = s.mng.comp_info ∧ s1.mng.core_info = s.mng.core_info ∧
      s1.mng.change_component = s.mng.change_component ∧
      s1.mng.nic = s.mng.nic ∧ s1.mng.vhost = s.mng.vhost ∧ s1.mng.ring = s.mng.ring ∧
      s1.trace = s.trace ∧
      s1.mng.change_core.length = s.mng.change_core.length ∧
      (0 < s.mng.change_core.length → s1.mng.change_core[0]? = some 1) ∧
      (∀ i, i ≠ 0 → s1.mng.change_core[i]? = s.mng.change_core[i]?) := by
  refine ⟨⟨set_change_core s.mng 0, s.trace⟩, ?_, rfl, rfl, rfl, rfl, rfl, rfl, rfl, ?_, ?_, ?_⟩
  · cases a
    · rfl
    · exact absurd rfl hstart
    · exact absurd rfl hstop
    · rfl
    · rfl
  · simp only [set_change_core, List.length_set]
  · intro h
    simp only [set_change_core]
    exact List.getElem?_set_self h
  · intro i hi
    simp only [set_change_core]
    exact List.getElem?_set_ne (Ne.symm hi)

/-- C40, witness: an ADD handed to `update_comp` in the state `ex_st`. -/
theorem update_comp_other_action_witness :
    ∃ s1, update_comp ex_env SPPWK_ACT_ADD "fwd1" 2 SPPWK_TYPE_FWD ex_st = some (SPP_RET_NG, s1) ∧
      s1.mng.comp_info = ex_st.mng.comp_info ∧ s1.mng.core_info = ex_st.mng.core_info ∧
      s1.mng.change_component = ex_st.mng.change_component ∧
      s1.mng.nic = ex_st.mng.nic ∧ s1.mng.vhost = ex_st.mng.vhost ∧
      s1.mng.ring = ex_st.mng.ring ∧ s1.trace = ex_st.trace ∧
      s1.mng.change_core.length = ex_st.mng.change_core.length ∧
      (0 < ex_st.mng.change_core.length → s1.mng.change_core[0]? = some 1) ∧
      (∀ i, i ≠ 0 → s1.mng.change_core[i]? = ex_st.mng.change_core[i]?) :=
  update_comp_other_action ex_env SPPWK_ACT_ADD "fwd1" 2 SPPWK_TYPE_FWD ex_st (by decide)
    (by decide)

/-- C38: bounds of the port counters. Start from a state in which every worker
has `nof_rx = nof_tx = 0` and port arrays of `RTE_MAX_ETHPORTS` entries. In
every state reachable by `update_port` calls with action ADD or DEL, every
worker has `0 ≤ nof_rx ≤ RTE_MAX_ETHPORTS` and `0 ≤ nof_tx ≤ RTE_MAX_ETHPORTS`;
whenever the test `*nof_ports >= RTE_MAX_ETHPORTS` that precedes the write
`ports[*nof_ports]` of an ADD is passed, the index is at least 0, strictly below
`RTE_MAX_ETHPORTS` and inside the array; and so an ADD whose port argument
refers to a port record never takes the out-of-range branch: it returns. -/
theorem update_port_write_in_range (env : Env) (m0 m : MngData)
    (hinit : none_attached m0)
    (hcap : ∀ c ∈ m0.comp_info, c.rx_ports.length = env.RTE_MAX_ETHPORTS ∧
      c.tx_ports.length = env.RTE_MAX_ETHPORTS)
    (hreach : port_reachable env add_or_del m0 m) :
    (∀ c ∈ m.comp_info, 0 ≤ c.nof_rx ∧ c.nof_rx ≤ (env.RTE_MAX_ETHPORTS : Int) ∧
      0 ≤ c.nof_tx ∧ c.nof_tx ≤ (env.RTE_MAX_ETHPORTS : Int)) ∧
    (∀ c ∈ m.comp_info, ∀ rxtx, ¬ sel_nof rxtx c ≥ (env.RTE_MAX_ETHPORTS : Int) →
      ¬ (sel_nof rxtx c < 0 ∨ (sel_ports rxtx c).length ≤ (sel_nof rxtx c).toNat) ∧
      (sel_nof rxtx c).toNat < env.RTE_MAX_ETHPORTS) ∧
    (∀ port rxtx name ability p pinfo,
      deref_port m (get_sppwk_port m port.iface_type port.iface_no) = some (p, pinfo) →
      ∃ r m1, update_port env SPPWK_ACT_ADD port rxtx name ability m = some (r, m1)) := by
  have hinv : ∀ c ∈ m.comp_info, counters_in_range env c := by
    induction hreach with
    | init =>
      intro c hc
      obtain ⟨h1, h2⟩ := hinit c hc
      obtain ⟨h3, h4⟩ := hcap c hc
      refine ⟨?_, ?_, ?_, ?_, h3, h4⟩ <;> omega
    | step m m1 a port rxtx name ability r _ _ hstep ih =>
      exact update_port_counters_in_range env a port rxtx name ability m r m1 hstep ih
  have hsel : ∀ c ∈ m.comp_info, ∀ rxtx, ¬ sel_nof rxtx c ≥ (env.RTE_MAX_ETHPORTS : Int) →
      ¬ (sel_nof rxtx c < 0 ∨ (sel_ports rxtx c).length ≤ (sel_nof rxtx c).toNat) ∧
      (sel_nof rxtx c).toNat < env.RTE_MAX_ETHPORTS := by
    intro c hc rxtx hlt
    obtain ⟨s1, _, s3⟩ := counters_in_range_sel env c rxtx (hinv c hc)
    rw [s3]
    constructor
    · rintro (h | h) <;> omega
    · omega
  refine ⟨fun c hc => ?_, hsel, ?_⟩
  · obtain ⟨h1, h2, h3, h4, _, _⟩ := hinv c hc
    exact ⟨h1, h2, h3, h4⟩
  · intro port rxtx name ability p pinfo hd
    unfold update_port
    simp only
    by_cases hneg : sppwk_get_lcore_id m name < 0
    · rw [if_pos hneg]
      exact ⟨_, _, rfl⟩
    · rw [if_neg hneg]
      have hw : sppwk_get_lcore_id m name = ((sppwk_get_lcore_id m name).toNat : Int) :=
        (Int.toNat_of_nonneg (by omega)).symm
      have hlt := sppwk_get_lcore_id_lt m name _ hw
      have hget : m.comp_info[(sppwk_get_lcore_id m name).toNat]? =
          some (m.comp_info.get ⟨_, hlt⟩) := List.getElem?_eq_getElem hlt
      have hmem : m.comp_info.get ⟨_, hlt⟩ ∈ m.comp_info := List.get_mem _ _ _
      have hs := hsel _ hmem rxtx
      rw [hget]
      simp only [hd]
      split_ifs with h1 h2 h3 h4 h5 h6 h7
      all_goals first
        | exact ⟨_, _, rfl⟩
        | exact absurd h7 (hs h5).1

/-- C38, witness: `ex_mng_vlan_one` is reached from `ex_mng_two`, where no
worker has a port, by one ADD. -/
theorem update_port_write_in_range_witness :
    none_attached ex_mng_two ∧ port_reachable ex_env add_or_del ex_mng_two ex_mng_vlan_one ∧
    (∀ c ∈ ex_mng_vlan_one.comp_info, 0 ≤ c.nof_rx ∧ c.nof_rx ≤ (ex_env.RTE_MAX_ETHPORTS : Int) ∧
      0 ≤ c.nof_tx ∧ c.nof_tx ≤ (ex_env.RTE_MAX_ETHPORTS : Int)) :=
  have hinit : none_attached ex_mng_two := by unfold none_attached; decide
  have hreach : port_reachable ex_env add_or_del ex_mng_two ex_mng_vlan_one :=
    port_reachable.step _ _ SPPWK_ACT_ADD ⟨PHY, 0⟩ SPP_PORT_RXTX_TX "fwd1" ex_add_vlan
      SPP_RET_OK port_reachable.init (Or.inl rfl) (by decide)
  ⟨hinit, hreach,
    (update_port_write_in_range ex_env ex_mng_two ex_mng_vlan_one hinit (by decide) hreach).1⟩

/-- C39: the write `core->id[core->num]` of START. Start from the initial state
(no worker record in use, every id list empty) with id arrays that have room
for every worker id of the pool. In every state reachable by `update_comp`
calls, each a START with a worker type or a STOP: on the staging side of every
lcore, while a worker id is free (START gets to its write only then), `num` is
at least 0 and strictly below the size of the pool, hence strictly below the
capacity of the id array, although START does not test `num`; and so a START on
an lcore that has a record never takes the out-of-range branch: it returns. -/
theorem update_comp_start_write_in_range (env : Env) (s0 s : St)
    (hinit : comp_initial s0.mng) (hcap : id_capacity s0.mng)
    (hreach : start_stop_reachable env s0 s) :
    (∀ (L : Nat) (info : core_mng_info) (core : core_info),
      s.mng.core_info[L]? = some info → info.core[info.upd_index]? = some core →
      get_free_lcore_id s.mng ≥ 0 →
      0 ≤ core.num ∧ core.num.toNat < s.mng.comp_info.length ∧
      s.mng.comp_info.length ≤ core.id.length ∧
      ¬ (core.num < 0 ∨ core.id.length ≤ core.num.toNat)) ∧
    (∀ (name : String) (lcore_id : Nat) (wk_type : sppwk_worker_type) (info : core_mng_info)
      (core : core_info),
      s.mng.core_info[lcore_id]? = some info → info.core[info.upd_index]? = some core →
      ∃ r s1, update_comp env SPPWK_ACT_START name lcore_id wk_type s = some (r, s1)) := by
  have hinv : pinned_ok s.mng ∧ id_capacity s.mng := by
    induction hreach with
    | init => exact ⟨comp_initial_pinned _ hinit, hcap⟩
    | step s s1 a name lcore_id wk_type r _ ha ht hstep ih =>
      exact ⟨update_comp_pinned env a name lcore_id wk_type s r s1 ha ht hstep ih.1,
        update_comp_capacity env a name lcore_id wk_type s r s1 ha hstep ih.1 ih.2⟩
  have hidx : ∀ (L : Nat) (info : core_mng_info) (core : core_info),
      s.mng.core_info[L]? = some info → info.core[info.upd_index]? = some core →
      get_free_lcore_id s.mng ≥ 0 →
      0 ≤ core.num ∧ core.num.toNat < s.mng.comp_info.length ∧
      s.mng.comp_info.length ≤ core.id.length ∧
      ¬ (core.num < 0 ∨ core.id.length ≤ core.num.toNat) := by
    intro L info core hinfo hcore hfree
    have hw : get_free_lcore_id s.mng = ((get_free_lcore_id s.mng).toNat : Int) :=
      (Int.toNat_of_nonneg (by omega)).symm
    obtain ⟨h1, h2⟩ := pinned_ok_num_lt s.mng L info core _ hinv.1 hinfo hcore hw
    have h3 := hinv.2 info (List.getElem?_mem hinfo) core (List.getElem?_mem hcore)
    refine ⟨h1, h2, h3, ?_⟩
    rintro (h | h) <;> omega
  refine ⟨hidx, ?_⟩
  intro name lcore_id wk_type info core hinfo hcore
  unfold update_comp
  simp only [hinfo]
  by_cases h1 : info.status = SPP_CORE_UNUSE
  · rw [if_pos h1]; exact ⟨_, _, rfl⟩
  · rw [if_neg h1]
    by_cases h2 : sppwk_get_lcore_id s.mng name ≥ 0
    · rw [if_pos h2]; exact ⟨_, _, rfl⟩
    · rw [if_neg h2]
      by_cases h3 : get_free_lcore_id s.mng < 0
      · rw [if_pos h3]; exact ⟨_, _, rfl⟩
      · rw [if_neg h3]
        have hw : get_free_lcore_id s.mng = ((get_free_lcore_id s.mng).toNat : Int) :=
          (Int.toNat_of_nonneg (by omega)).symm
        have hlt := get_free_lcore_id_lt s.mng _ hw
        have hget : s.mng.comp_info[(get_free_lcore_id s.mng).toNat]? =
            some (s.mng.comp_info.get ⟨_, hlt⟩) := List.getElem?_eq_getElem hlt
        rw [hcore, hget]
        simp only
        rw [if_neg (hidx lcore_id info core hinfo hcore (by omega)).2.2.2]
        exact ⟨_, _, rfl⟩

/-- C39, witness: `ex_mng_one` is reached from `ex_mng_init` by the START of the
forwarder `fwd1` on lcore 1; the staging list of lcore 1 then holds one id, and
the pool has two. -/
theorem update_comp_start_write_in_range_witness :
    comp_initial ex_mng_init ∧ id_capacity ex_mng_init ∧
    start_stop_reachable ex_env ⟨ex_mng_init, []⟩ ⟨ex_mng_one, []⟩ ∧
    (0 : Int) ≤ 1 ∧ (1 : Int).toNat < ex_mng_one.comp_info.length ∧
    ex_mng_one.comp_info.length ≤ [(0 : Int), 0].length ∧
    ¬ ((1 : Int) < 0 ∨ [(0 : Int), 0].length ≤ (1 : Int).toNat) :=
  have h0 : comp_initial ex_mng_init := by unfold comp_initial no_workers; decide
  have hc : id_capacity ex_mng_init := by unfold id_capacity; decide
  have hr : start_stop_reachable ex_env ⟨ex_mng_init, []⟩ ⟨ex_mng_one, []⟩ :=
    start_stop_reachable.step _ _ SPPWK_ACT_START "fwd1" 1 SPPWK_TYPE_FWD SPP_RET_OK
      start_stop_reachable.init (Or.inl rfl) (fun _ => by decide) (by decide)
  ⟨h0, hc, hr,
    (update_comp_start_write_in_range ex_env _ _ h0 hc hr).1 1
      { ex_core with core := [⟨0, [0, 0]⟩, ⟨1, [0, 0]⟩] } ⟨1, [0, 0]⟩ rfl rfl (by decide)⟩

/-! ## Claims: status composition and the command runner -/

/-- C31, failing input: a request whose unknown command name holds a double
quote. The parse-error message built from it holds the quote; with enough
memory `append_json_str_value` copies name and value between the quotes it
writes, without escaping: here it returns `SPP_RET_OK` with a text that is no
JSON member, while the message without the quote gives one; a value that ends
with a backslash gives no JSON member either. -/
theorem append_json_str_value_no_escape :
    strbuf_ok ex_strbuf ∧
    (∀ (B : strbuf_ops) (name str : String), strbuf_ok B →
      append_json_str_value B name "" str = (SPP_RET_OK, "\"" ++ name ++ "\": \"" ++ str ++ "\"")) ∧
    get_parse_err_msg ⟨SPPWK_PARSE_UNKNOWN_CMD, "", "st\"atus"⟩ = "Unknown command(st\"atus)" ∧
    append_json_str_value ex_strbuf "message" "" "Unknown command(st\"atus)" =
      (SPP_RET_OK, "\"message\": \"Unknown command(st\"atus)\"") ∧
    json_str_member "\"message\": \"Unknown command(st\"atus)\"" = false ∧
    json_str_member (append_json_str_value ex_strbuf "message" "" "Unknown command(status)").2
      = true ∧
    append_json_str_value ex_strbuf "message" "" "a\\" = (SPP_RET_OK, "\"message\": \"a\\\"") ∧
    json_str_member "\"message\": \"a\\\"" = false := by
  refine ⟨⟨fun _ => rfl, fun _ _ _ _ => rfl⟩, ?_, by decide, by decide, by decide, by decide,
    by decide, by decide⟩
  intro B name str hB
  rw [append_json_str_value_ok B hB, if_pos rfl, String.empty_append]
  simp only [String.append_assoc]
  rfl

/-- C32: the interface array. With enough memory, for every port kind whose
table has a record for every index below `RTE_MAX_ETHPORTS`, whatever the
ethdev ids of the records, `append_interface_array` returns `SPP_RET_OK` and
adds to the buffer the numbers of `flushed_ports`, in decimal digits, joined by
`, `, with no separator before the first or after the last; `flushed_ports` is
strictly ascending and holds exactly the indices `i < RTE_MAX_ETHPORTS` whose
record has `ethdev_port_id >= 0`. On an empty buffer the result is that list,
and the empty string when no port of the kind has been flushed. -/
theorem append_interface_array_flushed (B : strbuf_ops) (hB : strbuf_ok B) (env : Env)
    (m : MngData) (type : port_type) (output : String)
    (hrec : ∀ i, i < env.RTE_MAX_ETHPORTS → ∃ port, (port_table m type)[i]? = some port) :
    append_interface_array B env m output type =
      some (SPP_RET_OK, output ++ ", ".intercalate
        ((flushed_ports env m type).map (fun (j : Nat) => fmt_d (j : Int)))) ∧
    append_interface_array B env m "" type =
      some (SPP_RET_OK, ", ".intercalate
        ((flushed_ports env m type).map (fun (j : Nat) => fmt_d (j : Int)))) ∧
    List.Pairwise (fun a b => a < b) (flushed_ports env m type) ∧
    (∀ i, i ∈ flushed_ports env m type ↔
      i < env.RTE_MAX_ETHPORTS ∧
      ∃ port, (port_table m type)[i]? = some port ∧ port.ethdev_port_id ≥ 0) ∧
    ((∀ (i : Nat) (port : sppwk_port_info), (port_table m type)[i]? = some port →
        port.ethdev_port_id < 0) →
      append_interface_array B env m "" type = some (SPP_RET_OK, "")) := by
  have hmem : ∀ i, i ∈ flushed_ports env m type ↔
      i < env.RTE_MAX_ETHPORTS ∧
      ∃ port, (port_table m type)[i]? = some port ∧ port.ethdev_port_id ≥ 0 := by
    intro i
    unfold flushed_ports
    rw [List.mem_filter, List.mem_range]
    constructor
    · rintro ⟨h1, h2⟩
      split at h2
      · rename_i port hport
        exact ⟨h1, port, hport, by simpa using h2⟩
      · simp at h2
    · rintro ⟨h1, port, hport, h2⟩
      refine ⟨h1, ?_⟩
      rw [hport]
      simpa using h2
  have hgen : ∀ out : String, append_interface_array B env m out type =
      some (SPP_RET_OK, out ++ ", ".intercalate
        ((flushed_ports env m type).map (fun (j : Nat) => fmt_d (j : Int)))) := by
    intro out
    unfold append_interface_array flushed_ports
    rw [List.range_eq_range']
    exact append_interface_array_loop_ok B hB m type env.RTE_MAX_ETHPORTS 0 out
      (fun j _ h2 => hrec j (by omega))
  refine ⟨hgen output, ?_, ?_, hmem, ?_⟩
  · rw [hgen "", String.empty_append]
  · unfold flushed_ports
    exact List.Pairwise.filter _ (List.pairwise_lt_range _)
  · intro hnone
    have hnil : flushed_ports env m type = [] := by
      rw [List.eq_nil_iff_forall_not_mem]
      intro i hi
      obtain ⟨_, port, hport, h2⟩ := (hmem i).mp hi
      have := hnone i port hport
      omega
    rw [hgen "", hnil]
    rfl

/-- C32, witness: both PHY ports of `ex_mng_flushed` have been flushed, and no
ring port has. -/
theorem append_interface_array_flushed_witness :
    strbuf_ok ex_strbuf ∧
    append_interface_array ex_strbuf ex_env ex_mng_flushed "" PHY = some (SPP_RET_OK, "0, 1") :=
  ⟨ex_strbuf_ok,
    (append_interface_array_flushed ex_strbuf ex_strbuf_ok ex_env ex_mng_flushed PHY ""
      (fun i hi => by
        have h2 : i < 2 := hi
        interval_cases i <;> exact ⟨_, rfl⟩)).2.1.trans (by decide)⟩

/-- C33: the VLAN block. With enough memory, for every ability array of
`SPP_PORT_ABILITY_MAX` slots, `append_vlan_block` appends one block, by
`append_json_block_brackets`, that holds exactly one triple of operation, id
and pcp, the one of `vlan_triple_spec`: for a name that is not empty the buffer
is followed by a separator unless it was empty, by the name and by the triple
in braces. The triple is that of the slot with a VLAN op (`add` for
`ADD_VLANTAG`, `del` for `DEL_VLANTAG`, with the VLAN id and pcp of the slot)
before which no slot has a VLAN op, and `none`, 0, 0 when no slot has one. -/
theorem append_vlan_block_one_triple (B : strbuf_ops) (hB : strbuf_ok B) (env : Env)
    (spp_port_ability_get_info : Int → spp_port_rxtx → List spp_port_ability)
    (name output : String) (port_id : Int) (rxtx : spp_port_rxtx)
    (hlen : (spp_port_ability_get_info port_id rxtx).length = env.SPP_PORT_ABILITY_MAX) :
    append_vlan_block B env spp_port_ability_get_info name output port_id rxtx =
      some (append_json_block_brackets B name output
        (vlan_triple_text (vlan_triple_spec (spp_port_ability_get_info port_id rxtx)))) ∧
    (name ≠ "" →
      append_vlan_block B env spp_port_ability_get_info name output port_id rxtx =
        some (SPP_RET_OK, output ++ ((if output = "" then "" else ", ") ++ "\"" ++ name ++
          "\": \x7b " ++
          vlan_triple_text (vlan_triple_spec (spp_port_ability_get_info port_id rxtx)) ++
          " \x7d"))) ∧
    (∀ (k : Nat) (a : spp_port_ability),
      (spp_port_ability_get_info port_id rxtx)[k]? = some a →
      (a.ops = SPPWK_PORT_ABL_OPS_ADD_VLANTAG ∨ a.ops = SPPWK_PORT_ABL_OPS_DEL_VLANTAG) →
      (∀ (j : Nat) (b : spp_port_ability), j < k →
        (spp_port_ability_get_info port_id rxtx)[j]? = some b →
        ¬ (b.ops = SPPWK_PORT_ABL_OPS_ADD_VLANTAG ∨ b.ops = SPPWK_PORT_ABL_OPS_DEL_VLANTAG)) →
      vlan_triple_spec (spp_port_ability_get_info port_id rxtx) =
        (if a.ops = SPPWK_PORT_ABL_OPS_ADD_VLANTAG then "add" else "del", a.data.vid,
          a.data.pcp)) ∧
    ((∀ a ∈ spp_port_ability_get_info port_id rxtx,
        ¬ (a.ops = SPPWK_PORT_ABL_OPS_ADD_VLANTAG ∨ a.ops = SPPWK_PORT_ABL_OPS_DEL_VLANTAG)) →
      vlan_triple_spec (spp_port_ability_get_info port_id rxtx) = ("none", 0, 0)) := by
  have hblock : append_vlan_block B env spp_port_ability_get_info name output port_id rxtx =
      some (append_json_block_brackets B name output
        (vlan_triple_text (vlan_triple_spec (spp_port_ability_get_info port_id rxtx)))) := by
    unfold append_vlan_block
    simp only [hB.1]
    rw [append_vlan_block_loop_ok B hB env _ hlen env.SPP_PORT_ABILITY_MAX 0 (by omega),
      List.drop_zero]
    unfold vlan_triple_spec
    cases List.find? (fun a => decide (a.ops = SPPWK_PORT_ABL_OPS_ADD_VLANTAG ∨
        a.ops = SPPWK_PORT_ABL_OPS_DEL_VLANTAG)) (spp_port_ability_get_info port_id rxtx) with
    | none =>
      simp only
      rw [if_neg (by decide), if_pos trivial, append_vlan_value_ok B hB _ "none" 0 0 rfl]
      simp only
      rw [if_neg (by decide)]
    | some a =>
      simp only
      rw [if_neg (by decide), if_neg (by omega)]
  refine ⟨hblock, fun hn => ?_, ?_, ?_⟩
  · rw [hblock, append_json_block_brackets_name B hB _ _ _ hn]
  · intro k a hk hp hbefore
    have hlt : k < (spp_port_ability_get_info port_id rxtx).length :=
      (List.getElem?_eq_some_iff.mp hk).1
    have hfind : List.find? (fun a => decide (a.ops = SPPWK_PORT_ABL_OPS_ADD_VLANTAG ∨
        a.ops = SPPWK_PORT_ABL_OPS_DEL_VLANTAG)) (spp_port_ability_get_info port_id rxtx) =
        some a := by
      rw [List.find?_eq_some]
      refine ⟨by simpa using hp, (spp_port_ability_get_info port_id rxtx).take k,
        (spp_port_ability_get_info port_id rxtx).drop (k + 1), ?_, ?_⟩
      · have hka : (spp_port_ability_get_info port_id rxtx)[k] = a := by
          have := List.getElem?_eq_getElem hlt
          rw [hk] at this
          exact (Option.some.inj this).symm
        rw [← hka, ← List.drop_eq_getElem_cons hlt, List.take_append_drop]
      · intro b hb
        obtain ⟨j, hj, hjb⟩ := List.getElem_of_mem hb
        have hjk : j < k := by
          rw [List.length_take] at hj; omega
        have hjb2 : (spp_port_ability_get_info port_id rxtx)[j]? = some b := by
          rw [← hjb, List.getElem_take]
          exact List.getElem?_eq_getElem _
        simpa using hbefore j b hjk hjb2
    unfold vlan_triple_spec
    rw [hfind]
  · intro hnone
    have hfind : List.find? (fun a => decide (a.ops = SPPWK_PORT_ABL_OPS_ADD_VLANTAG ∨
        a.ops = SPPWK_PORT_ABL_OPS_DEL_VLANTAG)) (spp_port_ability_get_info port_id rxtx) =
        none := by
      rw [List.find?_eq_none]
      intro a ha
      simpa using hnone a ha
    unfold vlan_triple_spec
    rw [hfind]

/-- C33, witness: a port whose second slot holds `ex_add_vlan`. -/
theorem append_vlan_block_one_triple_witness :
    strbuf_ok ex_strbuf ∧
    append_vlan_block ex_strbuf ex_env (fun _ _ => [zero_ability, ex_add_vlan]) "vlan" "" 0
        SPP_PORT_RXTX_TX =
      some (SPP_RET_OK,
        "\"vlan\": \x7b \"operation\": \"add\", \"id\": 100, \"pcp\": 0 \x7d") :=
  ⟨ex_strbuf_ok,
    ((append_vlan_block_one_triple ex_strbuf ex_strbuf_ok ex_env
      (fun _ _ => [zero_ability, ex_add_vlan]) "vlan" "" 0 SPP_PORT_RXTX_TX rfl).2.1
      (by decide)).trans (by decide)⟩

/-- C34: the status of `sppwk_run_cmd`, with its receive buffer allocated and a
temporary-error code that is negative. When connecting to the controller does
not return `SPP_RET_OK`, when the receive returns 0, and when it returns
`SPP_CONNERR_TEMPORARY`, the function returns `SPP_RET_OK` and leaves the
management data and the recorded calls alone; for any other negative receive
result it returns `SPP_RET_NG`, leaving them alone as well; for a positive
receive length it returns what `exec_cmds` returns for the received message,
the first `msg_ret` bytes of the buffer, and leaves the state `exec_cmds`
leaves. -/
theorem sppwk_run_cmd_status (env : Env) (B : strbuf_ops) (C : ctl_conn) (v : run_cmd_vars)
    (s : St) (msgbuf : String) (hbuf : run_cmd_msgbuf B v = some msgbuf)
    (htemp : C.SPP_CONNERR_TEMPORARY < 0) :
    ((C.conn_spp_ctl v.sock).1 ≠ SPP_RET_OK →
      ∃ v1, sppwk_run_cmd env B C v s = some (SPP_RET_OK, v1, s)) ∧
    ((C.conn_spp_ctl v.sock).1 = SPP_RET_OK →
      ((C.recv_ctl_msg (C.conn_spp_ctl v.sock).2 msgbuf).1 = 0 →
        ∃ v1, sppwk_run_cmd env B C v s = some (SPP_RET_OK, v1, s)) ∧
      ((C.recv_ctl_msg (C.conn_spp_ctl v.sock).2 msgbuf).1 = C.SPP_CONNERR_TEMPORARY →
        ∃ v1, sppwk_run_cmd env B C v s = some (SPP_RET_OK, v1, s)) ∧
      ((C.recv_ctl_msg (C.conn_spp_ctl v.sock).2 msgbuf).1 < 0 →
        (C.recv_ctl_msg (C.conn_spp_ctl v.sock).2 msgbuf).1 ≠ C.SPP_CONNERR_TEMPORARY →
        ∃ v1, sppwk_run_cmd env B C v s = some (SPP_RET_NG, v1, s)) ∧
      (0 < (C.recv_ctl_msg (C.conn_spp_ctl v.sock).2 msgbuf).1 →
        ( sppwk_run_cmd env B C v s).map (fun r => (r.1, r.2.2)) =
          exec_cmds env
            (String.mk ((C.recv_ctl_msg (C.conn_spp_ctl v.sock).2 msgbuf).2.2.data.take
              (C.recv_ctl_msg (C.conn_spp_ctl v.sock).2 msgbuf).1.toNat)) s)) := by
  constructor
  · intro hc
    unfold sppwk_run_cmd
    simp only [hbuf]
    rw [if_pos hc]
    exact ⟨_, rfl⟩
  · intro hc
    have hc2 : ¬ (C.conn_spp_ctl v.sock).1 ≠ SPP_RET_OK := not_not.mpr hc
    refine ⟨fun h0 => ?_, fun ht => ?_, fun hneg hnt => ?_, fun hpos => ?_⟩
    · unfold sppwk_run_cmd
      simp only [hbuf]
      rw [if_neg hc2, if_pos (by omega), if_pos h0]
      exact ⟨_, rfl⟩
    · unfold sppwk_run_cmd
      simp only [hbuf]
      rw [if_neg hc2, if_pos (by omega)]
      by_cases h0 : (C.recv_ctl_msg (C.conn_spp_ctl v.sock).2 msgbuf).1 = 0
      · rw [if_pos h0]; exact ⟨_, rfl⟩
      · rw [if_neg h0, if_pos ht]; exact ⟨_, rfl⟩
    · unfold sppwk_run_cmd
      simp only [hbuf]
      rw [if_neg hc2, if_pos (by omega), if_neg (by omega), if_neg hnt]
      exact ⟨_, rfl⟩
    · unfold sppwk_run_cmd
      simp only [hbuf]
      rw [if_neg hc2, if_neg (by omega)]
      cases exec_cmds env
          (String.mk ((C.recv_ctl_msg (C.conn_spp_ctl v.sock).2 msgbuf).2.2.data.take
            (C.recv_ctl_msg (C.conn_spp_ctl v.sock).2 msgbuf).1.toNat)) s with
      | none => rfl
      | some r => rfl

/-- C34, witness: the controller cannot be reached. -/
theorem sppwk_run_cmd_status_witness :
    run_cmd_msgbuf ex_strbuf ⟨-1, none⟩ = some "" ∧
    ∃ v1, sppwk_run_cmd ex_env ex_strbuf ex_conn_down ⟨-1, none⟩ ex_st =
      some (SPP_RET_OK, v1, ex_st) :=
  ⟨rfl, (sppwk_run_cmd_status ex_env ex_strbuf ex_conn_down ⟨-1, none⟩ ex_st "" rfl
    (by decide)).1 (by decide)⟩

/-- C35: the separators of the typed appenders. With enough memory each of
`append_json_uint_value`, `append_json_int_value`, `append_json_str_value`,
`append_json_array_brackets` and `append_json_block_brackets` returns
`SPP_RET_OK` and leaves the buffer it found, followed by the separator `, `
exactly when that buffer was not empty, followed by the new member. Hence any
number of calls on an empty buffer leave the members joined by `, `: the first
member comes first, every later one follows a separator, and the length of the
text is the length of the `k` members and of `k - 1` separators. -/
theorem typed_appenders_separate (B : strbuf_ops) (hB : strbuf_ok B) :
    (∀ (output : String) (c : appender_call),
      run_appender B output c =
        (SPP_RET_OK, output ++ ((if output = "" then "" else ", ") ++ member_text c))) ∧
    (∀ cs : List appender_call,
      run_appenders B cs "" = (SPP_RET_OK, ", ".intercalate (cs.map member_text)) ∧
      strlen (run_appenders B cs "").2 =
        ((cs.map member_text).map String.length).sum + 2 * (cs.length - 1)) := by
  refine ⟨fun output c => run_appender_ok B hB output c, fun cs => ?_⟩
  have h := run_appenders_ok B hB cs
  refine ⟨h, ?_⟩
  rw [h]
  simp only [strlen, intercalate_length, List.length_map]
  rfl

/-- C35, witness: an unsigned number, a string and a block appended to an empty
buffer. -/
theorem typed_appenders_separate_witness :
    strbuf_ok ex_strbuf ∧
    run_appenders ex_strbuf
        [appender_call.uint "client-id" 3, appender_call.str "type" "forward",
         appender_call.block "vlan" "\"id\": 0"] "" =
      (SPP_RET_OK, "\"client-id\": 3, \"type\": \"forward\", \"vlan\": \x7b \"id\": 0 \x7d") :=
  ⟨ex_strbuf_ok,
    ((typed_appenders_separate ex_strbuf ex_strbuf_ok).2
      [appender_call.uint "client-id" 3, appender_call.str "type" "forward",
       appender_call.block "vlan" "\"id\": 0"]).1.trans (by decide)⟩

end Spp
